import Mathlib

/-!
# Effect object pool of al/effect.cpp

A shallow embedding of the effect-handle pool (`EnsureEffects`, `AllocEffect`,
`FreeEffect`, `LookupEffect`) and of the entry points built on it
(`alGenEffects`, `alDeleteEffects`, the parameter setters/getters, `SetName`).

Conventions of the embedding:

* `ALuint` values are natural numbers below `2^32`, `uint64_t` values natural
  numbers below `2^64`; every operation that can wrap reduces modulo the width.
* A pointer `sublist->Effects + slidx` is the pair of the sublist position and the
  slot position (`EffectPtr`).  A storage cell holds `none` while no object is
  constructed in it (fresh `al_calloc` storage, or after `std::destroy_at`) and
  `some e` while the object `e` lives there.
* Behaviour the C++ standard leaves undefined (dereferencing `end()`, reading
  through a pointer to a cell without an object, indexing past a vector) is the
  result `none` of the `Option`-valued operations.
* The union `EffectProps` and `ALfloat` are type parameters `P` and `F`; the
  default parameter blocks and the vtable handlers, which live in other
  translation units, are taken as parameters.

The later sections embed the reverb preset table with `LoadReverbPreset`, the
distortion effect of Alc/effects/distortion.cpp (parameter handlers, `update`,
`process`), where `ALfloat` is a linearly ordered field `R`: the operations are exact and
the clamp literal `0.99f` of `update` is the binary32 number it denotes, 4152361/4194304,
and the accept and reject lists of router/router.cpp (`LoadDriverList`, `AddModule`).
-/

namespace OpenAL

/-! ## Bit helpers (albit.h) -/

/-- Modelled from the spec: `al::popcount` on a 64-bit word (albit.h is not part of the
sources); the number of set bits among bits 0..63, the "free-slot count" of a mask. -/
def popcount (x : Nat) : Nat :=
  (List.range 64).countP (fun i => x.testBit i)

/-- Modelled from the spec: `al::countr_zero` on a 64-bit word (albit.h is not part of the
sources); the position of the lowest set bit ("the lowest free index"), 64 for zero. -/
def countr_zero (x : Nat) : Nat :=
  (List.range 64).findIdx (fun i => x.testBit i)

/-- Bitwise complement of a `uint64_t`: the operator `~` at 64 bits. -/
def not_u64 (x : Nat) : Nat := 2 ^ 64 - 1 - x % 2 ^ 64

/-! ## Constants of AL/al.h and AL/efx.h -/

def AL_INVALID_NAME : Int := 0xA001
def AL_INVALID_ENUM : Int := 0xA002
def AL_INVALID_VALUE : Int := 0xA003
def AL_INVALID_OPERATION : Int := 0xA004
def AL_OUT_OF_MEMORY : Int := 0xA005

def AL_EFFECT_TYPE : Int := 0x8001

def AL_EFFECT_NULL : Int := 0x0000
def AL_EFFECT_REVERB : Int := 0x0001
def AL_EFFECT_CHORUS : Int := 0x0002
def AL_EFFECT_DISTORTION : Int := 0x0003
def AL_EFFECT_ECHO : Int := 0x0004
def AL_EFFECT_FLANGER : Int := 0x0005
def AL_EFFECT_FREQUENCY_SHIFTER : Int := 0x0006
def AL_EFFECT_VOCAL_MORPHER : Int := 0x0007
def AL_EFFECT_PITCH_SHIFTER : Int := 0x0008
def AL_EFFECT_RING_MODULATOR : Int := 0x0009
def AL_EFFECT_AUTOWAH : Int := 0x000A
def AL_EFFECT_COMPRESSOR : Int := 0x000B
def AL_EFFECT_EQUALIZER : Int := 0x000C
def AL_EFFECT_EAXREVERB : Int := 0x8000
def AL_EFFECT_DEDICATED_LOW_FREQUENCY_EFFECT : Int := 0x9000
def AL_EFFECT_DEDICATED_DIALOGUE : Int := 0x9001
def AL_EFFECT_CONVOLUTION_SOFT : Int := 0xA000

/-! ## Effect tables -/

/-- The effect kinds indexing the `DisabledEffects` bitset. -/
inductive EffectKind where
  | EAXREVERB_EFFECT | REVERB_EFFECT | AUTOWAH_EFFECT | CHORUS_EFFECT
  | COMPRESSOR_EFFECT | DISTORTION_EFFECT | ECHO_EFFECT | EQUALIZER_EFFECT
  | FLANGER_EFFECT | FSHIFTER_EFFECT | MODULATOR_EFFECT | PSHIFTER_EFFECT
  | VMORPHER_EFFECT | DEDICATED_EFFECT | CONVOLUTION_EFFECT
deriving DecidableEq, Repr

/-- One row of `gEffectList`. -/
structure EffectList where
  name : String
  type : EffectKind
  val : Int
deriving DecidableEq, Repr

open EffectKind in
def gEffectList : List EffectList := [
  ⟨"eaxreverb",   EAXREVERB_EFFECT,   AL_EFFECT_EAXREVERB⟩,
  ⟨"reverb",      REVERB_EFFECT,      AL_EFFECT_REVERB⟩,
  ⟨"autowah",     AUTOWAH_EFFECT,     AL_EFFECT_AUTOWAH⟩,
  ⟨"chorus",      CHORUS_EFFECT,      AL_EFFECT_CHORUS⟩,
  ⟨"compressor",  COMPRESSOR_EFFECT,  AL_EFFECT_COMPRESSOR⟩,
  ⟨"distortion",  DISTORTION_EFFECT,  AL_EFFECT_DISTORTION⟩,
  ⟨"echo",        ECHO_EFFECT,        AL_EFFECT_ECHO⟩,
  ⟨"equalizer",   EQUALIZER_EFFECT,   AL_EFFECT_EQUALIZER⟩,
  ⟨"flanger",     FLANGER_EFFECT,     AL_EFFECT_FLANGER⟩,
  ⟨"fshifter",    FSHIFTER_EFFECT,    AL_EFFECT_FREQUENCY_SHIFTER⟩,
  ⟨"modulator",   MODULATOR_EFFECT,   AL_EFFECT_RING_MODULATOR⟩,
  ⟨"pshifter",    PSHIFTER_EFFECT,    AL_EFFECT_PITCH_SHIFTER⟩,
  ⟨"vmorpher",    VMORPHER_EFFECT,    AL_EFFECT_VOCAL_MORPHER⟩,
  ⟨"dedicated",   DEDICATED_EFFECT,   AL_EFFECT_DEDICATED_LOW_FREQUENCY_EFFECT⟩,
  ⟨"dedicated",   DEDICATED_EFFECT,   AL_EFFECT_DEDICATED_DIALOGUE⟩,
  ⟨"convolution", CONVOLUTION_EFFECT, AL_EFFECT_CONVOLUTION_SOFT⟩]

/-- The address of one of the default parameter blocks named in `EffectPropsList`. -/
inductive PropsRef where
  | NullEffectProps | ReverbEffectProps | StdReverbEffectProps | AutowahEffectProps
  | ChorusEffectProps | CompressorEffectProps | DistortionEffectProps | EchoEffectProps
  | EqualizerEffectProps | FlangerEffectProps | FshifterEffectProps | ModulatorEffectProps
  | PshifterEffectProps | VmorpherEffectProps | DedicatedEffectProps | ConvolutionEffectProps
deriving DecidableEq, Repr

/-- The address of one of the vtables named in `EffectPropsList`. -/
inductive VtableRef where
  | NullEffectVtable | ReverbEffectVtable | StdReverbEffectVtable | AutowahEffectVtable
  | ChorusEffectVtable | CompressorEffectVtable | DistortionEffectVtable | EchoEffectVtable
  | EqualizerEffectVtable | FlangerEffectVtable | FshifterEffectVtable | ModulatorEffectVtable
  | PshifterEffectVtable | VmorpherEffectVtable | DedicatedEffectVtable | ConvolutionEffectVtable
deriving DecidableEq, Repr

/-- One row of `EffectPropsList`. -/
structure EffectPropsItem where
  Type_ : Int
  DefaultProps : PropsRef
  Vtable : VtableRef
deriving DecidableEq, Repr

open PropsRef VtableRef in
def EffectPropsList : List EffectPropsItem := [
  ⟨AL_EFFECT_NULL, NullEffectProps, NullEffectVtable⟩,
  ⟨AL_EFFECT_EAXREVERB, ReverbEffectProps, ReverbEffectVtable⟩,
  ⟨AL_EFFECT_REVERB, StdReverbEffectProps, StdReverbEffectVtable⟩,
  ⟨AL_EFFECT_AUTOWAH, AutowahEffectProps, AutowahEffectVtable⟩,
  ⟨AL_EFFECT_CHORUS, ChorusEffectProps, ChorusEffectVtable⟩,
  ⟨AL_EFFECT_COMPRESSOR, CompressorEffectProps, CompressorEffectVtable⟩,
  ⟨AL_EFFECT_DISTORTION, DistortionEffectProps, DistortionEffectVtable⟩,
  ⟨AL_EFFECT_ECHO, EchoEffectProps, EchoEffectVtable⟩,
  ⟨AL_EFFECT_EQUALIZER, EqualizerEffectProps, EqualizerEffectVtable⟩,
  ⟨AL_EFFECT_FLANGER, FlangerEffectProps, FlangerEffectVtable⟩,
  ⟨AL_EFFECT_FREQUENCY_SHIFTER, FshifterEffectProps, FshifterEffectVtable⟩,
  ⟨AL_EFFECT_RING_MODULATOR, ModulatorEffectProps, ModulatorEffectVtable⟩,
  ⟨AL_EFFECT_PITCH_SHIFTER, PshifterEffectProps, PshifterEffectVtable⟩,
  ⟨AL_EFFECT_VOCAL_MORPHER, VmorpherEffectProps, VmorpherEffectVtable⟩,
  ⟨AL_EFFECT_DEDICATED_DIALOGUE, DedicatedEffectProps, DedicatedEffectVtable⟩,
  ⟨AL_EFFECT_DEDICATED_LOW_FREQUENCY_EFFECT, DedicatedEffectProps, DedicatedEffectVtable⟩,
  ⟨AL_EFFECT_CONVOLUTION_SOFT, ConvolutionEffectProps, ConvolutionEffectVtable⟩]

/-- The contents of the default parameter blocks, defined in alc/effects and taken as a
parameter: `DefaultProps r` is the block at address `r`, `valueInit` is `EffectProps{}`. -/
structure PropsData (P : Type) where
  DefaultProps : PropsRef → P
  valueInit : P

/-- The handlers of an `EffectVtable`.  A setter is given the parameter block and
returns the block as it leaves it together with the error code of the `effect_exception`
it throws (if it throws); a getter returns what it wrote through its output pointer
together with the error code it throws (if it throws). -/
structure EffectVtable (P F : Type) where
  setParami : P → Int → Int → P × Option Int
  setParamiv : P → Int → List Int → P × Option Int
  setParamf : P → Int → F → P × Option Int
  setParamfv : P → Int → List F → P × Option Int
  getParami : P → Int → List Int × Option Int
  getParamiv : P → Int → List Int × Option Int
  getParamf : P → Int → List F × Option Int
  getParamfv : P → Int → List F × Option Int

/-- What the entry points take from other translation units: the vtable behind each
vtable address and the `DisabledEffects` bitset. -/
structure EffectEnv (P F : Type) where
  props : PropsData P
  Vtable : VtableRef → EffectVtable P F
  DisabledEffects : EffectKind → Bool

/-! ## Data model -/

/-- An effect object (`struct ALeffect`). -/
structure ALeffect (P : Type) where
  type : Int
  Props : P
  vtab : Option VtableRef
  id : Nat
deriving DecidableEq, Repr

/-- A block of 64 effect slots with its free-slot bitmask. -/
structure EffectSubList (P : Type) where
  FreeMask : Nat
  Effects : List (Option (ALeffect P))
deriving DecidableEq, Repr

/-- The part of `ALCdevice` the effect pool uses. -/
structure ALCdevice (P : Type) where
  EffectList : List (EffectSubList P)
  mEffectNames : List (Nat × String)
deriving DecidableEq, Repr

/-- A pointer `EffectList[lidx].Effects + slidx`. -/
structure EffectPtr where
  lidx : Nat
  slidx : Nat
deriving DecidableEq, Repr

variable {P F : Type}

/-- The object a pointer refers to, if one is constructed there. -/
def deref (device : ALCdevice P) (p : EffectPtr) : Option (ALeffect P) :=
  match device.EffectList[p.lidx]? with
  | none => none
  | some sublist => (sublist.Effects[p.slidx]?).join

/-- Overwrite the storage cell a pointer refers to. -/
def store (device : ALCdevice P) (p : EffectPtr) (c : Option (ALeffect P)) : ALCdevice P :=
  match device.EffectList[p.lidx]? with
  | none => device
  | some sublist =>
    { device with
      EffectList := device.EffectList.set p.lidx
        { sublist with Effects := sublist.Effects.set p.slidx c } }

/-- The device before any effect was generated. -/
def emptyDevice : ALCdevice P := { EffectList := [], mEffectNames := [] }

/-- A default-constructed `ALeffect` (`al::construct_at`). -/
def ALeffect.construct (pd : PropsData P) : ALeffect P :=
  { type := AL_EFFECT_NULL, Props := pd.valueInit, vtab := none, id := 0 }

/-- A sublist as `EnsureEffects` appends it: all 64 slots free, zeroed storage. -/
def freshSubList : EffectSubList P :=
  { FreeMask := 2 ^ 64 - 1, Effects := List.replicate 64 none }

/-! ## effect.cpp -/

/-- `std::find_if` over `EffectPropsList` for the row of a type. -/
def getEffectPropsItemByType (type : Int) : Option EffectPropsItem :=
  EffectPropsList.find? (fun item => item.Type_ == type)

/-- Reset an object to the defaults of `type`: the row of `EffectPropsList` when there is
one, otherwise value-initialised parameters and the null vtable. -/
def InitEffectParams (pd : PropsData P) (effect : ALeffect P) (type : Int) : ALeffect P :=
  match getEffectPropsItemByType type with
  | some item =>
    { effect with Props := pd.DefaultProps item.DefaultProps, vtab := some item.Vtable,
                  type := type }
  | none =>
    { effect with Props := pd.valueInit, vtab := some VtableRef.NullEffectVtable,
                  type := type }

/-- The `while(needed > count)` loop of `EnsureEffects`.  `al_calloc k` tells whether the
storage allocation made while the list holds `k` sublists succeeds. -/
def EnsureEffects.loop (al_calloc : Nat → Bool) (needed : Nat)
    (list : List (EffectSubList P)) (count : Nat) : Bool × List (EffectSubList P) :=
  if needed > count then
    if list.length ≥ 2 ^ 25 then (false, list)
    else if al_calloc list.length then
      EnsureEffects.loop al_calloc needed (list ++ [freshSubList]) (count + 64)
    else (false, list)
  else (true, list)
termination_by needed - count
decreasing_by omega

/-- `EnsureEffects`: the flag returned and the device as the call leaves it.  The free-slot
count is a `size_t` sum of terms of at most 64, which cannot wrap for any list that fits in
memory, and is kept as a natural number. -/
def EnsureEffects (al_calloc : Nat → Bool) (device : ALCdevice P) (needed : Nat) :
    Bool × ALCdevice P :=
  let count := (device.EffectList.map (fun sublist => popcount sublist.FreeMask)).sum
  let r := EnsureEffects.loop al_calloc needed device.EffectList count
  (r.1, { device with EffectList := r.2 })

/-- `AllocEffect`: the device afterwards and the pointer returned.  `std::find_if`
returning `end()` makes the dereference undefined (`none`).  `lidx` and the id are `ALuint`
values, hence the reductions modulo `2^32`; `ASSUME(slidx < 64)` holds for every non-zero
64-bit mask. -/
def AllocEffect (pd : PropsData P) (device : ALCdevice P) :
    Option (ALCdevice P × EffectPtr) :=
  let pos := device.EffectList.findIdx (fun entry => entry.FreeMask != 0)
  match device.EffectList[pos]? with
  | none => none
  | some sublist =>
    let lidx := pos % 2 ^ 32
    let slidx := countr_zero sublist.FreeMask
    let effect := InitEffectParams pd (ALeffect.construct pd) AL_EFFECT_NULL
    let effect := { effect with id := (((lidx <<< 6) % 2 ^ 32 ||| slidx) + 1) % 2 ^ 32 }
    let sublist1 : EffectSubList P :=
      { Effects := sublist.Effects.set slidx (some effect),
        FreeMask := sublist.FreeMask &&& not_u64 (1 <<< slidx) }
    some ({ device with EffectList := device.EffectList.set pos sublist1 }, ⟨pos, slidx⟩)

/-- Removal of a key from `mEffectNames` (`unordered_map::erase`). -/
def eraseName (names : List (Nat × String)) (id : Nat) : List (Nat × String) :=
  names.filter (fun kv => kv.1 != id)

/-- The name stored for a key of `mEffectNames`, if any (`unordered_map::find`). -/
def findName (names : List (Nat × String)) (id : Nat) : Option String :=
  (names.find? (fun kv => kv.1 == id)).map Prod.snd

/-- `FreeEffect`: erase the name stored for the object's id, destroy the object behind the
pointer, and set the mask bit that the id decodes to (`id - 1` in `ALuint` arithmetic). -/
def FreeEffect (device : ALCdevice P) (effect : EffectPtr) : Option (ALCdevice P) :=
  match deref device effect with
  | none => none
  | some obj =>
    let names := eraseName device.mEffectNames obj.id
    let id := (obj.id + 2 ^ 32 - 1) % 2 ^ 32
    let lidx := id >>> 6
    let slidx := id &&& 0x3f
    let device1 := store device effect none
    match device1.EffectList[lidx]? with
    | none => none
    | some sublist =>
      some { EffectList := device1.EffectList.set lidx
               { sublist with FreeMask := (sublist.FreeMask ||| (1 <<< slidx)) % 2 ^ 64 },
             mEffectNames := names }

/-- `LookupEffect`: `none` is the null pointer.  `id - 1` is computed in `ALuint`
arithmetic, so handle 0 decodes to `0xFFFFFFFF`. -/
def LookupEffect (device : ALCdevice P) (id : Nat) : Option EffectPtr :=
  let lidx := ((id + 2 ^ 32 - 1) % 2 ^ 32) >>> 6
  let slidx := ((id + 2 ^ 32 - 1) % 2 ^ 32) &&& 0x3f
  match device.EffectList[lidx]? with
  | none => none
  | some sublist =>
    if sublist.FreeMask &&& (1 <<< slidx) ≠ 0 then none
    else some ⟨lidx, slidx⟩

/-- What a call leaves behind: the device, the error code it passed to
`context->setError` (if any), and what it wrote through its output pointer. -/
structure CallResult (P α : Type) where
  device : ALCdevice P
  error : Option Int
  out : α
deriving DecidableEq, Repr

/-- The allocation loop of `alGenEffects` (`do ... while(--n)`), collecting the ids. -/
def alGenEffects.allocAll (pd : PropsData P) :
    Nat → ALCdevice P → List Nat → Option (ALCdevice P × List Nat)
  | 0, device, ids => some (device, ids)
  | n + 1, device, ids =>
    match AllocEffect pd device with
    | none => none
    | some (device1, effect) =>
      match deref device1 effect with
      | none => none
      | some obj => alGenEffects.allocAll pd n device1 (ids ++ [obj.id])

/-- The entry point `alGenEffects`; `out` is what was copied to the caller's array. -/
def alGenEffectsDirect (pd : PropsData P) (al_calloc : Nat → Bool) (device : ALCdevice P)
    (n : Int) : Option (CallResult P (Option (List Nat))) :=
  if n < 0 then some ⟨device, some AL_INVALID_VALUE, none⟩
  else if n ≤ 0 then some ⟨device, none, none⟩
  else
    match EnsureEffects al_calloc device n.toNat with
    | (false, device1) => some ⟨device1, some AL_OUT_OF_MEMORY, none⟩
    | (true, device1) =>
      if n = 1 then
        match AllocEffect pd device1 with
        | none => none
        | some (device2, effect) =>
          match deref device2 effect with
          | none => none
          | some obj => some ⟨device2, none, some [obj.id]⟩
      else
        match alGenEffects.allocAll pd n.toNat device1 [] with
        | none => none
        | some (device2, ids) => some ⟨device2, none, some ids⟩

/-- The lambda `validate_effect` of `alDeleteEffects`. -/
def validate_effect (device : ALCdevice P) (eid : Nat) : Bool :=
  eid == 0 || (LookupEffect device eid).isSome

/-- The lambda `delete_effect` of `alDeleteEffects`. -/
def delete_effect (device : ALCdevice P) (eid : Nat) : Option (ALCdevice P) :=
  match (if eid ≠ 0 then LookupEffect device eid else none) with
  | none => some device
  | some effect => FreeEffect device effect

/-- The `std::for_each(effects, effects_end, delete_effect)` of `alDeleteEffects`. -/
def alDeleteEffects.forEach : List Nat → ALCdevice P → Option (ALCdevice P)
  | [], device => some device
  | eid :: rest, device =>
    match delete_effect device eid with
    | none => none
    | some device1 => alDeleteEffects.forEach rest device1

/-- The entry point `alDeleteEffects`; `effects` is the caller's array, of which the first
`n` entries are read. -/
def alDeleteEffectsDirect (device : ALCdevice P) (n : Int) (effects : List Nat) :
    Option (CallResult P Unit) :=
  if n < 0 then some ⟨device, some AL_INVALID_VALUE, ()⟩
  else if n ≤ 0 then some ⟨device, none, ()⟩
  else if effects.length < n.toNat then none
  else
    match (effects.take n.toNat).find? (fun eid => !validate_effect device eid) with
    | some _ => some ⟨device, some AL_INVALID_NAME, ()⟩
    | none =>
      match alDeleteEffects.forEach (effects.take n.toNat) device with
      | none => none
      | some device1 => some ⟨device1, none, ()⟩

/-- The entry point `alIsEffect`. -/
def alIsEffectDirect (device : ALCdevice P) (effect : Nat) : Bool :=
  effect == 0 || (LookupEffect device effect).isSome

/-- The dispatchers `ALeffect_setParam*`: call the handler of the object's vtable on its
parameter block.  The result is the object as the handler leaves it and the error code of
the `effect_exception` it throws, if any; a call through a null `vtab` is undefined. -/
def ALeffect_setParami (env : EffectEnv P F) (effect : ALeffect P) (param value : Int) :
    Option (ALeffect P × Option Int) :=
  effect.vtab.map (fun vt =>
    ({ effect with Props := ((env.Vtable vt).setParami effect.Props param value).1 },
     ((env.Vtable vt).setParami effect.Props param value).2))

def ALeffect_setParamiv (env : EffectEnv P F) (effect : ALeffect P) (param : Int)
    (values : List Int) : Option (ALeffect P × Option Int) :=
  effect.vtab.map (fun vt =>
    ({ effect with Props := ((env.Vtable vt).setParamiv effect.Props param values).1 },
     ((env.Vtable vt).setParamiv effect.Props param values).2))

def ALeffect_setParamf (env : EffectEnv P F) (effect : ALeffect P) (param : Int)
    (value : F) : Option (ALeffect P × Option Int) :=
  effect.vtab.map (fun vt =>
    ({ effect with Props := ((env.Vtable vt).setParamf effect.Props param value).1 },
     ((env.Vtable vt).setParamf effect.Props param value).2))

def ALeffect_setParamfv (env : EffectEnv P F) (effect : ALeffect P) (param : Int)
    (values : List F) : Option (ALeffect P × Option Int) :=
  effect.vtab.map (fun vt =>
    ({ effect with Props := ((env.Vtable vt).setParamfv effect.Props param values).1 },
     ((env.Vtable vt).setParamfv effect.Props param values).2))

/-- The dispatchers `ALeffect_getParam*`: what the handler wrote through the output pointer
and the error code it throws, if any. -/
def ALeffect_getParami (env : EffectEnv P F) (effect : ALeffect P) (param : Int) :
    Option (List Int × Option Int) :=
  effect.vtab.map (fun vt => (env.Vtable vt).getParami effect.Props param)

def ALeffect_getParamiv (env : EffectEnv P F) (effect : ALeffect P) (param : Int) :
    Option (List Int × Option Int) :=
  effect.vtab.map (fun vt => (env.Vtable vt).getParamiv effect.Props param)

def ALeffect_getParamf (env : EffectEnv P F) (effect : ALeffect P) (param : Int) :
    Option (List F × Option Int) :=
  effect.vtab.map (fun vt => (env.Vtable vt).getParamf effect.Props param)

def ALeffect_getParamfv (env : EffectEnv P F) (effect : ALeffect P) (param : Int) :
    Option (List F × Option Int) :=
  effect.vtab.map (fun vt => (env.Vtable vt).getParamfv effect.Props param)

/-- The `try { handler } catch(effect_exception &e) { setError(e.errorCode()) }` tail of a
setter entry point: the object behind `aleffect` is replaced by what the dispatcher left,
and the thrown code, if any, is the error reported. -/
def setterTail (device : ALCdevice P) (aleffect : EffectPtr)
    (call : ALeffect P → Option (ALeffect P × Option Int)) : Option (CallResult P Unit) :=
  match deref device aleffect with
  | none => none
  | some obj =>
    match call obj with
    | none => none
    | some (obj1, thrown) => some ⟨store device aleffect (some obj1), thrown, ()⟩

/-- The `try`/`catch` tail of a getter entry point. -/
def getterTail {α : Type} (device : ALCdevice P) (aleffect : EffectPtr)
    (call : ALeffect P → Option (List α × Option Int)) : Option (CallResult P (List α)) :=
  match deref device aleffect with
  | none => none
  | some obj =>
    match call obj with
    | none => none
    | some (written, thrown) => some ⟨device, thrown, written⟩

def alEffectiDirect (env : EffectEnv P F) (device : ALCdevice P) (effect : Nat)
    (param value : Int) : Option (CallResult P Unit) :=
  match LookupEffect device effect with
  | none => some ⟨device, some AL_INVALID_NAME, ()⟩
  | some aleffect =>
    if param = AL_EFFECT_TYPE then
      let isOk := value == AL_EFFECT_NULL ||
        gEffectList.any (fun effectitem =>
          value == effectitem.val && !env.DisabledEffects effectitem.type)
      if isOk then
        match deref device aleffect with
        | none => none
        | some obj =>
          some ⟨store device aleffect (some (InitEffectParams env.props obj value)), none, ()⟩
      else some ⟨device, some AL_INVALID_VALUE, ()⟩
    else setterTail device aleffect (fun obj => ALeffect_setParami env obj param value)

def alEffectivDirect (env : EffectEnv P F) (device : ALCdevice P) (effect : Nat)
    (param : Int) (values : List Int) : Option (CallResult P Unit) :=
  if param = AL_EFFECT_TYPE then
    match values[0]? with
    | none => none
    | some v => alEffectiDirect env device effect param v
  else
    match LookupEffect device effect with
    | none => some ⟨device, some AL_INVALID_NAME, ()⟩
    | some aleffect =>
      setterTail device aleffect (fun obj => ALeffect_setParamiv env obj param values)

def alEffectfDirect (env : EffectEnv P F) (device : ALCdevice P) (effect : Nat)
    (param : Int) (value : F) : Option (CallResult P Unit) :=
  match LookupEffect device effect with
  | none => some ⟨device, some AL_INVALID_NAME, ()⟩
  | some aleffect =>
    setterTail device aleffect (fun obj => ALeffect_setParamf env obj param value)

def alEffectfvDirect (env : EffectEnv P F) (device : ALCdevice P) (effect : Nat)
    (param : Int) (values : List F) : Option (CallResult P Unit) :=
  match LookupEffect device effect with
  | none => some ⟨device, some AL_INVALID_NAME, ()⟩
  | some aleffect =>
    setterTail device aleffect (fun obj => ALeffect_setParamfv env obj param values)

def alGetEffectiDirect (env : EffectEnv P F) (device : ALCdevice P) (effect : Nat)
    (param : Int) : Option (CallResult P (List Int)) :=
  match LookupEffect device effect with
  | none => some ⟨device, some AL_INVALID_NAME, []⟩
  | some aleffect =>
    if param = AL_EFFECT_TYPE then
      match deref device aleffect with
      | none => none
      | some obj => some ⟨device, none, [obj.type]⟩
    else getterTail device aleffect (fun obj => ALeffect_getParami env obj param)

def alGetEffectivDirect (env : EffectEnv P F) (device : ALCdevice P) (effect : Nat)
    (param : Int) : Option (CallResult P (List Int)) :=
  if param = AL_EFFECT_TYPE then alGetEffectiDirect env device effect param
  else
    match LookupEffect device effect with
    | none => some ⟨device, some AL_INVALID_NAME, []⟩
    | some aleffect =>
      getterTail device aleffect (fun obj => ALeffect_getParamiv env obj param)

def alGetEffectfDirect (env : EffectEnv P F) (device : ALCdevice P) (effect : Nat)
    (param : Int) : Option (CallResult P (List F)) :=
  match LookupEffect device effect with
  | none => some ⟨device, some AL_INVALID_NAME, []⟩
  | some aleffect =>
    getterTail device aleffect (fun obj => ALeffect_getParamf env obj param)

def alGetEffectfvDirect (env : EffectEnv P F) (device : ALCdevice P) (effect : Nat)
    (param : Int) : Option (CallResult P (List F)) :=
  match LookupEffect device effect with
  | none => some ⟨device, some AL_INVALID_NAME, []⟩
  | some aleffect =>
    getterTail device aleffect (fun obj => ALeffect_getParamfv env obj param)

/-- The helper `InitEffect`. -/
def InitEffect (pd : PropsData P) (effect : ALeffect P) : ALeffect P :=
  InitEffectParams pd effect AL_EFFECT_NULL

/-- `ALeffect::SetName`: `insert_or_assign` of the name under a live id. -/
def ALeffect.SetName (device : ALCdevice P) (id : Nat) (name : String) :
    CallResult P Unit :=
  match LookupEffect device id with
  | none => ⟨device, some AL_INVALID_NAME, ()⟩
  | some _ =>
    ⟨{ device with mEffectNames := (id, name) :: eraseName device.mEffectNames id }, none, ()⟩

/-! ## Specification vocabulary -/

/-- The object a handle resolves to: `LookupEffect` followed by the dereference. -/
def objectAt (device : ALCdevice P) (h : Nat) : Option (ALeffect P) :=
  (LookupEffect device h).bind (deref device)

/-- The number of free slots of a sublist sequence, as `EnsureEffects` counts them. -/
def freeCount (list : List (EffectSubList P)) : Nat :=
  (list.map (fun sublist => popcount sublist.FreeMask)).sum

/-- Representation invariant of sublist number `l`: the mask is a 64-bit word, the storage
has 64 cells, a cell holds an object exactly when its mask bit is clear, and that object
carries the id that encodes its position. -/
def SubInv (l : Nat) (sub : EffectSubList P) : Prop :=
  sub.FreeMask < 2 ^ 64 ∧ sub.Effects.length = 64 ∧
  ∀ s, s < 64 →
    (sub.FreeMask.testBit s = true → sub.Effects[s]? = some none) ∧
    (sub.FreeMask.testBit s = false →
      ∃ e, sub.Effects[s]? = some (some e) ∧ e.id = l * 64 + s + 1)

/-- Representation invariant of the pool: at most `2^25` sublists, each satisfying
`SubInv` at its position. -/
def PoolInv (device : ALCdevice P) : Prop :=
  device.EffectList.length ≤ 2 ^ 25 ∧
  ∀ l sub, device.EffectList[l]? = some sub → SubInv l sub

/-- The device `dev1` is `dev` with one slot rewritten: in sublist `l`, mask bit `s`
becomes `b` and storage cell `s` becomes `c`, where the cell is empty when the bit says
free and holds an object with the id of that position when the bit says used.  Both
`AllocEffect` and `FreeEffect` act as such an update on a pool satisfying `PoolInv`. -/
structure SlotUpdate (dev dev1 : ALCdevice P) (l s : Nat) (b : Bool)
    (c : Option (ALeffect P)) : Prop where
  hs : s < 64
  upd : ∃ sub sub1, dev.EffectList[l]? = some sub ∧
    dev1.EffectList = dev.EffectList.set l sub1 ∧
    sub1.Effects = sub.Effects.set s c ∧ sub1.FreeMask < 2 ^ 64 ∧
    ∀ j, sub1.FreeMask.testBit j = if j = s then b else sub.FreeMask.testBit j
  cellFree : b = true → c = none
  cellUsed : b = false → ∃ e, c = some e ∧ e.id = l * 64 + s + 1

/-- The object `AllocEffect` leaves in slot `s` of sublist `l`: a null effect (type
`AL_EFFECT_NULL`, the null default parameters, the null vtable) whose id encodes the
position. -/
def newEffect (pd : PropsData P) (l s : Nat) : ALeffect P :=
  { type := AL_EFFECT_NULL, Props := pd.DefaultProps PropsRef.NullEffectProps,
    vtab := some VtableRef.NullEffectVtable, id := l * 64 + s + 1 }

/-- The pool states reachable from the empty pool through `EnsureEffects` (with any outcome
of the storage allocations), `AllocEffect` and `FreeEffect`, each used where its behaviour
is defined. -/
inductive PoolReach (pd : PropsData P) : ALCdevice P → Prop where
  | empty : PoolReach pd emptyDevice
  | ensure {dev : ALCdevice P} (al_calloc : Nat → Bool) (needed : Nat) :
      PoolReach pd dev → PoolReach pd (EnsureEffects al_calloc dev needed).2
  | alloc {dev dev1 : ALCdevice P} {p : EffectPtr} :
      PoolReach pd dev → AllocEffect pd dev = some (dev1, p) → PoolReach pd dev1
  | free {dev dev1 : ALCdevice P} {p : EffectPtr} :
      PoolReach pd dev → FreeEffect dev p = some dev1 → PoolReach pd dev1

/-- Sample parameter data over `Nat`-valued parameter blocks, for concrete instances. -/
def samplePd : PropsData Nat := ⟨fun _ => 0, 7⟩

/-- A sample sublist: slots 0 and 1 hold the effects with handles 1 and 2, the second with
user-set type and parameters; the other 62 slots are free. -/
def sampleSubList : EffectSubList Nat :=
  { FreeMask := 2 ^ 64 - 4,
    Effects := some (newEffect samplePd 0 0) ::
      some { type := AL_EFFECT_DISTORTION, Props := 42,
             vtab := some VtableRef.DistortionEffectVtable, id := 2 } ::
      List.replicate 62 none }

/-- A sample pool: the one sublist `sampleSubList`, and a display name for handle 2. -/
def samplePool : ALCdevice Nat :=
  { EffectList := [sampleSubList], mEffectNames := [(2, "drive")] }

/-- A sample reachable pool: one sublist whose slot 0 holds the freshly allocated effect
with handle 1. -/
def sampleReached : ALCdevice Nat :=
  { EffectList := [{ FreeMask := 2 ^ 64 - 2,
                     Effects := some (newEffect samplePd 0 0) :: List.replicate 63 none }],
    mEffectNames := [] }

/-- The device states reachable from the empty pool by calls of `alGenEffects` and
`alDeleteEffects` (each with well-typed arguments and where its behaviour is defined),
together with the handles generated so far and not deleted since: a generate call adds
the handles it wrote to the caller's array, a delete call that reports no error removes the
handles it was given. -/
inductive ApiReach (pd : PropsData P) : ALCdevice P → List Nat → Prop where
  | empty : ApiReach pd emptyDevice []
  | gen {dev : ALCdevice P} {live : List Nat} {r : CallResult P (Option (List Nat))}
      (al_calloc : Nat → Bool) (n : Int) :
      ApiReach pd dev live → alGenEffectsDirect pd al_calloc dev n = some r →
      ApiReach pd r.device (live ++ r.out.getD [])
  | del {dev : ALCdevice P} {live : List Nat} {r : CallResult P Unit}
      (n : Int) (effects : List Nat) :
      ApiReach pd dev live → (∀ e ∈ effects, e < 2 ^ 32) →
      alDeleteEffectsDirect dev n effects = some r →
      ApiReach pd r.device
        (if r.error = none then live.filter (fun h => decide (h ∉ effects.take n.toNat))
         else live)

/-- A sample environment over `Nat`-valued parameter blocks: every setter stores nothing and
every getter writes nothing, no effect is disabled. -/
def sampleEnv : EffectEnv Nat Nat :=
  { props := samplePd,
    Vtable := fun _ =>
      { setParami := fun props _ _ => (props, none),
        setParamiv := fun props _ _ => (props, none),
        setParamf := fun props _ _ => (props, none),
        setParamfv := fun props _ _ => (props, none),
        getParami := fun _ _ => ([], none),
        getParamiv := fun _ _ => ([], none),
        getParamf := fun _ _ => ([], none),
        getParamfv := fun _ _ => ([], none) },
    DisabledEffects := fun _ => false }

/-! ## Reverb presets (effect.cpp) -/

/-- The record `EFXEAXREVERBPROPERTIES` of AL/efx-presets.h; a `float[3]` is a triple. -/
structure EFXEAXREVERBPROPERTIES (F : Type) where
  flDensity : F
  flDiffusion : F
  flGain : F
  flGainHF : F
  flGainLF : F
  flDecayTime : F
  flDecayHFRatio : F
  flDecayLFRatio : F
  flReflectionsGain : F
  flReflectionsDelay : F
  flReflectionsPan : F × F × F
  flLateReverbGain : F
  flLateReverbDelay : F
  flLateReverbPan : F × F × F
  flEchoTime : F
  flEchoDepth : F
  flModulationTime : F
  flModulationDepth : F
  flAirAbsorptionGainHF : F
  flHFReference : F
  flLFReference : F
  flRoomRolloffFactor : F
  iDecayHFLimit : Int
deriving DecidableEq, Repr

/-- The fields of the `Reverb` member of `EffectProps` that `LoadReverbPreset` assigns. -/
structure ReverbProps (F : Type) where
  Density : F
  Diffusion : F
  Gain : F
  GainHF : F
  GainLF : F
  DecayTime : F
  DecayHFRatio : F
  DecayLFRatio : F
  ReflectionsGain : F
  ReflectionsDelay : F
  ReflectionsPan : F × F × F
  LateReverbGain : F
  LateReverbDelay : F
  LateReverbPan : F × F × F
  EchoTime : F
  EchoDepth : F
  ModulationTime : F
  ModulationDepth : F
  AirAbsorptionGainHF : F
  HFReference : F
  LFReference : F
  RoomRolloffFactor : F
  DecayHFLimit : Bool
deriving DecidableEq, Repr

/-- What `LoadReverbPreset` takes from headers outside the sources: how the `Reverb` member
of the union `EffectProps` is read and written, and the preset record that the macro
`EFX_REVERB_PRESET_<name>` expands to. -/
structure PresetEnv (P F : Type) where
  getReverb : P → ReverbProps F
  setReverb : P → ReverbProps F → P
  EFX_REVERB_PRESET : String → EFXEAXREVERBPROPERTIES F

/-- One row of `reverblist`. -/
structure EffectPreset (F : Type) where
  name : String
  props : EFXEAXREVERBPROPERTIES F

/-- The names `DECL(...)` lists in `reverblist`, in order. -/
def reverbNames : List String :=
  ["GENERIC", "PADDEDCELL", "ROOM", "BATHROOM", "LIVINGROOM", "STONEROOM", "AUDITORIUM",
   "CONCERTHALL", "CAVE", "ARENA", "HANGAR", "CARPETEDHALLWAY", "HALLWAY", "STONECORRIDOR",
   "ALLEY", "FOREST", "CITY", "MOUNTAINS", "QUARRY", "PLAIN", "PARKINGLOT", "SEWERPIPE",
   "UNDERWATER", "DRUGGED", "DIZZY", "PSYCHOTIC", "CASTLE_SMALLROOM", "CASTLE_SHORTPASSAGE",
   "CASTLE_MEDIUMROOM", "CASTLE_LARGEROOM", "CASTLE_LONGPASSAGE", "CASTLE_HALL",
   "CASTLE_CUPBOARD", "CASTLE_COURTYARD", "CASTLE_ALCOVE", "FACTORY_SMALLROOM",
   "FACTORY_SHORTPASSAGE", "FACTORY_MEDIUMROOM", "FACTORY_LARGEROOM", "FACTORY_LONGPASSAGE",
   "FACTORY_HALL", "FACTORY_CUPBOARD", "FACTORY_COURTYARD", "FACTORY_ALCOVE",
   "ICEPALACE_SMALLROOM", "ICEPALACE_SHORTPASSAGE", "ICEPALACE_MEDIUMROOM",
   "ICEPALACE_LARGEROOM", "ICEPALACE_LONGPASSAGE", "ICEPALACE_HALL", "ICEPALACE_CUPBOARD",
   "ICEPALACE_COURTYARD", "ICEPALACE_ALCOVE", "SPACESTATION_SMALLROOM",
   "SPACESTATION_SHORTPASSAGE", "SPACESTATION_MEDIUMROOM", "SPACESTATION_LARGEROOM",
   "SPACESTATION_LONGPASSAGE", "SPACESTATION_HALL", "SPACESTATION_CUPBOARD",
   "SPACESTATION_ALCOVE", "WOODEN_SMALLROOM", "WOODEN_SHORTPASSAGE", "WOODEN_MEDIUMROOM",
   "WOODEN_LARGEROOM", "WOODEN_LONGPASSAGE", "WOODEN_HALL", "WOODEN_CUPBOARD",
   "WOODEN_COURTYARD", "WOODEN_ALCOVE", "SPORT_EMPTYSTADIUM", "SPORT_SQUASHCOURT",
   "SPORT_SMALLSWIMMINGPOOL", "SPORT_LARGESWIMMINGPOOL", "SPORT_GYMNASIUM", "SPORT_FULLSTADIUM",
   "SPORT_STADIUMTANNOY", "PREFAB_WORKSHOP", "PREFAB_SCHOOLROOM", "PREFAB_PRACTISEROOM",
   "PREFAB_OUTHOUSE", "PREFAB_CARAVAN", "DOME_TOMB", "PIPE_SMALL", "DOME_SAINTPAULS",
   "PIPE_LONGTHIN", "PIPE_LARGE", "PIPE_RESONANT", "OUTDOORS_BACKYARD", "OUTDOORS_ROLLINGPLAINS",
   "OUTDOORS_DEEPCANYON", "OUTDOORS_CREEK", "OUTDOORS_VALLEY", "MOOD_HEAVEN", "MOOD_HELL",
   "MOOD_MEMORY", "DRIVING_COMMENTATOR", "DRIVING_PITGARAGE", "DRIVING_INCAR_RACER",
   "DRIVING_INCAR_SPORTS", "DRIVING_INCAR_LUXURY", "DRIVING_FULLGRANDSTAND",
   "DRIVING_EMPTYGRANDSTAND", "DRIVING_TUNNEL", "CITY_STREETS", "CITY_SUBWAY", "CITY_MUSEUM",
   "CITY_LIBRARY", "CITY_UNDERPASS", "CITY_ABANDONED", "DUSTYROOM", "CHAPEL", "SMALLWATERROOM"]

/-- The table `reverblist`: `DECL(x)` is `EffectPreset{"x", EFX_REVERB_PRESET_x}`. -/
def reverblist (pe : PresetEnv P F) : List (EffectPreset F) :=
  reverbNames.map (fun x => ⟨x, pe.EFX_REVERB_PRESET x⟩)

/-- Modelled from the spec: `al::strcasecmp` (alstring.h is not part of the sources), the
case-insensitive comparison of two names: 0 exactly when the names are equal ignoring ASCII
case, otherwise the sign of the comparison of the lower-cased names. -/
def strcasecmp (a b : String) : Int :=
  if a.map Char.toLower = b.map Char.toLower then 0
  else if a.map Char.toLower < b.map Char.toLower then -1
  else 1

/-- `LoadReverbPreset`: the effect object as the call leaves it. -/
def LoadReverbPreset (env : EffectEnv P F) (pe : PresetEnv P F) (name : String)
    (effect : ALeffect P) : ALeffect P :=
  if strcasecmp name "NONE" = 0 then InitEffectParams env.props effect AL_EFFECT_NULL
  else
    let effect1 :=
      if !env.DisabledEffects EffectKind.EAXREVERB_EFFECT then
        InitEffectParams env.props effect AL_EFFECT_EAXREVERB
      else if !env.DisabledEffects EffectKind.REVERB_EFFECT then
        InitEffectParams env.props effect AL_EFFECT_REVERB
      else InitEffectParams env.props effect AL_EFFECT_NULL
    match (reverblist pe).find? (fun reverbitem => strcasecmp name reverbitem.name == 0) with
    | none => effect1
    | some reverbitem =>
      let props := reverbitem.props
      { effect1 with
        Props := pe.setReverb effect1.Props
          { pe.getReverb effect1.Props with
            Density := props.flDensity
            Diffusion := props.flDiffusion
            Gain := props.flGain
            GainHF := props.flGainHF
            GainLF := props.flGainLF
            DecayTime := props.flDecayTime
            DecayHFRatio := props.flDecayHFRatio
            DecayLFRatio := props.flDecayLFRatio
            ReflectionsGain := props.flReflectionsGain
            ReflectionsDelay := props.flReflectionsDelay
            ReflectionsPan := props.flReflectionsPan
            LateReverbGain := props.flLateReverbGain
            LateReverbDelay := props.flLateReverbDelay
            LateReverbPan := props.flLateReverbPan
            EchoTime := props.flEchoTime
            EchoDepth := props.flEchoDepth
            ModulationTime := props.flModulationTime
            ModulationDepth := props.flModulationDepth
            AirAbsorptionGainHF := props.flAirAbsorptionGainHF
            HFReference := props.flHFReference
            LFReference := props.flLFReference
            RoomRolloffFactor := props.flRoomRolloffFactor
            DecayHFLimit := props.iDecayHFLimit != 0 } }

/-- `IsValidEffectType`. -/
def IsValidEffectType (env : EffectEnv P F) (type : Int) : Bool :=
  type == AL_EFFECT_NULL ||
    gEffectList.any (fun effect_item =>
      type == effect_item.val && !env.DisabledEffects effect_item.type)

/-- An object whose vtable is the vtable of the one `EffectPropsList` entry for its type. -/
def VtabMatches (e : ALeffect P) : Prop :=
  ∃ item, getEffectPropsItemByType e.type = some item ∧ item ∈ EffectPropsList ∧
    item.Type_ = e.type ∧
    (∀ other ∈ EffectPropsList, other.Type_ = e.type → other = item) ∧
    e.vtab = some item.Vtable

/-- The device states reachable from the empty pool through `alGenEffects`,
`alDeleteEffects`, the four setters `alEffecti`, `alEffectiv`, `alEffectf`, `alEffectfv`
(any parameter tag, type changes included) and `LoadReverbPreset` applied to a live
object, each where its behaviour is defined. -/
inductive TypeReach (env : EffectEnv P F) (pe : PresetEnv P F) : ALCdevice P → Prop where
  | empty : TypeReach env pe emptyDevice
  | gen {dev : ALCdevice P} {r : CallResult P (Option (List Nat))}
      (al_calloc : Nat → Bool) (n : Int) :
      TypeReach env pe dev → alGenEffectsDirect env.props al_calloc dev n = some r →
      TypeReach env pe r.device
  | del {dev : ALCdevice P} {r : CallResult P Unit} (n : Int) (effects : List Nat) :
      TypeReach env pe dev → (∀ e ∈ effects, e < 2 ^ 32) →
      alDeleteEffectsDirect dev n effects = some r → TypeReach env pe r.device
  | seti {dev : ALCdevice P} {r : CallResult P Unit} (h : Nat) (param value : Int) :
      TypeReach env pe dev → h < 2 ^ 32 →
      alEffectiDirect env dev h param value = some r → TypeReach env pe r.device
  | setiv {dev : ALCdevice P} {r : CallResult P Unit} (h : Nat) (param : Int)
      (values : List Int) :
      TypeReach env pe dev → h < 2 ^ 32 →
      alEffectivDirect env dev h param values = some r → TypeReach env pe r.device
  | setf {dev : ALCdevice P} {r : CallResult P Unit} (h : Nat) (param : Int) (value : F) :
      TypeReach env pe dev → h < 2 ^ 32 →
      alEffectfDirect env dev h param value = some r → TypeReach env pe r.device
  | setfv {dev : ALCdevice P} {r : CallResult P Unit} (h : Nat) (param : Int)
      (values : List F) :
      TypeReach env pe dev → h < 2 ^ 32 →
      alEffectfvDirect env dev h param values = some r → TypeReach env pe r.device
  | preset {dev : ALCdevice P} {p : EffectPtr} {obj : ALeffect P} (h : Nat) (name : String) :
      TypeReach env pe dev → h < 2 ^ 32 → LookupEffect dev h = some p →
      deref dev p = some obj →
      TypeReach env pe (store dev p (some (LoadReverbPreset env pe name obj)))

/-- A sample preset environment over `Nat`: the parameter block is the reverb density, and
every preset record holds the length of its name in every field. -/
def samplePresetEnv : PresetEnv Nat Nat :=
  { getReverb := fun p =>
      { Density := p, Diffusion := 0, Gain := 0, GainHF := 0, GainLF := 0, DecayTime := 0,
        DecayHFRatio := 0, DecayLFRatio := 0, ReflectionsGain := 0, ReflectionsDelay := 0,
        ReflectionsPan := (0, 0, 0), LateReverbGain := 0, LateReverbDelay := 0,
        LateReverbPan := (0, 0, 0), EchoTime := 0, EchoDepth := 0, ModulationTime := 0,
        ModulationDepth := 0, AirAbsorptionGainHF := 0, HFReference := 0, LFReference := 0,
        RoomRolloffFactor := 0, DecayHFLimit := false },
    setReverb := fun _ r => r.Density,
    EFX_REVERB_PRESET := fun x =>
      { flDensity := x.length, flDiffusion := x.length, flGain := x.length,
        flGainHF := x.length, flGainLF := x.length, flDecayTime := x.length,
        flDecayHFRatio := x.length, flDecayLFRatio := x.length,
        flReflectionsGain := x.length, flReflectionsDelay := x.length,
        flReflectionsPan := (x.length, x.length, x.length),
        flLateReverbGain := x.length, flLateReverbDelay := x.length,
        flLateReverbPan := (x.length, x.length, x.length),
        flEchoTime := x.length, flEchoDepth := x.length, flModulationTime := x.length,
        flModulationDepth := x.length, flAirAbsorptionGainHF := x.length,
        flHFReference := x.length, flLFReference := x.length,
        flRoomRolloffFactor := x.length, iDecayHFLimit := 1 } }

/-- The invariant behind the vtable claim: the pool invariant, and every object a handle
resolves to has the vtable of its type. -/
def TypeInv (dev : ALCdevice P) : Prop :=
  PoolInv dev ∧ ∀ h, h < 2 ^ 32 → ∀ e, objectAt dev h = some e → VtabMatches e

/-- A sample state: `sampleReached` after `LoadReverbPreset "cave"` on its one object. -/
def samplePresetPool : ALCdevice Nat :=
  store sampleReached ⟨0, 0⟩
    (some (LoadReverbPreset sampleEnv samplePresetEnv "cave" (newEffect samplePd 0 0)))

/-! ## Distortion effect: parameters (Alc/effects/distortion.cpp)

`ALfloat` values are elements of a linearly ordered field `R`: comparisons and arithmetic
are exact, and there is no NaN (which the range checks `!(val >= min && val <= max)` would
reject).  The clamp literal `0.99f` of `update` stands for the binary32 number nearest to
99/100, which is 4152361/4194304 (= 0.9900000095...), so `1.0f - 0.99f` is 41943/4194304
(= 0.0099999905..., a binary32 number itself); the literal `0.67f` of the bandwidth
formula is read as 67/100. -/

def AL_DISTORTION_EDGE : Int := 0x0001
def AL_DISTORTION_GAIN : Int := 0x0002
def AL_DISTORTION_LOWPASS_CUTOFF : Int := 0x0003
def AL_DISTORTION_EQCENTER : Int := 0x0004
def AL_DISTORTION_EQBANDWIDTH : Int := 0x0005

/-- The range constants `AL_DISTORTION_MIN_*` and `AL_DISTORTION_MAX_*` of AL/efx.h, which
is not part of the sources; they are taken as a parameter. -/
structure DistortionLimits (R : Type) where
  AL_DISTORTION_MIN_EDGE : R
  AL_DISTORTION_MAX_EDGE : R
  AL_DISTORTION_MIN_GAIN : R
  AL_DISTORTION_MAX_GAIN : R
  AL_DISTORTION_MIN_LOWPASS_CUTOFF : R
  AL_DISTORTION_MAX_LOWPASS_CUTOFF : R
  AL_DISTORTION_MIN_EQCENTER : R
  AL_DISTORTION_MAX_EQCENTER : R
  AL_DISTORTION_MIN_EQBANDWIDTH : R
  AL_DISTORTION_MAX_EQBANDWIDTH : R

/-- The `Distortion` member of the parameter union. -/
structure DistortionProps (R : Type) where
  Edge : R
  Gain : R
  LowpassCutoff : R
  EQCenter : R
  EQBandwidth : R
deriving DecidableEq, Repr

/-- The parameter union `ALeffectProps`, as far as distortion.cpp uses it. -/
structure ALeffectProps (R : Type) where
  Distortion : DistortionProps R
deriving DecidableEq, Repr

section DistortionParams

variable {R : Type} [LinearOrderedField R]

/-- `ALdistortion_setParami`: the effect as the call leaves it and the error it passed to
`alSetError`. -/
def ALdistortion_setParami (effect : ALeffect (ALeffectProps R)) (_param : Int) (_val : Int) :
    ALeffect (ALeffectProps R) × Option Int :=
  (effect, some AL_INVALID_ENUM)

def ALdistortion_setParamiv (effect : ALeffect (ALeffectProps R)) (_param : Int)
    (_vals : List Int) : ALeffect (ALeffectProps R) × Option Int :=
  (effect, some AL_INVALID_ENUM)

/-- `ALdistortion_setParamf`; the `switch` is the chain of tag tests, `SETERR_RETURN` is the
early return with the error. -/
def ALdistortion_setParamf (lim : DistortionLimits R) (effect : ALeffect (ALeffectProps R))
    (param : Int) (val : R) : ALeffect (ALeffectProps R) × Option Int :=
  if param = AL_DISTORTION_EDGE then
    if ¬ (val ≥ lim.AL_DISTORTION_MIN_EDGE ∧ val ≤ lim.AL_DISTORTION_MAX_EDGE) then
      (effect, some AL_INVALID_VALUE)
    else
      ({ effect with Props := { effect.Props with
          Distortion := { effect.Props.Distortion with Edge := val } } }, none)
  else if param = AL_DISTORTION_GAIN then
    if ¬ (val ≥ lim.AL_DISTORTION_MIN_GAIN ∧ val ≤ lim.AL_DISTORTION_MAX_GAIN) then
      (effect, some AL_INVALID_VALUE)
    else
      ({ effect with Props := { effect.Props with
          Distortion := { effect.Props.Distortion with Gain := val } } }, none)
  else if param = AL_DISTORTION_LOWPASS_CUTOFF then
    if ¬ (val ≥ lim.AL_DISTORTION_MIN_LOWPASS_CUTOFF ∧
          val ≤ lim.AL_DISTORTION_MAX_LOWPASS_CUTOFF) then
      (effect, some AL_INVALID_VALUE)
    else
      ({ effect with Props := { effect.Props with
          Distortion := { effect.Props.Distortion with LowpassCutoff := val } } }, none)
  else if param = AL_DISTORTION_EQCENTER then
    if ¬ (val ≥ lim.AL_DISTORTION_MIN_EQCENTER ∧ val ≤ lim.AL_DISTORTION_MAX_EQCENTER) then
      (effect, some AL_INVALID_VALUE)
    else
      ({ effect with Props := { effect.Props with
          Distortion := { effect.Props.Distortion with EQCenter := val } } }, none)
  else if param = AL_DISTORTION_EQBANDWIDTH then
    if ¬ (val ≥ lim.AL_DISTORTION_MIN_EQBANDWIDTH ∧
          val ≤ lim.AL_DISTORTION_MAX_EQBANDWIDTH) then
      (effect, some AL_INVALID_VALUE)
    else
      ({ effect with Props := { effect.Props with
          Distortion := { effect.Props.Distortion with EQBandwidth := val } } }, none)
  else (effect, some AL_INVALID_ENUM)

/-- `ALdistortion_setParamfv` forwards `vals[0]`; reading an empty array is undefined. -/
def ALdistortion_setParamfv (lim : DistortionLimits R) (effect : ALeffect (ALeffectProps R))
    (param : Int) (vals : List R) : Option (ALeffect (ALeffectProps R) × Option Int) :=
  match vals[0]? with
  | none => none
  | some v => some (ALdistortion_setParamf lim effect param v)

/-- `ALdistortion_getParami`: what the call wrote through `val` (nothing) and the error it
passed to `alSetError`. -/
def ALdistortion_getParami (_effect : ALeffect (ALeffectProps R)) (_param : Int) :
    Option Int × Option Int :=
  (none, some AL_INVALID_ENUM)

def ALdistortion_getParamiv (_effect : ALeffect (ALeffectProps R)) (_param : Int) :
    Option Int × Option Int :=
  (none, some AL_INVALID_ENUM)

/-- `ALdistortion_getParamf`: the value written through `val`, if any, and the error. -/
def ALdistortion_getParamf (effect : ALeffect (ALeffectProps R)) (param : Int) :
    Option R × Option Int :=
  if param = AL_DISTORTION_EDGE then (some effect.Props.Distortion.Edge, none)
  else if param = AL_DISTORTION_GAIN then (some effect.Props.Distortion.Gain, none)
  else if param = AL_DISTORTION_LOWPASS_CUTOFF then
    (some effect.Props.Distortion.LowpassCutoff, none)
  else if param = AL_DISTORTION_EQCENTER then (some effect.Props.Distortion.EQCenter, none)
  else if param = AL_DISTORTION_EQBANDWIDTH then
    (some effect.Props.Distortion.EQBandwidth, none)
  else (none, some AL_INVALID_ENUM)

/-- `ALdistortion_getParamfv` forwards to `ALdistortion_getParamf`, which writes `vals[0]`. -/
def ALdistortion_getParamfv (effect : ALeffect (ALeffectProps R)) (param : Int) :
    Option R × Option Int :=
  ALdistortion_getParamf effect param

/-- The documented range of a distortion float parameter, by tag. -/
def distortionRange (lim : DistortionLimits R) (param : Int) : Option (R × R) :=
  if param = AL_DISTORTION_EDGE then
    some (lim.AL_DISTORTION_MIN_EDGE, lim.AL_DISTORTION_MAX_EDGE)
  else if param = AL_DISTORTION_GAIN then
    some (lim.AL_DISTORTION_MIN_GAIN, lim.AL_DISTORTION_MAX_GAIN)
  else if param = AL_DISTORTION_LOWPASS_CUTOFF then
    some (lim.AL_DISTORTION_MIN_LOWPASS_CUTOFF, lim.AL_DISTORTION_MAX_LOWPASS_CUTOFF)
  else if param = AL_DISTORTION_EQCENTER then
    some (lim.AL_DISTORTION_MIN_EQCENTER, lim.AL_DISTORTION_MAX_EQCENTER)
  else if param = AL_DISTORTION_EQBANDWIDTH then
    some (lim.AL_DISTORTION_MIN_EQBANDWIDTH, lim.AL_DISTORTION_MAX_EQBANDWIDTH)
  else none

end DistortionParams

/-- The range constants as AL/efx.h documents them, over the rationals. -/
def sampleLimits : DistortionLimits ℚ :=
  { AL_DISTORTION_MIN_EDGE := 0, AL_DISTORTION_MAX_EDGE := 1,
    AL_DISTORTION_MIN_GAIN := 1 / 100, AL_DISTORTION_MAX_GAIN := 1,
    AL_DISTORTION_MIN_LOWPASS_CUTOFF := 80, AL_DISTORTION_MAX_LOWPASS_CUTOFF := 24000,
    AL_DISTORTION_MIN_EQCENTER := 80, AL_DISTORTION_MAX_EQCENTER := 24000,
    AL_DISTORTION_MIN_EQBANDWIDTH := 80, AL_DISTORTION_MAX_EQBANDWIDTH := 24000 }

/-- A sample distortion effect object with the default parameters of AL/efx.h. -/
def sampleDistortion : ALeffect (ALeffectProps ℚ) :=
  { type := AL_EFFECT_DISTORTION,
    Props := { Distortion := { Edge := 1 / 5, Gain := 1 / 20, LowpassCutoff := 8000,
                               EQCenter := 3600, EQBandwidth := 3600 } },
    vtab := some VtableRef.DistortionEffectVtable, id := 1 }

/-! ## Distortion effect: state, update and process (Alc/effects/distortion.cpp)

Arrays of `ALfloat` are functions from the index; the accesses of `process` stay within the
arrays for `samplesToDo <= BUFFERSIZE`, and the arrays are not bounded here.  `ALsizei`
counts are natural numbers (a negative count runs no iteration, like 0); the one product of
the loop that can leave the range of `int` makes the result undefined (`none`), and so does
a sub-block that does not advance `base`, on which the loop does not end. -/

/-- A `for(i = 0; i < n; i++)` loop: `body i` applied for `i = 0, 1, ..., n-1` in turn. -/
def forLoop {σ : Type} (body : Nat → σ → σ) : Nat → σ → σ
  | 0, s => s
  | n + 1, s => body n (forLoop body n s)

/-- The filter types of `BiquadType`. -/
inductive BiquadType where
  | HighShelf | LowShelf | Peaking | LowPass | HighPass | BandPass
deriving DecidableEq, Repr

/-- Modelled from the spec: the class `BiquadFilter` of filters/biquad.h, which is not part
of the sources.  A value of `B` is a filter with its coefficients and its history; `step`
applies the second-order difference equation to one sample and returns the output sample
and the filter with the updated history; `setParams type gain f0norm rcpQ` recomputes the
coefficients; `clear` zeroes the history. -/
structure BiquadOps (R B : Type) where
  step : B → R → R × B
  setParams : B → BiquadType → R → R → R → B
  clear : B → B

/-- Modelled from the spec: `BiquadFilter::process(dst, src, numsamples)` "applies the
second-order difference equation sample-by-sample, updating the two-sample history".  The
result is the destination array and the filter afterwards. -/
def BiquadFilter.process {R B : Type} (ops : BiquadOps R B) (filter : B) (dst src : Nat → R)
    (numsamples : Nat) : (Nat → R) × B :=
  forLoop (fun i s => (Function.update s.1 i (ops.step s.2 (src i)).1, (ops.step s.2 (src i)).2))
    numsamples (dst, filter)

/-- The state `ALdistortionState`, with the output binding of its base `EffectState`. -/
structure ALdistortionState (R B : Type) where
  mOutBuffer : Nat
  mOutChannels : Nat
  mGain : Nat → R
  mLowpass : B
  mBandpass : B
  mAttenuation : R
  mEdgeCoeff : R
  mBuffer : Nat → Nat → R

/-- What `process` takes from headers outside the sources: the constants `BUFFERSIZE` and
`GAIN_SILENCE_THRESHOLD` and the biquad filter. -/
structure ProcessEnv (R B : Type) where
  BUFFERSIZE : Nat
  GAIN_SILENCE_THRESHOLD : R
  biquad : BiquadOps R B

/-- What `update` takes from outside the sources: `std::sin`, the constant pi, the helpers
`calc_rcpQ_from_bandwidth`, `CalcAngleCoeffs` and `ComputePanGains` (which is given the gain
array it writes), and the fields `Buffer` and `NumChannels` of the mix target `T`. -/
structure UpdateEnv (R B T : Type) where
  sin : R → R
  Pi : R
  calc_rcpQ_from_bandwidth : R → R → R
  CalcAngleCoeffs : R → R → R → Nat → R
  ComputePanGains : T → (Nat → R) → R → (Nat → R) → Nat → R
  Buffer : T → Nat
  NumChannels : T → Nat

section Distortion

variable {R B T : Type} [LinearOrderedField R]

/-- `ALdistortionState::deviceUpdate`: the state afterwards (the call returns `AL_TRUE`). -/
def ALdistortionState.deviceUpdate (ops : BiquadOps R B) (st : ALdistortionState R B) :
    ALdistortionState R B :=
  { st with mLowpass := ops.clear st.mLowpass, mBandpass := ops.clear st.mBandpass }

/-- The edge coefficient that `update` stores: `edge = minf(sin(pi*0.5*Edge), 0.99f)`,
`mEdgeCoeff = 2*edge/(1-edge)`.  The literal `0.99f` is the binary32 number
4152361/4194304 = 8304722 * 2^-23, a little above 99/100. -/
def ALdistortionState.edgeCoeff (ue : UpdateEnv R B T) (Edge : R) : R :=
  let edge := min (ue.sin (ue.Pi * (1 / 2) * Edge)) (4152361 / 4194304)
  2 * edge / (1 - edge)

/-- `ALdistortionState::update`, given `context->Device->Frequency`, `slot->Params.Gain`,
the parameter union and `target.Main`. -/
def ALdistortionState.update (ue : UpdateEnv R B T) (ops : BiquadOps R B)
    (st : ALdistortionState R B) (Frequency : Nat) (slotGain : R) (props : ALeffectProps R)
    (target : T) : ALdistortionState R B :=
  let mEdgeCoeff := ALdistortionState.edgeCoeff ue props.Distortion.Edge
  let cutoff := props.Distortion.LowpassCutoff
  let bandwidth := (cutoff / 2) / (cutoff * (67 / 100))
  let frequency : R := (Frequency : R)
  let mLowpass := ops.setParams st.mLowpass BiquadType.LowPass 1 (cutoff / (frequency * 4))
    (ue.calc_rcpQ_from_bandwidth (cutoff / (frequency * 4)) bandwidth)
  let cutoff := props.Distortion.EQCenter
  let bandwidth := props.Distortion.EQBandwidth / (cutoff * (67 / 100))
  let mBandpass := ops.setParams st.mBandpass BiquadType.BandPass 1 (cutoff / (frequency * 4))
    (ue.calc_rcpQ_from_bandwidth (cutoff / (frequency * 4)) bandwidth)
  let coeffs := ue.CalcAngleCoeffs 0 0 0
  { st with
    mEdgeCoeff := mEdgeCoeff
    mLowpass := mLowpass
    mBandpass := mBandpass
    mOutBuffer := ue.Buffer target
    mOutChannels := ue.NumChannels target
    mGain := ue.ComputePanGains target coeffs (slotGain * props.Distortion.Gain) st.mGain }

/-- The zero-stuffing loop: `buffer[0][i] = !(i&3) ? samplesIn[0][(i>>2)+base] * 4.0f : 0.0f`
for `i < todo`. -/
def zeroStuff (samplesIn0 : Nat → R) (base todo : Nat) (buffer0 : Nat → R) : Nat → R :=
  forLoop (fun i buf =>
      Function.update buf i (if i &&& 3 = 0 then samplesIn0 ((i >>> 2) + base) * 4 else 0))
    todo buffer0

/-- The three waveshaper statements applied to one sample. -/
def waveshape (fc smp : R) : R :=
  let smp1 := (1 + fc) * smp / (1 + fc * |smp|)
  let smp2 := (1 + fc) * smp1 / (1 + fc * |smp1|) * (-1)
  (1 + fc) * smp2 / (1 + fc * |smp2|)

/-- The waveshaper loop: `buffer[0][i] = waveshape(buffer[1][i])` for `i < todo`. -/
def shapeLoop (fc : R) (buffer1 : Nat → R) (todo : Nat) (buffer0 : Nat → R) : Nat → R :=
  forLoop (fun i buf => Function.update buf i (waveshape fc (buffer1 i))) todo buffer0

/-- The first three steps of one sub-block: zero-stuff into `buffer[0]`, low-pass into
`buffer[1]`, shape into `buffer[0]`, band-pass into `buffer[1]`. -/
def ALdistortionState.filterBlock (env : ProcessEnv R B) (st : ALdistortionState R B)
    (samplesIn : Nat → Nat → R) (base todo : Nat) : ALdistortionState R B :=
  let buffer0 := zeroStuff (samplesIn 0) base todo (st.mBuffer 0)
  let lp := BiquadFilter.process env.biquad st.mLowpass (st.mBuffer 1) buffer0 todo
  let buffer0 := shapeLoop st.mEdgeCoeff lp.1 todo buffer0
  let bp := BiquadFilter.process env.biquad st.mBandpass lp.1 buffer0 todo
  { st with
    mLowpass := lp.2
    mBandpass := bp.2
    mBuffer := Function.update (Function.update st.mBuffer 0 buffer0) 1 bp.1 }

/-- The fourth step of one sub-block, with `todo` already shifted right by 2: for each
output channel whose gain passes the silence threshold,
`samplesOut[k][base+i] += gain * buffer[1][i*4]` for `i < todo`. -/
def mixBlock (env : ProcessEnv R B) (mGain : Nat → R) (buffer1 : Nat → R) (base todo : Nat)
    (numOutput : Nat) (samplesOut : Nat → Nat → R) : Nat → Nat → R :=
  forLoop (fun k out =>
      if ¬ (|mGain k| > env.GAIN_SILENCE_THRESHOLD) then out
      else
        forLoop (fun i out1 =>
            Function.update out1 k
              (Function.update (out1 k) (base + i)
                (out1 k (base + i) + mGain k * buffer1 (i * 4))))
          todo out)
    numOutput samplesOut

/-- The `for(base = 0; base < samplesToDo;)` loop of `process`, from a given `base`. -/
def ALdistortionState.process.loop (env : ProcessEnv R B) (samplesToDo : Nat)
    (samplesIn : Nat → Nat → R) (numOutput : Nat) (base : Nat) (st : ALdistortionState R B)
    (samplesOut : Nat → Nat → R) : Option (ALdistortionState R B × (Nat → Nat → R)) :=
  if base < samplesToDo then
    if 2 ^ 31 ≤ (samplesToDo - base) * 4 then none
    else if _h : (min env.BUFFERSIZE ((samplesToDo - base) * 4)) >>> 2 = 0 then none
    else
      let todo := min env.BUFFERSIZE ((samplesToDo - base) * 4)
      let st1 := st.filterBlock env samplesIn base todo
      let out1 := mixBlock env st1.mGain (st1.mBuffer 1) base (todo >>> 2) numOutput samplesOut
      ALdistortionState.process.loop env samplesToDo samplesIn numOutput
        (base + (todo >>> 2)) st1 out1
  else some (st, samplesOut)
termination_by samplesToDo - base
decreasing_by omega

/-- `ALdistortionState::process`: the state and the output arrays afterwards. -/
def ALdistortionState.process (env : ProcessEnv R B) (st : ALdistortionState R B)
    (samplesToDo : Nat) (samplesIn : Nat → Nat → R) (_numInput : Nat)
    (samplesOut : Nat → Nat → R) (numOutput : Nat) :
    Option (ALdistortionState R B × (Nat → Nat → R)) :=
  ALdistortionState.process.loop env samplesToDo samplesIn numOutput 0 st samplesOut

/-- The decimated band-passed stream: the same sub-blocks as `process`, keeping for each
`j` of a sub-block starting at `base` the band-passed sample at oversampled index
`4*(j-base)`. -/
def ALdistortionState.stream.loop (env : ProcessEnv R B) (samplesToDo : Nat)
    (samplesIn : Nat → Nat → R) (base : Nat) (st : ALdistortionState R B) (y : Nat → R) :
    Option (ALdistortionState R B × (Nat → R)) :=
  if base < samplesToDo then
    if 2 ^ 31 ≤ (samplesToDo - base) * 4 then none
    else if _h : (min env.BUFFERSIZE ((samplesToDo - base) * 4)) >>> 2 = 0 then none
    else
      let todo := min env.BUFFERSIZE ((samplesToDo - base) * 4)
      let st1 := st.filterBlock env samplesIn base todo
      let y1 : Nat → R := fun j =>
        if base ≤ j ∧ j < base + (todo >>> 2) then st1.mBuffer 1 (4 * (j - base)) else y j
      ALdistortionState.stream.loop env samplesToDo samplesIn (base + (todo >>> 2)) st1 y1
  else some (st, y)
termination_by samplesToDo - base
decreasing_by omega

/-- The decimated band-passed stream of a whole call, 0 from `samplesToDo` on. -/
def ALdistortionState.stream (env : ProcessEnv R B) (st : ALdistortionState R B)
    (samplesToDo : Nat) (samplesIn : Nat → Nat → R) :
    Option (ALdistortionState R B × (Nat → R)) :=
  ALdistortionState.stream.loop env samplesToDo samplesIn 0 st (fun _ => 0)

end Distortion

/-- A sample filter over the rationals: a one-sample history, the output is the mean of the
input sample and the previous one. -/
def sampleBiquad : BiquadOps ℚ ℚ :=
  { step := fun z x => ((x + z) / 2, x),
    setParams := fun z _ _ _ _ => z,
    clear := fun _ => 0 }

/-- The constants of the headers (`BUFFERSIZE` 2048, `GAIN_SILENCE_THRESHOLD` 0.00001) with
the sample filter. -/
def sampleProcessEnv : ProcessEnv ℚ ℚ :=
  { BUFFERSIZE := 2048, GAIN_SILENCE_THRESHOLD := 1 / 100000, biquad := sampleBiquad }

/-- A sample state: channel 0 has gain 1/2, the other channels are silent. -/
def sampleDistortionState : ALdistortionState ℚ ℚ :=
  { mOutBuffer := 0, mOutChannels := 2,
    mGain := fun k => if k = 0 then 1 / 2 else 0,
    mLowpass := 0, mBandpass := 0, mAttenuation := 1, mEdgeCoeff := 1 / 2,
    mBuffer := fun _ _ => 0 }

/-- A sample input: channel 0 holds 1, 2, 3, ..., the other channels hold 7. -/
def sampleInput : Nat → Nat → ℚ := fun c j => if c = 0 then (j : ℚ) + 1 else 7

/-- A second sample input that differs from `sampleInput` off channel 0 and from sample 3 on. -/
def sampleInput2 : Nat → Nat → ℚ := fun c j => if c = 0 ∧ j < 3 then (j : ℚ) + 1 else 9

/-- Sample helpers for `update` over the rationals: the cubic Taylor polynomial for the
sine, 22/7 for pi, and a panning that gives every channel the requested gain. -/
def sampleUpdateEnv : UpdateEnv ℚ ℚ Unit :=
  { sin := fun x => x - x ^ 3 / 6,
    Pi := 22 / 7,
    calc_rcpQ_from_bandwidth := fun _ bandwidth => bandwidth,
    CalcAngleCoeffs := fun _ _ _ _ => 1,
    ComputePanGains := fun _ coeffs ingain _ k => coeffs k * ingain,
    Buffer := fun _ => 0,
    NumChannels := fun _ => 2 }

/-- Sample helpers for `update` whose sine reaches the clamp: as `sampleUpdateEnv`, with
the Taylor polynomial of degree 5 for the sine (its value at 11/7 is above 1). -/
def sampleSineEnv : UpdateEnv ℚ ℚ Unit :=
  { sin := fun x => x - x ^ 3 / 6 + x ^ 5 / 120,
    Pi := 22 / 7,
    calc_rcpQ_from_bandwidth := fun _ bandwidth => bandwidth,
    CalcAngleCoeffs := fun _ _ _ _ => 1,
    ComputePanGains := fun _ coeffs ingain _ k => coeffs k * ingain,
    Buffer := fun _ => 0,
    NumChannels := fun _ => 2 }

/-- The sample distortion parameters with `Edge` 0. -/
def sampleEdgeZero : ALeffectProps ℚ :=
  { Distortion := { Edge := 0, Gain := 1 / 20, LowpassCutoff := 8000,
                    EQCenter := 3600, EQBandwidth := 3600 } }

/-! ## Distortion effect: vocabulary for the waveshaper and for `update` -/

section WaveshaperStage

variable {R : Type} [LinearOrderedField R]

/-- One application of `smp = (1.0f + fc) * smp/(1.0f + fc*fabsf(smp))`, the statement the
waveshaper loop runs three times. -/
def waveshapeStage (fc smp : R) : R := (1 + fc) * smp / (1 + fc * |smp|)

end WaveshaperStage

/-- Modelled from the spec: the two parts of a `BiquadFilter` (filters/biquad.h is not part
of the sources), read off a filter `B`: the coefficients that `setParams` "recomputes" and
the "two-sample history" that `process` updates and `clear` zeroes. -/
structure BiquadView (B C H : Type) where
  coeffs : B → C
  history : B → H

/-- Modelled from the spec: the contract of `BiquadFilter::setParams`.  A filter is its
coefficients together with its history; `setParams` computes the coefficients from its
arguments and leaves the history as it is. -/
structure BiquadLaws {R B C H : Type} (ops : BiquadOps R B) (v : BiquadView B C H) : Prop where
  ext : ∀ a b : B, v.coeffs a = v.coeffs b → v.history a = v.history b → a = b
  setParams_history : ∀ (b : B) (t : BiquadType) (g f q : R),
    v.history (ops.setParams b t g f q) = v.history b
  setParams_coeffs : ∀ (a b : B) (t : BiquadType) (g f q : R),
    v.coeffs (ops.setParams a t g f q) = v.coeffs (ops.setParams b t g f q)

/-- Modelled from the spec: `ComputePanGains` "recomputes per-channel gain/pan coefficients"
for the whole gain array, so what it leaves there does not depend on the old contents. -/
def PanGainsOverwrite {R B T : Type} (ue : UpdateEnv R B T) : Prop :=
  ∀ (target : T) (coeffs : Nat → R) (ingain : R) (old old' : Nat → R),
    ue.ComputePanGains target coeffs ingain old = ue.ComputePanGains target coeffs ingain old'

/-- A sample filter with one coefficient `a` and a one-sample history `z`: the output is
`a*x + (1-a)*z`; `setParams` stores the normalized frequency as the coefficient. -/
def sampleCoeffBiquad : BiquadOps ℚ (ℚ × ℚ) :=
  { step := fun b x => (b.1 * x + (1 - b.1) * b.2, (b.1, x)),
    setParams := fun b _ _ f0norm _ => (f0norm, b.2),
    clear := fun b => (b.1, 0) }

/-- The coefficient and the history of the sample filter. -/
def sampleCoeffView : BiquadView (ℚ × ℚ) ℚ ℚ := { coeffs := Prod.fst, history := Prod.snd }

/-- A sample state over the sample filter, with filter histories 3 and 5. -/
def sampleCoeffState : ALdistortionState ℚ (ℚ × ℚ) :=
  { mOutBuffer := 9, mOutChannels := 1,
    mGain := fun k => if k = 0 then 1 / 2 else 0,
    mLowpass := (1, 3), mBandpass := (1, 5), mAttenuation := 1, mEdgeCoeff := 1 / 2,
    mBuffer := fun _ _ => 0 }

/-- The sample helpers of `sampleUpdateEnv` for the sample filter. -/
def sampleCoeffUpdateEnv : UpdateEnv ℚ (ℚ × ℚ) Unit :=
  { sin := fun x => x - x ^ 3 / 6,
    Pi := 22 / 7,
    calc_rcpQ_from_bandwidth := fun _ bandwidth => bandwidth,
    CalcAngleCoeffs := fun _ _ _ _ => 1,
    ComputePanGains := fun _ coeffs ingain _ k => coeffs k * ingain,
    Buffer := fun _ => 0,
    NumChannels := fun _ => 2 }

/-! ## Reverb presets: vocabulary of the lookup claims -/

/-- Two names are equal ignoring ASCII case: their characters agree one by one after
`Char.toLower`, which turns `A`..`Z` into `a`..`z` and keeps every other character. -/
def eqIgnoreCase (a b : String) : Bool :=
  a.data.map Char.toLower == b.data.map Char.toLower

/-- Ignoring ASCII case, `a` is `b` cut off before its end: a proper initial part of `b`. -/
def properInitial (a b : String) : Bool :=
  decide (a.data.length < b.data.length) &&
    ((b.data.take a.data.length).map Char.toLower == a.data.map Char.toLower)

/-- The row of `reverblist` at which the loop of `LoadReverbPreset` stops for a name, if it
stops at one; for the name NONE the function returns before the loop. -/
def selectedPreset (pe : PresetEnv P F) (name : String) : Option (EffectPreset F) :=
  if strcasecmp name "NONE" = 0 then none
  else (reverblist pe).find? (fun reverbitem => strcasecmp name reverbitem.name == 0)

/-- The type `LoadReverbPreset` initializes the object with for a name other than NONE. -/
def presetType (env : EffectEnv P F) : Int :=
  if !env.DisabledEffects EffectKind.EAXREVERB_EFFECT then AL_EFFECT_EAXREVERB
  else if !env.DisabledEffects EffectKind.REVERB_EFFECT then AL_EFFECT_REVERB
  else AL_EFFECT_NULL

/-- The `Reverb` member as the 27 assignments of `LoadReverbPreset` leave it for a preset
record (the two pans are three assignments each). -/
def presetReverb (props : EFXEAXREVERBPROPERTIES F) : ReverbProps F :=
  { Density := props.flDensity
    Diffusion := props.flDiffusion
    Gain := props.flGain
    GainHF := props.flGainHF
    GainLF := props.flGainLF
    DecayTime := props.flDecayTime
    DecayHFRatio := props.flDecayHFRatio
    DecayLFRatio := props.flDecayLFRatio
    ReflectionsGain := props.flReflectionsGain
    ReflectionsDelay := props.flReflectionsDelay
    ReflectionsPan := props.flReflectionsPan
    LateReverbGain := props.flLateReverbGain
    LateReverbDelay := props.flLateReverbDelay
    LateReverbPan := props.flLateReverbPan
    EchoTime := props.flEchoTime
    EchoDepth := props.flEchoDepth
    ModulationTime := props.flModulationTime
    ModulationDepth := props.flModulationDepth
    AirAbsorptionGainHF := props.flAirAbsorptionGainHF
    HFReference := props.flHFReference
    LFReference := props.flLFReference
    RoomRolloffFactor := props.flRoomRolloffFactor
    DecayHFLimit := props.iDecayHFLimit != 0 }

/-- A sample preset environment in which the parameter block is the `Reverb` member itself
and the preset record of a name holds the length of the name in its float fields. -/
def sampleReverbPresetEnv : PresetEnv (ReverbProps Nat) Nat :=
  { getReverb := fun p => p,
    setReverb := fun _ r => r,
    EFX_REVERB_PRESET := samplePresetEnv.EFX_REVERB_PRESET }

/-- Sample default parameter blocks for `sampleReverbPresetEnv`: all fields 0. -/
def sampleReverbPd : PropsData (ReverbProps Nat) :=
  { DefaultProps := fun _ => samplePresetEnv.getReverb 0,
    valueInit := samplePresetEnv.getReverb 7 }

/-- A sample environment over `sampleReverbPd` with the given `DisabledEffects`. -/
def sampleReverbEnv (disabled : EffectKind → Bool) : EffectEnv (ReverbProps Nat) Nat :=
  { props := sampleReverbPd,
    Vtable := fun _ =>
      { setParami := fun props _ _ => (props, none),
        setParamiv := fun props _ _ => (props, none),
        setParamf := fun props _ _ => (props, none),
        setParamfv := fun props _ _ => (props, none),
        getParami := fun _ _ => ([], none),
        getParamiv := fun _ _ => ([], none),
        getParamf := fun _ _ => ([], none),
        getParamfv := fun _ _ => ([], none) },
    DisabledEffects := disabled }

/-- A sample effect object over `sampleReverbPd`, as `AllocEffect` leaves handle 1. -/
def sampleReverbEffect : ALeffect (ReverbProps Nat) := newEffect sampleReverbPd 0 0

/-! ## Distortion effect: the iterations of the sub-block loop -/

/-- The iterations of the `for(base = 0; base < samplesToDo;)` loop of `process` from a
given `base` on: for each iteration the value of `base` at its start and the value
`mini(BUFFERSIZE, (samplesToDo-base) * 4)` of `todo`, in order, and the value of `base`
with which the loop is left.  As in `process.loop` the result is `none` when the product
is not an `int` or when `todo >> 2` is 0, where `base` stays and the loop does not end. -/
def ALdistortionState.process.blocks (BUFFERSIZE samplesToDo : Nat) (base : Nat) :
    Option (List (Nat × Nat) × Nat) :=
  if base < samplesToDo then
    if 2 ^ 31 ≤ (samplesToDo - base) * 4 then none
    else if _h : (min BUFFERSIZE ((samplesToDo - base) * 4)) >>> 2 = 0 then none
    else
      match ALdistortionState.process.blocks BUFFERSIZE samplesToDo
          (base + (min BUFFERSIZE ((samplesToDo - base) * 4)) >>> 2) with
      | none => none
      | some r => some ((base, min BUFFERSIZE ((samplesToDo - base) * 4)) :: r.1, r.2)
  else some ([], base)
termination_by samplesToDo - base
decreasing_by omega

/-- An iteration that starts at `bt.1` with `todo = bt.2` reads the input sample `j`: the
zero-stuffing loop reads `samplesIn[0][(i>>2)+base]` for `i < todo`. -/
def readsInput (j : Nat) (bt : Nat × Nat) : Bool :=
  decide (∃ i, i < bt.2 ∧ j = (i >>> 2) + bt.1)

section BlockStep

variable {R B : Type} [LinearOrderedField R]

/-- One iteration of the loop of `process` that starts at `bt.1` with `todo = bt.2`: the
four steps on the state and the output arrays. -/
def ALdistortionState.process.step (env : ProcessEnv R B) (samplesIn : Nat → Nat → R)
    (numOutput : Nat) (s : ALdistortionState R B × (Nat → Nat → R)) (bt : Nat × Nat) :
    ALdistortionState R B × (Nat → Nat → R) :=
  ((s.1.filterBlock env samplesIn bt.1 bt.2),
    mixBlock env (s.1.filterBlock env samplesIn bt.1 bt.2).mGain
      ((s.1.filterBlock env samplesIn bt.1 bt.2).mBuffer 1) bt.1 (bt.2 >>> 2) numOutput s.2)

end BlockStep

/-- The sample constants with a scratch buffer of 8 samples, so that a sub-block holds two
input samples. -/
def sampleSmallEnv : ProcessEnv ℚ ℚ :=
  { BUFFERSIZE := 8, GAIN_SILENCE_THRESHOLD := 1 / 100000, biquad := sampleBiquad }

/-! ## Driver router (router/router.cpp)

A `std::wstring` or `std::wstring_view` is the list of its characters.  Positions are
natural numbers and `npos`, the largest `size_t`, is a parameter; no string is longer than
`npos`. -/

/-- `std::wstring_view::find(ch)`: the position of the first `ch`, or `npos`. -/
def wfind (npos : Nat) (s : List Char) (ch : Char) : Nat :=
  if s.indexOf ch < s.length then s.indexOf ch else npos

/-- One iteration of the `while(!namelist.empty())` loop of `LoadDriverList`: what is left
of `namelist` and the list after the iteration.  `substr(0, seppos)` is `take` (the count
is cut at the end of the string) and `remove_prefix(n)` is `drop`. -/
def LoadDriverList.parseStep (npos : Nat) (namelist : List Char) (list : List (List Char)) :
    List Char × List (List Char) :=
  let seppos := wfind npos namelist ','
  let list1 := if seppos > 0 then list ++ [namelist.take seppos] else list
  if seppos < namelist.length then (namelist.drop (seppos + 1), list1)
  else (namelist.drop namelist.length, list1)

/-- The `while(!namelist.empty())` loop of `LoadDriverList`: the list it leaves. -/
def LoadDriverList.parse (npos : Nat) (namelist : List Char) (list : List (List Char)) :
    List (List Char) :=
  if _h : namelist = [] then list
  else
    LoadDriverList.parse npos (LoadDriverList.parseStep npos namelist list).1
      (LoadDriverList.parseStep npos namelist list).2
termination_by namelist.length
decreasing_by
  have hpos : 0 < namelist.length := List.length_pos.mpr _h
  unfold LoadDriverList.parseStep
  by_cases hs : wfind npos namelist ',' < namelist.length
  · simp only [hs, if_true, List.length_drop]
    omega
  · simp only [hs, if_false, List.length_drop]
    omega

/-- The first part of `LoadDriverList`: the accept and reject lists after the two
environment strings were parsed (`al::getenv` gives no string for an unset variable). -/
def LoadDriverList (npos : Nat) (getenv : String → Option (List Char))
    (gAcceptList gRejectList : List (List Char)) : List (List Char) × List (List Char) :=
  let gAcceptList1 :=
    match getenv "ALROUTER_ACCEPT" with
    | some list => LoadDriverList.parse npos list gAcceptList
    | none => gAcceptList
  let gRejectList1 :=
    match getenv "ALROUTER_REJECT" with
    | some list => LoadDriverList.parse npos list gRejectList
    | none => gRejectList
  (gAcceptList1, gRejectList1)

/-- The name and the module handle of a `DriverIface`. -/
structure DriverIface where
  Name : List Char
  Module : Nat
deriving DecidableEq, Repr

/-- `AddModule`: the driver list it leaves.  `al::case_compare` (alstring.h) and the
outcome `loadok` of binding the entry points of the module are parameters; the calls of
`FreeLibrary` and the log lines are left out. -/
def AddModule (case_compare : List Char → List Char → Int) (loadok : Bool)
    (gAcceptList gRejectList : List (List Char)) (DriverList : List DriverIface)
    (module : Nat) (name : List Char) : List DriverIface :=
  if DriverList.any (fun drv => drv.Module == module || drv.Name == name) then DriverList
  else if !gAcceptList.isEmpty &&
      !gAcceptList.any (fun accept => case_compare name accept == 0) then DriverList
  else if !gRejectList.isEmpty &&
      gRejectList.any (fun accept => case_compare name accept == 0) then DriverList
  else if !loadok then (DriverList ++ [DriverIface.mk name module]).dropLast
  else DriverList ++ [DriverIface.mk name module]

/-- The non-empty comma-separated fields of a string, in order. -/
def commaFields (s : List Char) : List (List Char) :=
  (s.splitOn ',').filter (fun field => !field.isEmpty)

/-- Two wide strings are equal ignoring ASCII case. -/
def eqIgnoreCaseW (a b : List Char) : Bool := a.map Char.toLower == b.map Char.toLower

/-- A sample `case_compare`: 0 on strings equal ignoring ASCII case, 1 otherwise. -/
def sampleCaseCompare (a b : List Char) : Int := if eqIgnoreCaseW a b then 0 else 1

/-- A sample environment: `ALROUTER_ACCEPT` is `,soft_oal.dll,,My Oal.dll ,` and
`ALROUTER_REJECT` is `bad_oal.dll`; no other variable is set. -/
def sampleGetenv (name : String) : Option (List Char) :=
  if name = "ALROUTER_ACCEPT" then some ",soft_oal.dll,,My Oal.dll ,".data
  else if name = "ALROUTER_REJECT" then some "bad_oal.dll".data
  else none

/-! ## Distortion effect: the single-pass reference -/

section SinglePass

variable {R B : Type} [LinearOrderedField R]

/-- A filter after the first `n` samples of a stream. -/
def biquadRun (ops : BiquadOps R B) (b : B) (src : Nat → R) : Nat → B
  | 0 => b
  | n + 1 => (ops.step (biquadRun ops b src n) (src n)).2

/-- Output sample `i` of a filter over a stream. -/
def biquadOut (ops : BiquadOps R B) (b : B) (src : Nat → R) (i : Nat) : R :=
  (ops.step (biquadRun ops b src i) (src i)).1

/-- The whole mono input zero-stuffed: sample `i` of the oversampled stream. -/
def stuffedStream (samplesIn0 : Nat → R) (i : Nat) : R :=
  if i % 4 = 0 then 4 * samplesIn0 (i / 4) else 0

/-- The oversampled stream after the low-pass filter and the waveshaper. -/
def shapedStream (ops : BiquadOps R B) (lowpass : B) (fc : R) (samplesIn0 : Nat → R)
    (i : Nat) : R :=
  waveshape fc (biquadOut ops lowpass (stuffedStream samplesIn0) i)

/-- The oversampled stream after the band-pass filter. -/
def bandpassedStream (ops : BiquadOps R B) (lowpass bandpass : B) (fc : R)
    (samplesIn0 : Nat → R) (i : Nat) : R :=
  biquadOut ops bandpass (shapedStream ops lowpass fc samplesIn0) i

/-- The single-pass reference for `process`: the whole input is zero-stuffed to
`4*samplesToDo` samples, low-passed, waveshaped, band-passed and decimated in one go, in
scratch arrays long enough for it.  The result is the low-pass filter, the band-pass filter
and the output arrays afterwards. -/
def ALdistortionState.processReference (env : ProcessEnv R B) (st : ALdistortionState R B)
    (samplesToDo : Nat) (samplesIn : Nat → Nat → R) (samplesOut : Nat → Nat → R)
    (numOutput : Nat) : B × B × (Nat → Nat → R) :=
  let stuffed := zeroStuff (samplesIn 0) 0 (4 * samplesToDo) (fun _ => 0)
  let lp := BiquadFilter.process env.biquad st.mLowpass (fun _ => 0) stuffed (4 * samplesToDo)
  let shaped := shapeLoop st.mEdgeCoeff lp.1 (4 * samplesToDo) (fun _ => 0)
  let bp := BiquadFilter.process env.biquad st.mBandpass (fun _ => 0) shaped (4 * samplesToDo)
  (lp.2, bp.2, mixBlock env st.mGain bp.1 0 samplesToDo numOutput samplesOut)

end SinglePass

/-! ## Distortion effect: `process` with every array access checked

The same loops as `process`, except that each array read and write first compares its
index with the extent it is held to, and the result is `none` as soon as one index is not
below its extent. -/

/-- The extents the checked loops hold the array indices to: the samples of a scratch
buffer row, the channels and samples of `samplesIn`, the channels and samples of
`samplesOut`, and the entries of `mGain`. -/
structure AccessLimits where
  scratch : Nat
  inputChannels : Nat
  inputSamples : Nat
  outputChannels : Nat
  outputSamples : Nat
  gains : Nat

/-- A checked array read. -/
def readAt {α : Type} (limit : Nat) (a : Nat → α) (i : Nat) : Option α :=
  if i < limit then some (a i) else none

/-- A checked array write. -/
def writeAt {α : Type} (limit : Nat) (a : Nat → α) (i : Nat) (v : α) : Option (Nat → α) :=
  if i < limit then some (Function.update a i v) else none

/-- A `for(i = 0; i < n; i++)` loop whose body can fail. -/
def forLoopM {σ : Type} (body : Nat → σ → Option σ) : Nat → σ → Option σ
  | 0, s => some s
  | n + 1, s => (forLoopM body n s).bind (body n)

section CheckedLoops

variable {R B : Type} [LinearOrderedField R]

/-- The zero-stuffing loop, checked: `samplesIn[0][(i>>2)+base]` is read when `!(i&3)`,
and `buffer[0][i]` is written. -/
def zeroStuffChecked (lim : AccessLimits) (samplesIn : Nat → Nat → R) (base todo : Nat)
    (buffer0 : Nat → R) : Option (Nat → R) :=
  forLoopM (fun i buf =>
      (if i &&& 3 = 0 then
          ((readAt lim.inputChannels samplesIn 0).bind
            (fun row => readAt lim.inputSamples row ((i >>> 2) + base))).map (fun x => x * 4)
        else some 0).bind
        (fun v => writeAt lim.scratch buf i v))
    todo buffer0

/-- Modelled from the spec: `BiquadFilter::process(dst, src, numsamples)`, checked: sample
`i` is read from `src[i]` and written to `dst[i]`. -/
def BiquadFilter.processChecked (lim : AccessLimits) (ops : BiquadOps R B) (filter : B)
    (dst src : Nat → R) (numsamples : Nat) : Option ((Nat → R) × B) :=
  forLoopM (fun i s =>
      (readAt lim.scratch src i).bind (fun x =>
        (writeAt lim.scratch s.1 i (ops.step s.2 x).1).map (fun d => (d, (ops.step s.2 x).2))))
    numsamples (dst, filter)

/-- The waveshaper loop, checked: `buffer[1][i]` is read and `buffer[0][i]` written. -/
def shapeLoopChecked (lim : AccessLimits) (fc : R) (buffer1 : Nat → R) (todo : Nat)
    (buffer0 : Nat → R) : Option (Nat → R) :=
  forLoopM (fun i buf =>
      (readAt lim.scratch buffer1 i).bind (fun smp =>
        writeAt lim.scratch buf i (waveshape fc smp)))
    todo buffer0

/-- The mixing loop, checked: `mGain[k]` is read; for a channel that passes the threshold
`buffer[1][i*4]` is read and `samplesOut[k][base+i]` is read and written. -/
def mixBlockChecked (lim : AccessLimits) (env : ProcessEnv R B) (mGain : Nat → R)
    (buffer1 : Nat → R) (base todo : Nat) (numOutput : Nat) (samplesOut : Nat → Nat → R) :
    Option (Nat → Nat → R) :=
  forLoopM (fun k out =>
      (readAt lim.gains mGain k).bind (fun gain =>
        if ¬ (|gain| > env.GAIN_SILENCE_THRESHOLD) then some out
        else
          forLoopM (fun i out1 =>
              (readAt lim.scratch buffer1 (i * 4)).bind (fun smp =>
                (readAt lim.outputChannels out1 k).bind (fun row =>
                  (readAt lim.outputSamples row (base + i)).bind (fun old =>
                    (writeAt lim.outputSamples row (base + i) (old + gain * smp)).map
                      (fun row1 => Function.update out1 k row1)))))
            todo out))
    numOutput samplesOut

/-- The first three steps of one sub-block, checked. -/
def ALdistortionState.filterBlockChecked (lim : AccessLimits) (env : ProcessEnv R B)
    (st : ALdistortionState R B) (samplesIn : Nat → Nat → R) (base todo : Nat) :
    Option (ALdistortionState R B) :=
  (zeroStuffChecked lim samplesIn base todo (st.mBuffer 0)).bind (fun buffer0 =>
    (BiquadFilter.processChecked lim env.biquad st.mLowpass (st.mBuffer 1) buffer0 todo).bind
      (fun lp =>
        (shapeLoopChecked lim st.mEdgeCoeff lp.1 todo buffer0).bind (fun buffer0 =>
          (BiquadFilter.processChecked lim env.biquad st.mBandpass lp.1 buffer0 todo).map
            (fun bp =>
              { st with
                mLowpass := lp.2
                mBandpass := bp.2
                mBuffer := Function.update (Function.update st.mBuffer 0 buffer0) 1 bp.1 }))))

/-- The loop of `process` from a given `base`, checked. -/
def ALdistortionState.process.loopChecked (lim : AccessLimits) (env : ProcessEnv R B)
    (samplesToDo : Nat) (samplesIn : Nat → Nat → R) (numOutput : Nat) (base : Nat)
    (st : ALdistortionState R B) (samplesOut : Nat → Nat → R) :
    Option (ALdistortionState R B × (Nat → Nat → R)) :=
  if base < samplesToDo then
    if 2 ^ 31 ≤ (samplesToDo - base) * 4 then none
    else if _h : (min env.BUFFERSIZE ((samplesToDo - base) * 4)) >>> 2 = 0 then none
    else
      match st.filterBlockChecked lim env samplesIn base
          (min env.BUFFERSIZE ((samplesToDo - base) * 4)) with
      | none => none
      | some st1 =>
        match mixBlockChecked lim env st1.mGain (st1.mBuffer 1) base
            ((min env.BUFFERSIZE ((samplesToDo - base) * 4)) >>> 2) numOutput samplesOut with
        | none => none
        | some out1 =>
          ALdistortionState.process.loopChecked lim env samplesToDo samplesIn numOutput
            (base + (min env.BUFFERSIZE ((samplesToDo - base) * 4)) >>> 2) st1 out1
  else some (st, samplesOut)
termination_by samplesToDo - base
decreasing_by omega

/-- `ALdistortionState::process`, checked. -/
def ALdistortionState.processChecked (lim : AccessLimits) (env : ProcessEnv R B)
    (st : ALdistortionState R B) (samplesToDo : Nat) (samplesIn : Nat → Nat → R)
    (_numInput : Nat) (samplesOut : Nat → Nat → R) (numOutput : Nat) :
    Option (ALdistortionState R B × (Nat → Nat → R)) :=
  ALdistortionState.process.loopChecked lim env samplesToDo samplesIn numOutput 0 st samplesOut

end CheckedLoops

/-- The extents that the bounds claim names for a call: `BUFFERSIZE` scratch samples,
`numInput` input channels, `numOutput` output channels and gains, and `samplesToDo` input
and output samples. -/
def claimedLimits (BUFFERSIZE samplesToDo numInput numOutput : Nat) : AccessLimits :=
  { scratch := BUFFERSIZE, inputChannels := numInput, inputSamples := samplesToDo,
    outputChannels := numOutput, outputSamples := samplesToDo, gains := numOutput }

/-- The extents of the arrays as they are declared: `mBuffer[2][BUFFERSIZE]`,
`samplesIn[numInput][BUFFERSIZE]`, `samplesOut[numOutput][BUFFERSIZE]` and
`mGain[MAX_OUTPUT_CHANNELS]`. -/
def declaredLimits (BUFFERSIZE MAX_OUTPUT_CHANNELS numInput numOutput : Nat) : AccessLimits :=
  { scratch := BUFFERSIZE, inputChannels := numInput, inputSamples := BUFFERSIZE,
    outputChannels := numOutput, outputSamples := BUFFERSIZE, gains := MAX_OUTPUT_CHANNELS }

/-! ## Lemmas on the bit helpers -/

theorem and_bit_ne_zero_iff (m s : Nat) : m &&& (1 <<< s) ≠ 0 ↔ m.testBit s = true := by
  rw [Nat.one_shiftLeft]
  constructor
  · intro h
    obtain ⟨i, hi⟩ := Nat.ne_zero_implies_bit_true h
    rw [Nat.testBit_and, Nat.testBit_two_pow] at hi
    simp only [Bool.and_eq_true, decide_eq_true_eq] at hi
    rw [hi.2]; exact hi.1
  · intro h h0
    have : (m &&& 2 ^ s).testBit s = true := by
      rw [Nat.testBit_and, Nat.testBit_two_pow_self, h]; rfl
    rw [h0] at this
    simp at this

theorem testBit_ge_64 {m : Nat} (hm : m < 2 ^ 64) {j : Nat} (hj : 64 ≤ j) :
    m.testBit j = false :=
  Nat.testBit_lt_two_pow (lt_of_lt_of_le hm (Nat.pow_le_pow_right (by decide) hj))

theorem testBit_clear_bit {m s : Nat} (hm : m < 2 ^ 64) (hs : s < 64) (j : Nat) :
    (m &&& not_u64 (1 <<< s)).testBit j = (m.testBit j && decide (j ≠ s)) := by
  have h2 : 2 ^ s < 2 ^ 64 := Nat.pow_lt_pow_right (by decide) hs
  have e : not_u64 (1 <<< s) = 2 ^ 64 - (2 ^ s + 1) := by
    unfold not_u64
    rw [Nat.one_shiftLeft, Nat.mod_eq_of_lt h2]
    omega
  rw [e, Nat.testBit_and, Nat.testBit_two_pow_sub_succ h2, Nat.testBit_two_pow]
  by_cases hj : j < 64
  · by_cases hjs : s = j
    · subst hjs; simp
    · have : ¬ j = s := fun h => hjs h.symm
      simp [hj, hjs, this]
  · rw [testBit_ge_64 hm (Nat.le_of_not_lt hj)]; simp

theorem clear_bit_lt {m : Nat} (hm : m < 2 ^ 64) (x : Nat) : m &&& x < 2 ^ 64 :=
  lt_of_le_of_lt Nat.and_le_left hm

theorem testBit_set_bit (s m j : Nat) :
    ((m ||| (1 <<< s)) % 2 ^ 64).testBit j
      = (decide (j < 64) && (m.testBit j || decide (j = s))) := by
  rw [Nat.testBit_mod_two_pow, Nat.testBit_or, Nat.one_shiftLeft, Nat.testBit_two_pow]
  by_cases hjs : s = j
  · subst hjs; simp
  · have : ¬ j = s := fun h => hjs h.symm
    simp [hjs, this]

theorem countr_zero_spec {m : Nat} (hm : m < 2 ^ 64) (h0 : m ≠ 0) :
    countr_zero m < 64 ∧ m.testBit (countr_zero m) = true ∧
      ∀ j, j < countr_zero m → m.testBit j = false := by
  obtain ⟨i, hi⟩ := Nat.ne_zero_implies_bit_true h0
  have hi64 : i < 64 := by
    by_contra hc
    rw [testBit_ge_64 hm (Nat.le_of_not_lt hc)] at hi
    exact Bool.noConfusion hi
  have hex : ∃ x ∈ List.range 64, (fun i => m.testBit i) x = true :=
    ⟨i, List.mem_range.mpr hi64, hi⟩
  have hlt : countr_zero m < (List.range 64).length := List.findIdx_lt_length_of_exists hex
  have hlt64 : countr_zero m < 64 := by simpa using hlt
  refine ⟨hlt64, ?_, ?_⟩
  · have := @List.findIdx_getElem _ (fun i => m.testBit i) (List.range 64) hlt
    simpa [countr_zero] using this
  · intro j hj
    have hj2 : j < (List.range 64).findIdx (fun i => m.testBit i) := hj
    have := List.not_of_lt_findIdx hj2
    simpa using this

theorem popcount_zero : popcount 0 = 0 := by
  simp [popcount]

theorem popcount_le (m : Nat) : popcount m ≤ 64 := by
  have := @List.countP_le_length _ (fun i => m.testBit i) (List.range 64)
  simpa [popcount] using this

theorem popcount_all_ones : popcount (2 ^ 64 - 1) = 64 := by
  have : ∀ a ∈ List.range 64, (fun i => (2 ^ 64 - 1).testBit i) a = true := by
    intro a ha
    simp only [Nat.testBit_two_pow_sub_one, decide_eq_true_eq]
    exact List.mem_range.mp ha
  have h := List.countP_eq_length.mpr this
  simpa [popcount] using h

theorem popcount_pos_of_ne_zero {m : Nat} (hm : m < 2 ^ 64) (h0 : m ≠ 0) : 0 < popcount m := by
  obtain ⟨h1, h2, _⟩ := countr_zero_spec hm h0
  exact List.countP_pos_iff.mpr ⟨countr_zero m, List.mem_range.mpr h1, h2⟩

theorem countP_remove_one {α : Type} [DecidableEq α] (p q : α → Bool) (s : α) :
    ∀ (l : List α), l.Nodup → s ∈ l → p s = true → q s = false →
      (∀ x, x ≠ s → q x = p x) → l.countP q + 1 = l.countP p := by
  intro l
  induction l with
  | nil => intro _ h; simp at h
  | cons a t ih =>
    intro hnd hmem hp hq hrest
    rw [List.nodup_cons] at hnd
    by_cases has : a = s
    · subst has
      have hcong : t.countP q = t.countP p := by
        apply List.countP_congr
        intro x hx
        have : x ≠ a := fun h => hnd.1 (h ▸ hx)
        rw [hrest x this]
      rw [List.countP_cons, List.countP_cons, hcong, hp, hq]
      simp
    · have hs : s ∈ t := by
        rcases List.mem_cons.mp hmem with h | h
        · exact absurd h.symm has
        · exact h
      have := ih hnd.2 hs hp hq hrest
      rw [List.countP_cons, List.countP_cons, hrest a has]
      omega

theorem popcount_clear_bit {m s : Nat} (hm : m < 2 ^ 64) (hs : s < 64)
    (hbit : m.testBit s = true) :
    popcount (m &&& not_u64 (1 <<< s)) + 1 = popcount m := by
  unfold popcount
  apply countP_remove_one _ _ s _ (List.nodup_range 64) (List.mem_range.mpr hs) hbit
  · rw [testBit_clear_bit hm hs]; simp
  · intro x hx
    rw [testBit_clear_bit hm hs]; simp [hx]


/-! ## Handles and positions -/

theorem handle_wrap {h : Nat} (h1 : 1 ≤ h) (h2 : h < 2 ^ 32) :
    (h + 2 ^ 32 - 1) % 2 ^ 32 = h - 1 := by
  omega

theorem handle_of_pos {l s : Nat} (hl : l < 2 ^ 25) (hs : s < 64) :
    ((((l % 2 ^ 32) <<< 6) % 2 ^ 32 ||| s) + 1) % 2 ^ 32 = l * 64 + s + 1 := by
  have e1 : l % 2 ^ 32 = l := Nat.mod_eq_of_lt (by omega)
  have e2 : l <<< 6 = 2 ^ 6 * l := by rw [Nat.shiftLeft_eq, Nat.mul_comm]
  have e3 : (2 ^ 6 * l) % 2 ^ 32 = 2 ^ 6 * l := Nat.mod_eq_of_lt (by omega)
  have hs6 : s < 2 ^ 6 := hs
  rw [e1, e2, e3, ← Nat.mul_add_lt_is_or hs6 l]
  omega

theorem shiftLeft_or_eq {l s : Nat} (hs : s < 64) : (l <<< 6) ||| s = l * 64 + s := by
  have hs6 : s < 2 ^ 6 := hs
  rw [Nat.shiftLeft_eq, Nat.mul_comm, ← Nat.mul_add_lt_is_or hs6 l]

theorem LookupEffect_eq (device : ALCdevice P) (h : Nat) :
    LookupEffect device h =
      match device.EffectList[((h + 2 ^ 32 - 1) % 2 ^ 32) / 64]? with
      | none => none
      | some sublist =>
        if sublist.FreeMask.testBit (((h + 2 ^ 32 - 1) % 2 ^ 32) % 64) = true then none
        else some ⟨((h + 2 ^ 32 - 1) % 2 ^ 32) / 64, ((h + 2 ^ 32 - 1) % 2 ^ 32) % 64⟩ := by
  have e1 : ∀ x : Nat, x >>> 6 = x / 64 := fun x => by rw [Nat.shiftRight_eq_div_pow]
  have e2 : ∀ x : Nat, x &&& 0x3f = x % 64 := fun x => Nat.and_pow_two_sub_one_eq_mod x 6
  unfold LookupEffect
  simp only [e1, e2]
  cases device.EffectList[((h + 2 ^ 32 - 1) % 2 ^ 32) / 64]? with
  | none => rfl
  | some sublist =>
    simp only [and_bit_ne_zero_iff]

/-- Handle 0 decodes to sublist `2^26 - 1`, which no pool of at most `2^25` sublists has. -/
theorem LookupEffect_zero {device : ALCdevice P} (hlen : device.EffectList.length ≤ 2 ^ 25) :
    LookupEffect device 0 = none := by
  rw [LookupEffect_eq]
  have : device.EffectList[((0 + 2 ^ 32 - 1) % 2 ^ 32) / 64]? = none := by
    apply List.getElem?_eq_none
    have : ((0 + 2 ^ 32 - 1) % 2 ^ 32) / 64 = 2 ^ 26 - 1 := by norm_num
    omega
  rw [this]

/-- Lookup of a handle in `1 .. 2^32 - 1`, by position. -/
theorem LookupEffect_pos (device : ALCdevice P) {h : Nat} (h1 : 1 ≤ h) (h2 : h < 2 ^ 32) :
    LookupEffect device h =
      match device.EffectList[(h - 1) / 64]? with
      | none => none
      | some sublist =>
        if sublist.FreeMask.testBit ((h - 1) % 64) = true then none
        else some ⟨(h - 1) / 64, (h - 1) % 64⟩ := by
  rw [LookupEffect_eq, handle_wrap h1 h2]

theorem LookupEffect_some_iff (device : ALCdevice P) {h : Nat} (h2 : h < 2 ^ 32)
    (hlen : device.EffectList.length ≤ 2 ^ 25) (p : EffectPtr) :
    LookupEffect device h = some p ↔
      1 ≤ h ∧ p = ⟨(h - 1) / 64, (h - 1) % 64⟩ ∧
        ∃ sub, device.EffectList[(h - 1) / 64]? = some sub ∧
          sub.FreeMask.testBit ((h - 1) % 64) = false := by
  by_cases h0 : h = 0
  · subst h0
    rw [LookupEffect_zero hlen]
    simp
  · have h1 : 1 ≤ h := Nat.one_le_iff_ne_zero.mpr h0
    rw [LookupEffect_pos device h1 h2]
    cases hsub : device.EffectList[(h - 1) / 64]? with
    | none => simp
    | some sub =>
      by_cases hb : sub.FreeMask.testBit ((h - 1) % 64) = true
      · simp [hb]
      · simp only [hb]
        have hb2 : sub.FreeMask.testBit ((h - 1) % 64) = false := by simpa using hb
        constructor
        · intro hp
          refine ⟨h1, ?_, sub, rfl, hb2⟩
          simpa using hp.symm
        · rintro ⟨_, hp, _⟩
          simp [hp]

/-! ## Rewriting one slot -/

theorem pos_of_handle {h l s : Nat} (h1 : 1 ≤ h) (hs : s < 64) :
    ((h - 1) / 64 = l ∧ (h - 1) % 64 = s) ↔ h = l * 64 + s + 1 := by
  omega

theorem SlotUpdate.length_eq {dev dev1 : ALCdevice P} {l s : Nat} {b : Bool}
    {c : Option (ALeffect P)} (u : SlotUpdate dev dev1 l s b c) :
    dev1.EffectList.length = dev.EffectList.length := by
  obtain ⟨sub, sub1, _, h1, _⟩ := u.upd
  rw [h1, List.length_set]

theorem SlotUpdate.poolInv {dev dev1 : ALCdevice P} {l s : Nat} {b : Bool}
    {c : Option (ALeffect P)} (u : SlotUpdate dev dev1 l s b c) (hinv : PoolInv dev) :
    PoolInv dev1 := by
  obtain ⟨sub, sub1, hsub, hlist, heff, hlt, hbits⟩ := u.upd
  refine ⟨by rw [u.length_eq]; exact hinv.1, ?_⟩
  intro k subk hk
  rw [hlist, List.getElem?_set] at hk
  by_cases hkl : l = k
  · subst hkl
    have hl : l < dev.EffectList.length := (List.getElem?_eq_some.mp hsub).1
    rw [if_pos rfl, if_pos hl] at hk
    have hk2 : sub1 = subk := Option.some.inj hk
    subst hk2
    obtain ⟨_, hlen, hcells⟩ := hinv.2 l sub hsub
    refine ⟨hlt, by rw [heff, List.length_set]; exact hlen, ?_⟩
    intro j hj
    rw [hbits j, heff, List.getElem?_set]
    by_cases hjs : j = s
    · subst hjs
      have hj2 : j < sub.Effects.length := by rw [hlen]; exact hj
      rw [if_pos rfl, if_pos rfl, if_pos hj2]
      constructor
      · intro hb; rw [u.cellFree hb]
      · intro hb
        obtain ⟨e, he, hid⟩ := u.cellUsed hb
        exact ⟨e, by rw [he], hid⟩
    · have hsj : ¬ s = j := fun h => hjs h.symm
      rw [if_neg hjs, if_neg hsj]
      exact hcells j hj
  · rw [if_neg hkl] at hk
    exact hinv.2 k subk hk

theorem SlotUpdate.lookup {dev dev1 : ALCdevice P} {l s : Nat} {b : Bool}
    {c : Option (ALeffect P)} (u : SlotUpdate dev dev1 l s b c) (hinv : PoolInv dev)
    {h : Nat} (h2 : h < 2 ^ 32) :
    LookupEffect dev1 h =
      if h = l * 64 + s + 1 then (if b = true then none else some ⟨l, s⟩)
      else LookupEffect dev h := by
  obtain ⟨sub, sub1, hsub, hlist, heff, hlt, hbits⟩ := u.upd
  have hl : l < dev.EffectList.length := (List.getElem?_eq_some.mp hsub).1
  by_cases h0 : h = 0
  · subst h0
    rw [LookupEffect_zero hinv.1, LookupEffect_zero (by rw [u.length_eq]; exact hinv.1)]
    rw [if_neg (by omega)]
  · have h1 : 1 ≤ h := Nat.one_le_iff_ne_zero.mpr h0
    rw [LookupEffect_pos dev1 h1 h2, LookupEffect_pos dev h1 h2, hlist, List.getElem?_set]
    by_cases hL : l = (h - 1) / 64
    · rw [if_pos hL, ← hL, if_pos hl, hsub]
      simp only [hbits]
      by_cases hS : (h - 1) % 64 = s
      · have hh : h = l * 64 + s + 1 := (pos_of_handle h1 u.hs).mp ⟨hL.symm, hS⟩
        rw [if_pos hS, if_pos hh, hS]
      · have hh : ¬ h = l * 64 + s + 1 := fun e => hS ((pos_of_handle h1 u.hs).mpr e).2
        rw [if_neg hS, if_neg hh]
    · have hh : ¬ h = l * 64 + s + 1 :=
        fun e => hL ((pos_of_handle h1 u.hs).mpr e).1.symm
      rw [if_neg hL, if_neg hh]

theorem SlotUpdate.deref_self {dev dev1 : ALCdevice P} {l s : Nat} {b : Bool}
    {c : Option (ALeffect P)} (u : SlotUpdate dev dev1 l s b c) (hinv : PoolInv dev) :
    deref dev1 ⟨l, s⟩ = c := by
  obtain ⟨sub, sub1, hsub, hlist, heff, hlt, hbits⟩ := u.upd
  have hl : l < dev.EffectList.length := (List.getElem?_eq_some.mp hsub).1
  obtain ⟨_, hlen, _⟩ := hinv.2 l sub hsub
  have hs2 : s < sub.Effects.length := by rw [hlen]; exact u.hs
  show (match dev1.EffectList[l]? with
    | none => none
    | some sublist => (sublist.Effects[s]?).join) = c
  rw [hlist, List.getElem?_set, if_pos rfl, if_pos hl]
  show (sub1.Effects[s]?).join = c
  rw [heff, List.getElem?_set, if_pos rfl, if_pos hs2]
  rfl

theorem SlotUpdate.deref_other {dev dev1 : ALCdevice P} {l s : Nat} {b : Bool}
    {c : Option (ALeffect P)} (u : SlotUpdate dev dev1 l s b c) {p : EffectPtr}
    (hp : p ≠ ⟨l, s⟩) : deref dev1 p = deref dev p := by
  obtain ⟨sub, sub1, hsub, hlist, heff, hlt, hbits⟩ := u.upd
  have hl : l < dev.EffectList.length := (List.getElem?_eq_some.mp hsub).1
  unfold deref
  rw [hlist, List.getElem?_set]
  by_cases hL : l = p.lidx
  · rw [if_pos hL, ← hL, if_pos hl, hsub]
    have hS : ¬ s = p.slidx := by
      intro hS
      apply hp
      cases p
      simp only [EffectPtr.mk.injEq]
      exact ⟨hL.symm, hS.symm⟩
    simp only [heff, List.getElem?_set, if_neg hS]
  · rw [if_neg hL]

theorem SlotUpdate.objectAt {dev dev1 : ALCdevice P} {l s : Nat} {b : Bool}
    {c : Option (ALeffect P)} (u : SlotUpdate dev dev1 l s b c) (hinv : PoolInv dev)
    {h : Nat} (h2 : h < 2 ^ 32) :
    objectAt dev1 h = if h = l * 64 + s + 1 then c else objectAt dev h := by
  unfold OpenAL.objectAt
  rw [u.lookup hinv h2]
  by_cases hh : h = l * 64 + s + 1
  · rw [if_pos hh, if_pos hh]
    cases hb : b with
    | true => simp [u.cellFree hb]
    | false => simp [u.deref_self hinv]
  · rw [if_neg hh, if_neg hh]
    cases hp : LookupEffect dev h with
    | none => rfl
    | some p =>
      show deref dev1 p = deref dev p
      apply u.deref_other
      intro hpe
      rw [LookupEffect_some_iff dev h2 hinv.1] at hp
      obtain ⟨h1, hpp, _⟩ := hp
      rw [hpe] at hpp
      simp only [EffectPtr.mk.injEq] at hpp
      exact hh ((pos_of_handle h1 u.hs).mp ⟨hpp.1.symm, hpp.2.symm⟩)

/-! ## `AllocEffect` and `FreeEffect` as slot updates -/

theorem InitEffectParams_null (pd : PropsData P) (e : ALeffect P) :
    InitEffectParams pd e AL_EFFECT_NULL =
      { type := AL_EFFECT_NULL, Props := pd.DefaultProps PropsRef.NullEffectProps,
        vtab := some VtableRef.NullEffectVtable, id := e.id } := by
  rfl

theorem AllocEffect_spec (pd : PropsData P) {dev : ALCdevice P} (hinv : PoolInv dev)
    (hfree : ∃ sub ∈ dev.EffectList, sub.FreeMask ≠ 0) :
    ∃ l s sub dev1,
      l = dev.EffectList.findIdx (fun entry => entry.FreeMask != 0) ∧
      dev.EffectList[l]? = some sub ∧ sub.FreeMask ≠ 0 ∧
      s = countr_zero sub.FreeMask ∧ sub.FreeMask.testBit s = true ∧
      AllocEffect pd dev = some (dev1, ⟨l, s⟩) ∧
      SlotUpdate dev dev1 l s false (some (newEffect pd l s)) ∧
      dev1.mEffectNames = dev.mEffectNames := by
  have hex : ∃ x ∈ dev.EffectList, (fun entry : EffectSubList P => entry.FreeMask != 0) x = true := by
    obtain ⟨sub, hmem, hne⟩ := hfree
    exact ⟨sub, hmem, by simpa using hne⟩
  have hlt := List.findIdx_lt_length_of_exists hex
  obtain ⟨l, hl⟩ : ∃ l, dev.EffectList.findIdx (fun entry => entry.FreeMask != 0) = l :=
    ⟨_, rfl⟩
  obtain ⟨sub, hget⟩ : ∃ sub,
      dev.EffectList[dev.EffectList.findIdx (fun entry => entry.FreeMask != 0)]? = some sub :=
    ⟨_, List.getElem?_eq_getElem hlt⟩
  have hne : sub.FreeMask ≠ 0 := by
    have := List.findIdx_of_getElem?_eq_some hget
    simpa using this
  rw [hl] at hlt hget
  obtain ⟨hm, hlen, hcells⟩ := hinv.2 l sub hget
  obtain ⟨hs64, hbit, _⟩ := countr_zero_spec hm hne
  have hl25 : l < 2 ^ 25 := lt_of_lt_of_le hlt hinv.1
  refine ⟨l, countr_zero sub.FreeMask, sub,
    { dev with EffectList := (dev.EffectList.set l
        { Effects := sub.Effects.set (countr_zero sub.FreeMask)
            (some (newEffect pd l (countr_zero sub.FreeMask))),
          FreeMask := sub.FreeMask &&& not_u64 (1 <<< countr_zero sub.FreeMask) }) },
    hl.symm, hget, hne, rfl, hbit, ?_, ?_, ?_⟩
  · unfold AllocEffect
    simp only [hl, hget]
    rw [InitEffectParams_null, handle_of_pos hl25 hs64]
    rfl
  · refine ⟨hs64, ⟨sub, _, hget, rfl, rfl, ?_, ?_⟩, ?_, ?_⟩
    · exact clear_bit_lt hm _
    · intro j
      show (sub.FreeMask &&& not_u64 (1 <<< countr_zero sub.FreeMask)).testBit j = _
      rw [testBit_clear_bit hm hs64]
      by_cases hj : j = countr_zero sub.FreeMask
      · simp [hj]
      · simp [hj]
    · intro h; exact Bool.noConfusion h
    · intro _; exact ⟨_, rfl, rfl⟩
  · rfl

theorem deref_of_lookup {dev : ALCdevice P} (hinv : PoolInv dev) {h : Nat} (h2 : h < 2 ^ 32)
    {p : EffectPtr} (hp : LookupEffect dev h = some p) :
    ∃ e, deref dev p = some e ∧ e.id = h ∧ 1 ≤ h ∧ h = p.lidx * 64 + p.slidx + 1 ∧
      p.slidx < 64 ∧ p.lidx < dev.EffectList.length := by
  rw [LookupEffect_some_iff dev h2 hinv.1] at hp
  obtain ⟨h1, hpp, sub, hsub, hbit⟩ := hp
  have hS : (h - 1) % 64 < 64 := Nat.mod_lt _ (by decide)
  obtain ⟨_, _, hcells⟩ := hinv.2 _ sub hsub
  obtain ⟨e, he, hid⟩ := (hcells _ hS).2 hbit
  have hl : (h - 1) / 64 < dev.EffectList.length := (List.getElem?_eq_some.mp hsub).1
  subst hpp
  refine ⟨e, ?_, by omega, h1, by simp only; omega, hS, hl⟩
  show (match dev.EffectList[(h - 1) / 64]? with
    | none => none
    | some sublist => (sublist.Effects[(h - 1) % 64]?).join) = some e
  rw [hsub]
  show (sub.Effects[(h - 1) % 64]?).join = some e
  rw [he]
  rfl

theorem FreeEffect_spec {dev : ALCdevice P} (hinv : PoolInv dev) {h : Nat} (h2 : h < 2 ^ 32)
    {p : EffectPtr} (hp : LookupEffect dev h = some p) :
    ∃ dev1, FreeEffect dev p = some dev1 ∧
      SlotUpdate dev dev1 p.lidx p.slidx true none ∧
      dev1.mEffectNames = eraseName dev.mEffectNames h := by
  obtain ⟨e, he, hid, h1, hh, hs, hl⟩ := deref_of_lookup hinv h2 hp
  obtain ⟨sub, hsub⟩ : ∃ sub, dev.EffectList[p.lidx]? = some sub :=
    ⟨dev.EffectList[p.lidx], List.getElem?_eq_getElem hl⟩
  obtain ⟨hm, hlen, hcells⟩ := hinv.2 _ sub hsub
  have e1 : ∀ x : Nat, x >>> 6 = x / 64 := fun x => by rw [Nat.shiftRight_eq_div_pow]
  have e2 : ∀ x : Nat, x &&& 0x3f = x % 64 := fun x => Nat.and_pow_two_sub_one_eq_mod x 6
  have hL : (h - 1) / 64 = p.lidx := by omega
  have hS : (h - 1) % 64 = p.slidx := by omega
  have hstore : (store dev p none).EffectList =
      dev.EffectList.set p.lidx { sub with Effects := sub.Effects.set p.slidx none } := by
    unfold store
    rw [hsub]
  have hget1 : (store dev p none).EffectList[p.lidx]? =
      some { sub with Effects := sub.Effects.set p.slidx none } := by
    rw [hstore, List.getElem?_set, if_pos rfl, if_pos hl]
  refine ⟨{ EffectList := (dev.EffectList.set p.lidx
              { FreeMask := (sub.FreeMask ||| (1 <<< p.slidx)) % 2 ^ 64,
                Effects := sub.Effects.set p.slidx none }),
            mEffectNames := eraseName dev.mEffectNames h }, ?_, ?_, ?_⟩
  · unfold FreeEffect
    rw [he]
    simp only [hid, handle_wrap h1 h2, e1, e2, hL, hS, hget1]
    rw [hstore, List.set_set]
  · refine ⟨hs, ⟨sub, _, hsub, rfl, rfl, ?_, ?_⟩, fun _ => rfl, ?_⟩
    · exact Nat.mod_lt _ (by positivity)
    · intro j
      show ((sub.FreeMask ||| 1 <<< p.slidx) % 2 ^ 64).testBit j = _
      rw [testBit_set_bit]
      by_cases hj : j = p.slidx
      · subst hj; simp [hs]
      · by_cases hj64 : j < 64
        · simp [hj, hj64]
        · simp [hj, hj64, testBit_ge_64 hm (Nat.le_of_not_lt hj64)]
    · intro hb; exact Bool.noConfusion hb
  · rfl

/-! ## `EnsureEffects` -/

theorem EnsureEffects.loop_spec (al_calloc : Nat → Bool) (needed : Nat) :
    ∀ (d : Nat) (list : List (EffectSubList P)) (count : Nat), needed - count = d →
      ∃ k, (EnsureEffects.loop al_calloc needed list count).2
            = list ++ List.replicate k freshSubList ∧
        k ≤ (needed - count + 63) / 64 ∧
        (k = 0 ∨ list.length + k ≤ 2 ^ 25) ∧
        ((EnsureEffects.loop al_calloc needed list count).1 = true →
          k = (needed - count + 63) / 64) ∧
        ((∀ i, al_calloc i = true) → list.length + (needed - count + 63) / 64 ≤ 2 ^ 25 →
          (EnsureEffects.loop al_calloc needed list count).1 = true) := by
  intro d
  induction d using Nat.strong_induction_on with
  | _ d ih =>
    intro list count hd
    rw [EnsureEffects.loop]
    by_cases hgt : needed > count
    · rw [if_pos hgt]
      by_cases hcap : list.length ≥ 2 ^ 25
      · rw [if_pos hcap]
        refine ⟨0, by simp, Nat.zero_le _, Or.inl rfl, ?_, ?_⟩
        · intro h; exact Bool.noConfusion h
        · intro _ hfit; omega
      · rw [if_neg hcap]
        cases hc : al_calloc list.length with
        | false =>
          simp only [Bool.false_eq_true, if_false]
          refine ⟨0, by simp, Nat.zero_le _, Or.inl rfl, ?_, ?_⟩
          · intro h; exact h.elim
          · intro hall; rw [hall] at hc; exact Bool.noConfusion hc
        | true =>
          simp only [if_true]
          obtain ⟨k, hk1, hk2, hk3, hk4, hk5⟩ :=
            ih (needed - (count + 64)) (by omega) (list ++ [freshSubList]) (count + 64) rfl
          have hlen : (list ++ [freshSubList (P := P)]).length = list.length + 1 := by simp
          refine ⟨k + 1, ?_, by omega, Or.inr ?_, ?_, ?_⟩
          · rw [hk1, List.append_assoc, List.replicate_succ]
            rfl
          · rw [hlen] at hk3
            rcases hk3 with h0 | h0 <;> omega
          · intro ht; have := hk4 ht; omega
          · intro hall hfit
            apply hk5 hall
            rw [hlen]; omega
    · rw [if_neg hgt]
      refine ⟨0, by simp, Nat.zero_le _, Or.inl rfl, ?_, ?_⟩
      · intro _; omega
      · intro _ _; rfl

theorem EnsureEffects_spec (al_calloc : Nat → Bool) (device : ALCdevice P) (needed : Nat) :
    ∃ k, (EnsureEffects al_calloc device needed).2
          = { device with EffectList := device.EffectList ++ List.replicate k freshSubList } ∧
      k ≤ (needed - freeCount device.EffectList + 63) / 64 ∧
      (k = 0 ∨ device.EffectList.length + k ≤ 2 ^ 25) ∧
      ((EnsureEffects al_calloc device needed).1 = true →
        k = (needed - freeCount device.EffectList + 63) / 64) ∧
      ((∀ i, al_calloc i = true) →
        device.EffectList.length + (needed - freeCount device.EffectList + 63) / 64 ≤ 2 ^ 25 →
        (EnsureEffects al_calloc device needed).1 = true) := by
  obtain ⟨k, h1, h2, h3, h4, h5⟩ := EnsureEffects.loop_spec al_calloc needed _
    device.EffectList (freeCount device.EffectList) rfl
  refine ⟨k, ?_, h2, h3, h4, h5⟩
  show ({ device with EffectList := _ } : ALCdevice P) = _
  rw [← h1]
  rfl

theorem freeCount_append (l1 l2 : List (EffectSubList P)) :
    freeCount (l1 ++ l2) = freeCount l1 + freeCount l2 := by
  simp [freeCount]

theorem freeCount_replicate_fresh (k : Nat) :
    freeCount (List.replicate k (freshSubList (P := P))) = 64 * k := by
  induction k with
  | zero => rfl
  | succ k ih =>
    rw [List.replicate_succ]
    show popcount (2 ^ 64 - 1) + freeCount (List.replicate k freshSubList) = _
    rw [ih, popcount_all_ones]
    omega

theorem subInv_fresh (l : Nat) : SubInv l (freshSubList (P := P)) := by
  refine ⟨by unfold freshSubList; norm_num, by simp [freshSubList], ?_⟩
  intro s hs
  constructor
  · intro _
    show (List.replicate 64 none)[s]? = some none
    rw [List.getElem?_replicate, if_pos hs]
  · intro hb
    have : (2 ^ 64 - 1).testBit s = true := by
      rw [Nat.testBit_two_pow_sub_one]; exact decide_eq_true hs
    have hb2 : (2 ^ 64 - 1).testBit s = false := hb
    rw [this] at hb2
    exact Bool.noConfusion hb2

theorem append_fresh_poolInv {dev : ALCdevice P} (hinv : PoolInv dev) {k : Nat}
    (hk : k = 0 ∨ dev.EffectList.length + k ≤ 2 ^ 25) :
    PoolInv { dev with EffectList := dev.EffectList ++ List.replicate k freshSubList } := by
  refine ⟨?_, ?_⟩
  · show (dev.EffectList ++ List.replicate k freshSubList).length ≤ 2 ^ 25
    rw [List.length_append, List.length_replicate]
    have := hinv.1
    rcases hk with h | h <;> omega
  · intro l sub hl
    have hl2 : (dev.EffectList ++ List.replicate k freshSubList)[l]? = some sub := hl
    rw [List.getElem?_append] at hl2
    by_cases hlt : l < dev.EffectList.length
    · rw [if_pos hlt] at hl2
      exact hinv.2 l sub hl2
    · rw [if_neg hlt, List.getElem?_replicate] at hl2
      by_cases hk2 : l - dev.EffectList.length < k
      · rw [if_pos hk2] at hl2
        rw [← Option.some.inj hl2]
        exact subInv_fresh l
      · rw [if_neg hk2] at hl2
        exact Option.noConfusion hl2

theorem append_fresh_lookup (dev : ALCdevice P) (k h : Nat) :
    LookupEffect { dev with EffectList := dev.EffectList ++ List.replicate k freshSubList } h
      = LookupEffect dev h := by
  rw [LookupEffect_eq, LookupEffect_eq]
  show (match (dev.EffectList ++ List.replicate k freshSubList)[(h + 2 ^ 32 - 1) % 2 ^ 32 / 64]?
    with
    | none => none
    | some sublist =>
      if sublist.FreeMask.testBit ((h + 2 ^ 32 - 1) % 2 ^ 32 % 64) = true then none
      else some (EffectPtr.mk ((h + 2 ^ 32 - 1) % 2 ^ 32 / 64)
        ((h + 2 ^ 32 - 1) % 2 ^ 32 % 64))) = _
  rw [List.getElem?_append]
  by_cases hlt : (h + 2 ^ 32 - 1) % 2 ^ 32 / 64 < dev.EffectList.length
  · rw [if_pos hlt]
  · rw [if_neg hlt, List.getElem?_eq_none (Nat.le_of_not_lt hlt), List.getElem?_replicate]
    by_cases hk : (h + 2 ^ 32 - 1) % 2 ^ 32 / 64 - dev.EffectList.length < k
    · rw [if_pos hk]
      have hbit : (freshSubList (P := P)).FreeMask.testBit ((h + 2 ^ 32 - 1) % 2 ^ 32 % 64)
          = true := by
        show (2 ^ 64 - 1).testBit _ = true
        rw [Nat.testBit_two_pow_sub_one]
        exact decide_eq_true (Nat.mod_lt _ (by decide))
      simp only [hbit, if_true]
    · rw [if_neg hk]

theorem append_fresh_deref (dev : ALCdevice P) (k : Nat) {p : EffectPtr}
    (hp : p.lidx < dev.EffectList.length) :
    deref { dev with EffectList := dev.EffectList ++ List.replicate k freshSubList } p
      = deref dev p := by
  show (match (dev.EffectList ++ List.replicate k freshSubList)[p.lidx]? with
    | none => none
    | some sublist => (sublist.Effects[p.slidx]?).join) = _
  rw [List.getElem?_append_left hp]
  rfl

theorem lookup_lidx_lt {dev : ALCdevice P} {h : Nat} {p : EffectPtr}
    (hp : LookupEffect dev h = some p) : p.lidx < dev.EffectList.length := by
  rw [LookupEffect_eq] at hp
  cases hsub : dev.EffectList[(h + 2 ^ 32 - 1) % 2 ^ 32 / 64]? with
  | none => rw [hsub] at hp; exact Option.noConfusion hp
  | some sub =>
    rw [hsub] at hp
    have hl := (List.getElem?_eq_some.mp hsub).1
    by_cases hb : sub.FreeMask.testBit ((h + 2 ^ 32 - 1) % 2 ^ 32 % 64) = true
    · simp only [hb, if_true] at hp
      exact Option.noConfusion hp
    · simp only [hb] at hp
      have := Option.some.inj hp
      rw [← this]
      exact hl

theorem append_fresh_objectAt (dev : ALCdevice P) (k h : Nat) :
    objectAt { dev with EffectList := dev.EffectList ++ List.replicate k freshSubList } h
      = objectAt dev h := by
  unfold objectAt
  rw [append_fresh_lookup]
  cases hp : LookupEffect dev h with
  | none => rfl
  | some p => exact append_fresh_deref dev k (lookup_lidx_lt hp)

theorem EnsureEffects_poolInv (al_calloc : Nat → Bool) {dev : ALCdevice P} (hinv : PoolInv dev)
    (needed : Nat) : PoolInv (EnsureEffects al_calloc dev needed).2 := by
  obtain ⟨k, h1, _, h3, _⟩ := EnsureEffects_spec al_calloc dev needed
  rw [h1]
  exact append_fresh_poolInv hinv h3

theorem EnsureEffects_lookup (al_calloc : Nat → Bool) (dev : ALCdevice P) (needed h : Nat) :
    LookupEffect (EnsureEffects al_calloc dev needed).2 h = LookupEffect dev h := by
  obtain ⟨k, h1, _⟩ := EnsureEffects_spec al_calloc dev needed
  rw [h1]
  exact append_fresh_lookup dev k h

theorem EnsureEffects_objectAt (al_calloc : Nat → Bool) (dev : ALCdevice P) (needed h : Nat) :
    objectAt (EnsureEffects al_calloc dev needed).2 h = objectAt dev h := by
  obtain ⟨k, h1, _⟩ := EnsureEffects_spec al_calloc dev needed
  rw [h1]
  exact append_fresh_objectAt dev k h

theorem EnsureEffects_names (al_calloc : Nat → Bool) (dev : ALCdevice P) (needed : Nat) :
    (EnsureEffects al_calloc dev needed).2.mEffectNames = dev.mEffectNames := rfl

theorem EnsureEffects_freeCount (al_calloc : Nat → Bool) (dev : ALCdevice P) (needed : Nat)
    (hok : (EnsureEffects al_calloc dev needed).1 = true) :
    needed ≤ freeCount (EnsureEffects al_calloc dev needed).2.EffectList := by
  obtain ⟨k, h1, _, _, h4, _⟩ := EnsureEffects_spec al_calloc dev needed
  have hk := h4 hok
  rw [h1]
  show needed ≤ freeCount (dev.EffectList ++ List.replicate k freshSubList)
  rw [freeCount_append, freeCount_replicate_fresh]
  omega

/-! ## Counting free slots -/

theorem freeCount_set : ∀ (list : List (EffectSubList P)) (l : Nat) (sub sub1 : EffectSubList P),
    list[l]? = some sub →
      freeCount (list.set l sub1) + popcount sub.FreeMask
        = freeCount list + popcount sub1.FreeMask := by
  intro list
  induction list with
  | nil => intro l sub sub1 h; simp at h
  | cons a t ih =>
    intro l sub sub1 h
    cases l with
    | zero =>
      have ha : a = sub := by simpa using h
      subst ha
      show popcount sub1.FreeMask + freeCount t + popcount a.FreeMask
        = popcount a.FreeMask + freeCount t + popcount sub1.FreeMask
      omega
    | succ l =>
      have ht : t[l]? = some sub := by simpa using h
      have := ih l sub sub1 ht
      show popcount a.FreeMask + freeCount (t.set l sub1) + popcount sub.FreeMask
        = popcount a.FreeMask + freeCount t + popcount sub1.FreeMask
      omega

theorem exists_free_of_freeCount_pos : ∀ (list : List (EffectSubList P)),
    0 < freeCount list → ∃ sub ∈ list, sub.FreeMask ≠ 0 := by
  intro list
  induction list with
  | nil => intro h; exact absurd h (Nat.lt_irrefl 0)
  | cons a t ih =>
    intro h
    by_cases ha : a.FreeMask = 0
    · have h2 : 0 < popcount a.FreeMask + freeCount t := h
      rw [ha, popcount_zero] at h2
      obtain ⟨sub, hmem, hne⟩ := ih (by omega)
      exact ⟨sub, List.mem_cons_of_mem _ hmem, hne⟩
    · exact ⟨a, List.mem_cons_self _ _, ha⟩

/-- Everything the callers of `AllocEffect` rely on, for a pool with a free slot. -/
theorem AllocEffect_ok (pd : PropsData P) {dev : ALCdevice P} (hinv : PoolInv dev)
    (hfree : ∃ sub ∈ dev.EffectList, sub.FreeMask ≠ 0) :
    ∃ dev1 p,
      AllocEffect pd dev = some (dev1, p) ∧ PoolInv dev1 ∧
      deref dev1 p = some (newEffect pd p.lidx p.slidx) ∧
      p.slidx < 64 ∧ p.lidx < dev.EffectList.length ∧
      LookupEffect dev (p.lidx * 64 + p.slidx + 1) = none ∧
      (∀ h, 1 ≤ h → h < p.lidx * 64 + p.slidx + 1 → (LookupEffect dev h).isSome = true) ∧
      (∀ h, h < 2 ^ 32 → LookupEffect dev1 h =
        if h = p.lidx * 64 + p.slidx + 1 then some p else LookupEffect dev h) ∧
      (∀ h, h < 2 ^ 32 → objectAt dev1 h =
        if h = p.lidx * 64 + p.slidx + 1 then some (newEffect pd p.lidx p.slidx)
        else objectAt dev h) ∧
      freeCount dev1.EffectList + 1 = freeCount dev.EffectList ∧
      dev1.EffectList.length = dev.EffectList.length ∧
      dev1.mEffectNames = dev.mEffectNames := by
  obtain ⟨l, s, sub, dev1, hl, hsub, hne, hs, hbit, halloc, hupd, hnames⟩ :=
    AllocEffect_spec pd hinv hfree
  have hlt : l < dev.EffectList.length := (List.getElem?_eq_some.mp hsub).1
  have hl25 : l < 2 ^ 25 := lt_of_lt_of_le hlt hinv.1
  obtain ⟨hm, _, _⟩ := hinv.2 l sub hsub
  obtain ⟨hs64, _, hlow⟩ := countr_zero_spec hm hne
  rw [← hs] at hs64 hlow
  have hid32 : l * 64 + s + 1 < 2 ^ 32 := by omega
  refine ⟨dev1, ⟨l, s⟩, halloc, hupd.poolInv hinv, hupd.deref_self hinv, hs64, hlt,
    ?_, ?_, ?_, ?_, ?_, hupd.length_eq, hnames⟩
  · show LookupEffect dev (l * 64 + s + 1) = none
    rw [LookupEffect_pos dev (by omega) hid32]
    have e1 : (l * 64 + s + 1 - 1) / 64 = l := by omega
    have e2 : (l * 64 + s + 1 - 1) % 64 = s := by omega
    rw [e1, e2, hsub]
    simp only [hbit, if_true]
  · intro h h1 hlt2
    have hlt3 : h < l * 64 + s + 1 := hlt2
    rw [LookupEffect_pos dev h1 (by omega)]
    by_cases hL : (h - 1) / 64 < l
    · have hL2 : (h - 1) / 64 < dev.EffectList.length := by omega
      rw [List.getElem?_eq_getElem hL2]
      have hz := List.not_of_lt_findIdx (hl ▸ hL)
      have hz2 : dev.EffectList[(h - 1) / 64].FreeMask = 0 := by simpa using hz
      simp only [hz2, Nat.zero_testBit, Bool.false_eq_true, if_false, Option.isSome_some]
    · have hL2 : (h - 1) / 64 = l := by omega
      have hS : (h - 1) % 64 < s := by omega
      rw [hL2, hsub]
      simp only [hlow _ hS, Bool.false_eq_true, if_false, Option.isSome_some]
  · intro h h2
    have := hupd.lookup hinv h2
    simpa using this
  · intro h h2
    exact hupd.objectAt hinv h2
  · obtain ⟨sub0, sub1, hsub0, hlist, _, _, hbits⟩ := hupd.upd
    rw [hsub] at hsub0
    have hsubeq : sub = sub0 := Option.some.inj hsub0
    subst hsubeq
    have h1 := freeCount_set dev.EffectList l sub sub1 hsub
    rw [← hlist] at h1
    have hmask : sub1.FreeMask = sub.FreeMask &&& not_u64 (1 <<< s) := by
      apply Nat.eq_of_testBit_eq
      intro j
      rw [hbits j, testBit_clear_bit hm hs64]
      by_cases hj : j = s
      · simp [hj]
      · simp [hj]
    have h2 := popcount_clear_bit hm hs64 hbit
    rw [← hmask] at h2
    omega

/-! ## Pool invariant: basic instances and consequences -/

theorem poolInv_empty : PoolInv (emptyDevice (P := P)) := by
  refine ⟨by simp [emptyDevice], ?_⟩
  intro l sub h
  simp [emptyDevice] at h

theorem AllocEffect_some_hasFree {pd : PropsData P} {dev : ALCdevice P}
    {r : ALCdevice P × EffectPtr} (h : AllocEffect pd dev = some r) :
    ∃ sub ∈ dev.EffectList, sub.FreeMask ≠ 0 := by
  unfold AllocEffect at h
  cases hsub : dev.EffectList[dev.EffectList.findIdx (fun entry => entry.FreeMask != 0)]? with
  | none => simp only [hsub] at h; exact Option.noConfusion h
  | some sub =>
    have hp := List.findIdx_of_getElem?_eq_some hsub
    exact ⟨sub, List.getElem?_mem hsub, by simpa using hp⟩

theorem deref_some_pos {dev : ALCdevice P} (hinv : PoolInv dev) {p : EffectPtr} {e : ALeffect P}
    (h : deref dev p = some e) :
    p.slidx < 64 ∧ p.lidx < dev.EffectList.length ∧ e.id = p.lidx * 64 + p.slidx + 1 ∧
      LookupEffect dev (p.lidx * 64 + p.slidx + 1) = some p := by
  unfold deref at h
  cases hsub : dev.EffectList[p.lidx]? with
  | none => rw [hsub] at h; exact Option.noConfusion h
  | some sub =>
    rw [hsub] at h
    have hcell : (sub.Effects[p.slidx]?).join = some e := h
    obtain ⟨hm, hlen, hcells⟩ := hinv.2 _ sub hsub
    have hl : p.lidx < dev.EffectList.length := (List.getElem?_eq_some.mp hsub).1
    have hs : p.slidx < 64 := by
      by_contra hc
      rw [List.getElem?_eq_none (by omega)] at hcell
      exact Option.noConfusion hcell
    have hbit : sub.FreeMask.testBit p.slidx = false := by
      cases hb : sub.FreeMask.testBit p.slidx with
      | false => rfl
      | true =>
        rw [(hcells _ hs).1 hb] at hcell
        exact Option.noConfusion hcell
    obtain ⟨e2, he2, hid⟩ := (hcells _ hs).2 hbit
    rw [he2] at hcell
    have hee : e2 = e := Option.some.inj hcell
    subst hee
    have hl25 := hinv.1
    refine ⟨hs, hl, hid, ?_⟩
    rw [LookupEffect_pos dev (by omega) (by omega)]
    have e1 : (p.lidx * 64 + p.slidx + 1 - 1) / 64 = p.lidx := by omega
    have e2 : (p.lidx * 64 + p.slidx + 1 - 1) % 64 = p.slidx := by omega
    rw [e1, e2, hsub]
    simp only [hbit, Bool.false_eq_true, if_false]

theorem FreeEffect_some_deref {dev dev1 : ALCdevice P} {p : EffectPtr}
    (h : FreeEffect dev p = some dev1) : ∃ e, deref dev p = some e := by
  unfold FreeEffect at h
  cases hd : deref dev p with
  | none => rw [hd] at h; exact Option.noConfusion h
  | some e => exact ⟨e, rfl⟩

theorem poolReach_inv {pd : PropsData P} {dev : ALCdevice P} (hr : PoolReach pd dev) :
    PoolInv dev := by
  induction hr with
  | empty => exact poolInv_empty
  | ensure al_calloc needed _ ih => exact EnsureEffects_poolInv al_calloc ih needed
  | alloc _ halloc ih =>
    obtain ⟨dev1, p, h1, h2, _⟩ := AllocEffect_ok pd ih (AllocEffect_some_hasFree halloc)
    rw [halloc] at h1
    have := Option.some.inj h1
    rw [Prod.mk.injEq] at this
    rw [this.1]
    exact h2
  | free _ hfree ih =>
    obtain ⟨e, he⟩ := FreeEffect_some_deref hfree
    obtain ⟨hs, hl, _, hlook⟩ := deref_some_pos ih he
    have hl25 := ih.1
    obtain ⟨dev2, h1, hupd, _⟩ := FreeEffect_spec ih (by omega) hlook
    rw [hfree] at h1
    rw [Option.some.inj h1]
    exact hupd.poolInv ih

theorem poolInv_distinct {dev : ALCdevice P} (hinv : PoolInv dev) {p q : EffectPtr}
    {e1 e2 : ALeffect P} (h1 : deref dev p = some e1) (h2 : deref dev q = some e2)
    (hpq : p ≠ q) : e1.id ≠ e2.id := by
  obtain ⟨hs1, _, hid1, _⟩ := deref_some_pos hinv h1
  obtain ⟨hs2, _, hid2, _⟩ := deref_some_pos hinv h2
  intro heq
  apply hpq
  cases p; cases q
  simp only [EffectPtr.mk.injEq]
  simp only at hs1 hs2 hid1 hid2
  omega

theorem poolInv_samplePool : PoolInv samplePool := by
  refine ⟨by simp [samplePool], ?_⟩
  intro l sub h
  have hl : l = 0 := by
    have := (List.getElem?_eq_some.mp h).1
    simp [samplePool] at this
    exact this
  subst hl
  have hsub : sub = sampleSubList := by
    simpa [samplePool] using h.symm
  subst hsub
  refine ⟨by simp [sampleSubList], by simp [sampleSubList], ?_⟩
  intro s hs
  have hbit : (2 ^ 64 - 4 : Nat).testBit s = decide (2 ≤ s) := by
    have h3 : (3 : Nat) < 2 ^ 64 := by norm_num
    have e : (2 ^ 64 - 4 : Nat) = 2 ^ 64 - (3 + 1) := by norm_num
    rw [e, Nat.testBit_two_pow_sub_succ h3]
    have : (3 : Nat) = 2 ^ 2 - 1 := by norm_num
    rw [this, Nat.testBit_two_pow_sub_one]
    by_cases h2 : 2 ≤ s
    · simp [hs, h2]
    · have : s < 2 := by omega
      simp [hs, this]
  show ((2 ^ 64 - 4 : Nat).testBit s = true → sampleSubList.Effects[s]? = some none) ∧
    ((2 ^ 64 - 4 : Nat).testBit s = false → _)
  rw [hbit]
  match s, hs with
  | 0, _ => exact ⟨fun h => by simp at h, fun _ => ⟨_, rfl, rfl⟩⟩
  | 1, _ => exact ⟨fun h => by simp at h, fun _ => ⟨_, rfl, rfl⟩⟩
  | s + 2, hs =>
    refine ⟨fun _ => ?_, fun h => by simp at h⟩
    have e : sampleSubList.Effects[s + 2]? = (List.replicate 62 none)[s]? := by
      simp only [sampleSubList, List.getElem?_cons_succ]
    rw [e, List.getElem?_replicate, if_pos (by omega)]

/-- C1: in a pool with a free slot, `AllocEffect` takes the first sublist `l` with a
non-zero `FreeMask` and the lowest set bit `s` of that mask, returns an object whose id is
`((l<<6)|s)+1`, clears exactly that mask bit and leaves every other mask bit unchanged; the
id is the smallest handle (from 1 up) that was not live before the call.  In particular,
freeing handle 1 and allocating again reissues handle 1. -/
theorem C1_alloc_lowest_free_handle (pd : PropsData P) (dev : ALCdevice P)
    (hinv : PoolInv dev) :
    ((∃ sub ∈ dev.EffectList, sub.FreeMask ≠ 0) →
      ∃ l s sub dev1 e,
        dev.EffectList[l]? = some sub ∧ sub.FreeMask ≠ 0 ∧
        (∀ k subk, k < l → dev.EffectList[k]? = some subk → subk.FreeMask = 0) ∧
        s < 64 ∧ sub.FreeMask.testBit s = true ∧
        (∀ j, j < s → sub.FreeMask.testBit j = false) ∧
        AllocEffect pd dev = some (dev1, ⟨l, s⟩) ∧
        deref dev1 ⟨l, s⟩ = some e ∧ e.id = ((l <<< 6) ||| s) + 1 ∧
        dev1.EffectList.length = dev.EffectList.length ∧
        (∀ k subk, dev.EffectList[k]? = some subk →
          ∃ subk1, dev1.EffectList[k]? = some subk1 ∧
            ∀ j, subk1.FreeMask.testBit j
              = (subk.FreeMask.testBit j && !decide (k = l ∧ j = s))) ∧
        1 ≤ e.id ∧ LookupEffect dev e.id = none ∧
        (∀ h, 1 ≤ h → h < e.id → (LookupEffect dev h).isSome = true)) ∧
    (∀ p, LookupEffect dev 1 = some p →
      ∃ dev1 dev2 q e, FreeEffect dev p = some dev1 ∧
        AllocEffect pd dev1 = some (dev2, q) ∧ deref dev2 q = some e ∧ e.id = 1 ∧
        LookupEffect dev2 1 = some q) := by
  constructor
  · intro hfree
    obtain ⟨l, s, sub, dev1, hl, hsub, hne, hs, hbit, halloc, hupd, _⟩ :=
      AllocEffect_spec pd hinv hfree
    obtain ⟨dev1b, p, halloc2, _, _, _, _, hnone, hsmall, _⟩ := AllocEffect_ok pd hinv hfree
    rw [halloc] at halloc2
    have hpe : (⟨l, s⟩ : EffectPtr) = p := (Prod.mk.injEq _ _ _ _ ▸ Option.some.inj halloc2).2
    subst hpe
    obtain ⟨hm, _, _⟩ := hinv.2 l sub hsub
    obtain ⟨hs64, _, hlow⟩ := countr_zero_spec hm hne
    rw [← hs] at hs64 hlow
    have hid : (newEffect pd l s).id = (l <<< 6 ||| s) + 1 := by
      rw [shiftLeft_or_eq hs64]; rfl
    refine ⟨l, s, sub, dev1, newEffect pd l s, hsub, hne, ?_, hs64, hbit, hlow, halloc,
      hupd.deref_self hinv, hid, hupd.length_eq, ?_, ?_, ?_, ?_⟩
    · intro k subk hk hsubk
      have hk2 : k < dev.EffectList.length := (List.getElem?_eq_some.mp hsubk).1
      have hz := List.not_of_lt_findIdx (hl ▸ hk)
      have hkk : dev.EffectList[k] = subk := by
        have := List.getElem?_eq_getElem hk2
        rw [hsubk] at this
        exact (Option.some.inj this).symm
      rw [hkk] at hz
      simpa using hz
    · intro k subk hsubk
      obtain ⟨sub0, sub1, hsub0, hlist, _, _, hbits⟩ := hupd.upd
      rw [hsub] at hsub0
      have hsubeq : sub = sub0 := Option.some.inj hsub0
      subst hsubeq
      have hk2 : k < dev.EffectList.length := (List.getElem?_eq_some.mp hsubk).1
      by_cases hkl : l = k
      · subst hkl
        rw [hsub] at hsubk
        have : sub = subk := Option.some.inj hsubk
        subst this
        refine ⟨sub1, by rw [hlist, List.getElem?_set, if_pos rfl, if_pos hk2], ?_⟩
        intro j
        rw [hbits j]
        by_cases hj : j = s
        · subst hj; simp [hbit]
        · simp [hj]
      · refine ⟨subk, by rw [hlist, List.getElem?_set, if_neg hkl]; exact hsubk, ?_⟩
        intro j
        have : ¬ k = l := fun h => hkl h.symm
        simp [this]
    · show 1 ≤ l * 64 + s + 1
      omega
    · exact hnone
    · exact hsmall
  · intro p hp
    have h32 : (1 : Nat) < 2 ^ 32 := by norm_num
    obtain ⟨dev1, hfreeEq, hupd, _⟩ := FreeEffect_spec hinv h32 hp
    obtain ⟨_, _, _, _, hh, hs, _⟩ := deref_of_lookup hinv h32 hp
    have hinv1 := hupd.poolInv hinv
    have hdead : LookupEffect dev1 1 = none := by
      rw [hupd.lookup hinv h32, if_pos hh]
      rfl
    have hfree1 : ∃ sub ∈ dev1.EffectList, sub.FreeMask ≠ 0 := by
      obtain ⟨sub0, sub1, hsub0, hlist, _, _, hbits⟩ := hupd.upd
      have hl : p.lidx < dev.EffectList.length := (List.getElem?_eq_some.mp hsub0).1
      refine ⟨sub1, ?_, ?_⟩
      · apply List.getElem?_mem (n := p.lidx)
        rw [hlist, List.getElem?_set, if_pos rfl, if_pos hl]
      · intro hz
        have := hbits p.slidx
        rw [hz, if_pos rfl] at this
        simp at this
    obtain ⟨dev2, q, halloc, _, hderef, hqs, _, _, hsmall, hlook2, _⟩ :=
      AllocEffect_ok pd hinv1 hfree1
    have hq1 : q.lidx * 64 + q.slidx + 1 = 1 := by
      by_contra hne
      have := hsmall 1 (le_refl 1) (by omega)
      rw [hdead] at this
      exact Bool.noConfusion this
    refine ⟨dev1, dev2, q, newEffect pd q.lidx q.slidx, hfreeEq, halloc, hderef, hq1, ?_⟩
    rw [hlook2 1 h32, if_pos hq1.symm]

theorem C1_alloc_lowest_free_handle_witness :
    PoolInv samplePool ∧ (∃ sub ∈ samplePool.EffectList, sub.FreeMask ≠ 0) ∧
    (∃ p, LookupEffect samplePool 1 = some p) ∧
    (∃ l s sub dev1 e,
        samplePool.EffectList[l]? = some sub ∧ sub.FreeMask ≠ 0 ∧
        (∀ k subk, k < l → samplePool.EffectList[k]? = some subk → subk.FreeMask = 0) ∧
        s < 64 ∧ sub.FreeMask.testBit s = true ∧
        (∀ j, j < s → sub.FreeMask.testBit j = false) ∧
        AllocEffect samplePd samplePool = some (dev1, ⟨l, s⟩) ∧
        deref dev1 ⟨l, s⟩ = some e ∧ e.id = ((l <<< 6) ||| s) + 1 ∧
        dev1.EffectList.length = samplePool.EffectList.length ∧
        (∀ k subk, samplePool.EffectList[k]? = some subk →
          ∃ subk1, dev1.EffectList[k]? = some subk1 ∧
            ∀ j, subk1.FreeMask.testBit j
              = (subk.FreeMask.testBit j && !decide (k = l ∧ j = s))) ∧
        1 ≤ e.id ∧ LookupEffect samplePool e.id = none ∧
        (∀ h, 1 ≤ h → h < e.id → (LookupEffect samplePool h).isSome = true)) ∧
    (∃ dev1 dev2 q e, FreeEffect samplePool ⟨0, 0⟩ = some dev1 ∧
        AllocEffect samplePd dev1 = some (dev2, q) ∧ deref dev2 q = some e ∧ e.id = 1 ∧
        LookupEffect dev2 1 = some q) :=
  ⟨poolInv_samplePool, ⟨_, List.mem_singleton.mpr rfl, by decide⟩, ⟨⟨0, 0⟩, by decide⟩,
    (C1_alloc_lowest_free_handle samplePd samplePool poolInv_samplePool).1
      ⟨_, List.mem_singleton.mpr rfl, by decide⟩,
    (C1_alloc_lowest_free_handle samplePd samplePool poolInv_samplePool).2 ⟨0, 0⟩ (by decide)⟩

/-- C3: handle 0 is never a live effect.  In every pool holding at most `2^25` sublists
(with 64-bit masks), the id that `AllocEffect` computes in 32-bit unsigned arithmetic and
stores in the object it returns equals `((l<<6)|s)+1` without wrap-around and lies in
`1 .. 2^31`; and `LookupEffect 0`, whose index computation wraps `0-1` to `0xFFFFFFFF`
(sublist index `2^26-1`), resolves to no object, before and after the allocation. -/
theorem C3_handle_zero_reserved (pd : PropsData P) (dev : ALCdevice P)
    (hlen : dev.EffectList.length ≤ 2 ^ 25)
    (hmask : ∀ sub ∈ dev.EffectList, sub.FreeMask < 2 ^ 64) :
    (∀ dev1 p, AllocEffect pd dev = some (dev1, p) →
      p.lidx < 2 ^ 25 ∧ p.slidx < 64 ∧
      (∀ e, deref dev1 p = some e →
        e.id = ((p.lidx <<< 6) ||| p.slidx) + 1 ∧ 1 ≤ e.id ∧ e.id ≤ 2 ^ 31) ∧
      LookupEffect dev1 0 = none ∧ objectAt dev1 0 = none) ∧
    (0 + 2 ^ 32 - 1) % 2 ^ 32 = 0xFFFFFFFF ∧ ((0 + 2 ^ 32 - 1) % 2 ^ 32) >>> 6 = 2 ^ 26 - 1 ∧
    LookupEffect dev 0 = none ∧ objectAt dev 0 = none := by
  have hobj0 : ∀ d : ALCdevice P, LookupEffect d 0 = none → objectAt d 0 = none := by
    intro d hd
    unfold objectAt
    rw [hd]
    rfl
  refine ⟨?_, by norm_num, by decide, LookupEffect_zero hlen, hobj0 _ (LookupEffect_zero hlen)⟩
  intro dev1 p halloc
  unfold AllocEffect at halloc
  cases hsub : dev.EffectList[dev.EffectList.findIdx (fun entry => entry.FreeMask != 0)]? with
  | none => simp only [hsub] at halloc; exact Option.noConfusion halloc
  | some sub =>
    simp only [hsub] at halloc
    have hpair := Option.some.inj halloc
    rw [Prod.mk.injEq] at hpair
    obtain ⟨hd, hp⟩ := hpair
    have hlt : dev.EffectList.findIdx (fun entry => entry.FreeMask != 0)
        < dev.EffectList.length := (List.getElem?_eq_some.mp hsub).1
    have hne : sub.FreeMask ≠ 0 := by
      have := List.findIdx_of_getElem?_eq_some hsub
      simpa using this
    obtain ⟨hs64, _, _⟩ := countr_zero_spec (hmask sub (List.getElem?_mem hsub)) hne
    have hl25 : dev.EffectList.findIdx (fun entry => entry.FreeMask != 0) < 2 ^ 25 :=
      lt_of_lt_of_le hlt hlen
    have hlen1 : dev1.EffectList.length ≤ 2 ^ 25 := by
      rw [← hd]
      show (dev.EffectList.set _ _).length ≤ 2 ^ 25
      rw [List.length_set]
      exact hlen
    subst hp
    refine ⟨hl25, hs64, ?_, LookupEffect_zero hlen1, hobj0 _ (LookupEffect_zero hlen1)⟩
    intro e he
    rw [← hd] at he
    unfold deref at he
    simp only [List.getElem?_set, if_pos hlt, if_true] at he
    have hid : e.id = dev.EffectList.findIdx (fun entry => entry.FreeMask != 0) * 64
        + countr_zero sub.FreeMask + 1 := by
      by_cases hc : countr_zero sub.FreeMask < sub.Effects.length
      · rw [if_pos hc] at he
        have he2 := Option.some.inj he
        rw [← he2, handle_of_pos hl25 hs64]
      · rw [if_neg hc] at he
        exact Option.noConfusion he
    rw [shiftLeft_or_eq hs64]
    refine ⟨hid, by omega, by omega⟩

theorem C3_handle_zero_reserved_witness :
    samplePool.EffectList.length ≤ 2 ^ 25 ∧
    (∀ sub ∈ samplePool.EffectList, sub.FreeMask < 2 ^ 64) ∧
    ((∀ dev1 p, AllocEffect samplePd samplePool = some (dev1, p) →
      p.lidx < 2 ^ 25 ∧ p.slidx < 64 ∧
      (∀ e, deref dev1 p = some e →
        e.id = ((p.lidx <<< 6) ||| p.slidx) + 1 ∧ 1 ≤ e.id ∧ e.id ≤ 2 ^ 31) ∧
      LookupEffect dev1 0 = none ∧ objectAt dev1 0 = none) ∧
    (0 + 2 ^ 32 - 1) % 2 ^ 32 = 0xFFFFFFFF ∧ ((0 + 2 ^ 32 - 1) % 2 ^ 32) >>> 6 = 2 ^ 26 - 1 ∧
    LookupEffect samplePool 0 = none ∧ objectAt samplePool 0 = none) :=
  ⟨by decide, by decide,
    C3_handle_zero_reserved samplePd samplePool (by decide) (by decide)⟩

theorem poolReach_sampleReached : PoolReach samplePd sampleReached := by
  have h1 : PoolReach samplePd (EnsureEffects (fun _ => true) (emptyDevice (P := Nat)) 1).2 :=
    PoolReach.ensure _ _ PoolReach.empty
  have e1 : (EnsureEffects (fun _ => true) (emptyDevice (P := Nat)) 1).2
      = { EffectList := [freshSubList], mEffectNames := [] } := by
    simp [EnsureEffects, EnsureEffects.loop, emptyDevice]
  rw [e1] at h1
  exact PoolReach.alloc (p := ⟨0, 0⟩) h1 (by decide)

/-- C4: in every pool state reachable from the empty pool through `EnsureEffects`,
`AllocEffect` and `FreeEffect`, the object stored in used slot `s` of sublist `l` has id
`((l<<6)|s)+1`, so two distinct live effect objects have distinct handles. -/
theorem C4_live_ids_encode_position (pd : PropsData P) (dev : ALCdevice P)
    (hr : PoolReach pd dev) :
    (∀ l s sub, dev.EffectList[l]? = some sub → s < 64 → sub.FreeMask.testBit s = false →
      ∃ e, sub.Effects[s]? = some (some e) ∧ deref dev ⟨l, s⟩ = some e ∧
        e.id = ((l <<< 6) ||| s) + 1) ∧
    (∀ p q e1 e2, deref dev p = some e1 → deref dev q = some e2 → p ≠ q → e1.id ≠ e2.id) := by
  have hinv := poolReach_inv hr
  constructor
  · intro l s sub hsub hs hbit
    obtain ⟨e, he, hid⟩ := ((hinv.2 l sub hsub).2.2 s hs).2 hbit
    refine ⟨e, he, ?_, by rw [shiftLeft_or_eq hs]; exact hid⟩
    show (match dev.EffectList[l]? with
      | none => none
      | some sublist => (sublist.Effects[s]?).join) = some e
    rw [hsub]
    show (sub.Effects[s]?).join = some e
    rw [he]
    rfl
  · intro p q e1 e2 h1 h2 hpq
    exact poolInv_distinct hinv h1 h2 hpq

theorem C4_live_ids_encode_position_witness :
    PoolReach samplePd sampleReached ∧
    (∀ l s sub, sampleReached.EffectList[l]? = some sub → s < 64 →
      sub.FreeMask.testBit s = false →
      ∃ e, sub.Effects[s]? = some (some e) ∧ deref sampleReached ⟨l, s⟩ = some e ∧
        e.id = ((l <<< 6) ||| s) + 1) ∧
    (∀ p q e1 e2, deref sampleReached p = some e1 → deref sampleReached q = some e2 →
      p ≠ q → e1.id ≠ e2.id) :=
  ⟨poolReach_sampleReached,
    C4_live_ids_encode_position samplePd sampleReached poolReach_sampleReached⟩

/-- C5: when `EnsureEffects n` returns true, the number of free slots (the sum of the
popcounts of all masks) is at least `n`; exactly `ceil(max(0, n - free_before)/64)`
sublists were appended, each with all 64 slots free and no object in its storage; and no
sublist that existed before changed. -/
theorem C5_ensure_success (al_calloc : Nat → Bool) (dev : ALCdevice P) (n : Nat)
    (hok : (EnsureEffects al_calloc dev n).1 = true) :
    n ≤ freeCount (EnsureEffects al_calloc dev n).2.EffectList ∧
    (∃ appended : List (EffectSubList P),
      (EnsureEffects al_calloc dev n).2.EffectList = dev.EffectList ++ appended ∧
      appended.length = (n - freeCount dev.EffectList + 63) / 64 ∧
      ∀ sub ∈ appended, sub.FreeMask = 2 ^ 64 - 1 ∧ popcount sub.FreeMask = 64 ∧
        (∀ s, s < 64 → sub.FreeMask.testBit s = true) ∧
        sub.Effects = List.replicate 64 none) ∧
    (∀ l, l < dev.EffectList.length →
      (EnsureEffects al_calloc dev n).2.EffectList[l]? = dev.EffectList[l]?) ∧
    (EnsureEffects al_calloc dev n).2.mEffectNames = dev.mEffectNames := by
  obtain ⟨k, h1, _, _, h4, _⟩ := EnsureEffects_spec al_calloc dev n
  have hk := h4 hok
  have hlist : (EnsureEffects al_calloc dev n).2.EffectList
      = dev.EffectList ++ List.replicate k freshSubList := by rw [h1]
  refine ⟨EnsureEffects_freeCount al_calloc dev n hok, ⟨List.replicate k freshSubList, hlist,
    by rw [List.length_replicate, hk], ?_⟩, ?_, rfl⟩
  · intro sub hsub
    have hs : sub = freshSubList := (List.mem_replicate.mp hsub).2
    subst hs
    refine ⟨rfl, popcount_all_ones, ?_, rfl⟩
    intro s hs
    show (2 ^ 64 - 1).testBit s = true
    rw [Nat.testBit_two_pow_sub_one]
    exact decide_eq_true hs
  · intro l hl
    rw [hlist, List.getElem?_append_left hl]

theorem C5_ensure_success_witness :
    (EnsureEffects (fun _ => true) (emptyDevice (P := Nat)) 65).1 = true ∧
    (65 ≤ freeCount (EnsureEffects (fun _ => true) (emptyDevice (P := Nat)) 65).2.EffectList ∧
    (∃ appended : List (EffectSubList Nat),
      (EnsureEffects (fun _ => true) (emptyDevice (P := Nat)) 65).2.EffectList
        = (emptyDevice (P := Nat)).EffectList ++ appended ∧
      appended.length = (65 - freeCount (emptyDevice (P := Nat)).EffectList + 63) / 64 ∧
      ∀ sub ∈ appended, sub.FreeMask = 2 ^ 64 - 1 ∧ popcount sub.FreeMask = 64 ∧
        (∀ s, s < 64 → sub.FreeMask.testBit s = true) ∧
        sub.Effects = List.replicate 64 none) ∧
    (∀ l, l < (emptyDevice (P := Nat)).EffectList.length →
      (EnsureEffects (fun _ => true) (emptyDevice (P := Nat)) 65).2.EffectList[l]?
        = (emptyDevice (P := Nat)).EffectList[l]?) ∧
    (EnsureEffects (fun _ => true) (emptyDevice (P := Nat)) 65).2.mEffectNames
      = (emptyDevice (P := Nat)).mEffectNames) :=
  ⟨by simp [EnsureEffects, EnsureEffects.loop, emptyDevice],
   C5_ensure_success (fun _ => true) emptyDevice 65
     (by simp [EnsureEffects, EnsureEffects.loop, emptyDevice])⟩

/-- C6 as stated fails: with every storage allocation succeeding, `EnsureEffects` on the
empty pool with `n = 2^25 + 1` succeeds and leaves `2^19 + 1` sublists, a total capacity of
`2^25 + 64` slots, more than `2^25` slots. -/
theorem C6_counterexample :
    (EnsureEffects (fun _ => true) (emptyDevice (P := Nat)) (2 ^ 25 + 1)).1 = true ∧
    (EnsureEffects (fun _ => true) (emptyDevice (P := Nat)) (2 ^ 25 + 1)).2.EffectList.length
      = 2 ^ 19 + 1 ∧
    2 ^ 25 <
      64 * (EnsureEffects (fun _ => true) (emptyDevice (P := Nat)) (2 ^ 25 + 1)).2.EffectList.length
      := by
  obtain ⟨k, h1, _, _, h4, h5⟩ :=
    EnsureEffects_spec (fun _ => true) (emptyDevice (P := Nat)) (2 ^ 25 + 1)
  have hfc : freeCount (emptyDevice (P := Nat)).EffectList = 0 := rfl
  have hlen0 : (emptyDevice (P := Nat)).EffectList.length = 0 := rfl
  rw [hfc, hlen0] at h5
  rw [hfc] at h4
  have hok := h5 (fun _ => rfl) (by norm_num)
  have hk := h4 hok
  have hk2 : k = 2 ^ 19 + 1 := by rw [hk]; norm_num
  have hlen : (EnsureEffects (fun _ => true) (emptyDevice (P := Nat))
      (2 ^ 25 + 1)).2.EffectList.length = 2 ^ 19 + 1 := by
    rw [h1]
    show ((emptyDevice (P := Nat)).EffectList ++ List.replicate k freshSubList).length = _
    rw [List.length_append, List.length_replicate, hlen0, hk2]
    norm_num
  refine ⟨hok, hlen, ?_⟩
  rw [hlen]
  norm_num

/-- C6 (amended): the hard upper bound is `2^25` sublists, that is `2^31` slots.
`EnsureEffects` appends a sublist only while the pool holds fewer than `2^25` sublists: the
pool never grows past `2^25` sublists (a pool within the bound stays within it), the total
capacity of such a pool stays at most `2^31` slots, and `EnsureEffects n` fails whenever `n`
exceeds the free slots plus 64 for each sublist still allowed under the bound. -/
theorem C6_cap_is_sublists (al_calloc : Nat → Bool) (dev : ALCdevice P) (n : Nat) :
    (EnsureEffects al_calloc dev n).2.EffectList.length ≤ max dev.EffectList.length (2 ^ 25) ∧
    (dev.EffectList.length ≤ 2 ^ 25 →
      (EnsureEffects al_calloc dev n).2.EffectList.length ≤ 2 ^ 25 ∧
      64 * (EnsureEffects al_calloc dev n).2.EffectList.length ≤ 2 ^ 31) ∧
    (freeCount dev.EffectList + 64 * (2 ^ 25 - dev.EffectList.length) < n →
      (EnsureEffects al_calloc dev n).1 = false) := by
  obtain ⟨k, h1, _, h3, h4, _⟩ := EnsureEffects_spec al_calloc dev n
  have hlen : (EnsureEffects al_calloc dev n).2.EffectList.length
      = dev.EffectList.length + k := by
    rw [h1]
    show (dev.EffectList ++ List.replicate k freshSubList).length = _
    rw [List.length_append, List.length_replicate]
  refine ⟨?_, ?_, ?_⟩
  · rw [hlen]
    rcases h3 with h | h
    · rw [h]; exact le_max_left _ _
    · exact le_trans h (le_max_right _ _)
  · intro hle
    rw [hlen]
    rcases h3 with h | h <;> omega
  · intro hbig
    cases hr : (EnsureEffects al_calloc dev n).1 with
    | false => rfl
    | true =>
      have hk := h4 hr
      rcases h3 with h | h <;> omega

/-! ## Free-slot count and names under a slot update -/

theorem SlotUpdate.freeCount_used {dev dev1 : ALCdevice P} {l s : Nat}
    {c : Option (ALeffect P)} (u : SlotUpdate dev dev1 l s false c)
    (hbit : ∀ sub, dev.EffectList[l]? = some sub → sub.FreeMask.testBit s = true) :
    freeCount dev1.EffectList + 1 = freeCount dev.EffectList := by
  obtain ⟨sub, sub1, hsub, hlist, _, _, hbits⟩ := u.upd
  have h1 := freeCount_set dev.EffectList l sub sub1 hsub
  rw [← hlist] at h1
  have h2 : popcount sub1.FreeMask + 1 = popcount sub.FreeMask := by
    unfold popcount
    apply countP_remove_one _ _ s _ (List.nodup_range 64) (List.mem_range.mpr u.hs)
      (hbit sub hsub)
    · rw [hbits s, if_pos rfl]
    · intro x hx
      rw [hbits x, if_neg hx]
  omega

theorem SlotUpdate.freeCount_freed {dev dev1 : ALCdevice P} {l s : Nat}
    {c : Option (ALeffect P)} (u : SlotUpdate dev dev1 l s true c)
    (hbit : ∀ sub, dev.EffectList[l]? = some sub → sub.FreeMask.testBit s = false) :
    freeCount dev1.EffectList = freeCount dev.EffectList + 1 := by
  obtain ⟨sub, sub1, hsub, hlist, _, _, hbits⟩ := u.upd
  have h1 := freeCount_set dev.EffectList l sub sub1 hsub
  rw [← hlist] at h1
  have h2 : popcount sub.FreeMask + 1 = popcount sub1.FreeMask := by
    unfold popcount
    apply countP_remove_one _ _ s _ (List.nodup_range 64) (List.mem_range.mpr u.hs)
    · rw [hbits s, if_pos rfl]
    · exact hbit sub hsub
    · intro x hx
      rw [hbits x, if_neg hx]
  omega

theorem findName_cons (a : Nat × String) (t : List (Nat × String)) (k : Nat) :
    findName (a :: t) k = if a.1 = k then some a.2 else findName t k := by
  unfold findName
  rw [List.find?_cons]
  by_cases ha : a.1 = k
  · have hb : (a.1 == k) = true := by simpa using ha
    rw [hb, if_pos ha]
    rfl
  · have hb : (a.1 == k) = false := by simpa using ha
    rw [hb, if_neg ha]

theorem eraseName_cons (a : Nat × String) (t : List (Nat × String)) (h : Nat) :
    eraseName (a :: t) h = if a.1 = h then eraseName t h else a :: eraseName t h := by
  unfold eraseName
  rw [List.filter_cons]
  by_cases ha : a.1 = h
  · simp [ha]
  · simp [ha]

theorem findName_eraseName (names : List (Nat × String)) (h k : Nat) :
    findName (eraseName names h) k = if k = h then none else findName names k := by
  induction names with
  | nil => simp [findName, eraseName]
  | cons a t ih =>
    rw [eraseName_cons, findName_cons]
    by_cases ha : a.1 = h
    · rw [if_pos ha, ih]
      by_cases hk : k = h
      · rw [if_pos hk, if_pos hk]
      · have hak : ¬ a.1 = k := fun e => hk (e ▸ ha)
        rw [if_neg hk, if_neg hk, if_neg hak]
    · rw [if_neg ha, findName_cons, ih]
      by_cases hak : a.1 = k
      · have hk : ¬ k = h := fun e => ha (hak.trans e)
        rw [if_pos hak, if_pos hak, if_neg hk]
      · rw [if_neg hak, if_neg hak]

/-- What `FreeEffect` does to the pool, for the object a live handle resolves to. -/
theorem FreeEffect_ok {dev : ALCdevice P} (hinv : PoolInv dev) {h : Nat} (h2 : h < 2 ^ 32)
    {p : EffectPtr} (hp : LookupEffect dev h = some p) :
    ∃ dev1, FreeEffect dev p = some dev1 ∧ PoolInv dev1 ∧
      (∀ k, k < 2 ^ 32 → LookupEffect dev1 k = if k = h then none else LookupEffect dev k) ∧
      (∀ k, k < 2 ^ 32 → objectAt dev1 k = if k = h then none else objectAt dev k) ∧
      freeCount dev1.EffectList = freeCount dev.EffectList + 1 ∧
      dev1.EffectList.length = dev.EffectList.length ∧
      dev1.mEffectNames = eraseName dev.mEffectNames h := by
  obtain ⟨dev1, hfree, hupd, hnames⟩ := FreeEffect_spec hinv h2 hp
  obtain ⟨_, _, _, h1, hh, hs, hl⟩ := deref_of_lookup hinv h2 hp
  refine ⟨dev1, hfree, hupd.poolInv hinv, ?_, ?_, ?_, hupd.length_eq, hnames⟩
  · intro k hk
    rw [hupd.lookup hinv hk, ← hh]
    rfl
  · intro k hk
    rw [hupd.objectAt hinv hk, ← hh]
  · apply hupd.freeCount_freed
    intro sub hsub
    rw [LookupEffect_some_iff dev h2 hinv.1] at hp
    obtain ⟨_, hpp, sub2, hsub2, hbit⟩ := hp
    subst hpp
    have hsub3 : dev.EffectList[(h - 1) / 64]? = some sub := hsub
    rw [hsub3] at hsub2
    rw [Option.some.inj hsub2]
    exact hbit

/-! ## `alGenEffects` -/

theorem allocAll_spec (pd : PropsData P) :
    ∀ (n : Nat) (dev : ALCdevice P) (ids : List Nat), PoolInv dev →
      n ≤ freeCount dev.EffectList →
      ∃ dev1 new, alGenEffects.allocAll pd n dev ids = some (dev1, ids ++ new) ∧
        PoolInv dev1 ∧ new.length = n ∧ new.Nodup ∧
        (∀ h ∈ new, 1 ≤ h ∧ h < 2 ^ 32 ∧ LookupEffect dev h = none) ∧
        (∀ h, h < 2 ^ 32 → LookupEffect dev1 h =
          if h ∈ new then some ⟨(h - 1) / 64, (h - 1) % 64⟩ else LookupEffect dev h) ∧
        (∀ h, h < 2 ^ 32 → objectAt dev1 h =
          if h ∈ new then some (newEffect pd ((h - 1) / 64) ((h - 1) % 64))
          else objectAt dev h) ∧
        freeCount dev1.EffectList + n = freeCount dev.EffectList ∧
        dev1.EffectList.length = dev.EffectList.length ∧
        dev1.mEffectNames = dev.mEffectNames := by
  intro n
  induction n with
  | zero =>
    intro dev ids hinv _
    exact ⟨dev, [], by simp [alGenEffects.allocAll], hinv, rfl, List.nodup_nil,
      by simp, by simp, by simp, rfl, rfl, rfl⟩
  | succ n ih =>
    intro dev ids hinv hcount
    obtain ⟨dev1, p, halloc, hinv1, hderef, hs, hl, hnone, _, hlook, hobj, hfc, hlen, hnames⟩ :=
      AllocEffect_ok pd hinv (exists_free_of_freeCount_pos _ (by omega))
    have hl25 := hinv.1
    have hi32 : p.lidx * 64 + p.slidx + 1 < 2 ^ 32 := by omega
    have hL : (p.lidx * 64 + p.slidx + 1 - 1) / 64 = p.lidx := by omega
    have hS : (p.lidx * 64 + p.slidx + 1 - 1) % 64 = p.slidx := by omega
    obtain ⟨dev2, new, hrec, hinv2, hnlen, hnd, hnew, hlook2, hobj2, hfc2, hlen2, hnames2⟩ :=
      ih dev1 (ids ++ [p.lidx * 64 + p.slidx + 1]) hinv1 (by omega)
    have hnotin : p.lidx * 64 + p.slidx + 1 ∉ new := by
      intro hmem
      have := (hnew _ hmem).2.2
      rw [hlook _ hi32, if_pos rfl] at this
      exact Option.noConfusion this
    refine ⟨dev2, (p.lidx * 64 + p.slidx + 1) :: new, ?_, hinv2, by simp [hnlen],
      List.nodup_cons.mpr ⟨hnotin, hnd⟩, ?_, ?_, ?_, by omega, by omega,
      by rw [hnames2, hnames]⟩
    · rw [alGenEffects.allocAll, halloc]
      simp only [hderef]
      rw [show (newEffect pd p.lidx p.slidx).id = p.lidx * 64 + p.slidx + 1 from rfl, hrec]
      simp
    · intro h hmem
      rcases List.mem_cons.mp hmem with he | ht
      · subst he
        exact ⟨by omega, hi32, hnone⟩
      · obtain ⟨a, b, c⟩ := hnew h ht
        refine ⟨a, b, ?_⟩
        rw [hlook h b] at c
        by_cases he : h = p.lidx * 64 + p.slidx + 1
        · rw [if_pos he] at c; exact Option.noConfusion c
        · rw [if_neg he] at c; exact c
    · intro h h2
      rw [hlook2 h h2, hlook h h2]
      by_cases hm : h ∈ new
      · rw [if_pos hm, if_pos (List.mem_cons_of_mem _ hm)]
      · rw [if_neg hm]
        by_cases he : h = p.lidx * 64 + p.slidx + 1
        · rw [if_pos he, if_pos (by rw [he]; exact List.mem_cons_self _ _), he, hL, hS]
        · rw [if_neg he, if_neg (by
            intro hc
            rcases List.mem_cons.mp hc with h1 | h1
            · exact he h1
            · exact hm h1)]
    · intro h h2
      rw [hobj2 h h2, hobj h h2]
      by_cases hm : h ∈ new
      · rw [if_pos hm, if_pos (List.mem_cons_of_mem _ hm)]
      · rw [if_neg hm]
        by_cases he : h = p.lidx * 64 + p.slidx + 1
        · rw [if_pos he, if_pos (by rw [he]; exact List.mem_cons_self _ _), he, hL, hS]
        · rw [if_neg he, if_neg (by
            intro hc
            rcases List.mem_cons.mp hc with h1 | h1
            · exact he h1
            · exact hm h1)]

theorem alGenEffectsDirect_eq (pd : PropsData P) (al_calloc : Nat → Bool) (dev : ALCdevice P)
    {n : Int} (hn : 0 < n) :
    alGenEffectsDirect pd al_calloc dev n =
      if (EnsureEffects al_calloc dev n.toNat).1 = true then
        (alGenEffects.allocAll pd n.toNat (EnsureEffects al_calloc dev n.toNat).2 []).map
          (fun r => ⟨r.1, none, some r.2⟩)
      else some ⟨(EnsureEffects al_calloc dev n.toNat).2, some AL_OUT_OF_MEMORY, none⟩ := by
  unfold alGenEffectsDirect
  rw [if_neg (by omega), if_neg (by omega)]
  cases hE : EnsureEffects al_calloc dev n.toNat with
  | mk ok dev1 =>
    cases ok with
    | false => simp
    | true =>
      simp only [if_true]
      by_cases h1 : n = 1
      · subst h1
        rw [if_pos rfl]
        have : (1 : Int).toNat = 1 := rfl
        rw [this, alGenEffects.allocAll]
        cases hA : AllocEffect pd dev1 with
        | none => rfl
        | some r =>
          obtain ⟨dev2, effect⟩ := r
          simp only
          cases hD : deref dev2 effect with
          | none => rfl
          | some obj => simp [alGenEffects.allocAll]
      · rw [if_neg h1]
        cases hA : alGenEffects.allocAll pd n.toNat dev1 [] with
        | none => rfl
        | some r => rfl

theorem LookupEffect_empty (h : Nat) : LookupEffect (emptyDevice (P := P)) h = none := by
  rw [LookupEffect_eq]
  rfl

/-- Allocating from a pool whose live handles are exactly `1 .. j` yields `j+1, j+2, ...`. -/
theorem allocAll_sequential (pd : PropsData P) :
    ∀ (n : Nat) (dev : ALCdevice P) (ids : List Nat) (j : Nat), PoolInv dev →
      (∀ h, 1 ≤ h → h < 2 ^ 32 → ((LookupEffect dev h).isSome = true ↔ h ≤ j)) →
      j + n ≤ 64 * dev.EffectList.length →
      ∃ dev1, alGenEffects.allocAll pd n dev ids = some (dev1, ids ++ List.range' (j + 1) n) ∧
        dev1.EffectList.length = dev.EffectList.length ∧ PoolInv dev1 ∧
        (∀ h, 1 ≤ h → h < 2 ^ 32 → ((LookupEffect dev1 h).isSome = true ↔ h ≤ j + n)) := by
  intro n
  induction n with
  | zero =>
    intro dev ids j hinv hlive _
    exact ⟨dev, by simp [alGenEffects.allocAll], rfl, hinv, hlive⟩
  | succ n ih =>
    intro dev ids j hinv hlive hcap
    have hl25 := hinv.1
    have hj32 : j + 1 < 2 ^ 32 := by omega
    have hjdead : LookupEffect dev (j + 1) = none := by
      cases hc : LookupEffect dev (j + 1) with
      | none => rfl
      | some p =>
        have := (hlive (j + 1) (by omega) hj32).mp (by rw [hc]; rfl)
        omega
    have hfree : ∃ sub ∈ dev.EffectList, sub.FreeMask ≠ 0 := by
      have hL : j / 64 < dev.EffectList.length := by omega
      have e : j + 1 - 1 = j := by omega
      rw [LookupEffect_pos dev (by omega) hj32, e, List.getElem?_eq_getElem hL] at hjdead
      refine ⟨dev.EffectList[j / 64], List.getElem_mem _, ?_⟩
      intro hz
      simp [hz] at hjdead
    obtain ⟨dev1, p, halloc, hinv1, hderef, hs, hl, hnone, hsmall, hlook, _, _, hlen, _⟩ :=
      AllocEffect_ok pd hinv hfree
    have hid : p.lidx * 64 + p.slidx + 1 = j + 1 := by
      by_contra hne
      rcases Nat.lt_or_gt_of_ne hne with hlt | hgt
      · have := (hlive _ (by omega) (by omega)).mpr (by omega : p.lidx * 64 + p.slidx + 1 ≤ j)
        rw [hnone] at this
        exact Bool.noConfusion this
      · have := hsmall (j + 1) (by omega) hgt
        rw [hjdead] at this
        exact Bool.noConfusion this
    have hlive1 : ∀ h, 1 ≤ h → h < 2 ^ 32 →
        ((LookupEffect dev1 h).isSome = true ↔ h ≤ j + 1) := by
      intro h h1 h2
      rw [hlook h h2, hid]
      by_cases he : h = j + 1
      · rw [if_pos he]; simp [he]
      · rw [if_neg he, hlive h h1 h2]; omega
    obtain ⟨dev2, hrec, hlen2, hinv2, hlive2⟩ :=
      ih dev1 (ids ++ [j + 1]) (j + 1) hinv1 hlive1 (by rw [hlen]; omega)
    refine ⟨dev2, ?_, by omega, hinv2, ?_⟩
    · rw [alGenEffects.allocAll, halloc]
      simp only [hderef]
      rw [show (newEffect pd p.lidx p.slidx).id = p.lidx * 64 + p.slidx + 1 from rfl, hid, hrec,
        List.append_assoc]
      rfl
    · intro h h1 h2
      rw [hlive2 h h1 h2]
      omega

/-- C7: with storage allocation succeeding, `alGenEffects n` on the empty pool (for any
`n >= 1` an `ALsizei` can hold) reports no error, leaves exactly `ceil(n/64)` sublists and
writes the handles `1, 2, ..., n` in that order. -/
theorem C7_gen_from_empty (pd : PropsData P) (n : Int) (h1 : 1 ≤ n) (h2 : n < 2 ^ 31) :
    ∃ dev2, alGenEffectsDirect pd (fun _ => true) emptyDevice n
        = some ⟨dev2, none, some (List.range' 1 n.toNat)⟩ ∧
      dev2.EffectList.length = (n.toNat + 63) / 64 := by
  have hn : 0 < n := by omega
  have hnat : n.toNat < 2 ^ 31 := by omega
  obtain ⟨k, hdev, _, _, h4, h5⟩ :=
    EnsureEffects_spec (fun _ => true) (emptyDevice (P := P)) n.toNat
  have hfc : freeCount (emptyDevice (P := P)).EffectList = 0 := rfl
  have hlen0 : (emptyDevice (P := P)).EffectList.length = 0 := rfl
  rw [hfc, hlen0] at h5
  rw [hfc] at h4
  have hok := h5 (fun _ => rfl) (by omega)
  have hk : k = (n.toNat + 63) / 64 := h4 hok
  have hinv1 := EnsureEffects_poolInv (fun _ => true) (poolInv_empty (P := P)) n.toNat
  have hlen1 : (EnsureEffects (fun _ => true) (emptyDevice (P := P)) n.toNat).2.EffectList.length
      = (n.toNat + 63) / 64 := by
    rw [hdev]
    show ((emptyDevice (P := P)).EffectList ++ List.replicate k freshSubList).length = _
    rw [List.length_append, List.length_replicate, hlen0, hk]
    omega
  obtain ⟨dev2, hall, hlen2, _, _⟩ := allocAll_sequential pd n.toNat
    (EnsureEffects (fun _ => true) (emptyDevice (P := P)) n.toNat).2 [] 0 hinv1
    (by
      intro h _ _
      rw [EnsureEffects_lookup, LookupEffect_empty]
      simp
      omega)
    (by rw [hlen1]; omega)
  refine ⟨dev2, ?_, by rw [hlen2, hlen1]⟩
  rw [alGenEffectsDirect_eq pd _ _ hn, if_pos hok, hall]
  rfl

theorem C7_gen_from_empty_witness :
    (1 : Int) ≤ 65 ∧ (65 : Int) < 2 ^ 31 ∧
    ∃ dev2, alGenEffectsDirect samplePd (fun _ => true) emptyDevice 65
        = some ⟨dev2, none, some (List.range' 1 65)⟩ ∧
      dev2.EffectList.length = 2 ∧ 64 * dev2.EffectList.length = 128 := by
  obtain ⟨dev2, h1, h2⟩ := C7_gen_from_empty samplePd 65 (by decide) (by decide)
  have h3 : dev2.EffectList.length = 2 := h2
  exact ⟨by decide, by decide, dev2, h1, h3, by rw [h3]⟩

theorem append_fresh_deref_all (dev : ALCdevice P) (k : Nat) (p : EffectPtr) :
    deref { dev with EffectList := dev.EffectList ++ List.replicate k freshSubList } p
      = deref dev p := by
  by_cases hp : p.lidx < dev.EffectList.length
  · exact append_fresh_deref dev k hp
  · have hnone : deref dev p = none := by
      unfold deref
      rw [List.getElem?_eq_none (Nat.le_of_not_lt hp)]
    rw [hnone]
    show (match (dev.EffectList ++ List.replicate k freshSubList)[p.lidx]? with
      | none => none
      | some sublist => (sublist.Effects[p.slidx]?).join) = none
    rw [List.getElem?_append_right (Nat.le_of_not_lt hp), List.getElem?_replicate]
    by_cases hk : p.lidx - dev.EffectList.length < k
    · rw [if_pos hk]
      show ((List.replicate 64 (none : Option (ALeffect P)))[p.slidx]?).join = none
      rw [List.getElem?_replicate]
      by_cases hs : p.slidx < 64
      · rw [if_pos hs]; rfl
      · rw [if_neg hs]; rfl
    · rw [if_neg hk]

/-- C8: bulk allocation is all-or-nothing.  When `EnsureEffects n` fails (and it does fail
whenever `n` exceeds the free slots plus what still fits under the hard cap, for instance
when only `n-1` slots fit), `alGenEffects n` reports `AL_OUT_OF_MEMORY`, writes nothing to
the caller's array, constructs no object (every storage cell holds what it held before, the
cells of sublists appended before the failure hold nothing), and every handle resolves as
before, to the same object and the same name. -/
theorem C8_gen_all_or_nothing (pd : PropsData P) (al_calloc : Nat → Bool) (dev : ALCdevice P)
    (n : Int) (hn : 0 < n) :
    ((EnsureEffects al_calloc dev n.toNat).1 = false →
      ∃ dev1, alGenEffectsDirect pd al_calloc dev n = some ⟨dev1, some AL_OUT_OF_MEMORY, none⟩ ∧
        (∀ p, deref dev1 p = deref dev p) ∧
        (∀ h, LookupEffect dev1 h = LookupEffect dev h) ∧
        (∀ h, objectAt dev1 h = objectAt dev h) ∧
        dev1.mEffectNames = dev.mEffectNames) ∧
    (freeCount dev.EffectList + 64 * (2 ^ 25 - dev.EffectList.length) < n.toNat →
      (EnsureEffects al_calloc dev n.toNat).1 = false) := by
  constructor
  · intro hfail
    obtain ⟨k, hdev, _⟩ := EnsureEffects_spec al_calloc dev n.toNat
    refine ⟨(EnsureEffects al_calloc dev n.toNat).2, ?_, ?_, ?_, ?_, rfl⟩
    · rw [alGenEffectsDirect_eq pd _ _ hn, hfail]
      rfl
    · intro p
      rw [hdev]
      exact append_fresh_deref_all dev k p
    · intro h
      exact EnsureEffects_lookup al_calloc dev n.toNat h
    · intro h
      exact EnsureEffects_objectAt al_calloc dev n.toNat h
  · intro hbig
    obtain ⟨k, _, _, h3, h4, _⟩ := EnsureEffects_spec al_calloc dev n.toNat
    cases hr : (EnsureEffects al_calloc dev n.toNat).1 with
    | false => rfl
    | true =>
      have hk := h4 hr
      rcases h3 with h | h <;> omega

theorem C8_gen_all_or_nothing_witness :
    (0 : Int) < 63 ∧ (EnsureEffects (fun _ => false) samplePool (63 : Int).toNat).1 = false ∧
    ∃ dev1, alGenEffectsDirect samplePd (fun _ => false) samplePool 63
        = some ⟨dev1, some AL_OUT_OF_MEMORY, none⟩ ∧
      (∀ p, deref dev1 p = deref samplePool p) ∧
      (∀ h, LookupEffect dev1 h = LookupEffect samplePool h) ∧
      (∀ h, objectAt dev1 h = objectAt samplePool h) ∧
      dev1.mEffectNames = samplePool.mEffectNames := by
  have hpc : popcount 18446744073709551612 = 62 := by decide
  have hfail : (EnsureEffects (fun _ => false) samplePool (63 : Int).toNat).1 = false := by
    simp [EnsureEffects, EnsureEffects.loop, samplePool, sampleSubList, hpc]
  exact ⟨by decide, hfail,
    (C8_gen_all_or_nothing samplePd (fun _ => false) samplePool 63 (by decide)).1 hfail⟩

/-! ## `alDeleteEffects` -/

theorem delete_effect_dead {dev : ALCdevice P} {eid : Nat}
    (h : eid = 0 ∨ LookupEffect dev eid = none) : delete_effect dev eid = some dev := by
  unfold delete_effect
  rcases h with h | h
  · subst h; rfl
  · by_cases h0 : eid = 0
    · subst h0; rfl
    · rw [if_pos h0, h]

theorem delete_effect_live {dev : ALCdevice P} {eid : Nat} {p : EffectPtr}
    (h0 : eid ≠ 0) (h : LookupEffect dev eid = some p) :
    delete_effect dev eid = FreeEffect dev p := by
  unfold delete_effect
  rw [if_pos h0, h]

theorem forEach_spec :
    ∀ (list : List Nat) (dev : ALCdevice P), PoolInv dev → (∀ e ∈ list, e < 2 ^ 32) →
      ∃ dev1, alDeleteEffects.forEach list dev = some dev1 ∧ PoolInv dev1 ∧
        (∀ h, h < 2 ^ 32 → LookupEffect dev1 h = if h ∈ list then none else LookupEffect dev h) ∧
        (∀ h, h < 2 ^ 32 → objectAt dev1 h = if h ∈ list then none else objectAt dev h) ∧
        (∀ h, h ∉ list → findName dev1.mEffectNames h = findName dev.mEffectNames h) ∧
        freeCount dev1.EffectList = freeCount dev.EffectList +
          (list.toFinset.filter (fun h => (LookupEffect dev h).isSome = true)).card ∧
        dev1.EffectList.length = dev.EffectList.length := by
  intro list
  induction list with
  | nil =>
    intro dev hinv _
    exact ⟨dev, rfl, hinv, by simp, by simp, by simp, by simp, rfl⟩
  | cons eid rest ih =>
    intro dev hinv h32
    have heid32 : eid < 2 ^ 32 := h32 eid (List.mem_cons_self _ _)
    have hrest32 : ∀ e ∈ rest, e < 2 ^ 32 := fun e he => h32 e (List.mem_cons_of_mem _ he)
    cases hlook : LookupEffect dev eid with
    | none =>
      obtain ⟨dev1, hrec, hinv1, hl1, ho1, hn1, hc1, hlen1⟩ := ih dev hinv hrest32
      refine ⟨dev1, ?_, hinv1, ?_, ?_, ?_, ?_, hlen1⟩
      · rw [alDeleteEffects.forEach, delete_effect_dead (Or.inr hlook)]
        exact hrec
      · intro h h2
        rw [hl1 h h2]
        by_cases hm : h ∈ rest
        · rw [if_pos hm, if_pos (List.mem_cons_of_mem _ hm)]
        · rw [if_neg hm]
          by_cases he : h = eid
          · rw [if_pos (by rw [he]; exact List.mem_cons_self _ _), he, hlook]
          · rw [if_neg (by
              intro hc
              rcases List.mem_cons.mp hc with h1 | h1
              · exact he h1
              · exact hm h1)]
      · intro h h2
        rw [ho1 h h2]
        by_cases hm : h ∈ rest
        · rw [if_pos hm, if_pos (List.mem_cons_of_mem _ hm)]
        · rw [if_neg hm]
          by_cases he : h = eid
          · rw [if_pos (by rw [he]; exact List.mem_cons_self _ _), he]
            unfold objectAt
            rw [hlook]
            rfl
          · rw [if_neg (by
              intro hc
              rcases List.mem_cons.mp hc with h1 | h1
              · exact he h1
              · exact hm h1)]
      · intro h hm
        exact hn1 h (fun hc => hm (List.mem_cons_of_mem _ hc))
      · rw [hc1]
        congr 2
        ext h
        simp only [Finset.mem_filter, List.mem_toFinset, List.mem_cons]
        constructor
        · rintro ⟨hm, hl⟩
          exact ⟨Or.inr hm, hl⟩
        · rintro ⟨hm | hm, hl⟩
          · rw [hm, hlook] at hl
            exact Bool.noConfusion hl
          · exact ⟨hm, hl⟩
    | some p =>
      have h0 : eid ≠ 0 := by
        intro hz
        rw [hz, LookupEffect_zero hinv.1] at hlook
        exact Option.noConfusion hlook
      obtain ⟨dev0, hfree, hinv0, hl0, ho0, hc0, hlen0, hn0⟩ := FreeEffect_ok hinv heid32 hlook
      obtain ⟨dev1, hrec, hinv1, hl1, ho1, hn1, hc1, hlen1⟩ := ih dev0 hinv0 hrest32
      refine ⟨dev1, ?_, hinv1, ?_, ?_, ?_, ?_, by rw [hlen1, hlen0]⟩
      · rw [alDeleteEffects.forEach, delete_effect_live h0 hlook, hfree]
        exact hrec
      · intro h h2
        rw [hl1 h h2, hl0 h h2]
        by_cases hm : h ∈ rest
        · rw [if_pos hm, if_pos (List.mem_cons_of_mem _ hm)]
        · rw [if_neg hm]
          by_cases he : h = eid
          · rw [if_pos he, if_pos (by rw [he]; exact List.mem_cons_self _ _)]
          · rw [if_neg he, if_neg (by
              intro hc
              rcases List.mem_cons.mp hc with h1 | h1
              · exact he h1
              · exact hm h1)]
      · intro h h2
        rw [ho1 h h2, ho0 h h2]
        by_cases hm : h ∈ rest
        · rw [if_pos hm, if_pos (List.mem_cons_of_mem _ hm)]
        · rw [if_neg hm]
          by_cases he : h = eid
          · rw [if_pos he, if_pos (by rw [he]; exact List.mem_cons_self _ _)]
          · rw [if_neg he, if_neg (by
              intro hc
              rcases List.mem_cons.mp hc with h1 | h1
              · exact he h1
              · exact hm h1)]
      · intro h hm
        have hne : ¬ h = eid := fun e => hm (by rw [e]; exact List.mem_cons_self _ _)
        rw [hn1 h (fun hc => hm (List.mem_cons_of_mem _ hc)), hn0, findName_eraseName,
          if_neg hne]
      · rw [hc1, hc0]
        have hset : (eid :: rest).toFinset.filter (fun h => (LookupEffect dev h).isSome = true)
            = insert eid (rest.toFinset.filter
                (fun h => (LookupEffect dev0 h).isSome = true)) := by
          ext h
          simp only [Finset.mem_filter, List.mem_toFinset, List.mem_cons, Finset.mem_insert]
          constructor
          · rintro ⟨hm | hm, hl⟩
            · exact Or.inl hm
            · by_cases he : h = eid
              · exact Or.inl he
              · refine Or.inr ⟨hm, ?_⟩
                rw [hl0 h (hrest32 h hm), if_neg he]
                exact hl
          · rintro (he | ⟨hm, hl⟩)
            · refine ⟨Or.inl he, ?_⟩
              rw [he, hlook]
              rfl
            · refine ⟨Or.inr hm, ?_⟩
              rw [hl0 h (hrest32 h hm)] at hl
              by_cases he : h = eid
              · rw [if_pos he] at hl
                exact Bool.noConfusion hl
              · rw [if_neg he] at hl
                exact hl
        have hnotin : eid ∉ rest.toFinset.filter
            (fun h => (LookupEffect dev0 h).isSome = true) := by
          simp only [Finset.mem_filter, List.mem_toFinset, not_and]
          intro _
          rw [hl0 eid heid32, if_pos rfl]
          simp
        rw [hset, Finset.card_insert_of_not_mem hnotin]
        omega

/-- C9: `alDeleteEffects` is all-or-nothing.  If some non-zero handle among the `n` entries
read does not resolve to a live effect, the call reports `AL_INVALID_NAME` and leaves the
device as it was.  Otherwise it reports no error; every non-zero handle in the list is dead
afterwards; every slot is freed exactly once although a handle may be repeated (the call is
defined, and the free-slot count rises by the number of distinct non-zero handles); zero
entries are ignored; and every handle not in the list resolves as before, to the same
object and the same name. -/
theorem C9_delete_all_or_nothing (dev : ALCdevice P) (hinv : PoolInv dev) (n : Int)
    (effects : List Nat) (hn : 0 < n) (hlen : n.toNat ≤ effects.length)
    (h32 : ∀ e ∈ effects, e < 2 ^ 32) :
    ((∃ e ∈ effects.take n.toNat, e ≠ 0 ∧ LookupEffect dev e = none) →
      alDeleteEffectsDirect dev n effects = some ⟨dev, some AL_INVALID_NAME, ()⟩) ∧
    ((∀ e ∈ effects.take n.toNat, e ≠ 0 → (LookupEffect dev e).isSome = true) →
      ∃ dev1, alDeleteEffectsDirect dev n effects = some ⟨dev1, none, ()⟩ ∧
        PoolInv dev1 ∧
        (∀ e ∈ effects.take n.toNat, LookupEffect dev1 e = none ∧ objectAt dev1 e = none) ∧
        (∀ h, h < 2 ^ 32 → h ∉ effects.take n.toNat →
          LookupEffect dev1 h = LookupEffect dev h ∧ objectAt dev1 h = objectAt dev h ∧
          findName dev1.mEffectNames h = findName dev.mEffectNames h) ∧
        freeCount dev1.EffectList = freeCount dev.EffectList +
          ((effects.take n.toNat).filter (fun e => e ≠ 0)).toFinset.card ∧
        dev1.EffectList.length = dev.EffectList.length) := by
  have hpre : alDeleteEffectsDirect dev n effects =
      match (effects.take n.toNat).find? (fun eid => !validate_effect dev eid) with
      | some _ => some ⟨dev, some AL_INVALID_NAME, ()⟩
      | none =>
        match alDeleteEffects.forEach (effects.take n.toNat) dev with
        | none => none
        | some device1 => some ⟨device1, none, ()⟩ := by
    unfold alDeleteEffectsDirect
    rw [if_neg (by omega), if_neg (by omega), if_neg (by omega)]
  have htake32 : ∀ e ∈ effects.take n.toNat, e < 2 ^ 32 :=
    fun e he => h32 e (List.mem_of_mem_take he)
  constructor
  · rintro ⟨e, hmem, he0, hdead⟩
    rw [hpre]
    cases hf : (effects.take n.toNat).find? (fun eid => !validate_effect dev eid) with
    | some _ => rfl
    | none =>
      have := List.find?_eq_none.mp hf e hmem
      simp [validate_effect, he0, hdead] at this
  · intro hall
    rw [hpre]
    have hf : (effects.take n.toNat).find? (fun eid => !validate_effect dev eid) = none := by
      apply List.find?_eq_none.mpr
      intro e hmem
      by_cases he0 : e = 0
      · simp [validate_effect, he0]
      · simp [validate_effect, he0, hall e hmem he0]
    rw [hf]
    obtain ⟨dev1, hrec, hinv1, hl1, ho1, hn1, hc1, hlen1⟩ :=
      forEach_spec (effects.take n.toNat) dev hinv htake32
    refine ⟨dev1, by simp only [hrec], hinv1, ?_, ?_, ?_, hlen1⟩
    · intro e hmem
      have h2 := htake32 e hmem
      exact ⟨by rw [hl1 e h2, if_pos hmem], by rw [ho1 e h2, if_pos hmem]⟩
    · intro h h2 hnot
      exact ⟨by rw [hl1 h h2, if_neg hnot], by rw [ho1 h h2, if_neg hnot], hn1 h hnot⟩
    · rw [hc1]
      congr 2
      ext h
      simp only [Finset.mem_filter, List.mem_toFinset, List.mem_filter, decide_eq_true_eq]
      constructor
      · rintro ⟨hm, hl⟩
        refine ⟨hm, ?_⟩
        intro hz
        rw [hz, LookupEffect_zero hinv.1] at hl
        exact Bool.noConfusion hl
      · rintro ⟨hm, hz⟩
        exact ⟨hm, hall h hm hz⟩

theorem C9_delete_all_or_nothing_witness :
    PoolInv samplePool ∧ (0 : Int) < 4 ∧ (4 : Int).toNat ≤ [2, 0, 2, 1].length ∧
    (∀ e ∈ [2, 0, 2, 1], e < 2 ^ 32) ∧
    (∀ e ∈ [2, 0, 2, 1].take (4 : Int).toNat, e ≠ 0 →
      (LookupEffect samplePool e).isSome = true) ∧
    ∃ dev1, alDeleteEffectsDirect samplePool 4 [2, 0, 2, 1] = some ⟨dev1, none, ()⟩ ∧
        PoolInv dev1 ∧
        (∀ e ∈ [2, 0, 2, 1].take (4 : Int).toNat,
          LookupEffect dev1 e = none ∧ objectAt dev1 e = none) ∧
        (∀ h, h < 2 ^ 32 → h ∉ [2, 0, 2, 1].take (4 : Int).toNat →
          LookupEffect dev1 h = LookupEffect samplePool h ∧
          objectAt dev1 h = objectAt samplePool h ∧
          findName dev1.mEffectNames h = findName samplePool.mEffectNames h) ∧
        freeCount dev1.EffectList = freeCount samplePool.EffectList +
          (([2, 0, 2, 1].take (4 : Int).toNat).filter (fun e => e ≠ 0)).toFinset.card ∧
        dev1.EffectList.length = samplePool.EffectList.length :=
  ⟨poolInv_samplePool, by decide, by decide, by decide, by decide,
    (C9_delete_all_or_nothing samplePool poolInv_samplePool 4 [2, 0, 2, 1] (by decide)
      (by decide) (by decide)).2 (by decide)⟩

/-- C10: a reissued slot is always reinitialised.  For a live handle `h`, whatever object
and display name it has, `FreeEffect` removes the name stored for `h`; and when the
following `AllocEffect` returns `h` again, the object at `h` has type `AL_EFFECT_NULL`, the
null-effect default parameters and the null vtable, and `mEffectNames` holds no name for
`h`. -/
theorem C10_reissued_slot_reinitialised (pd : PropsData P) (dev : ALCdevice P)
    (hinv : PoolInv dev) (h : Nat) (h2 : h < 2 ^ 32) (p : EffectPtr)
    (hp : LookupEffect dev h = some p) :
    ∃ dev1, FreeEffect dev p = some dev1 ∧ objectAt dev1 h = none ∧
      findName dev1.mEffectNames h = none ∧
      (∃ dev2 q, AllocEffect pd dev1 = some (dev2, q)) ∧
      (∀ dev2 q e, AllocEffect pd dev1 = some (dev2, q) → deref dev2 q = some e → e.id = h →
        e.type = AL_EFFECT_NULL ∧ e.Props = pd.DefaultProps PropsRef.NullEffectProps ∧
        e.vtab = some VtableRef.NullEffectVtable ∧
        LookupEffect dev2 h = some q ∧ objectAt dev2 h = some e ∧
        findName dev2.mEffectNames h = none) ∧
      ((∀ k, 1 ≤ k → k < h → (LookupEffect dev k).isSome = true) →
        ∃ dev2 q e, AllocEffect pd dev1 = some (dev2, q) ∧ deref dev2 q = some e ∧
          e.id = h) := by
  obtain ⟨dev1, hfree, hinv1, hl1, ho1, hc1, _, hn1⟩ := FreeEffect_ok hinv h2 hp
  have hname1 : findName dev1.mEffectNames h = none := by
    rw [hn1, findName_eraseName, if_pos rfl]
  have hfree1 : ∃ sub ∈ dev1.EffectList, sub.FreeMask ≠ 0 :=
    exists_free_of_freeCount_pos _ (by omega)
  refine ⟨dev1, hfree, by rw [ho1 h h2, if_pos rfl], hname1, ?_, ?_, ?_⟩
  · obtain ⟨dev2, q, halloc, _⟩ := AllocEffect_ok pd hinv1 hfree1
    exact ⟨dev2, q, halloc⟩
  · intro dev2 q e halloc hderef hid
    obtain ⟨dev2b, qb, halloc2, _, hderef2, _, _, _, _, hlook2, hobj2, _, _, hnames2⟩ :=
      AllocEffect_ok pd hinv1 hfree1
    rw [halloc] at halloc2
    have hpair := Option.some.inj halloc2
    rw [Prod.mk.injEq] at hpair
    obtain ⟨hd, hq⟩ := hpair
    subst hd; subst hq
    rw [hderef] at hderef2
    have he : e = newEffect pd q.lidx q.slidx := Option.some.inj hderef2
    have hid2 : h = q.lidx * 64 + q.slidx + 1 := by rw [← hid, he]; rfl
    refine ⟨by rw [he]; rfl, by rw [he]; rfl, by rw [he]; rfl, ?_, ?_, ?_⟩
    · rw [hlook2 h h2, if_pos hid2]
    · rw [hobj2 h h2, if_pos hid2, he]
    · rw [hnames2]
      exact hname1
  · intro hbelow
    obtain ⟨dev2, q, halloc, _, hderef, _, _, hnone, hsmall, _⟩ :=
      AllocEffect_ok pd hinv1 hfree1
    obtain ⟨_, _, _, h1, _⟩ := deref_of_lookup hinv h2 hp
    have hdead : LookupEffect dev1 h = none := by rw [hl1 h h2, if_pos rfl]
    refine ⟨dev2, q, _, halloc, hderef, ?_⟩
    show q.lidx * 64 + q.slidx + 1 = h
    by_contra hne
    rcases Nat.lt_or_gt_of_ne hne with hlt | hgt
    · rw [hl1 _ (by omega), if_neg (by omega)] at hnone
      have := hbelow _ (by omega) hlt
      rw [hnone] at this
      exact Bool.noConfusion this
    · have := hsmall h h1 hgt
      rw [hdead] at this
      exact Bool.noConfusion this

theorem C10_reissued_slot_reinitialised_witness :
    PoolInv samplePool ∧ 2 < 2 ^ 32 ∧ LookupEffect samplePool 2 = some ⟨0, 1⟩ ∧
    (objectAt samplePool 2).map (fun e => (e.type, e.Props, e.vtab))
      = some (AL_EFFECT_DISTORTION, 42, some VtableRef.DistortionEffectVtable) ∧
    findName samplePool.mEffectNames 2 = some "drive" ∧
    ∃ dev1, FreeEffect samplePool ⟨0, 1⟩ = some dev1 ∧ objectAt dev1 2 = none ∧
      findName dev1.mEffectNames 2 = none ∧
      (∃ dev2 q, AllocEffect samplePd dev1 = some (dev2, q)) ∧
      (∀ dev2 q e, AllocEffect samplePd dev1 = some (dev2, q) → deref dev2 q = some e →
        e.id = 2 →
        e.type = AL_EFFECT_NULL ∧ e.Props = samplePd.DefaultProps PropsRef.NullEffectProps ∧
        e.vtab = some VtableRef.NullEffectVtable ∧
        LookupEffect dev2 2 = some q ∧ objectAt dev2 2 = some e ∧
        findName dev2.mEffectNames 2 = none) ∧
      ((∀ k, 1 ≤ k → k < 2 → (LookupEffect samplePool k).isSome = true) →
        ∃ dev2 q e, AllocEffect samplePd dev1 = some (dev2, q) ∧ deref dev2 q = some e ∧
          e.id = 2) :=
  ⟨poolInv_samplePool, by decide, by decide, by decide, by decide,
    C10_reissued_slot_reinitialised samplePd samplePool poolInv_samplePool 2 (by decide)
      ⟨0, 1⟩ (by decide)⟩

/-! ## States reachable through the entry points -/

theorem alGenEffectsDirect_nonpos (pd : PropsData P) (al_calloc : Nat → Bool)
    (dev : ALCdevice P) {n : Int} (hn : n ≤ 0) :
    ∃ err, alGenEffectsDirect pd al_calloc dev n = some ⟨dev, err, none⟩ := by
  unfold alGenEffectsDirect
  by_cases h : n < 0
  · rw [if_pos h]; exact ⟨_, rfl⟩
  · rw [if_neg h, if_pos hn]; exact ⟨_, rfl⟩

/-- What a generate call does in a pool satisfying the invariant. -/
theorem alGenEffectsDirect_spec (pd : PropsData P) (al_calloc : Nat → Bool)
    {dev : ALCdevice P} (hinv : PoolInv dev) (n : Int) :
    ∃ r, alGenEffectsDirect pd al_calloc dev n = some r ∧ PoolInv r.device ∧
      (∀ h ∈ r.out.getD [], h < 2 ^ 32) ∧
      (∀ h, h < 2 ^ 32 →
        ((LookupEffect r.device h).isSome = true ↔
          ((LookupEffect dev h).isSome = true ∨ h ∈ r.out.getD []))) := by
  by_cases hn : n ≤ 0
  · obtain ⟨err, he⟩ := alGenEffectsDirect_nonpos pd al_calloc dev hn
    exact ⟨_, he, hinv, by simp, by simp⟩
  · have hpos : 0 < n := by omega
    rw [alGenEffectsDirect_eq pd al_calloc dev hpos]
    have hinv1 := EnsureEffects_poolInv al_calloc hinv n.toNat
    cases hok : (EnsureEffects al_calloc dev n.toNat).1 with
    | false =>
      refine ⟨⟨(EnsureEffects al_calloc dev n.toNat).2, some AL_OUT_OF_MEMORY, none⟩,
        by simp, hinv1, by simp, ?_⟩
      intro h _
      show (LookupEffect (EnsureEffects al_calloc dev n.toNat).2 h).isSome = true ↔ _
      rw [EnsureEffects_lookup]
      simp
    | true =>
      obtain ⟨dev2, new, hall, hinv2, _, _, hnew, hlook, _⟩ :=
        allocAll_spec pd n.toNat _ [] hinv1 (EnsureEffects_freeCount al_calloc dev n.toNat hok)
      rw [if_pos rfl, hall]
      refine ⟨⟨dev2, none, some ([] ++ new)⟩, rfl, hinv2, ?_, ?_⟩
      · intro h hm
        have hm2 : h ∈ new := by simpa using hm
        exact (hnew h hm2).2.1
      · intro h h2
        show (LookupEffect dev2 h).isSome = true ↔ _
        rw [hlook h h2, EnsureEffects_lookup]
        by_cases hm : h ∈ new
        · simp [hm]
        · simp [hm]

/-- What a delete call does in a pool satisfying the invariant. -/
theorem alDeleteEffectsDirect_spec {dev : ALCdevice P} (hinv : PoolInv dev) (n : Int)
    (effects : List Nat) (hlen : n.toNat ≤ effects.length) (h32 : ∀ e ∈ effects, e < 2 ^ 32) :
    ∃ r, alDeleteEffectsDirect dev n effects = some r ∧ PoolInv r.device ∧
      (∀ h, h < 2 ^ 32 →
        ((LookupEffect r.device h).isSome = true ↔
          ((LookupEffect dev h).isSome = true ∧
            ¬ (r.error = none ∧ h ∈ effects.take n.toNat)))) := by
  unfold alDeleteEffectsDirect
  by_cases hneg : n < 0
  · rw [if_pos hneg]
    exact ⟨_, rfl, hinv, by intro h _; simp [AL_INVALID_VALUE]⟩
  · rw [if_neg hneg]
    by_cases hz : n ≤ 0
    · rw [if_pos hz]
      have : n.toNat = 0 := by omega
      exact ⟨_, rfl, hinv, by intro h _; simp [this]⟩
    · rw [if_neg hz, if_neg (by omega)]
      cases hf : (effects.take n.toNat).find? (fun eid => !validate_effect dev eid) with
      | some e =>
        exact ⟨_, rfl, hinv, by intro h _; simp [AL_INVALID_NAME]⟩
      | none =>
        obtain ⟨dev1, hrec, hinv1, hl1, _⟩ := forEach_spec (effects.take n.toNat) dev hinv
          (fun e he => h32 e (List.mem_of_mem_take he))
        refine ⟨⟨dev1, none, ()⟩, by simp only [hrec], hinv1, ?_⟩
        intro h h2
        show (LookupEffect dev1 h).isSome = true ↔ _
        rw [hl1 h h2]
        by_cases hm : h ∈ effects.take n.toNat
        · simp [hm]
        · simp [hm]

theorem apiReach_inv {pd : PropsData P} {dev : ALCdevice P} {live : List Nat}
    (hr : ApiReach pd dev live) :
    PoolInv dev ∧ (∀ h ∈ live, h < 2 ^ 32) ∧
      ∀ h, h < 2 ^ 32 → ((LookupEffect dev h).isSome = true ↔ h ∈ live) := by
  induction hr with
  | empty =>
    refine ⟨poolInv_empty, by simp, ?_⟩
    intro h _
    rw [LookupEffect_empty]
    simp
  | gen al_calloc n _ hcall ih =>
    obtain ⟨hinv, hlt, hlive⟩ := ih
    obtain ⟨r, hr, hinv1, hnew, hlook⟩ := alGenEffectsDirect_spec pd al_calloc hinv n
    rw [hcall] at hr
    have hre := Option.some.inj hr
    subst hre
    refine ⟨hinv1, ?_, ?_⟩
    · intro h hm
      rcases List.mem_append.mp hm with h1 | h1
      · exact hlt h h1
      · exact hnew h h1
    · intro h h2
      rw [hlook h h2, hlive h h2, List.mem_append]
  | del n effects _ h32 hcall ih =>
    obtain ⟨hinv, hlt, hlive⟩ := ih
    have hlen : n.toNat ≤ effects.length := by
      by_contra hc
      unfold alDeleteEffectsDirect at hcall
      by_cases hneg : n < 0
      · omega
      · rw [if_neg hneg] at hcall
        by_cases hz : n ≤ 0
        · omega
        · rw [if_neg hz, if_pos (by omega)] at hcall
          exact Option.noConfusion hcall
    obtain ⟨r, hr, hinv1, hlook⟩ := alDeleteEffectsDirect_spec hinv n effects hlen h32
    rw [hcall] at hr
    have hre := Option.some.inj hr
    subst hre
    refine ⟨hinv1, ?_, ?_⟩
    · intro h hm
      split at hm
      · exact hlt h (List.mem_filter.mp hm).1
      · exact hlt h hm
    · intro h h2
      rw [hlook h h2, hlive h h2]
      split
      · rename_i he
        simp [he, List.mem_filter]
      · rename_i he
        simp [he]

/-- C2: in every state reachable from the empty pool by `alGenEffects` and
`alDeleteEffects` calls (every such call is defined there), `LookupEffect h` returns an
object, the one with id `h`, if and only if `h` was written by an earlier generate call and
has not been deleted since.  For every other handle it returns nothing, and `alEffecti`,
`alEffectiv`, `alEffectf`, `alEffectfv`, `alGetEffecti`, `alGetEffectiv`, `alGetEffectf`,
`alGetEffectfv` and `SetName` report `AL_INVALID_NAME`, write nothing and leave the device
unchanged. -/
theorem C2_lookup_iff_generated (env : EffectEnv P F) (dev : ALCdevice P) (live : List Nat)
    (hr : ApiReach env.props dev live) (h : Nat) (h2 : h < 2 ^ 32) :
    ((LookupEffect dev h).isSome = true ↔ h ∈ live) ∧
    (h ∈ live → ∃ p e, LookupEffect dev h = some p ∧ deref dev p = some e ∧ e.id = h) ∧
    (h ∉ live →
      LookupEffect dev h = none ∧
      (∀ param value,
        alEffectiDirect env dev h param value = some ⟨dev, some AL_INVALID_NAME, ()⟩) ∧
      (∀ param values, (param = AL_EFFECT_TYPE → values ≠ []) →
        alEffectivDirect env dev h param values = some ⟨dev, some AL_INVALID_NAME, ()⟩) ∧
      (∀ param value,
        alEffectfDirect env dev h param value = some ⟨dev, some AL_INVALID_NAME, ()⟩) ∧
      (∀ param values,
        alEffectfvDirect env dev h param values = some ⟨dev, some AL_INVALID_NAME, ()⟩) ∧
      (∀ param, alGetEffectiDirect env dev h param = some ⟨dev, some AL_INVALID_NAME, []⟩) ∧
      (∀ param, alGetEffectivDirect env dev h param = some ⟨dev, some AL_INVALID_NAME, []⟩) ∧
      (∀ param, alGetEffectfDirect env dev h param = some ⟨dev, some AL_INVALID_NAME, []⟩) ∧
      (∀ param, alGetEffectfvDirect env dev h param = some ⟨dev, some AL_INVALID_NAME, []⟩) ∧
      (∀ name, ALeffect.SetName dev h name = ⟨dev, some AL_INVALID_NAME, ()⟩)) ∧
    (∀ al_calloc n, (alGenEffectsDirect env.props al_calloc dev n).isSome = true) ∧
    (∀ n effects, n.toNat ≤ effects.length → (∀ e ∈ effects, e < 2 ^ 32) →
      (alDeleteEffectsDirect dev n effects).isSome = true) := by
  obtain ⟨hinv, _, hlive⟩ := apiReach_inv hr
  refine ⟨hlive h h2, ?_, ?_, ?_, ?_⟩
  · intro hm
    have hs := (hlive h h2).mpr hm
    obtain ⟨p, hp⟩ := Option.isSome_iff_exists.mp hs
    obtain ⟨e, he, hid, _⟩ := deref_of_lookup hinv h2 hp
    exact ⟨p, e, hp, he, hid⟩
  · intro hm
    have hnone : LookupEffect dev h = none := by
      cases hc : LookupEffect dev h with
      | none => rfl
      | some p => exact absurd ((hlive h h2).mp (by rw [hc]; rfl)) hm
    refine ⟨hnone, ?_, ?_, ?_, ?_, ?_, ?_, ?_, ?_, ?_⟩
    · intro param value
      unfold alEffectiDirect
      rw [hnone]
    · intro param values hv
      unfold alEffectivDirect
      by_cases hp : param = AL_EFFECT_TYPE
      · rw [if_pos hp]
        cases values with
        | nil => exact absurd rfl (hv hp)
        | cons v t =>
          have hv0 : (v :: t)[0]? = some v := by simp
          rw [hv0]
          show alEffectiDirect env dev h param v = _
          unfold alEffectiDirect
          rw [hnone]
      · rw [if_neg hp, hnone]
    · intro param value
      unfold alEffectfDirect
      rw [hnone]
    · intro param values
      unfold alEffectfvDirect
      rw [hnone]
    · intro param
      unfold alGetEffectiDirect
      rw [hnone]
    · intro param
      unfold alGetEffectivDirect
      by_cases hp : param = AL_EFFECT_TYPE
      · rw [if_pos hp]
        unfold alGetEffectiDirect
        rw [hnone]
      · rw [if_neg hp, hnone]
    · intro param
      unfold alGetEffectfDirect
      rw [hnone]
    · intro param
      unfold alGetEffectfvDirect
      rw [hnone]
    · intro name
      unfold ALeffect.SetName
      rw [hnone]
  · intro al_calloc n
    obtain ⟨r, hr, _⟩ := alGenEffectsDirect_spec env.props al_calloc hinv n
    rw [hr]
    rfl
  · intro n effects hlen h32
    obtain ⟨r, hr, _⟩ := alDeleteEffectsDirect_spec hinv n effects hlen h32
    rw [hr]
    rfl

theorem apiReach_sampleReached : ApiReach sampleEnv.props sampleReached [1] := by
  have hgen : alGenEffectsDirect sampleEnv.props (fun _ => true) (emptyDevice (P := Nat)) 1
      = some ⟨sampleReached, none, some [1]⟩ := by
    have e1 : EnsureEffects (fun _ => true) (emptyDevice (P := Nat)) (1 : Int).toNat
        = (true, { EffectList := [freshSubList], mEffectNames := [] }) := by
      simp [EnsureEffects, EnsureEffects.loop, emptyDevice]
    rw [alGenEffectsDirect_eq _ _ _ (by decide), e1]
    decide
  exact ApiReach.gen (fun _ => true) 1 ApiReach.empty hgen

theorem C2_lookup_iff_generated_witness :
    ApiReach sampleEnv.props sampleReached [1] ∧ 5 < 2 ^ 32 ∧ 5 ∉ [1] ∧
    LookupEffect sampleReached 5 = none ∧
    (∀ param value,
      alEffectfDirect sampleEnv sampleReached 5 param value
        = some ⟨sampleReached, some AL_INVALID_NAME, ()⟩) ∧
    (∃ p e, LookupEffect sampleReached 1 = some p ∧ deref sampleReached p = some e ∧
      e.id = 1) :=
  ⟨apiReach_sampleReached, by decide, by decide,
    ((C2_lookup_iff_generated sampleEnv sampleReached [1] apiReach_sampleReached 5
      (by decide)).2.2.1 (by decide)).1,
    ((C2_lookup_iff_generated sampleEnv sampleReached [1] apiReach_sampleReached 5
      (by decide)).2.2.1 (by decide)).2.2.2.1,
    (C2_lookup_iff_generated sampleEnv sampleReached [1] apiReach_sampleReached 1
      (by decide)).2.1 (by decide)⟩

/-! ## Type changes through `alEffecti` -/

theorem effectPropsList_types_nodup : (EffectPropsList.map (fun item => item.Type_)).Nodup := by
  decide

theorem gEffectList_has_item :
    ∀ entry ∈ gEffectList, (getEffectPropsItemByType entry.val).isSome = true := by
  decide

theorem getEffectPropsItemByType_null :
    (getEffectPropsItemByType AL_EFFECT_NULL).isSome = true := by
  decide

theorem getEffectPropsItemByType_some {t : Int} {item : EffectPropsItem}
    (h : getEffectPropsItemByType t = some item) :
    item ∈ EffectPropsList ∧ item.Type_ = t ∧
      ∀ other ∈ EffectPropsList, other.Type_ = t → other = item := by
  unfold getEffectPropsItemByType at h
  have hmem := List.mem_of_find?_eq_some h
  have hty : item.Type_ = t := by
    have := List.find?_some h
    simpa using this
  refine ⟨hmem, hty, ?_⟩
  intro other hother hot
  have hinj := List.inj_on_of_nodup_map effectPropsList_types_nodup
  exact hinj hother hmem (by rw [hot, hty])

/-- The type check of `alEffecti` and `IsValidEffectType`. -/
theorem valid_type_item (env : EffectEnv P F) {t : Int}
    (ht : t = AL_EFFECT_NULL ∨
      ∃ entry ∈ gEffectList, entry.val = t ∧ env.DisabledEffects entry.type = false) :
    (t == AL_EFFECT_NULL ||
      gEffectList.any (fun effectitem =>
        t == effectitem.val && !env.DisabledEffects effectitem.type)) = true ∧
    ∃ item, getEffectPropsItemByType t = some item := by
  rcases ht with h0 | ⟨entry, hmem, hval, hdis⟩
  · subst h0
    exact ⟨by simp, Option.isSome_iff_exists.mp getEffectPropsItemByType_null⟩
  · constructor
    · rw [Bool.or_eq_true]
      right
      rw [List.any_eq_true]
      exact ⟨entry, hmem, by simp [hval, hdis]⟩
    · rw [← hval]
      exact Option.isSome_iff_exists.mp (gEffectList_has_item entry hmem)

/-- Replacing the object behind a live handle by one with the same id. -/
theorem store_ok {dev : ALCdevice P} (hinv : PoolInv dev) {h : Nat} (h2 : h < 2 ^ 32)
    {p : EffectPtr} (hp : LookupEffect dev h = some p) {obj : ALeffect P} (hid : obj.id = h) :
    PoolInv (store dev p (some obj)) ∧
    deref (store dev p (some obj)) p = some obj ∧
    (∀ k, k < 2 ^ 32 → LookupEffect (store dev p (some obj)) k = LookupEffect dev k) ∧
    (∀ k, k < 2 ^ 32 → objectAt (store dev p (some obj)) k
      = if k = h then some obj else objectAt dev k) ∧
    (store dev p (some obj)).mEffectNames = dev.mEffectNames := by
  obtain ⟨_, _, _, h1, hh, hs, hl⟩ := deref_of_lookup hinv h2 hp
  have hp2 := hp
  rw [LookupEffect_some_iff dev h2 hinv.1] at hp2
  obtain ⟨_, hpp, sub, hsub, hbit⟩ := hp2
  have hL : (h - 1) / 64 = p.lidx := by omega
  have hS : (h - 1) % 64 = p.slidx := by omega
  rw [hL] at hsub
  rw [hS] at hbit
  obtain ⟨hm, _, _⟩ := hinv.2 _ sub hsub
  have hstore : store dev p (some obj) =
      { dev with EffectList := (dev.EffectList.set p.lidx
          { sub with Effects := sub.Effects.set p.slidx (some obj) }) } := by
    unfold store
    rw [hsub]
  have hupd : SlotUpdate dev (store dev p (some obj)) p.lidx p.slidx false (some obj) := by
    refine ⟨hs, ⟨sub, { sub with Effects := sub.Effects.set p.slidx (some obj) }, hsub,
      by rw [hstore], rfl, hm, ?_⟩, fun hb => Bool.noConfusion hb,
      fun _ => ⟨obj, rfl, by rw [hid, hh]⟩⟩
    intro j
    by_cases hj : j = p.slidx
    · rw [if_pos hj, hj]; exact hbit
    · rw [if_neg hj]
  refine ⟨hupd.poolInv hinv, hupd.deref_self hinv, ?_, ?_, by rw [hstore]⟩
  · intro k hk
    rw [hupd.lookup hinv hk]
    by_cases hkh : k = p.lidx * 64 + p.slidx + 1
    · rw [if_pos hkh, hkh, ← hh, hp]
      rfl
    · rw [if_neg hkh]
  · intro k hk
    rw [hupd.objectAt hinv hk, ← hh]

/-- C11: for a live handle `h` and a type `t` that is `AL_EFFECT_NULL` or a `gEffectList`
value whose effect is not disabled, `alEffecti(h, AL_EFFECT_TYPE, t)` reports no error and
leaves the object with type `t`, the default parameters and the vtable of the one
`EffectPropsList` entry for `t`, whatever the object held before; the id, the other
objects and the names are untouched, and `alGetEffecti(h, AL_EFFECT_TYPE)` then writes
`t`. -/
theorem C11_type_change_resets (env : EffectEnv P F) (dev : ALCdevice P) (hinv : PoolInv dev)
    (h : Nat) (h2 : h < 2 ^ 32) (p : EffectPtr) (hp : LookupEffect dev h = some p) (t : Int)
    (ht : t = AL_EFFECT_NULL ∨
      ∃ entry ∈ gEffectList, entry.val = t ∧ env.DisabledEffects entry.type = false) :
    ∃ item dev1,
      item ∈ EffectPropsList ∧ item.Type_ = t ∧
      (∀ other ∈ EffectPropsList, other.Type_ = t → other = item) ∧
      alEffectiDirect env dev h AL_EFFECT_TYPE t = some ⟨dev1, none, ()⟩ ∧
      objectAt dev1 h = some { type := t, Props := env.props.DefaultProps item.DefaultProps,
                               vtab := some item.Vtable, id := h } ∧
      alGetEffectiDirect env dev1 h AL_EFFECT_TYPE = some ⟨dev1, none, [t]⟩ ∧
      PoolInv dev1 ∧
      (∀ k, k < 2 ^ 32 → k ≠ h → objectAt dev1 k = objectAt dev k) ∧
      (∀ k, k < 2 ^ 32 → LookupEffect dev1 k = LookupEffect dev k) ∧
      dev1.mEffectNames = dev.mEffectNames := by
  obtain ⟨hok, item, hitem⟩ := valid_type_item env ht
  obtain ⟨hmem, hty, huniq⟩ := getEffectPropsItemByType_some hitem
  obtain ⟨e, he, hid, _⟩ := deref_of_lookup hinv h2 hp
  have hinit : InitEffectParams env.props e t =
      { type := t, Props := env.props.DefaultProps item.DefaultProps,
        vtab := some item.Vtable, id := h } := by
    unfold InitEffectParams
    rw [hitem, ← hid]
  have hid2 : (InitEffectParams env.props e t).id = h := by rw [hinit]
  obtain ⟨hinv1, hderef1, hlook1, hobj1, hnames1⟩ := store_ok hinv h2 hp hid2
  refine ⟨item, store dev p (some (InitEffectParams env.props e t)), hmem, hty, huniq,
    ?_, ?_, ?_, hinv1, ?_, hlook1, hnames1⟩
  · unfold alEffectiDirect
    simp only [hp, eq_self_iff_true, if_true, hok, he]
  · rw [hobj1 h h2, if_pos rfl, hinit]
  · have hl := hlook1 h h2
    rw [hp] at hl
    unfold alGetEffectiDirect
    simp only [hl, eq_self_iff_true, if_true, hderef1]
    rw [hinit]
  · intro k hk hne
    rw [hobj1 k hk, if_neg hne]

theorem C11_type_change_resets_witness :
    PoolInv samplePool ∧ 2 < 2 ^ 32 ∧ LookupEffect samplePool 2 = some ⟨0, 1⟩ ∧
    (∃ entry ∈ gEffectList, entry.val = AL_EFFECT_ECHO ∧
      sampleEnv.DisabledEffects entry.type = false) ∧
    ∃ item dev1,
      item ∈ EffectPropsList ∧ item.Type_ = AL_EFFECT_ECHO ∧
      (∀ other ∈ EffectPropsList, other.Type_ = AL_EFFECT_ECHO → other = item) ∧
      alEffectiDirect sampleEnv samplePool 2 AL_EFFECT_TYPE AL_EFFECT_ECHO
        = some ⟨dev1, none, ()⟩ ∧
      objectAt dev1 2 = some { type := AL_EFFECT_ECHO,
                               Props := sampleEnv.props.DefaultProps item.DefaultProps,
                               vtab := some item.Vtable, id := 2 } ∧
      alGetEffectiDirect sampleEnv dev1 2 AL_EFFECT_TYPE
        = some ⟨dev1, none, [AL_EFFECT_ECHO]⟩ ∧
      PoolInv dev1 ∧
      (∀ k, k < 2 ^ 32 → k ≠ 2 → objectAt dev1 k = objectAt samplePool k) ∧
      (∀ k, k < 2 ^ 32 → LookupEffect dev1 k = LookupEffect samplePool k) ∧
      dev1.mEffectNames = samplePool.mEffectNames :=
  ⟨poolInv_samplePool, by decide, by decide, by decide,
    C11_type_change_resets sampleEnv samplePool poolInv_samplePool 2 (by decide) ⟨0, 1⟩
      (by decide) AL_EFFECT_ECHO (Or.inr (by decide))⟩

/-- C12: for a live handle `h` and a type `t` that is not `AL_EFFECT_NULL` and is either
absent from `gEffectList` or listed there only for disabled effects,
`alEffecti(h, AL_EFFECT_TYPE, t)`, and `alEffectiv` with the same tag and `values[0] = t`,
report `AL_INVALID_VALUE` and leave the device, hence the object's type, parameters and
vtable, exactly as they were. -/
theorem C12_type_change_rejected (env : EffectEnv P F) (dev : ALCdevice P) (h : Nat)
    (p : EffectPtr) (hp : LookupEffect dev h = some p) (t : Int) (ht0 : t ≠ AL_EFFECT_NULL)
    (hbad : ∀ entry ∈ gEffectList, entry.val = t → env.DisabledEffects entry.type = true) :
    alEffectiDirect env dev h AL_EFFECT_TYPE t = some ⟨dev, some AL_INVALID_VALUE, ()⟩ ∧
    (∀ values : List Int, values[0]? = some t →
      alEffectivDirect env dev h AL_EFFECT_TYPE values
        = some ⟨dev, some AL_INVALID_VALUE, ()⟩) := by
  have hnot : (t == AL_EFFECT_NULL ||
      gEffectList.any (fun effectitem =>
        t == effectitem.val && !env.DisabledEffects effectitem.type)) = false := by
    rw [Bool.or_eq_false_iff]
    constructor
    · simpa using ht0
    · rw [List.any_eq_false]
      intro entry hmem
      by_cases hv : entry.val = t
      · simp [hbad entry hmem hv]
      · have : ¬ t = entry.val := fun e => hv e.symm
        simp [this]
  have hmain : alEffectiDirect env dev h AL_EFFECT_TYPE t
      = some ⟨dev, some AL_INVALID_VALUE, ()⟩ := by
    unfold alEffectiDirect
    simp only [hp, eq_self_iff_true, if_true, hnot, Bool.false_eq_true, if_false]
  refine ⟨hmain, ?_⟩
  intro values hv
  unfold alEffectivDirect
  simp only [eq_self_iff_true, if_true, hv]
  exact hmain

theorem C12_type_change_rejected_witness :
    LookupEffect samplePool 2 = some ⟨0, 1⟩ ∧ (0x1234 : Int) ≠ AL_EFFECT_NULL ∧
    (∀ entry ∈ gEffectList, entry.val = 0x1234 →
      sampleEnv.DisabledEffects entry.type = true) ∧
    alEffectiDirect sampleEnv samplePool 2 AL_EFFECT_TYPE 0x1234
      = some ⟨samplePool, some AL_INVALID_VALUE, ()⟩ ∧
    (∀ values : List Int, values[0]? = some 0x1234 →
      alEffectivDirect sampleEnv samplePool 2 AL_EFFECT_TYPE values
        = some ⟨samplePool, some AL_INVALID_VALUE, ()⟩) :=
  ⟨by decide, by decide, by decide,
    C12_type_change_rejected sampleEnv samplePool 2 ⟨0, 1⟩ (by decide) 0x1234 (by decide)
      (by decide)⟩

/-! ## The vtable follows the type -/

theorem vtabMatches_init (pd : PropsData P) (e : ALeffect P) {t : Int} {item : EffectPropsItem}
    (hitem : getEffectPropsItemByType t = some item) :
    VtabMatches (InitEffectParams pd e t) ∧ (InitEffectParams pd e t).id = e.id := by
  obtain ⟨hmem, hty, huniq⟩ := getEffectPropsItemByType_some hitem
  have hinit : InitEffectParams pd e t =
      { type := t, Props := pd.DefaultProps item.DefaultProps,
        vtab := some item.Vtable, id := e.id } := by
    unfold InitEffectParams
    rw [hitem]
  rw [hinit]
  exact ⟨⟨item, hitem, hmem, hty, huniq, rfl⟩, rfl⟩

theorem vtabMatches_of_eq {e e1 : ALeffect P} (hm : VtabMatches e) (ht : e1.type = e.type)
    (hv : e1.vtab = e.vtab) : VtabMatches e1 := by
  obtain ⟨item, h1, h2, h3, h4, h5⟩ := hm
  exact ⟨item, by rw [ht]; exact h1, h2, by rw [ht]; exact h3,
    by rw [ht]; exact h4, by rw [hv]; exact h5⟩

theorem vtabMatches_newEffect (pd : PropsData P) (l s : Nat) :
    VtabMatches (newEffect pd l s) := by
  obtain ⟨item, hitem⟩ := Option.isSome_iff_exists.mp getEffectPropsItemByType_null
  have h := (vtabMatches_init pd (ALeffect.construct pd) hitem).1
  exact vtabMatches_of_eq h rfl rfl

theorem isValid_has_item (env : EffectEnv P F) {t : Int}
    (hok : (t == AL_EFFECT_NULL ||
      gEffectList.any (fun effectitem =>
        t == effectitem.val && !env.DisabledEffects effectitem.type)) = true) :
    ∃ item, getEffectPropsItemByType t = some item := by
  rw [Bool.or_eq_true] at hok
  rcases hok with h0 | hany
  · have : t = AL_EFFECT_NULL := by simpa using h0
    rw [this]
    exact Option.isSome_iff_exists.mp getEffectPropsItemByType_null
  · rw [List.any_eq_true] at hany
    obtain ⟨entry, hmem, hcond⟩ := hany
    have hv : t = entry.val := by
      rw [Bool.and_eq_true] at hcond
      simpa using hcond.1
    rw [hv]
    exact Option.isSome_iff_exists.mp (gEffectList_has_item entry hmem)

theorem loadReverbPreset_vtab (env : EffectEnv P F) (pe : PresetEnv P F) (name : String)
    (obj : ALeffect P) :
    VtabMatches (LoadReverbPreset env pe name obj) ∧
      (LoadReverbPreset env pe name obj).id = obj.id ∧
      ((LoadReverbPreset env pe name obj).type = AL_EFFECT_NULL ∨
       (LoadReverbPreset env pe name obj).type = AL_EFFECT_EAXREVERB ∨
       (LoadReverbPreset env pe name obj).type = AL_EFFECT_REVERB) := by
  obtain ⟨i0, hi0⟩ := Option.isSome_iff_exists.mp getEffectPropsItemByType_null
  obtain ⟨i1, hi1⟩ : ∃ item, getEffectPropsItemByType AL_EFFECT_EAXREVERB = some item :=
    Option.isSome_iff_exists.mp (by decide)
  obtain ⟨i2, hi2⟩ : ∃ item, getEffectPropsItemByType AL_EFFECT_REVERB = some item :=
    Option.isSome_iff_exists.mp (by decide)
  have ht : ∀ (e : ALeffect P) (t : Int), (InitEffectParams env.props e t).type = t := by
    intro e t
    unfold InitEffectParams
    cases getEffectPropsItemByType t <;> rfl
  unfold LoadReverbPreset
  by_cases hnone : strcasecmp name "NONE" = 0
  · rw [if_pos hnone]
    exact ⟨(vtabMatches_init env.props obj hi0).1, (vtabMatches_init env.props obj hi0).2,
      Or.inl (ht _ _)⟩
  · rw [if_neg hnone]
    have hbase : ∀ e1 : ALeffect P,
        e1 = (if (!env.DisabledEffects EffectKind.EAXREVERB_EFFECT) = true then
            InitEffectParams env.props obj AL_EFFECT_EAXREVERB
          else if (!env.DisabledEffects EffectKind.REVERB_EFFECT) = true then
            InitEffectParams env.props obj AL_EFFECT_REVERB
          else InitEffectParams env.props obj AL_EFFECT_NULL) →
        VtabMatches e1 ∧ e1.id = obj.id ∧
          (e1.type = AL_EFFECT_NULL ∨ e1.type = AL_EFFECT_EAXREVERB ∨
            e1.type = AL_EFFECT_REVERB) := by
      intro e1 he1
      rw [he1]
      split
      · exact ⟨(vtabMatches_init env.props obj hi1).1, (vtabMatches_init env.props obj hi1).2,
          Or.inr (Or.inl (ht _ _))⟩
      · split
        · exact ⟨(vtabMatches_init env.props obj hi2).1,
            (vtabMatches_init env.props obj hi2).2, Or.inr (Or.inr (ht _ _))⟩
        · exact ⟨(vtabMatches_init env.props obj hi0).1,
            (vtabMatches_init env.props obj hi0).2, Or.inl (ht _ _)⟩
    obtain ⟨hb1, hb2, hb3⟩ := hbase _ rfl
    simp only
    cases (reverblist pe).find? (fun reverbitem => strcasecmp name reverbitem.name == 0) with
    | none => exact ⟨hb1, hb2, hb3⟩
    | some reverbitem => exact ⟨vtabMatches_of_eq hb1 rfl rfl, hb2, hb3⟩

theorem typeInv_store {dev : ALCdevice P} (hinv : TypeInv dev) {h : Nat} (h2 : h < 2 ^ 32)
    {p : EffectPtr} (hp : LookupEffect dev h = some p) {obj : ALeffect P} (hid : obj.id = h)
    (hm : VtabMatches obj) : TypeInv (store dev p (some obj)) := by
  obtain ⟨hinv1, _, _, hobj, _⟩ := store_ok hinv.1 h2 hp hid
  refine ⟨hinv1, ?_⟩
  intro k hk e he
  rw [hobj k hk] at he
  by_cases hkh : k = h
  · rw [if_pos hkh] at he
    rw [← Option.some.inj he]
    exact hm
  · rw [if_neg hkh] at he
    exact hinv.2 k hk e he

theorem typeInv_setterTail {dev : ALCdevice P} (hinv : TypeInv dev) {h : Nat} (h2 : h < 2 ^ 32)
    {p : EffectPtr} (hp : LookupEffect dev h = some p)
    {call : ALeffect P → Option (ALeffect P × Option Int)}
    (hcall : ∀ obj obj1 thrown, call obj = some (obj1, thrown) →
      obj1.type = obj.type ∧ obj1.vtab = obj.vtab ∧ obj1.id = obj.id)
    {r : CallResult P Unit} (hr : setterTail dev p call = some r) : TypeInv r.device := by
  obtain ⟨e, he, hid, _⟩ := deref_of_lookup hinv.1 h2 hp
  have hme : VtabMatches e := by
    apply hinv.2 h h2 e
    unfold objectAt
    rw [hp]
    exact he
  unfold setterTail at hr
  rw [he] at hr
  cases hc : call e with
  | none => simp only [hc] at hr; exact Option.noConfusion hr
  | some res =>
    obtain ⟨obj1, thrown⟩ := res
    simp only [hc] at hr
    rw [← Option.some.inj hr]
    obtain ⟨ht, hv, hi⟩ := hcall e obj1 thrown hc
    exact typeInv_store hinv h2 hp (by rw [hi, hid]) (vtabMatches_of_eq hme ht hv)

theorem ALeffect_setParami_shape (env : EffectEnv P F) (param value : Int) :
    ∀ obj obj1 thrown, ALeffect_setParami env obj param value = some (obj1, thrown) →
      obj1.type = obj.type ∧ obj1.vtab = obj.vtab ∧ obj1.id = obj.id := by
  intro obj obj1 thrown h
  unfold ALeffect_setParami at h
  cases hv : obj.vtab with
  | none => rw [hv] at h; exact Option.noConfusion h
  | some vt =>
    rw [hv] at h
    have := Option.some.inj h
    rw [Prod.mk.injEq] at this
    rw [← this.1]
    exact ⟨rfl, rfl, rfl⟩

theorem ALeffect_setParamiv_shape (env : EffectEnv P F) (param : Int) (values : List Int) :
    ∀ obj obj1 thrown, ALeffect_setParamiv env obj param values = some (obj1, thrown) →
      obj1.type = obj.type ∧ obj1.vtab = obj.vtab ∧ obj1.id = obj.id := by
  intro obj obj1 thrown h
  unfold ALeffect_setParamiv at h
  cases hv : obj.vtab with
  | none => rw [hv] at h; exact Option.noConfusion h
  | some vt =>
    rw [hv] at h
    have := Option.some.inj h
    rw [Prod.mk.injEq] at this
    rw [← this.1]
    exact ⟨rfl, rfl, rfl⟩

theorem ALeffect_setParamf_shape (env : EffectEnv P F) (param : Int) (value : F) :
    ∀ obj obj1 thrown, ALeffect_setParamf env obj param value = some (obj1, thrown) →
      obj1.type = obj.type ∧ obj1.vtab = obj.vtab ∧ obj1.id = obj.id := by
  intro obj obj1 thrown h
  unfold ALeffect_setParamf at h
  cases hv : obj.vtab with
  | none => rw [hv] at h; exact Option.noConfusion h
  | some vt =>
    rw [hv] at h
    have := Option.some.inj h
    rw [Prod.mk.injEq] at this
    rw [← this.1]
    exact ⟨rfl, rfl, rfl⟩

theorem ALeffect_setParamfv_shape (env : EffectEnv P F) (param : Int) (values : List F) :
    ∀ obj obj1 thrown, ALeffect_setParamfv env obj param values = some (obj1, thrown) →
      obj1.type = obj.type ∧ obj1.vtab = obj.vtab ∧ obj1.id = obj.id := by
  intro obj obj1 thrown h
  unfold ALeffect_setParamfv at h
  cases hv : obj.vtab with
  | none => rw [hv] at h; exact Option.noConfusion h
  | some vt =>
    rw [hv] at h
    have := Option.some.inj h
    rw [Prod.mk.injEq] at this
    rw [← this.1]
    exact ⟨rfl, rfl, rfl⟩

theorem typeInv_alEffecti (env : EffectEnv P F) {dev : ALCdevice P} (hinv : TypeInv dev)
    {h : Nat} (h2 : h < 2 ^ 32) (param value : Int) {r : CallResult P Unit}
    (hr : alEffectiDirect env dev h param value = some r) : TypeInv r.device := by
  unfold alEffectiDirect at hr
  cases hp : LookupEffect dev h with
  | none =>
    simp only [hp] at hr
    rw [← Option.some.inj hr]
    exact hinv
  | some p =>
    simp only [hp] at hr
    by_cases hparam : param = AL_EFFECT_TYPE
    · rw [if_pos hparam] at hr
      by_cases hok : (value == AL_EFFECT_NULL ||
          gEffectList.any (fun effectitem =>
            value == effectitem.val && !env.DisabledEffects effectitem.type)) = true
      · simp only [hok, if_true] at hr
        obtain ⟨e, he, hid, _⟩ := deref_of_lookup hinv.1 h2 hp
        simp only [he] at hr
        rw [← Option.some.inj hr]
        obtain ⟨item, hitem⟩ := isValid_has_item env hok
        obtain ⟨hm, hi⟩ := vtabMatches_init env.props e hitem
        exact typeInv_store hinv h2 hp (by rw [hi, hid]) hm
      · simp only [hok] at hr
        rw [← Option.some.inj hr]
        exact hinv
    · rw [if_neg hparam] at hr
      exact typeInv_setterTail hinv h2 hp (ALeffect_setParami_shape env param value) hr

theorem alGenEffectsDirect_objects (pd : PropsData P) (al_calloc : Nat → Bool)
    {dev : ALCdevice P} (hinv : PoolInv dev) (n : Int)
    {r : CallResult P (Option (List Nat))}
    (hr : alGenEffectsDirect pd al_calloc dev n = some r) :
    PoolInv r.device ∧
    ∀ h, h < 2 ^ 32 → ∀ e, objectAt r.device h = some e →
      objectAt dev h = some e ∨ e = newEffect pd ((h - 1) / 64) ((h - 1) % 64) := by
  by_cases hn : n ≤ 0
  · obtain ⟨err, he⟩ := alGenEffectsDirect_nonpos pd al_calloc dev hn
    rw [he] at hr
    rw [← Option.some.inj hr]
    exact ⟨hinv, fun h _ e he => Or.inl he⟩
  · have hpos : 0 < n := by omega
    rw [alGenEffectsDirect_eq pd al_calloc dev hpos] at hr
    have hinv1 := EnsureEffects_poolInv al_calloc hinv n.toNat
    cases hok : (EnsureEffects al_calloc dev n.toNat).1 with
    | false =>
      rw [hok] at hr
      simp only [Bool.false_eq_true, if_false] at hr
      rw [← Option.some.inj hr]
      refine ⟨hinv1, ?_⟩
      intro h _ e he
      left
      have he2 : objectAt (EnsureEffects al_calloc dev n.toNat).2 h = some e := he
      rw [EnsureEffects_objectAt] at he2
      exact he2
    | true =>
      obtain ⟨dev2, new, hall, hinv2, _, _, _, _, hobj, _⟩ :=
        allocAll_spec pd n.toNat _ [] hinv1 (EnsureEffects_freeCount al_calloc dev n.toNat hok)
      rw [hok, if_pos rfl, hall] at hr
      rw [← Option.some.inj hr]
      refine ⟨hinv2, ?_⟩
      intro h h2 e he
      have he2 : objectAt dev2 h = some e := he
      rw [hobj h h2, EnsureEffects_objectAt] at he2
      by_cases hm : h ∈ new
      · rw [if_pos hm] at he2
        exact Or.inr (Option.some.inj he2).symm
      · rw [if_neg hm] at he2
        exact Or.inl he2

theorem alDeleteEffectsDirect_objects {dev : ALCdevice P} (hinv : PoolInv dev) (n : Int)
    (effects : List Nat) (h32 : ∀ e ∈ effects, e < 2 ^ 32) {r : CallResult P Unit}
    (hr : alDeleteEffectsDirect dev n effects = some r) :
    PoolInv r.device ∧
    ∀ h, h < 2 ^ 32 → ∀ e, objectAt r.device h = some e → objectAt dev h = some e := by
  unfold alDeleteEffectsDirect at hr
  by_cases hneg : n < 0
  · rw [if_pos hneg] at hr
    rw [← Option.some.inj hr]
    exact ⟨hinv, fun h _ e he => he⟩
  · rw [if_neg hneg] at hr
    by_cases hz : n ≤ 0
    · rw [if_pos hz] at hr
      rw [← Option.some.inj hr]
      exact ⟨hinv, fun h _ e he => he⟩
    · rw [if_neg hz] at hr
      by_cases hlen : effects.length < n.toNat
      · rw [if_pos hlen] at hr
        exact Option.noConfusion hr
      · rw [if_neg hlen] at hr
        cases hf : (effects.take n.toNat).find? (fun eid => !validate_effect dev eid) with
        | some e =>
          simp only [hf] at hr
          rw [← Option.some.inj hr]
          exact ⟨hinv, fun h _ e he => he⟩
        | none =>
          obtain ⟨dev1, hrec, hinv1, _, ho1, _⟩ := forEach_spec (effects.take n.toNat) dev hinv
            (fun e he => h32 e (List.mem_of_mem_take he))
          simp only [hf, hrec] at hr
          rw [← Option.some.inj hr]
          refine ⟨hinv1, ?_⟩
          intro h h2 e he
          have he2 : objectAt dev1 h = some e := he
          rw [ho1 h h2] at he2
          by_cases hm : h ∈ effects.take n.toNat
          · rw [if_pos hm] at he2
            exact Option.noConfusion he2
          · rw [if_neg hm] at he2
            exact he2

theorem typeReach_inv {env : EffectEnv P F} {pe : PresetEnv P F} {dev : ALCdevice P}
    (hr : TypeReach env pe dev) : TypeInv dev := by
  induction hr with
  | empty =>
    refine ⟨poolInv_empty, ?_⟩
    intro h _ e he
    unfold objectAt at he
    rw [LookupEffect_empty] at he
    exact Option.noConfusion he
  | gen al_calloc n _ hcall ih =>
    obtain ⟨hinv1, hobj⟩ := alGenEffectsDirect_objects env.props al_calloc ih.1 n hcall
    refine ⟨hinv1, ?_⟩
    intro h h2 e he
    rcases hobj h h2 e he with h1 | h1
    · exact ih.2 h h2 e h1
    · rw [h1]
      exact vtabMatches_newEffect _ _ _
  | del n effects _ h32 hcall ih =>
    obtain ⟨hinv1, hobj⟩ := alDeleteEffectsDirect_objects ih.1 n effects h32 hcall
    exact ⟨hinv1, fun h h2 e he => ih.2 h h2 e (hobj h h2 e he)⟩
  | seti h param value _ h2 hcall ih => exact typeInv_alEffecti env ih h2 param value hcall
  | @setiv dev0 r0 h param values _ h2 hcall ih =>
    unfold alEffectivDirect at hcall
    by_cases hparam : param = AL_EFFECT_TYPE
    · rw [if_pos hparam] at hcall
      cases hv : values[0]? with
      | none => simp only [hv] at hcall; exact Option.noConfusion hcall
      | some v =>
        simp only [hv] at hcall
        exact typeInv_alEffecti env ih h2 param v hcall
    · rw [if_neg hparam] at hcall
      cases hp : LookupEffect dev0 h with
      | none =>
        simp only [hp] at hcall
        rw [← Option.some.inj hcall]
        exact ih
      | some p =>
        simp only [hp] at hcall
        exact typeInv_setterTail ih h2 hp (ALeffect_setParamiv_shape env param values) hcall
  | @setf dev0 r0 h param value _ h2 hcall ih =>
    unfold alEffectfDirect at hcall
    cases hp : LookupEffect dev0 h with
    | none =>
      simp only [hp] at hcall
      rw [← Option.some.inj hcall]
      exact ih
    | some p =>
      simp only [hp] at hcall
      exact typeInv_setterTail ih h2 hp (ALeffect_setParamf_shape env param value) hcall
  | @setfv dev0 r0 h param values _ h2 hcall ih =>
    unfold alEffectfvDirect at hcall
    cases hp : LookupEffect dev0 h with
    | none =>
      simp only [hp] at hcall
      rw [← Option.some.inj hcall]
      exact ih
    | some p =>
      simp only [hp] at hcall
      exact typeInv_setterTail ih h2 hp (ALeffect_setParamfv_shape env param values) hcall
  | preset h name _ h2 hp hobj ih =>
    obtain ⟨e, he, hid, _⟩ := deref_of_lookup ih.1 h2 hp
    rw [hobj] at he
    have hee := Option.some.inj he
    obtain ⟨hm, hi, _⟩ := loadReverbPreset_vtab env pe name _
    exact typeInv_store ih h2 hp (by rw [hi, hee, hid]) hm

/-- C13: in every state reachable through `alGenEffects`, `alDeleteEffects`, the setters
(type changes through `alEffecti`/`alEffectiv` included) and `LoadReverbPreset`, the
vtable of each live effect object is the vtable of the one `EffectPropsList` entry whose
type equals the object's type, and that entry is the one `getEffectPropsItemByType` finds,
so the unknown-type fallback of `InitEffectParams` was not taken.  This rests on every type
the validity check accepts, `AL_EFFECT_NULL` and every `gEffectList` value, having exactly
one `EffectPropsList` entry. -/
theorem C13_vtable_follows_type (env : EffectEnv P F) (pe : PresetEnv P F)
    (dev : ALCdevice P) (hr : TypeReach env pe dev) :
    (∀ p e, deref dev p = some e →
      ∃ item, getEffectPropsItemByType e.type = some item ∧ item ∈ EffectPropsList ∧
        item.Type_ = e.type ∧
        (∀ other ∈ EffectPropsList, other.Type_ = e.type → other = item) ∧
        e.vtab = some item.Vtable) ∧
    (∀ t, (t = AL_EFFECT_NULL ∨ ∃ entry ∈ gEffectList, entry.val = t) →
      ∃ item, getEffectPropsItemByType t = some item ∧ item ∈ EffectPropsList ∧
        item.Type_ = t ∧ ∀ other ∈ EffectPropsList, other.Type_ = t → other = item) := by
  have hinv := typeReach_inv hr
  constructor
  · intro p e he
    obtain ⟨hs, hl, hid, hlook⟩ := deref_some_pos hinv.1 he
    have hl25 := hinv.1.1
    apply hinv.2 (p.lidx * 64 + p.slidx + 1) (by omega) e
    unfold objectAt
    rw [hlook]
    exact he
  · intro t ht
    have hsome : ∃ item, getEffectPropsItemByType t = some item := by
      rcases ht with h0 | ⟨entry, hmem, hval⟩
      · rw [h0]
        exact Option.isSome_iff_exists.mp getEffectPropsItemByType_null
      · rw [← hval]
        exact Option.isSome_iff_exists.mp (gEffectList_has_item entry hmem)
    obtain ⟨item, hitem⟩ := hsome
    obtain ⟨h1, h2, h3⟩ := getEffectPropsItemByType_some hitem
    exact ⟨item, hitem, h1, h2, h3⟩

theorem gen_sampleReached :
    alGenEffectsDirect sampleEnv.props (fun _ => true) (emptyDevice (P := Nat)) 1
      = some ⟨sampleReached, none, some [1]⟩ := by
  have e1 : EnsureEffects (fun _ => true) (emptyDevice (P := Nat)) (1 : Int).toNat
      = (true, { EffectList := [freshSubList], mEffectNames := [] }) := by
    simp [EnsureEffects, EnsureEffects.loop, emptyDevice]
  rw [alGenEffectsDirect_eq _ _ _ (by decide), e1]
  decide

theorem typeReach_samplePresetPool : TypeReach sampleEnv samplePresetEnv samplePresetPool :=
  @TypeReach.preset _ _ _ _ _ ⟨0, 0⟩ (newEffect samplePd 0 0) 1 "cave"
    (TypeReach.gen (fun _ => true) 1 TypeReach.empty gen_sampleReached)
    (by decide) (by decide) (by decide)

theorem C13_vtable_follows_type_witness :
    TypeReach sampleEnv samplePresetEnv samplePresetPool ∧
    (deref samplePresetPool ⟨0, 0⟩).isSome = true ∧
    (∀ p e, deref samplePresetPool p = some e →
      ∃ item, getEffectPropsItemByType e.type = some item ∧ item ∈ EffectPropsList ∧
        item.Type_ = e.type ∧
        (∀ other ∈ EffectPropsList, other.Type_ = e.type → other = item) ∧
        e.vtab = some item.Vtable) ∧
    (∀ t, (t = AL_EFFECT_NULL ∨ ∃ entry ∈ gEffectList, entry.val = t) →
      ∃ item, getEffectPropsItemByType t = some item ∧ item ∈ EffectPropsList ∧
        item.Type_ = t ∧ ∀ other ∈ EffectPropsList, other.Type_ = t → other = item) :=
  ⟨typeReach_samplePresetPool, by decide,
    C13_vtable_follows_type sampleEnv samplePresetEnv samplePresetPool
      typeReach_samplePresetPool⟩

/-! ## Distortion parameters -/

section DistortionParamsLemmas

variable {R : Type} [LinearOrderedField R]

omit [LinearOrderedField R] in
/-- The tags with a documented range are the five distortion tags. -/
theorem distortionRange_some {lim : DistortionLimits R} {param : Int} {lo hi : R}
    (h : distortionRange lim param = some (lo, hi)) :
    (param = AL_DISTORTION_EDGE ∧ lo = lim.AL_DISTORTION_MIN_EDGE ∧
      hi = lim.AL_DISTORTION_MAX_EDGE) ∨
    (param = AL_DISTORTION_GAIN ∧ lo = lim.AL_DISTORTION_MIN_GAIN ∧
      hi = lim.AL_DISTORTION_MAX_GAIN) ∨
    (param = AL_DISTORTION_LOWPASS_CUTOFF ∧ lo = lim.AL_DISTORTION_MIN_LOWPASS_CUTOFF ∧
      hi = lim.AL_DISTORTION_MAX_LOWPASS_CUTOFF) ∨
    (param = AL_DISTORTION_EQCENTER ∧ lo = lim.AL_DISTORTION_MIN_EQCENTER ∧
      hi = lim.AL_DISTORTION_MAX_EQCENTER) ∨
    (param = AL_DISTORTION_EQBANDWIDTH ∧ lo = lim.AL_DISTORTION_MIN_EQBANDWIDTH ∧
      hi = lim.AL_DISTORTION_MAX_EQBANDWIDTH) := by
  unfold distortionRange at h
  split at h
  · simp only [Option.some.injEq, Prod.mk.injEq] at h
    exact Or.inl ⟨‹_›, h.1.symm, h.2.symm⟩
  · split at h
    · simp only [Option.some.injEq, Prod.mk.injEq] at h
      exact Or.inr (Or.inl ⟨‹_›, h.1.symm, h.2.symm⟩)
    · split at h
      · simp only [Option.some.injEq, Prod.mk.injEq] at h
        exact Or.inr (Or.inr (Or.inl ⟨‹_›, h.1.symm, h.2.symm⟩))
      · split at h
        · simp only [Option.some.injEq, Prod.mk.injEq] at h
          exact Or.inr (Or.inr (Or.inr (Or.inl ⟨‹_›, h.1.symm, h.2.symm⟩)))
        · split at h
          · simp only [Option.some.injEq, Prod.mk.injEq] at h
            exact Or.inr (Or.inr (Or.inr (Or.inr ⟨‹_›, h.1.symm, h.2.symm⟩)))
          · exact Option.noConfusion h

omit [LinearOrderedField R] in
theorem distortionRange_none {lim : DistortionLimits R} {param : Int}
    (h : distortionRange lim param = none) :
    param ≠ AL_DISTORTION_EDGE ∧ param ≠ AL_DISTORTION_GAIN ∧
      param ≠ AL_DISTORTION_LOWPASS_CUTOFF ∧ param ≠ AL_DISTORTION_EQCENTER ∧
      param ≠ AL_DISTORTION_EQBANDWIDTH := by
  unfold distortionRange at h
  split at h
  · exact Option.noConfusion h
  · split at h
    · exact Option.noConfusion h
    · split at h
      · exact Option.noConfusion h
      · split at h
        · exact Option.noConfusion h
        · split at h
          · exact Option.noConfusion h
          · exact ⟨‹_›, ‹_›, ‹_›, ‹_›, ‹_›⟩

/-- The outcome of `ALdistortion_setParamf` on a tag with a range: the value is within the
range and the call stores it and raises nothing, or it is not and the call changes nothing
and raises `AL_INVALID_VALUE`. -/
theorem setParamf_cases (lim : DistortionLimits R) (effect : ALeffect (ALeffectProps R))
    {param : Int} {lo hi : R} (f : R) (h : distortionRange lim param = some (lo, hi)) :
    ((lo ≤ f ∧ f ≤ hi) ∧ (ALdistortion_setParamf lim effect param f).2 = none ∧
      ALdistortion_getParamf (ALdistortion_setParamf lim effect param f).1 param
        = (some f, none) ∧
      (∀ other, other ≠ param →
        ALdistortion_getParamf (ALdistortion_setParamf lim effect param f).1 other
          = ALdistortion_getParamf effect other) ∧
      (ALdistortion_setParamf lim effect param f).1.type = effect.type ∧
      (ALdistortion_setParamf lim effect param f).1.vtab = effect.vtab ∧
      (ALdistortion_setParamf lim effect param f).1.id = effect.id) ∨
    (¬ (lo ≤ f ∧ f ≤ hi) ∧
      ALdistortion_setParamf lim effect param f = (effect, some AL_INVALID_VALUE)) := by
  have d12 : AL_DISTORTION_EDGE ≠ AL_DISTORTION_GAIN := by decide
  have d13 : AL_DISTORTION_EDGE ≠ AL_DISTORTION_LOWPASS_CUTOFF := by decide
  have d14 : AL_DISTORTION_EDGE ≠ AL_DISTORTION_EQCENTER := by decide
  have d15 : AL_DISTORTION_EDGE ≠ AL_DISTORTION_EQBANDWIDTH := by decide
  have d23 : AL_DISTORTION_GAIN ≠ AL_DISTORTION_LOWPASS_CUTOFF := by decide
  have d24 : AL_DISTORTION_GAIN ≠ AL_DISTORTION_EQCENTER := by decide
  have d25 : AL_DISTORTION_GAIN ≠ AL_DISTORTION_EQBANDWIDTH := by decide
  have d34 : AL_DISTORTION_LOWPASS_CUTOFF ≠ AL_DISTORTION_EQCENTER := by decide
  have d35 : AL_DISTORTION_LOWPASS_CUTOFF ≠ AL_DISTORTION_EQBANDWIDTH := by decide
  have d45 : AL_DISTORTION_EQCENTER ≠ AL_DISTORTION_EQBANDWIDTH := by decide
  by_cases hin : lo ≤ f ∧ f ≤ hi
  · left
    refine ⟨hin, ?_⟩
    rcases distortionRange_some h with ⟨hp, h1, h2⟩ | ⟨hp, h1, h2⟩ | ⟨hp, h1, h2⟩ |
      ⟨hp, h1, h2⟩ | ⟨hp, h1, h2⟩
    all_goals
      subst hp
      rw [h1, h2] at hin
      have hge : _ ≥ _ := hin.1
      refine ⟨?_, ?_, ?_, ?_, ?_, ?_⟩
      · simp [ALdistortion_setParamf, hge, hin.2, d12, d13, d14, d15, d23, d24, d25, d34,
          d35, d45, d12.symm, d13.symm, d14.symm, d15.symm, d23.symm, d24.symm, d25.symm,
          d34.symm, d35.symm, d45.symm]
      · simp [ALdistortion_setParamf, ALdistortion_getParamf, hge, hin.2, d12, d13, d14, d15,
          d23, d24, d25, d34, d35, d45, d12.symm, d13.symm, d14.symm, d15.symm, d23.symm,
          d24.symm, d25.symm, d34.symm, d35.symm, d45.symm]
      · intro other hother
        simp only [ALdistortion_setParamf, ALdistortion_getParamf, hge, hin.2, d12, d13, d14,
          d15, d23, d24, d25, d34, d35, d45, d12.symm, d13.symm, d14.symm, d15.symm,
          d23.symm, d24.symm, d25.symm, d34.symm, d35.symm, d45.symm, and_self,
          not_true_eq_false, if_true, if_false, hother]
      · simp [ALdistortion_setParamf, hge, hin.2, d12, d13, d14, d15, d23, d24, d25, d34,
          d35, d45, d12.symm, d13.symm, d14.symm, d15.symm, d23.symm, d24.symm, d25.symm,
          d34.symm, d35.symm, d45.symm]
      · simp [ALdistortion_setParamf, hge, hin.2, d12, d13, d14, d15, d23, d24, d25, d34,
          d35, d45, d12.symm, d13.symm, d14.symm, d15.symm, d23.symm, d24.symm, d25.symm,
          d34.symm, d35.symm, d45.symm]
      · simp [ALdistortion_setParamf, hge, hin.2, d12, d13, d14, d15, d23, d24, d25, d34,
          d35, d45, d12.symm, d13.symm, d14.symm, d15.symm, d23.symm, d24.symm, d25.symm,
          d34.symm, d35.symm, d45.symm]
  · right
    refine ⟨hin, ?_⟩
    rcases distortionRange_some h with ⟨hp, h1, h2⟩ | ⟨hp, h1, h2⟩ | ⟨hp, h1, h2⟩ |
      ⟨hp, h1, h2⟩ | ⟨hp, h1, h2⟩
    all_goals
      subst hp
      rw [h1, h2] at hin
      have hnot : ¬ (f ≥ _ ∧ f ≤ _) := hin
      simp only [ALdistortion_setParamf, hnot, d12, d13, d14, d15, d23, d24, d25, d34, d35,
        d45, d12.symm, d13.symm, d14.symm, d15.symm, d23.symm, d24.symm, d25.symm, d34.symm,
        d35.symm, d45.symm, not_false_eq_true, if_true, if_false]

/-- C14: for each of the five distortion float parameters and every value `f` within that
parameter's range, `ALdistortion_setParamf` raises nothing and a following
`ALdistortion_getParamf` on the same tag writes exactly `f`, while every other tag reads
back what it read before the set; type, vtable and id of the object are untouched. -/
theorem C14_distortion_roundtrip (lim : DistortionLimits R)
    (effect : ALeffect (ALeffectProps R)) (param : Int) (lo hi f : R)
    (hrange : distortionRange lim param = some (lo, hi)) (hlo : lo ≤ f) (hhi : f ≤ hi) :
    (ALdistortion_setParamf lim effect param f).2 = none ∧
    ALdistortion_getParamf (ALdistortion_setParamf lim effect param f).1 param
      = (some f, none) ∧
    (∀ other, other ≠ param →
      ALdistortion_getParamf (ALdistortion_setParamf lim effect param f).1 other
        = ALdistortion_getParamf effect other) ∧
    (ALdistortion_setParamf lim effect param f).1.type = effect.type ∧
    (ALdistortion_setParamf lim effect param f).1.vtab = effect.vtab ∧
    (ALdistortion_setParamf lim effect param f).1.id = effect.id := by
  rcases setParamf_cases lim effect f hrange with ⟨_, h⟩ | ⟨hnot, _⟩
  · exact h
  · exact absurd ⟨hlo, hhi⟩ hnot

/-- C15: for each of the five distortion float parameters with range `[lo, hi]`,
`ALdistortion_setParamf` stores the value (and raises nothing) if and only if
`lo <= value <= hi`, the bounds themselves included; for a value below `lo` or above `hi`
it raises `AL_INVALID_VALUE` and leaves the effect, hence all five stored parameters,
unchanged.  `ALdistortion_setParamfv` behaves identically on `vals[0]`. -/
theorem C15_distortion_range_check (lim : DistortionLimits R)
    (effect : ALeffect (ALeffectProps R)) (param : Int) (lo hi : R)
    (hrange : distortionRange lim param = some (lo, hi)) :
    (∀ f, ((ALdistortion_setParamf lim effect param f).2 = none ↔ lo ≤ f ∧ f ≤ hi)) ∧
    (∀ f, lo ≤ f → f ≤ hi →
      ALdistortion_getParamf (ALdistortion_setParamf lim effect param f).1 param
        = (some f, none)) ∧
    (lo ≤ hi →
      (ALdistortion_setParamf lim effect param lo).2 = none ∧
      ALdistortion_getParamf (ALdistortion_setParamf lim effect param lo).1 param
        = (some lo, none) ∧
      (ALdistortion_setParamf lim effect param hi).2 = none ∧
      ALdistortion_getParamf (ALdistortion_setParamf lim effect param hi).1 param
        = (some hi, none)) ∧
    (∀ f, f < lo ∨ hi < f →
      ALdistortion_setParamf lim effect param f = (effect, some AL_INVALID_VALUE)) ∧
    (∀ vals f, vals[0]? = some f →
      ALdistortion_setParamfv lim effect param vals
        = some (ALdistortion_setParamf lim effect param f)) := by
  have hiff : ∀ f, ((ALdistortion_setParamf lim effect param f).2 = none ↔ lo ≤ f ∧ f ≤ hi) := by
    intro f
    rcases setParamf_cases lim effect f hrange with ⟨hin, h, _⟩ | ⟨hnot, h⟩
    · exact ⟨fun _ => hin, fun _ => h⟩
    · constructor
      · intro hn
        rw [h] at hn
        exact Option.noConfusion hn
      · intro hin
        exact absurd hin hnot
  have hget : ∀ f, lo ≤ f → f ≤ hi →
      ALdistortion_getParamf (ALdistortion_setParamf lim effect param f).1 param
        = (some f, none) := by
    intro f h1 h2
    rcases setParamf_cases lim effect f hrange with ⟨_, _, h, _⟩ | ⟨hnot, _⟩
    · exact h
    · exact absurd ⟨h1, h2⟩ hnot
  refine ⟨hiff, hget, ?_, ?_, ?_⟩
  · intro hle
    exact ⟨(hiff lo).mpr ⟨le_refl lo, hle⟩, hget lo (le_refl lo) hle,
      (hiff hi).mpr ⟨hle, le_refl hi⟩, hget hi hle (le_refl hi)⟩
  · intro f hout
    rcases setParamf_cases lim effect f hrange with ⟨hin, _⟩ | ⟨_, h⟩
    · rcases hout with h1 | h1
      · exact absurd hin.1 (not_le.mpr h1)
      · exact absurd hin.2 (not_le.mpr h1)
    · exact h
  · intro vals f hv
    unfold ALdistortion_setParamfv
    rw [hv]

/-- C16: a distortion effect has no integer parameters and no float parameter besides its
five tags: every integer and integer-vector set or get, whatever the tag and value, and
every float or float-vector set or get whose tag is not one of the five, raises
`AL_INVALID_ENUM`, leaves the effect as it was and, for getters, writes nothing. -/
theorem C16_distortion_invalid_enum (lim : DistortionLimits R)
    (effect : ALeffect (ALeffectProps R)) :
    (∀ param val, ALdistortion_setParami effect param val = (effect, some AL_INVALID_ENUM)) ∧
    (∀ param vals, ALdistortion_setParamiv effect param vals
      = (effect, some AL_INVALID_ENUM)) ∧
    (∀ param, ALdistortion_getParami effect param = (none, some AL_INVALID_ENUM)) ∧
    (∀ param, ALdistortion_getParamiv effect param = (none, some AL_INVALID_ENUM)) ∧
    (∀ param, distortionRange lim param = none →
      (∀ val, ALdistortion_setParamf lim effect param val = (effect, some AL_INVALID_ENUM)) ∧
      (∀ vals val, vals[0]? = some val →
        ALdistortion_setParamfv lim effect param vals
          = some (effect, some AL_INVALID_ENUM)) ∧
      ALdistortion_getParamf effect param = (none, some AL_INVALID_ENUM) ∧
      ALdistortion_getParamfv effect param = (none, some AL_INVALID_ENUM)) ∧
    (∀ param, distortionRange lim param = none ↔
      (param ≠ AL_DISTORTION_EDGE ∧ param ≠ AL_DISTORTION_GAIN ∧
        param ≠ AL_DISTORTION_LOWPASS_CUTOFF ∧ param ≠ AL_DISTORTION_EQCENTER ∧
        param ≠ AL_DISTORTION_EQBANDWIDTH)) := by
  refine ⟨fun _ _ => rfl, fun _ _ => rfl, fun _ => rfl, fun _ => rfl, ?_, ?_⟩
  · intro param hnone
    obtain ⟨h1, h2, h3, h4, h5⟩ := distortionRange_none hnone
    have hset : ∀ val, ALdistortion_setParamf lim effect param val
        = (effect, some AL_INVALID_ENUM) := by
      intro val
      simp only [ALdistortion_setParamf, h1, h2, h3, h4, h5, if_false]
    have hgetf : ALdistortion_getParamf effect param = (none, some AL_INVALID_ENUM) := by
      simp only [ALdistortion_getParamf, h1, h2, h3, h4, h5, if_false]
    refine ⟨hset, ?_, hgetf, hgetf⟩
    intro vals val hv
    unfold ALdistortion_setParamfv
    rw [hv]
    simp only [hset val]
  · intro param
    constructor
    · exact distortionRange_none
    · rintro ⟨h1, h2, h3, h4, h5⟩
      simp only [distortionRange, h1, h2, h3, h4, h5, if_false]

end DistortionParamsLemmas

theorem C14_distortion_roundtrip_witness :
    distortionRange sampleLimits AL_DISTORTION_GAIN = some (1 / 100, 1) ∧
    (1 / 100 : ℚ) ≤ 3 / 4 ∧ (3 / 4 : ℚ) ≤ 1 ∧
    (ALdistortion_setParamf sampleLimits sampleDistortion AL_DISTORTION_GAIN (3 / 4)).2 = none ∧
    ALdistortion_getParamf
        (ALdistortion_setParamf sampleLimits sampleDistortion AL_DISTORTION_GAIN (3 / 4)).1
        AL_DISTORTION_GAIN = (some (3 / 4), none) ∧
    ALdistortion_getParamf
        (ALdistortion_setParamf sampleLimits sampleDistortion AL_DISTORTION_GAIN (3 / 4)).1
        AL_DISTORTION_EDGE = (some (1 / 5), none) := by
  have h := C14_distortion_roundtrip sampleLimits sampleDistortion AL_DISTORTION_GAIN
    (1 / 100) 1 (3 / 4) rfl (by norm_num) (by norm_num)
  refine ⟨rfl, by norm_num, by norm_num, h.1, h.2.1, ?_⟩
  rw [h.2.2.1 AL_DISTORTION_EDGE (by decide)]
  rfl

theorem C15_distortion_range_check_witness :
    distortionRange sampleLimits AL_DISTORTION_LOWPASS_CUTOFF = some (80, 24000) ∧
    (ALdistortion_setParamf sampleLimits sampleDistortion AL_DISTORTION_LOWPASS_CUTOFF 80).2
      = none ∧
    (ALdistortion_setParamf sampleLimits sampleDistortion AL_DISTORTION_LOWPASS_CUTOFF 24000).2
      = none ∧
    ALdistortion_setParamf sampleLimits sampleDistortion AL_DISTORTION_LOWPASS_CUTOFF 24001
      = (sampleDistortion, some AL_INVALID_VALUE) ∧
    ALdistortion_setParamf sampleLimits sampleDistortion AL_DISTORTION_LOWPASS_CUTOFF (159 / 2)
      = (sampleDistortion, some AL_INVALID_VALUE) := by
  have h := C15_distortion_range_check sampleLimits sampleDistortion
    AL_DISTORTION_LOWPASS_CUTOFF 80 24000 rfl
  have hb := h.2.2.1 (by norm_num)
  exact ⟨rfl, hb.1, hb.2.2.1, h.2.2.2.1 24001 (Or.inr (by norm_num)),
    h.2.2.2.1 (159 / 2) (Or.inl (by norm_num))⟩

/-! ## Distortion effect: loops in closed form -/

theorem forLoop_succ {σ : Type} (body : Nat → σ → σ) (n : Nat) (s : σ) :
    forLoop body (n + 1) s = body n (forLoop body n s) := rfl

/-- A loop that writes cell `off + i` in iteration `i`, from the old value of that cell. -/
theorem forLoop_update_closed {α : Type} (F : Nat → α → α) (off : Nat) (n : Nat) (a : Nat → α)
    (j : Nat) :
    forLoop (fun i b => Function.update b (off + i) (F i (b (off + i)))) n a j =
      if off ≤ j ∧ j < off + n then F (j - off) (a j) else a j := by
  induction n with
  | zero =>
    have h0 : ¬ (off ≤ j ∧ j < off + 0) := by omega
    rw [if_neg h0]
    rfl
  | succ n ih =>
    rw [forLoop_succ]
    by_cases hj : j = off + n
    · subst hj
      rw [Function.update_same, ih]
      have h1 : ¬ (off ≤ off + n ∧ off + n < off + n) := by omega
      have h2 : off ≤ off + n ∧ off + n < off + (n + 1) := by omega
      rw [if_neg h1, if_pos h2]
      simp
    · rw [Function.update_noteq hj, ih]
      by_cases h : off ≤ j ∧ j < off + n
      · have h2 : off ≤ j ∧ j < off + (n + 1) := by omega
        rw [if_pos h, if_pos h2]
      · have h2 : ¬ (off ≤ j ∧ j < off + (n + 1)) := by omega
        rw [if_neg h, if_neg h2]

/-- A loop that writes cell `i` in iteration `i` with a value that does not depend on the
array. -/
theorem forLoop_write_closed {α : Type} (v : Nat → α) (n : Nat) (a : Nat → α) (j : Nat) :
    forLoop (fun i b => Function.update b i (v i)) n a j = if j < n then v j else a j := by
  induction n with
  | zero => simp [forLoop]
  | succ n ih =>
    rw [forLoop_succ]
    by_cases hj : j = n
    · subst hj
      simp
    · rw [Function.update_noteq hj, ih]
      by_cases h : j < n
      · have h2 : j < n + 1 := by omega
        rw [if_pos h, if_pos h2]
      · have h2 : ¬ j < n + 1 := by omega
        rw [if_neg h, if_neg h2]

/-- A loop that rewrites row `k` of a two-dimensional array in each iteration is the loop
on that row. -/
theorem forLoop_row {α : Type} (f : Nat → (Nat → α) → (Nat → α)) (k : Nat) (n : Nat)
    (out : Nat → Nat → α) :
    forLoop (fun i o => Function.update o k (f i (o k))) n out =
      Function.update out k (forLoop f n (out k)) := by
  induction n with
  | zero => simp [forLoop]
  | succ n ih =>
    rw [forLoop_succ, ih, forLoop_succ]
    simp

/-- A loop over the rows that rewrites row `k` in iteration `k` when `c k` holds. -/
theorem forLoop_rows_closed {α : Type} (c : Nat → Prop) [DecidablePred c]
    (G : Nat → (Nat → α) → (Nat → α)) (n : Nat) (out : Nat → Nat → α) (k : Nat) :
    forLoop (fun k o => if ¬ c k then o else Function.update o k (G k (o k))) n out k =
      if k < n ∧ c k then G k (out k) else out k := by
  induction n with
  | zero => simp [forLoop]
  | succ n ih =>
    rw [forLoop_succ]
    by_cases hc : c n
    · rw [if_neg (not_not.mpr hc)]
      by_cases hk : k = n
      · subst hk
        rw [Function.update_same, ih]
        have h1 : ¬ (k < k ∧ c k) := by omega
        have h2 : k < k + 1 ∧ c k := ⟨by omega, hc⟩
        rw [if_neg h1, if_pos h2]
      · rw [Function.update_noteq hk, ih]
        by_cases h : k < n ∧ c k
        · have h2 : k < n + 1 ∧ c k := ⟨by omega, h.2⟩
          rw [if_pos h, if_pos h2]
        · have h2 : ¬ (k < n + 1 ∧ c k) := fun h3 => h ⟨by omega, h3.2⟩
          rw [if_neg h, if_neg h2]
    · rw [if_pos hc, ih]
      by_cases h : k < n ∧ c k
      · have h2 : k < n + 1 ∧ c k := ⟨by omega, h.2⟩
        rw [if_pos h, if_pos h2]
      · have h2 : ¬ (k < n + 1 ∧ c k) := by
          intro h3
          by_cases hk : k = n
          · subst hk; exact hc h3.2
          · exact h ⟨by omega, h3.2⟩
        rw [if_neg h, if_neg h2]

section DistortionLemmas

variable {R B : Type} [LinearOrderedField R]

omit [LinearOrderedField R] in
theorem biquad_process_succ (ops : BiquadOps R B) (b : B) (dst src : Nat → R) (n : Nat) :
    BiquadFilter.process ops b dst src (n + 1) =
      (Function.update (BiquadFilter.process ops b dst src n).1 n
          (ops.step (BiquadFilter.process ops b dst src n).2 (src n)).1,
        (ops.step (BiquadFilter.process ops b dst src n).2 (src n)).2) := rfl

omit [LinearOrderedField R] in
/-- The filter reads only `src[0..n)`, and what it leaves in `dst[0..n)` and in its history
does not depend on `dst`. -/
theorem biquad_process_congr (ops : BiquadOps R B) (b : B) (dst dst' src src' : Nat → R)
    (n : Nat) (h : ∀ i, i < n → src i = src' i) :
    (BiquadFilter.process ops b dst src n).2 = (BiquadFilter.process ops b dst' src' n).2 ∧
      ∀ i, i < n →
        (BiquadFilter.process ops b dst src n).1 i = (BiquadFilter.process ops b dst' src' n).1 i := by
  induction n with
  | zero => exact ⟨rfl, fun i hi => absurd hi (Nat.not_lt_zero i)⟩
  | succ n ih =>
    obtain ⟨ih2, ih1⟩ := ih (fun i hi => h i (Nat.lt_succ_of_lt hi))
    rw [biquad_process_succ, biquad_process_succ]
    have hs : src n = src' n := h n (Nat.lt_succ_self n)
    refine ⟨?_, ?_⟩
    · show (ops.step _ _).2 = (ops.step _ _).2
      rw [ih2, hs]
    · intro i hi
      show Function.update _ n _ i = Function.update _ n _ i
      by_cases hin : i = n
      · subst hin
        rw [Function.update_same, Function.update_same, ih2, hs]
      · rw [Function.update_noteq hin, Function.update_noteq hin]
        exact ih1 i (by omega)

/-- The oversampled stream that the zero-stuffing loop leaves in `buffer[0]`. -/
theorem zeroStuff_apply (samplesIn0 : Nat → R) (base todo : Nat) (buffer0 : Nat → R) (i : Nat) :
    zeroStuff samplesIn0 base todo buffer0 i =
      if i < todo then (if i % 4 = 0 then 4 * samplesIn0 (base + i / 4) else 0)
      else buffer0 i := by
  unfold zeroStuff
  rw [forLoop_write_closed]
  have h3 : i &&& 3 = i % 4 := Nat.and_pow_two_sub_one_eq_mod i 2
  have h4 : i >>> 2 = i / 4 := Nat.shiftRight_eq_div_pow i 2
  rw [h3, h4, Nat.add_comm (i / 4) base, mul_comm]

theorem shapeLoop_apply (fc : R) (buffer1 : Nat → R) (todo : Nat) (buffer0 : Nat → R) (i : Nat) :
    shapeLoop fc buffer1 todo buffer0 i =
      if i < todo then waveshape fc (buffer1 i) else buffer0 i := by
  unfold shapeLoop
  rw [forLoop_write_closed]

/-- The mixing loop adds `gain * buffer[1][4*(j-base)]` to the samples `base <= j < base+todo`
of the channels below `numOutput` whose gain passes the threshold, and writes nothing
else. -/
theorem mixBlock_apply (env : ProcessEnv R B) (mGain : Nat → R) (buffer1 : Nat → R)
    (base todo numOutput : Nat) (samplesOut : Nat → Nat → R) (k j : Nat) :
    mixBlock env mGain buffer1 base todo numOutput samplesOut k j =
      if k < numOutput ∧ |mGain k| > env.GAIN_SILENCE_THRESHOLD ∧ base ≤ j ∧ j < base + todo
      then samplesOut k j + mGain k * buffer1 (4 * (j - base)) else samplesOut k j := by
  unfold mixBlock
  have key : (fun (k : Nat) (out : Nat → Nat → R) =>
      if ¬ (|mGain k| > env.GAIN_SILENCE_THRESHOLD) then out
      else
        forLoop (fun i out1 =>
            Function.update out1 k
              (Function.update (out1 k) (base + i)
                (out1 k (base + i) + mGain k * buffer1 (i * 4))))
          todo out) =
      (fun (k : Nat) (o : Nat → Nat → R) =>
        if ¬ (|mGain k| > env.GAIN_SILENCE_THRESHOLD) then o
        else Function.update o k
          (forLoop (fun (i : Nat) (r : Nat → R) =>
            Function.update r (base + i) (r (base + i) + mGain k * buffer1 (i * 4)))
            todo (o k))) := by
    funext k o
    by_cases hc : |mGain k| > env.GAIN_SILENCE_THRESHOLD
    · rw [if_neg (not_not.mpr hc), if_neg (not_not.mpr hc)]
      exact forLoop_row (fun (i : Nat) (r : Nat → R) =>
        Function.update r (base + i) (r (base + i) + mGain k * buffer1 (i * 4))) k todo o
    · rw [if_pos hc, if_pos hc]
  rw [key]
  have h1 := forLoop_rows_closed (fun k => |mGain k| > env.GAIN_SILENCE_THRESHOLD)
    (fun (k : Nat) (row : Nat → R) => forLoop (fun (i : Nat) (r : Nat → R) =>
      Function.update r (base + i) (r (base + i) + mGain k * buffer1 (i * 4)))
      todo row) numOutput samplesOut k
  beta_reduce at h1
  rw [h1]
  by_cases hk : k < numOutput ∧ |mGain k| > env.GAIN_SILENCE_THRESHOLD
  · rw [if_pos hk]
    have h2 := forLoop_update_closed (fun (i : Nat) (v : R) => v + mGain k * buffer1 (i * 4))
      base todo (samplesOut k) j
    beta_reduce at h2
    rw [h2]
    by_cases hj : base ≤ j ∧ j < base + todo
    · rw [if_pos hj, if_pos ⟨hk.1, hk.2, hj.1, hj.2⟩, Nat.mul_comm]
    · rw [if_neg hj, if_neg (fun h => hj ⟨h.2.2.1, h.2.2.2⟩)]
  · rw [if_neg hk, if_neg (fun h => hk ⟨h.1, h.2.1⟩)]

end DistortionLemmas

section DistortionBlocks

variable {R B : Type} [LinearOrderedField R]

/-- The filter stages of a sub-block read `samplesIn[0][base + i/4]` for `i < todo`, the two
filters and the edge coefficient, and nothing else: two runs that agree on these leave the
same filters and the same `buffer[1][0..todo)`. -/
theorem filterBlock_congr (env : ProcessEnv R B) (st st' : ALdistortionState R B)
    (samplesIn samplesIn' : Nat → Nat → R) (base todo : Nat)
    (hL : st.mLowpass = st'.mLowpass) (hP : st.mBandpass = st'.mBandpass)
    (hE : st.mEdgeCoeff = st'.mEdgeCoeff)
    (hin : ∀ i, i < todo → samplesIn 0 (base + i / 4) = samplesIn' 0 (base + i / 4)) :
    (st.filterBlock env samplesIn base todo).mLowpass =
        (st'.filterBlock env samplesIn' base todo).mLowpass ∧
      (st.filterBlock env samplesIn base todo).mBandpass =
        (st'.filterBlock env samplesIn' base todo).mBandpass ∧
      ∀ i, i < todo →
        (st.filterBlock env samplesIn base todo).mBuffer 1 i =
          (st'.filterBlock env samplesIn' base todo).mBuffer 1 i := by
  have hz : ∀ i, i < todo →
      zeroStuff (samplesIn 0) base todo (st.mBuffer 0) i =
        zeroStuff (samplesIn' 0) base todo (st'.mBuffer 0) i := by
    intro i hi
    rw [zeroStuff_apply, zeroStuff_apply, if_pos hi, if_pos hi, hin i hi]
  obtain ⟨hl2, hl1⟩ := biquad_process_congr env.biquad st.mLowpass (st.mBuffer 1) (st'.mBuffer 1)
    _ _ todo hz
  have hs : ∀ i, i < todo →
      shapeLoop st.mEdgeCoeff
          (BiquadFilter.process env.biquad st.mLowpass (st.mBuffer 1)
            (zeroStuff (samplesIn 0) base todo (st.mBuffer 0)) todo).1 todo
          (zeroStuff (samplesIn 0) base todo (st.mBuffer 0)) i =
        shapeLoop st'.mEdgeCoeff
          (BiquadFilter.process env.biquad st'.mLowpass (st'.mBuffer 1)
            (zeroStuff (samplesIn' 0) base todo (st'.mBuffer 0)) todo).1 todo
          (zeroStuff (samplesIn' 0) base todo (st'.mBuffer 0)) i := by
    intro i hi
    rw [shapeLoop_apply, shapeLoop_apply, if_pos hi, if_pos hi, ← hL, ← hE, hl1 i hi]
  obtain ⟨hb2, hb1⟩ := biquad_process_congr env.biquad st.mBandpass
    (BiquadFilter.process env.biquad st.mLowpass (st.mBuffer 1)
      (zeroStuff (samplesIn 0) base todo (st.mBuffer 0)) todo).1
    (BiquadFilter.process env.biquad st'.mLowpass (st'.mBuffer 1)
      (zeroStuff (samplesIn' 0) base todo (st'.mBuffer 0)) todo).1
    _ _ todo hs
  refine ⟨?_, ?_, ?_⟩
  · show (BiquadFilter.process env.biquad st.mLowpass _ _ todo).2 =
      (BiquadFilter.process env.biquad st'.mLowpass _ _ todo).2
    rw [← hL]
    exact hl2
  · show (BiquadFilter.process env.biquad st.mBandpass _ _ todo).2 =
      (BiquadFilter.process env.biquad st'.mBandpass _ _ todo).2
    rw [← hP]
    exact hb2
  · intro i hi
    simp only [ALdistortionState.filterBlock, Function.update_same]
    rw [← hP]
    exact hb1 i hi

theorem todo_facts (BUFFERSIZE samplesToDo base : Nat) (hB : 4 ≤ BUFFERSIZE)
    (hS : samplesToDo < 2 ^ 29) (hb : base < samplesToDo) :
    ¬ 2 ^ 31 ≤ (samplesToDo - base) * 4 ∧
      (min BUFFERSIZE ((samplesToDo - base) * 4)) >>> 2 ≠ 0 ∧
      base + (min BUFFERSIZE ((samplesToDo - base) * 4)) >>> 2 ≤ samplesToDo ∧
      4 * ((min BUFFERSIZE ((samplesToDo - base) * 4)) >>> 2) ≤
        min BUFFERSIZE ((samplesToDo - base) * 4) := by
  have h4 : (min BUFFERSIZE ((samplesToDo - base) * 4)) >>> 2 =
      (min BUFFERSIZE ((samplesToDo - base) * 4)) / 4 :=
    Nat.shiftRight_eq_div_pow _ 2
  rw [h4]
  norm_num at hS ⊢
  omega

end DistortionBlocks

section DistortionLoop

variable {R B : Type} [LinearOrderedField R]

/-- The sub-block loop of `process` from `base` on, against the decimated stream: both end,
with the same state; the stream is rewritten on `[base, samplesToDo)` only; and each output
sample is the old one plus `gain * y` on the channels below `numOutput` whose gain passes
the threshold and the samples in `[base, samplesToDo)`, and the old one elsewhere. -/
theorem process_loop_spec (env : ProcessEnv R B) (hB : 4 ≤ env.BUFFERSIZE) (samplesToDo : Nat)
    (hS : samplesToDo < 2 ^ 29) (samplesIn : Nat → Nat → R) (numOutput : Nat) :
    ∀ (d base : Nat) (st : ALdistortionState R B) (out : Nat → Nat → R) (y : Nat → R),
      samplesToDo - base = d →
      ∃ st' y' out',
        ALdistortionState.stream.loop env samplesToDo samplesIn base st y = some (st', y') ∧
        ALdistortionState.process.loop env samplesToDo samplesIn numOutput base st out =
          some (st', out') ∧
        st'.mGain = st.mGain ∧
        (∀ j, ¬ (base ≤ j ∧ j < samplesToDo) → y' j = y j) ∧
        ∀ k j, out' k j =
          if k < numOutput ∧ |st.mGain k| > env.GAIN_SILENCE_THRESHOLD ∧
              base ≤ j ∧ j < samplesToDo
          then out k j + st.mGain k * y' j else out k j := by
  intro d
  induction d using Nat.strong_induction_on with
  | _ d ih =>
    intro base st out y hd
    by_cases hb : base < samplesToDo
    · obtain ⟨hov, hz, hle, h4le⟩ := todo_facts env.BUFFERSIZE samplesToDo base hB hS hb
      have hpos : 0 < (min env.BUFFERSIZE ((samplesToDo - base) * 4)) >>> 2 :=
        Nat.pos_of_ne_zero hz
      rw [ALdistortionState.stream.loop, ALdistortionState.process.loop]
      simp only [if_pos hb, if_neg hov, dif_neg hz]
      obtain ⟨st', y', out', h1, h2, h3, h4, h5⟩ :=
        ih (samplesToDo - (base + (min env.BUFFERSIZE ((samplesToDo - base) * 4)) >>> 2))
          (by omega) (base + (min env.BUFFERSIZE ((samplesToDo - base) * 4)) >>> 2)
          (st.filterBlock env samplesIn base (min env.BUFFERSIZE ((samplesToDo - base) * 4)))
          (mixBlock env
            (st.filterBlock env samplesIn base
              (min env.BUFFERSIZE ((samplesToDo - base) * 4))).mGain
            ((st.filterBlock env samplesIn base
              (min env.BUFFERSIZE ((samplesToDo - base) * 4))).mBuffer 1) base
            ((min env.BUFFERSIZE ((samplesToDo - base) * 4)) >>> 2) numOutput out)
          (fun j =>
            if base ≤ j ∧ j < base + (min env.BUFFERSIZE ((samplesToDo - base) * 4)) >>> 2
            then (st.filterBlock env samplesIn base
              (min env.BUFFERSIZE ((samplesToDo - base) * 4))).mBuffer 1 (4 * (j - base))
            else y j) rfl
      refine ⟨st', y', out', h1, h2, h3, ?_, ?_⟩
      · intro j hj
        rw [h4 j (by omega)]
        have hn : ¬ (base ≤ j ∧
            j < base + (min env.BUFFERSIZE ((samplesToDo - base) * 4)) >>> 2) := by omega
        simp only [if_neg hn]
      · intro k j
        rw [h5 k j, mixBlock_apply]
        have hg : (st.filterBlock env samplesIn base
            (min env.BUFFERSIZE ((samplesToDo - base) * 4))).mGain = st.mGain := rfl
        rw [hg]
        by_cases hk : k < numOutput ∧ |st.mGain k| > env.GAIN_SILENCE_THRESHOLD
        · by_cases hj1 : base ≤ j ∧
              j < base + (min env.BUFFERSIZE ((samplesToDo - base) * 4)) >>> 2
          · have c1 : ¬ (k < numOutput ∧ |st.mGain k| > env.GAIN_SILENCE_THRESHOLD ∧
                base + (min env.BUFFERSIZE ((samplesToDo - base) * 4)) >>> 2 ≤ j ∧
                j < samplesToDo) := by omega
            have c2 : k < numOutput ∧ |st.mGain k| > env.GAIN_SILENCE_THRESHOLD ∧ base ≤ j ∧
                j < base + (min env.BUFFERSIZE ((samplesToDo - base) * 4)) >>> 2 :=
              ⟨hk.1, hk.2, hj1.1, hj1.2⟩
            have c3 : k < numOutput ∧ |st.mGain k| > env.GAIN_SILENCE_THRESHOLD ∧ base ≤ j ∧
                j < samplesToDo := ⟨hk.1, hk.2, hj1.1, by omega⟩
            rw [if_neg c1, if_pos c2, if_pos c3, h4 j (by omega)]
            simp only [if_pos hj1]
          · have c2 : ¬ (k < numOutput ∧ |st.mGain k| > env.GAIN_SILENCE_THRESHOLD ∧ base ≤ j ∧
                j < base + (min env.BUFFERSIZE ((samplesToDo - base) * 4)) >>> 2) :=
              fun h => hj1 ⟨h.2.2.1, h.2.2.2⟩
            rw [if_neg c2]
            by_cases hj2 : base + (min env.BUFFERSIZE ((samplesToDo - base) * 4)) >>> 2 ≤ j ∧
                j < samplesToDo
            · have c1 : k < numOutput ∧ |st.mGain k| > env.GAIN_SILENCE_THRESHOLD ∧
                  base + (min env.BUFFERSIZE ((samplesToDo - base) * 4)) >>> 2 ≤ j ∧
                  j < samplesToDo := ⟨hk.1, hk.2, hj2.1, hj2.2⟩
              have c3 : k < numOutput ∧ |st.mGain k| > env.GAIN_SILENCE_THRESHOLD ∧ base ≤ j ∧
                  j < samplesToDo := ⟨hk.1, hk.2, by omega, hj2.2⟩
              rw [if_pos c1, if_pos c3]
            · have c1 : ¬ (k < numOutput ∧ |st.mGain k| > env.GAIN_SILENCE_THRESHOLD ∧
                  base + (min env.BUFFERSIZE ((samplesToDo - base) * 4)) >>> 2 ≤ j ∧
                  j < samplesToDo) := fun h => hj2 ⟨h.2.2.1, h.2.2.2⟩
              have c3 : ¬ (k < numOutput ∧ |st.mGain k| > env.GAIN_SILENCE_THRESHOLD ∧
                  base ≤ j ∧ j < samplesToDo) := by
                intro h
                have h5 := h.2.2.1
                have h6 := h.2.2.2
                omega
              rw [if_neg c1, if_neg c3]
        · have c1 : ¬ (k < numOutput ∧ |st.mGain k| > env.GAIN_SILENCE_THRESHOLD ∧
              base + (min env.BUFFERSIZE ((samplesToDo - base) * 4)) >>> 2 ≤ j ∧
              j < samplesToDo) := fun h => hk ⟨h.1, h.2.1⟩
          have c2 : ¬ (k < numOutput ∧ |st.mGain k| > env.GAIN_SILENCE_THRESHOLD ∧ base ≤ j ∧
              j < base + (min env.BUFFERSIZE ((samplesToDo - base) * 4)) >>> 2) :=
            fun h => hk ⟨h.1, h.2.1⟩
          have c3 : ¬ (k < numOutput ∧ |st.mGain k| > env.GAIN_SILENCE_THRESHOLD ∧
              base ≤ j ∧ j < samplesToDo) := fun h => hk ⟨h.1, h.2.1⟩
          rw [if_neg c1, if_neg c2, if_neg c3]
    · rw [ALdistortionState.stream.loop, ALdistortionState.process.loop]
      simp only [if_neg hb]
      refine ⟨st, y, out, rfl, rfl, rfl, fun _ _ => rfl, ?_⟩
      intro k j
      have c : ¬ (k < numOutput ∧ |st.mGain k| > env.GAIN_SILENCE_THRESHOLD ∧
          base ≤ j ∧ j < samplesToDo) := by
        intro h
        have h5 := h.2.2.1
        have h6 := h.2.2.2
        omega
      rw [if_neg c]

end DistortionLoop

section DistortionStream

variable {R B : Type} [LinearOrderedField R]

/-- The decimated stream on `[base, samplesToDo)` and the filters afterwards depend only on
the two filters, the edge coefficient and the samples `[base, samplesToDo)` of input
channel 0. -/
theorem stream_loop_congr (env : ProcessEnv R B) (hB : 4 ≤ env.BUFFERSIZE) (samplesToDo : Nat)
    (hS : samplesToDo < 2 ^ 29) (samplesIn samplesIn' : Nat → Nat → R) :
    ∀ (d base : Nat) (st st' : ALdistortionState R B) (y y' : Nat → R),
      samplesToDo - base = d →
      st.mLowpass = st'.mLowpass → st.mBandpass = st'.mBandpass →
      st.mEdgeCoeff = st'.mEdgeCoeff →
      (∀ j, base ≤ j → j < samplesToDo → samplesIn 0 j = samplesIn' 0 j) →
      ∀ r r',
        ALdistortionState.stream.loop env samplesToDo samplesIn base st y = some r →
        ALdistortionState.stream.loop env samplesToDo samplesIn' base st' y' = some r' →
        r.1.mLowpass = r'.1.mLowpass ∧ r.1.mBandpass = r'.1.mBandpass ∧
          ∀ j, base ≤ j → j < samplesToDo → r.2 j = r'.2 j := by
  intro d
  induction d using Nat.strong_induction_on with
  | _ d ih =>
    intro base st st' y y' hd hL hP hE hin r r' hr hr'
    by_cases hb : base < samplesToDo
    · obtain ⟨hov, hz, hle, h4le⟩ := todo_facts env.BUFFERSIZE samplesToDo base hB hS hb
      have hpos : 0 < (min env.BUFFERSIZE ((samplesToDo - base) * 4)) >>> 2 :=
        Nat.pos_of_ne_zero hz
      rw [ALdistortionState.stream.loop] at hr hr'
      simp only [if_pos hb, if_neg hov, dif_neg hz] at hr hr'
      have hin' : ∀ i, i < min env.BUFFERSIZE ((samplesToDo - base) * 4) →
          samplesIn 0 (base + i / 4) = samplesIn' 0 (base + i / 4) := by
        intro i hi
        apply hin
        · omega
        · have : min env.BUFFERSIZE ((samplesToDo - base) * 4) ≤ (samplesToDo - base) * 4 :=
            min_le_right _ _
          omega
      obtain ⟨f1, f2, f3⟩ := filterBlock_congr env st st' samplesIn samplesIn' base
        (min env.BUFFERSIZE ((samplesToDo - base) * 4)) hL hP hE hin'
      obtain ⟨g1, g2, g3⟩ := ih
        (samplesToDo - (base + (min env.BUFFERSIZE ((samplesToDo - base) * 4)) >>> 2))
        (by omega) _ _ _ _ _ rfl f1 f2 hE
        (fun j hj1 hj2 => hin j (by omega) hj2) r r' hr hr'
      refine ⟨g1, g2, ?_⟩
      intro j hj1 hj2
      by_cases hj : base + (min env.BUFFERSIZE ((samplesToDo - base) * 4)) >>> 2 ≤ j
      · exact g3 j hj hj2
      · obtain ⟨s1, y1, o1, e1, _, _, fr1, _⟩ := process_loop_spec env hB samplesToDo hS
          samplesIn 0
          (samplesToDo - (base + (min env.BUFFERSIZE ((samplesToDo - base) * 4)) >>> 2))
          (base + (min env.BUFFERSIZE ((samplesToDo - base) * 4)) >>> 2)
          (st.filterBlock env samplesIn base (min env.BUFFERSIZE ((samplesToDo - base) * 4)))
          (fun _ _ => 0)
          (fun j =>
            if base ≤ j ∧ j < base + (min env.BUFFERSIZE ((samplesToDo - base) * 4)) >>> 2
            then (st.filterBlock env samplesIn base
              (min env.BUFFERSIZE ((samplesToDo - base) * 4))).mBuffer 1 (4 * (j - base))
            else y j) rfl
        obtain ⟨s2, y2, o2, e2, _, _, fr2, _⟩ := process_loop_spec env hB samplesToDo hS
          samplesIn' 0
          (samplesToDo - (base + (min env.BUFFERSIZE ((samplesToDo - base) * 4)) >>> 2))
          (base + (min env.BUFFERSIZE ((samplesToDo - base) * 4)) >>> 2)
          (st'.filterBlock env samplesIn' base (min env.BUFFERSIZE ((samplesToDo - base) * 4)))
          (fun _ _ => 0)
          (fun j =>
            if base ≤ j ∧ j < base + (min env.BUFFERSIZE ((samplesToDo - base) * 4)) >>> 2
            then (st'.filterBlock env samplesIn' base
              (min env.BUFFERSIZE ((samplesToDo - base) * 4))).mBuffer 1 (4 * (j - base))
            else y' j) rfl
        rw [e1] at hr
        rw [e2] at hr'
        cases hr
        cases hr'
        have hjb : base ≤ j ∧
            j < base + (min env.BUFFERSIZE ((samplesToDo - base) * 4)) >>> 2 := by omega
        show y1 j = y2 j
        rw [fr1 j (by omega), fr2 j (by omega)]
        simp only [if_pos hjb]
        exact f3 _ (by omega)
    · rw [ALdistortionState.stream.loop] at hr hr'
      simp only [if_neg hb] at hr hr'
      cases hr
      cases hr'
      exact ⟨hL, hP, fun j hj1 hj2 => absurd (Nat.lt_of_le_of_lt hj1 hj2) hb⟩

end DistortionStream

section DistortionClaims

variable {R B T : Type} [LinearOrderedField R]

/-- A call of `process` against the decimated stream of the same call. -/
theorem process_spec (env : ProcessEnv R B) (st : ALdistortionState R B) (samplesToDo : Nat)
    (samplesIn : Nat → Nat → R) (numInput : Nat) (samplesOut : Nat → Nat → R)
    (numOutput : Nat) (hB : 4 ≤ env.BUFFERSIZE) (hS : samplesToDo < 2 ^ 29) :
    ∃ st' y out',
      st.stream env samplesToDo samplesIn = some (st', y) ∧
      st.process env samplesToDo samplesIn numInput samplesOut numOutput = some (st', out') ∧
      ∀ k j, out' k j =
        if k < numOutput ∧ |st.mGain k| > env.GAIN_SILENCE_THRESHOLD ∧ j < samplesToDo
        then samplesOut k j + st.mGain k * y j else samplesOut k j := by
  obtain ⟨st', y, out', h1, h2, _, _, h5⟩ := process_loop_spec env hB samplesToDo hS samplesIn
    numOutput samplesToDo 0 st samplesOut (fun _ => 0) rfl
  refine ⟨st', y, out', h1, h2, ?_⟩
  intro k j
  rw [h5 k j]
  simp only [Nat.zero_le, true_and]

/-- The decimated stream on the first sub-block: sample `j` is the band-passed sample at
oversampled index `4*j`. -/
theorem stream_first_block (env : ProcessEnv R B) (st : ALdistortionState R B)
    (samplesToDo : Nat) (samplesIn : Nat → Nat → R)
    (hB : 4 ≤ env.BUFFERSIZE) (hS : samplesToDo < 2 ^ 29)
    (r : ALdistortionState R B × (Nat → R))
    (hr : st.stream env samplesToDo samplesIn = some r) (j : Nat)
    (hj : j < (min env.BUFFERSIZE (samplesToDo * 4)) >>> 2) :
    r.2 j = (st.filterBlock env samplesIn 0 (min env.BUFFERSIZE (samplesToDo * 4))).mBuffer 1
      (4 * j) := by
  have hb : 0 < samplesToDo := by
    rcases Nat.eq_zero_or_pos samplesToDo with h0 | h0
    · subst h0
      simp at hj
    · exact h0
  obtain ⟨hov, hz, hle, _⟩ := todo_facts env.BUFFERSIZE samplesToDo 0 hB hS hb
  unfold ALdistortionState.stream at hr
  rw [ALdistortionState.stream.loop] at hr
  simp only [if_pos hb, if_neg hov, dif_neg hz] at hr
  simp only [Nat.sub_zero, Nat.zero_add, Nat.zero_le, true_and] at hr hle
  obtain ⟨s1, y1, o1, e1, _, _, fr1, _⟩ := process_loop_spec env hB samplesToDo hS
    samplesIn 0 (samplesToDo - (min env.BUFFERSIZE (samplesToDo * 4)) >>> 2)
    ((min env.BUFFERSIZE (samplesToDo * 4)) >>> 2)
    (st.filterBlock env samplesIn 0 (min env.BUFFERSIZE (samplesToDo * 4)))
    (fun _ _ => 0)
    (fun j =>
      if j < (min env.BUFFERSIZE (samplesToDo * 4)) >>> 2
      then (st.filterBlock env samplesIn 0
        (min env.BUFFERSIZE (samplesToDo * 4))).mBuffer 1 (4 * j)
      else 0) rfl
  rw [e1] at hr
  cases hr
  show y1 j = _
  rw [fr1 j (by omega)]
  simp only [if_pos hj]

/-- C17: `process` accumulates.  With `BUFFERSIZE >= 4` and `samplesToDo` small enough for
`(samplesToDo - base) * 4` to be an `int`, the call ends, and for every `k < numOutput`
whose gain has magnitude above `GAIN_SILENCE_THRESHOLD` and every `j < samplesToDo`, the
output sample is the old one plus `mGain[k] * y[j]`, where `y` is the decimated band-passed
stream of the call: it is computed from the state and the input alone, so it is the same
for every channel and does not depend on `samplesOut`; on the first sub-block `y[j]` is the
band-passed sample at oversampled index `4*j`. -/
theorem C17_process_accumulates (env : ProcessEnv R B) (st : ALdistortionState R B)
    (samplesToDo : Nat) (samplesIn : Nat → Nat → R) (numInput : Nat)
    (samplesOut : Nat → Nat → R) (numOutput : Nat)
    (hB : 4 ≤ env.BUFFERSIZE) (hS : samplesToDo < 2 ^ 29) :
    ∃ st' y,
      st.stream env samplesToDo samplesIn = some (st', y) ∧
      (∀ j, j < (min env.BUFFERSIZE (samplesToDo * 4)) >>> 2 →
        y j = (st.filterBlock env samplesIn 0
          (min env.BUFFERSIZE (samplesToDo * 4))).mBuffer 1 (4 * j)) ∧
      ∃ out',
        st.process env samplesToDo samplesIn numInput samplesOut numOutput = some (st', out') ∧
        ∀ k, k < numOutput → |st.mGain k| > env.GAIN_SILENCE_THRESHOLD →
          ∀ j, j < samplesToDo → out' k j = samplesOut k j + st.mGain k * y j := by
  obtain ⟨st', y, out', h1, h2, h3⟩ :=
    process_spec env st samplesToDo samplesIn numInput samplesOut numOutput hB hS
  refine ⟨st', y, h1, ?_, out', h2, ?_⟩
  · intro j hj
    exact stream_first_block env st samplesToDo samplesIn hB hS (st', y) h1 j hj
  · intro k hk hg j hj
    rw [h3 k j, if_pos ⟨hk, hg, hj⟩]

/-- C18: `process` leaves every output sample outside the set of `(k, j)` with
`k < numOutput`, gain magnitude above `GAIN_SILENCE_THRESHOLD` and `j < samplesToDo` as it
was: channels at or beyond `numOutput`, channels at or below the threshold, and samples at
or beyond `samplesToDo`. -/
theorem C18_process_frame (env : ProcessEnv R B) (st : ALdistortionState R B)
    (samplesToDo : Nat) (samplesIn : Nat → Nat → R) (numInput : Nat)
    (samplesOut : Nat → Nat → R) (numOutput : Nat)
    (hB : 4 ≤ env.BUFFERSIZE) (hS : samplesToDo < 2 ^ 29) :
    ∃ st' out',
      st.process env samplesToDo samplesIn numInput samplesOut numOutput = some (st', out') ∧
      ∀ k j,
        ¬ (k < numOutput ∧ |st.mGain k| > env.GAIN_SILENCE_THRESHOLD ∧ j < samplesToDo) →
        out' k j = samplesOut k j := by
  obtain ⟨st', y, out', _, h2, h3⟩ :=
    process_spec env st samplesToDo samplesIn numInput samplesOut numOutput hB hS
  refine ⟨st', out', h2, ?_⟩
  intro k j hn
  rw [h3 k j, if_neg hn]

end DistortionClaims

theorem C17_process_accumulates_witness :
    4 ≤ sampleProcessEnv.BUFFERSIZE ∧ 3 < 2 ^ 29 ∧
    ∃ st' y,
      sampleDistortionState.stream sampleProcessEnv 3 sampleInput = some (st', y) ∧
      (∀ j, j < (min sampleProcessEnv.BUFFERSIZE (3 * 4)) >>> 2 →
        y j = (sampleDistortionState.filterBlock sampleProcessEnv sampleInput 0
          (min sampleProcessEnv.BUFFERSIZE (3 * 4))).mBuffer 1 (4 * j)) ∧
      ∃ out',
        sampleDistortionState.process sampleProcessEnv 3 sampleInput 1 (fun _ _ => 5) 2
          = some (st', out') ∧
        ∀ k, k < 2 →
          |sampleDistortionState.mGain k| > sampleProcessEnv.GAIN_SILENCE_THRESHOLD →
          ∀ j, j < 3 → out' k j = 5 + sampleDistortionState.mGain k * y j :=
  ⟨by decide, by decide,
    C17_process_accumulates sampleProcessEnv sampleDistortionState 3 sampleInput 1
      (fun _ _ => 5) 2 (by decide) (by decide)⟩

theorem C18_process_frame_witness :
    4 ≤ sampleProcessEnv.BUFFERSIZE ∧ 3 < 2 ^ 29 ∧
    ∃ st' out',
      sampleDistortionState.process sampleProcessEnv 3 sampleInput 1 (fun _ _ => 5) 2
        = some (st', out') ∧
      out' 1 0 = 5 ∧ out' 2 0 = 5 ∧ out' 0 3 = 5 := by
  obtain ⟨st', out', h1, h2⟩ :=
    C18_process_frame sampleProcessEnv sampleDistortionState 3 sampleInput 1
      (fun _ _ => 5) 2 (by decide) (by decide)
  refine ⟨by decide, by decide, st', out', h1, h2 1 0 ?_, h2 2 0 ?_, h2 0 3 ?_⟩
  · intro h
    have h3 := h.2.1
    norm_num [sampleDistortionState, sampleProcessEnv] at h3
  · intro h
    exact absurd h.1 (by decide)
  · intro h
    exact absurd h.2.2 (by decide)

section DistortionEdge

variable {R B T : Type} [LinearOrderedField R]

/-- With edge coefficient 0 each of the three waveshaper statements divides by 1, and the
second one negates. -/
theorem waveshape_zero (s : R) : waveshape 0 s = -s := by
  unfold waveshape
  simp

/-- C20: `Edge = 0` gives the edge coefficient 0 (the sine of 0 being 0), and with the
coefficient 0 the three-stage waveshaper maps every `s` to `-s` in exact arithmetic, so it
keeps the magnitude; in a sub-block of `process` the shaped buffer is then the negated
low-pass output. -/
theorem C20_edge_zero_inverts (ue : UpdateEnv R B T) (ops : BiquadOps R B)
    (st : ALdistortionState R B) (Frequency : Nat) (slotGain : R) (props : ALeffectProps R)
    (target : T) (hsin : ue.sin 0 = 0) (hEdge : props.Distortion.Edge = 0) :
    (st.update ue ops Frequency slotGain props target).mEdgeCoeff = 0 ∧
    (∀ s : R, waveshape 0 s = -s) ∧
    (∀ s : R, |waveshape 0 s| = |s|) ∧
    ∀ (env : ProcessEnv R B) (st1 : ALdistortionState R B) (samplesIn : Nat → Nat → R)
      (base todo i : Nat), st1.mEdgeCoeff = 0 → i < todo →
      (st1.filterBlock env samplesIn base todo).mBuffer 0 i =
        -((BiquadFilter.process env.biquad st1.mLowpass (st1.mBuffer 1)
            (zeroStuff (samplesIn 0) base todo (st1.mBuffer 0)) todo).1 i) := by
  refine ⟨?_, waveshape_zero, ?_, ?_⟩
  · show ALdistortionState.edgeCoeff ue props.Distortion.Edge = 0
    unfold ALdistortionState.edgeCoeff
    rw [hEdge, mul_zero, hsin]
    have h : min (0 : R) (4152361 / 4194304) = 0 := min_eq_left (by norm_num)
    simp only [h]
    simp
  · intro s
    rw [waveshape_zero, abs_neg]
  · intro env st1 samplesIn base todo i h0 hi
    have h01 : (0 : Nat) ≠ 1 := by decide
    simp only [ALdistortionState.filterBlock, Function.update_noteq h01, Function.update_same]
    rw [shapeLoop_apply, if_pos hi, h0, waveshape_zero]

end DistortionEdge

theorem C20_edge_zero_inverts_witness :
    sampleUpdateEnv.sin 0 = 0 ∧ sampleEdgeZero.Distortion.Edge = 0 ∧
    (sampleDistortionState.update sampleUpdateEnv sampleBiquad 44100 1 sampleEdgeZero
      ()).mEdgeCoeff = 0 ∧
    waveshape (0 : ℚ) (3 / 4) = -(3 / 4) := by
  have hs : sampleUpdateEnv.sin 0 = 0 := by norm_num [sampleUpdateEnv]
  have h := C20_edge_zero_inverts sampleUpdateEnv sampleBiquad sampleDistortionState 44100 1
    sampleEdgeZero () hs rfl
  exact ⟨hs, rfl, h.1, h.2.1 (3 / 4)⟩

/-! ## Distortion effect: the waveshaper as a function -/

section Waveshaper

variable {R : Type} [LinearOrderedField R]

theorem waveshape_eq_stages (fc s : R) :
    waveshape fc s = waveshapeStage fc (-(waveshapeStage fc (waveshapeStage fc s))) := by
  unfold waveshape waveshapeStage
  simp only [mul_neg, mul_one]

theorem waveshapeStage_neg (fc s : R) : waveshapeStage fc (-s) = -(waveshapeStage fc s) := by
  unfold waveshapeStage
  rw [abs_neg, mul_neg, neg_div]

theorem waveshapeStage_den_pos (fc s : R) (hfc : 0 ≤ fc) : 0 < 1 + fc * |s| := by
  have h : 0 ≤ fc * |s| := mul_nonneg hfc (abs_nonneg s)
  linarith

theorem waveshapeStage_abs (fc s : R) (hfc : 0 ≤ fc) :
    |waveshapeStage fc s| = waveshapeStage fc |s| := by
  unfold waveshapeStage
  have hd := waveshapeStage_den_pos fc s hfc
  have h1 : (0 : R) ≤ 1 + fc := by linarith
  rw [abs_div, abs_mul, abs_of_nonneg h1, abs_of_pos hd, abs_abs]

/-- On `[0, 1]` a stage neither lowers a sample nor raises it above 1. -/
theorem waveshapeStage_unit (fc x : R) (hfc : 0 ≤ fc) (h0 : 0 ≤ x) (h1 : x ≤ 1) :
    x ≤ waveshapeStage fc x ∧ waveshapeStage fc x ≤ 1 := by
  unfold waveshapeStage
  rw [abs_of_nonneg h0]
  have hd : 0 < 1 + fc * x := by
    have h : 0 ≤ fc * x := mul_nonneg hfc h0
    linarith
  have hfx : fc * x ≤ fc := by
    have h := mul_le_mul_of_nonneg_left h1 hfc
    rwa [mul_one] at h
  constructor
  · rw [le_div_iff₀ hd]
    have h2 : x * (fc * x) ≤ x * fc := mul_le_mul_of_nonneg_left hfx h0
    nlinarith
  · rw [div_le_one hd]
    nlinarith

theorem waveshapeStage_one (fc : R) (hfc : 0 ≤ fc) : waveshapeStage fc 1 = 1 := by
  unfold waveshapeStage
  have h : (1 : R) + fc ≠ 0 := by
    have : (0 : R) < 1 + fc := by linarith
    exact ne_of_gt this
  rw [abs_one, mul_one, mul_one, div_self h]

/-- The magnitude of the waveshaper output is three stages applied to the magnitude. -/
theorem waveshape_abs (fc s : R) (hfc : 0 ≤ fc) :
    |waveshape fc s| = waveshapeStage fc (waveshapeStage fc (waveshapeStage fc |s|)) := by
  rw [waveshape_eq_stages, waveshapeStage_neg, abs_neg, waveshapeStage_abs _ _ hfc,
    waveshapeStage_abs _ _ hfc, waveshapeStage_abs _ _ hfc]

/-- C21: the three-stage waveshaper is odd-symmetric.  For `fc >= 0` every stage divides by
`1 + fc*|x| > 0`, and with `f` one stage, `W(s) = -f(f(f(s)))` and `W(-s) = -W(s)` for
every sample `s`. -/
theorem C21_waveshaper_odd (fc s : R) (hfc : 0 ≤ fc) :
    waveshape fc (-s) = -(waveshape fc s) ∧
    waveshape fc s = -(waveshapeStage fc (waveshapeStage fc (waveshapeStage fc s))) ∧
    0 < 1 + fc * |s| ∧ 0 < 1 + fc * |waveshapeStage fc s| ∧
    0 < 1 + fc * |waveshapeStage fc (waveshapeStage fc s)| := by
  refine ⟨?_, ?_, waveshapeStage_den_pos fc _ hfc, waveshapeStage_den_pos fc _ hfc,
    waveshapeStage_den_pos fc _ hfc⟩
  · rw [waveshape_eq_stages, waveshape_eq_stages, waveshapeStage_neg fc s,
      waveshapeStage_neg fc (waveshapeStage fc s), neg_neg, waveshapeStage_neg, neg_neg]
  · rw [waveshape_eq_stages, waveshapeStage_neg]

/-- C22: the waveshaper neither boosts past nor attenuates full scale.  For `fc >= 0` and
`|s| <= 1` the output has magnitude at most 1 and at least `|s|`, and the full-scale inputs
1 and -1 map to -1 and 1. -/
theorem C22_waveshaper_full_scale (fc s : R) (hfc : 0 ≤ fc) (hs : |s| ≤ 1) :
    |waveshape fc s| ≤ 1 ∧ |s| ≤ |waveshape fc s| ∧
    waveshape fc 1 = -1 ∧ waveshape fc (-1) = 1 := by
  obtain ⟨a1, a2⟩ := waveshapeStage_unit fc |s| hfc (abs_nonneg s) hs
  obtain ⟨b1, b2⟩ := waveshapeStage_unit fc _ hfc (le_trans (abs_nonneg s) a1) a2
  obtain ⟨c1, c2⟩ := waveshapeStage_unit fc _ hfc
    (le_trans (le_trans (abs_nonneg s) a1) b1) b2
  have h1 : waveshape fc 1 = -1 := by
    rw [waveshape_eq_stages, waveshapeStage_one fc hfc, waveshapeStage_one fc hfc,
      waveshapeStage_neg, waveshapeStage_one fc hfc]
  refine ⟨?_, ?_, h1, ?_⟩
  · rw [waveshape_abs fc s hfc]
    exact c2
  · rw [waveshape_abs fc s hfc]
    exact le_trans (le_trans a1 b1) c1
  · rw [waveshape_eq_stages, waveshapeStage_neg fc 1, waveshapeStage_one fc hfc,
      waveshapeStage_neg fc 1, waveshapeStage_one fc hfc, neg_neg, waveshapeStage_one fc hfc]

end Waveshaper

theorem C21_waveshaper_odd_witness :
    (0 : ℚ) ≤ 1 / 2 ∧
    waveshape (1 / 2 : ℚ) (-2) = -(waveshape (1 / 2 : ℚ) 2) ∧
    waveshape (1 / 2 : ℚ) 2
      = -(waveshapeStage (1 / 2) (waveshapeStage (1 / 2) (waveshapeStage (1 / 2 : ℚ) 2))) := by
  have h := C21_waveshaper_odd (1 / 2 : ℚ) 2 (by norm_num)
  exact ⟨by norm_num, h.1, h.2.1⟩

theorem C22_waveshaper_full_scale_witness :
    (0 : ℚ) ≤ 1 / 2 ∧ |(1 / 3 : ℚ)| ≤ 1 ∧
    |waveshape (1 / 2 : ℚ) (1 / 3)| ≤ 1 ∧ |(1 / 3 : ℚ)| ≤ |waveshape (1 / 2 : ℚ) (1 / 3)| ∧
    waveshape (1 / 2 : ℚ) 1 = -1 ∧ waveshape (1 / 2 : ℚ) (-1) = 1 := by
  have hs : |(1 / 3 : ℚ)| ≤ 1 := by
    rw [abs_of_nonneg (by norm_num)]
    norm_num
  have h := C22_waveshaper_full_scale (1 / 2 : ℚ) (1 / 3) (by norm_num) hs
  exact ⟨by norm_num, hs, h.1, h.2.1, h.2.2.1, h.2.2.2⟩

/-! ## Distortion effect: the coefficients `update` computes -/

section UpdateCoefficients

variable {R B T : Type} [LinearOrderedField R]

theorem edgeCoeff_eq (ue : UpdateEnv R B T) (Edge : R) :
    ALdistortionState.edgeCoeff ue Edge =
      2 * min (ue.sin (ue.Pi * (1 / 2) * Edge)) (4152361 / 4194304) /
        (1 - min (ue.sin (ue.Pi * (1 / 2) * Edge)) (4152361 / 4194304)) := rfl

/-- The coefficient `2*e/(1-e)` for a clamped `0 <= e <= 0.99f`. -/
theorem edge_ratio_bounds (e : R) (h0 : 0 ≤ e) (h1 : e ≤ 4152361 / 4194304) :
    0 ≤ 2 * e / (1 - e) ∧ 2 * e / (1 - e) ≤ 8304722 / 41943 := by
  have hd : (0 : R) < 1 - e := by linarith
  constructor
  · exact div_nonneg (by linarith) (le_of_lt hd)
  · rw [div_le_iff₀ hd]
    linarith

/-- C23: the clamp removes the singularity, with the bounds of the binary32 literal
`0.99f` = 4152361/4194304.  For every `Edge`, `edge = min(sin(pi*0.5*Edge), 0.99f)` has
`1 - edge >= 41943/4194304` (which is below 0.01), so the divisor of
`mEdgeCoeff = 2*edge/(1-edge)` is not zero; for `0 <= Edge <= 1`, the sine being
non-negative on `[0, pi/2]`, `0 <= mEdgeCoeff <= 8304722/41943 < 198.001`, so that every
waveshaper denominator `1 + mEdgeCoeff*|s|` is at least 1; and when the sine reaches the
clamp, `1 - edge` is 41943/4194304 < 0.01 and `mEdgeCoeff` is 8304722/41943 > 198. -/
theorem C23_edge_clamp (ue : UpdateEnv R B T) (ops : BiquadOps R B)
    (st : ALdistortionState R B) (Frequency : Nat) (slotGain : R) (props : ALeffectProps R)
    (target : T) (hPi : 0 ≤ ue.Pi)
    (hsin : ∀ x, 0 ≤ x → x ≤ ue.Pi * (1 / 2) → 0 ≤ ue.sin x) :
    (st.update ue ops Frequency slotGain props target).mEdgeCoeff =
        2 * min (ue.sin (ue.Pi * (1 / 2) * props.Distortion.Edge)) (4152361 / 4194304) /
          (1 - min (ue.sin (ue.Pi * (1 / 2) * props.Distortion.Edge)) (4152361 / 4194304)) ∧
    41943 / 4194304 ≤
      1 - min (ue.sin (ue.Pi * (1 / 2) * props.Distortion.Edge)) (4152361 / 4194304) ∧
    1 - min (ue.sin (ue.Pi * (1 / 2) * props.Distortion.Edge)) (4152361 / 4194304) ≠ 0 ∧
    (0 ≤ props.Distortion.Edge → props.Distortion.Edge ≤ 1 →
      0 ≤ (st.update ue ops Frequency slotGain props target).mEdgeCoeff ∧
      (st.update ue ops Frequency slotGain props target).mEdgeCoeff ≤ 8304722 / 41943 ∧
      (st.update ue ops Frequency slotGain props target).mEdgeCoeff < 198001 / 1000 ∧
      ∀ s : R, 1 ≤ 1 + (st.update ue ops Frequency slotGain props target).mEdgeCoeff * |s|) ∧
    (4152361 / 4194304 ≤ ue.sin (ue.Pi * (1 / 2) * props.Distortion.Edge) →
      1 - min (ue.sin (ue.Pi * (1 / 2) * props.Distortion.Edge)) (4152361 / 4194304) =
        41943 / 4194304 ∧
      1 - min (ue.sin (ue.Pi * (1 / 2) * props.Distortion.Edge)) (4152361 / 4194304) <
        1 / 100 ∧
      (st.update ue ops Frequency slotGain props target).mEdgeCoeff = 8304722 / 41943 ∧
      198 < (st.update ue ops Frequency slotGain props target).mEdgeCoeff) := by
  have e : (st.update ue ops Frequency slotGain props target).mEdgeCoeff =
      2 * min (ue.sin (ue.Pi * (1 / 2) * props.Distortion.Edge)) (4152361 / 4194304) /
        (1 - min (ue.sin (ue.Pi * (1 / 2) * props.Distortion.Edge)) (4152361 / 4194304)) := rfl
  have hmin : min (ue.sin (ue.Pi * (1 / 2) * props.Distortion.Edge)) (4152361 / 4194304) ≤
      (4152361 / 4194304 : R) := min_le_right _ _
  have hd : (41943 / 4194304 : R) ≤
      1 - min (ue.sin (ue.Pi * (1 / 2) * props.Distortion.Edge)) (4152361 / 4194304) := by
    linarith
  refine ⟨rfl, hd, ?_, ?_, ?_⟩
  · have : (0 : R) <
        1 - min (ue.sin (ue.Pi * (1 / 2) * props.Distortion.Edge)) (4152361 / 4194304) := by
      linarith
    exact ne_of_gt this
  · intro h0 h1
    have hx0 : 0 ≤ ue.Pi * (1 / 2) * props.Distortion.Edge :=
      mul_nonneg (mul_nonneg hPi (by norm_num)) h0
    have hx1 : ue.Pi * (1 / 2) * props.Distortion.Edge ≤ ue.Pi * (1 / 2) := by
      have h := mul_le_mul_of_nonneg_left h1 (mul_nonneg hPi (by norm_num : (0 : R) ≤ 1 / 2))
      rwa [mul_one] at h
    have hs := hsin _ hx0 hx1
    have he0 : 0 ≤
        min (ue.sin (ue.Pi * (1 / 2) * props.Distortion.Edge)) (4152361 / 4194304) :=
      le_min hs (by norm_num)
    obtain ⟨b0, b1⟩ := edge_ratio_bounds _ he0 hmin
    rw [e]
    refine ⟨b0, b1, lt_of_le_of_lt b1 (by norm_num), ?_⟩
    intro s
    have := mul_nonneg b0 (abs_nonneg s)
    linarith
  · intro hc
    have hm : min (ue.sin (ue.Pi * (1 / 2) * props.Distortion.Edge)) (4152361 / 4194304) =
        (4152361 / 4194304 : R) := min_eq_right hc
    rw [e, hm]
    refine ⟨?_, ?_, ?_, ?_⟩ <;> norm_num

/-- C25: the low-pass bandwidth is constant in octaves.  For a non-zero `LowpassCutoff` the
bandwidth `(cutoff/2)/(cutoff*0.67)` is `1/1.34` whatever the cutoff, and `update` gives each
filter the normalized frequency `cutoff/(4*Frequency)` of its own cutoff together with the
value of `calc_rcpQ_from_bandwidth` at that same frequency. -/
theorem C25_bandwidth_constant (ue : UpdateEnv R B T) (ops : BiquadOps R B)
    (st : ALdistortionState R B) (Frequency : Nat) (slotGain : R) (props : ALeffectProps R)
    (target : T) (hc : props.Distortion.LowpassCutoff ≠ 0) :
    (props.Distortion.LowpassCutoff / 2) / (props.Distortion.LowpassCutoff * (67 / 100))
      = 1 / (134 / 100) ∧
    (st.update ue ops Frequency slotGain props target).mLowpass =
      ops.setParams st.mLowpass BiquadType.LowPass 1
        (props.Distortion.LowpassCutoff / (4 * (Frequency : R)))
        (ue.calc_rcpQ_from_bandwidth (props.Distortion.LowpassCutoff / (4 * (Frequency : R)))
          (1 / (134 / 100))) ∧
    (st.update ue ops Frequency slotGain props target).mBandpass =
      ops.setParams st.mBandpass BiquadType.BandPass 1
        (props.Distortion.EQCenter / (4 * (Frequency : R)))
        (ue.calc_rcpQ_from_bandwidth (props.Distortion.EQCenter / (4 * (Frequency : R)))
          (props.Distortion.EQBandwidth / (props.Distortion.EQCenter * (67 / 100)))) := by
  have hbw : (props.Distortion.LowpassCutoff / 2) / (props.Distortion.LowpassCutoff * (67 / 100))
      = 1 / (134 / 100) := by
    field_simp
    ring
  refine ⟨hbw, ?_, ?_⟩
  · show ops.setParams st.mLowpass BiquadType.LowPass 1
        (props.Distortion.LowpassCutoff / ((Frequency : R) * 4))
        (ue.calc_rcpQ_from_bandwidth (props.Distortion.LowpassCutoff / ((Frequency : R) * 4))
          ((props.Distortion.LowpassCutoff / 2) /
            (props.Distortion.LowpassCutoff * (67 / 100)))) = _
    rw [hbw, mul_comm (Frequency : R) 4]
  · show ops.setParams st.mBandpass BiquadType.BandPass 1
        (props.Distortion.EQCenter / ((Frequency : R) * 4))
        (ue.calc_rcpQ_from_bandwidth (props.Distortion.EQCenter / ((Frequency : R) * 4))
          (props.Distortion.EQBandwidth / (props.Distortion.EQCenter * (67 / 100)))) = _
    rw [mul_comm (Frequency : R) 4]

end UpdateCoefficients

/-- The sine and pi of the real numbers meet the two conditions asked of `std::sin` and
pi in the bound on the edge coefficient. -/
theorem real_sine_nonneg_quarter :
    0 ≤ Real.pi ∧ ∀ x : ℝ, 0 ≤ x → x ≤ Real.pi * (1 / 2) → 0 ≤ Real.sin x := by
  refine ⟨le_of_lt Real.pi_pos, ?_⟩
  intro x h0 h1
  apply Real.sin_nonneg_of_nonneg_of_le_pi h0
  have := Real.pi_pos
  linarith

theorem sampleUpdateEnv_sin_nonneg :
    ∀ x : ℚ, 0 ≤ x → x ≤ sampleUpdateEnv.Pi * (1 / 2) → 0 ≤ sampleUpdateEnv.sin x := by
  intro x h0 h1
  have h2 : x ≤ 11 / 7 := by
    have e : sampleUpdateEnv.Pi * (1 / 2) = 11 / 7 := by norm_num [sampleUpdateEnv]
    rw [e] at h1
    exact h1
  show 0 ≤ x - x ^ 3 / 6
  have h3 : x ^ 2 ≤ 6 := by nlinarith
  have h4 : x - x ^ 3 / 6 = x * (6 - x ^ 2) / 6 := by ring
  rw [h4]
  apply div_nonneg _ (by norm_num)
  exact mul_nonneg h0 (by linarith)

/-- The sine of the real numbers reaches the clamp on the accepted range of `Edge`: at
`Edge = 1` it is 1, above `0.99f`. -/
theorem real_sine_reaches_clamp :
    (4152361 / 4194304 : ℝ) ≤ Real.sin (Real.pi * (1 / 2) * 1) := by
  have h : Real.pi * (1 / 2) * 1 = Real.pi / 2 := by ring
  rw [h, Real.sin_pi_div_two]
  norm_num

theorem sampleSineEnv_sin_nonneg :
    ∀ x : ℚ, 0 ≤ x → x ≤ sampleSineEnv.Pi * (1 / 2) → 0 ≤ sampleSineEnv.sin x := by
  intro x h0 h1
  have h2 : x ≤ 11 / 7 := by
    have e : sampleSineEnv.Pi * (1 / 2) = 11 / 7 := by norm_num [sampleSineEnv]
    rw [e] at h1
    exact h1
  show 0 ≤ x - x ^ 3 / 6 + x ^ 5 / 120
  have h3 : x ^ 2 ≤ 6 := by nlinarith
  have h4 : x - x ^ 3 / 6 + x ^ 5 / 120 = x * (6 - x ^ 2) / 6 + x ^ 5 / 120 := by ring
  rw [h4]
  have h5 : 0 ≤ x * (6 - x ^ 2) / 6 := div_nonneg (mul_nonneg h0 (by linarith)) (by norm_num)
  have h6 : 0 ≤ x ^ 5 / 120 := div_nonneg (pow_nonneg h0 5) (by norm_num)
  linarith

theorem sampleSineEnv_clamped :
    (4152361 / 4194304 : ℚ) ≤ sampleSineEnv.sin (sampleSineEnv.Pi * (1 / 2) * 1) := by
  norm_num [sampleSineEnv]

/-- C23, the counterexample to the bounds 0.01 and 198: the setter accepts `Edge = 1`; with a
sine that reaches the clamp there, `update` works with `1 - edge = 41943/4194304`, which is
below 1/100, and stores `mEdgeCoeff = 8304722/41943`, which is above 198. -/
theorem C23_counterexample :
    (ALdistortion_setParamf sampleLimits sampleDistortion AL_DISTORTION_EDGE 1).2 = none ∧
    (ALdistortion_setParamf sampleLimits sampleDistortion AL_DISTORTION_EDGE 1).1.Props.Distortion.Edge
      = 1 ∧
    (4152361 / 4194304 : ℚ) < 1 ∧
    min (sampleSineEnv.sin (sampleSineEnv.Pi * (1 / 2) * 1)) (4152361 / 4194304) =
      4152361 / 4194304 ∧
    ¬ ((1 : ℚ) / 100 ≤
      1 - min (sampleSineEnv.sin (sampleSineEnv.Pi * (1 / 2) * 1)) (4152361 / 4194304)) ∧
    (sampleDistortionState.update sampleSineEnv sampleBiquad 44100 1
      (ALdistortion_setParamf sampleLimits sampleDistortion AL_DISTORTION_EDGE 1).1.Props
      ()).mEdgeCoeff = 8304722 / 41943 ∧
    ¬ ((sampleDistortionState.update sampleSineEnv sampleBiquad 44100 1
      (ALdistortion_setParamf sampleLimits sampleDistortion AL_DISTORTION_EDGE 1).1.Props
      ()).mEdgeCoeff ≤ 198) := by
  have hE : (ALdistortion_setParamf sampleLimits sampleDistortion AL_DISTORTION_EDGE
      1).1.Props.Distortion.Edge = 1 := by
    norm_num [ALdistortion_setParamf, sampleLimits, sampleDistortion, AL_DISTORTION_EDGE,
      AL_DISTORTION_GAIN, AL_DISTORTION_LOWPASS_CUTOFF, AL_DISTORTION_EQCENTER,
      AL_DISTORTION_EQBANDWIDTH]
  have hm : min (sampleSineEnv.sin (sampleSineEnv.Pi * (1 / 2) * 1)) (4152361 / 4194304) =
      (4152361 / 4194304 : ℚ) := min_eq_right sampleSineEnv_clamped
  have hc : (sampleDistortionState.update sampleSineEnv sampleBiquad 44100 1
      (ALdistortion_setParamf sampleLimits sampleDistortion AL_DISTORTION_EDGE 1).1.Props
      ()).mEdgeCoeff = 8304722 / 41943 := by
    show ALdistortionState.edgeCoeff sampleSineEnv
      (ALdistortion_setParamf sampleLimits sampleDistortion AL_DISTORTION_EDGE
        1).1.Props.Distortion.Edge = _
    rw [hE, edgeCoeff_eq, hm]
    norm_num
  refine ⟨?_, hE, by norm_num, hm, ?_, hc, ?_⟩
  · norm_num [ALdistortion_setParamf, sampleLimits, sampleDistortion, AL_DISTORTION_EDGE,
      AL_DISTORTION_GAIN, AL_DISTORTION_LOWPASS_CUTOFF, AL_DISTORTION_EQCENTER,
      AL_DISTORTION_EQBANDWIDTH]
  · rw [hm]
    norm_num
  · rw [hc]
    norm_num

theorem C23_edge_clamp_witness :
    (0 : ℚ) ≤ sampleSineEnv.Pi ∧
    (∀ x : ℚ, 0 ≤ x → x ≤ sampleSineEnv.Pi * (1 / 2) → 0 ≤ sampleSineEnv.sin x) ∧
    (0 : ℚ) ≤ 1 ∧
    (4152361 / 4194304 : ℚ) ≤ sampleSineEnv.sin (sampleSineEnv.Pi * (1 / 2) * 1) ∧
    0 ≤ (sampleDistortionState.update sampleSineEnv sampleBiquad 44100 1
      { sampleDistortion.Props with Distortion :=
          { sampleDistortion.Props.Distortion with Edge := 1 } } ()).mEdgeCoeff ∧
    (sampleDistortionState.update sampleSineEnv sampleBiquad 44100 1
      { sampleDistortion.Props with Distortion :=
          { sampleDistortion.Props.Distortion with Edge := 1 } } ()).mEdgeCoeff
        < 198001 / 1000 ∧
    (sampleDistortionState.update sampleSineEnv sampleBiquad 44100 1
      { sampleDistortion.Props with Distortion :=
          { sampleDistortion.Props.Distortion with Edge := 1 } } ()).mEdgeCoeff
        = 8304722 / 41943 := by
  have hPi : (0 : ℚ) ≤ sampleSineEnv.Pi := by norm_num [sampleSineEnv]
  have h := C23_edge_clamp sampleSineEnv sampleBiquad sampleDistortionState 44100 1
    { sampleDistortion.Props with Distortion :=
        { sampleDistortion.Props.Distortion with Edge := 1 } } () hPi sampleSineEnv_sin_nonneg
  have hb := h.2.2.2.1 (by norm_num) (le_refl _)
  have hc := h.2.2.2.2 sampleSineEnv_clamped
  exact ⟨hPi, sampleSineEnv_sin_nonneg, by norm_num, sampleSineEnv_clamped, hb.1, hb.2.2.1,
    hc.2.2.1⟩

theorem C25_bandwidth_constant_witness :
    sampleDistortion.Props.Distortion.LowpassCutoff ≠ 0 ∧
    (sampleDistortion.Props.Distortion.LowpassCutoff / 2) /
        (sampleDistortion.Props.Distortion.LowpassCutoff * (67 / 100)) = (1 / (134 / 100) : ℚ) ∧
    (sampleDistortionState.update sampleUpdateEnv sampleBiquad 44100 1
        sampleDistortion.Props ()).mLowpass =
      sampleBiquad.setParams sampleDistortionState.mLowpass BiquadType.LowPass 1
        (sampleDistortion.Props.Distortion.LowpassCutoff / (4 * ((44100 : Nat) : ℚ)))
        (sampleUpdateEnv.calc_rcpQ_from_bandwidth
          (sampleDistortion.Props.Distortion.LowpassCutoff / (4 * ((44100 : Nat) : ℚ)))
          (1 / (134 / 100))) := by
  have hc : sampleDistortion.Props.Distortion.LowpassCutoff ≠ 0 := by
    norm_num [sampleDistortion]
  have h := C25_bandwidth_constant sampleUpdateEnv sampleBiquad sampleDistortionState 44100 1
    sampleDistortion.Props () hc
  exact ⟨hc, h.1, h.2.1⟩

/-! ## Distortion effect: `update` twice -/

section UpdateTwice

variable {R B T C H : Type} [LinearOrderedField R]

omit [LinearOrderedField R] in
theorem setParams_twice (ops : BiquadOps R B) (v : BiquadView B C H) (hl : BiquadLaws ops v)
    (b : B) (t : BiquadType) (g f q : R) :
    ops.setParams (ops.setParams b t g f q) t g f q = ops.setParams b t g f q := by
  apply hl.ext
  · exact hl.setParams_coeffs _ _ t g f q
  · rw [hl.setParams_history]

/-- C24: `update` is idempotent and history-independent.  With `setParams` and
`ComputePanGains` as the spec describes them, the edge coefficient, the coefficients of both
filters, the gain vector and the output target after `update` are the same from any two
states; a second `update` with the same arguments leaves the state of the first; and the
history of either filter, the scratch buffers and `mAttenuation` are as before the call. -/
theorem C24_update_idempotent (ue : UpdateEnv R B T) (ops : BiquadOps R B)
    (v : BiquadView B C H) (hl : BiquadLaws ops v) (hpan : PanGainsOverwrite ue)
    (st st' : ALdistortionState R B) (Frequency : Nat) (slotGain : R)
    (props : ALeffectProps R) (target : T) :
    ((st.update ue ops Frequency slotGain props target).mEdgeCoeff =
        (st'.update ue ops Frequency slotGain props target).mEdgeCoeff ∧
      v.coeffs (st.update ue ops Frequency slotGain props target).mLowpass =
        v.coeffs (st'.update ue ops Frequency slotGain props target).mLowpass ∧
      v.coeffs (st.update ue ops Frequency slotGain props target).mBandpass =
        v.coeffs (st'.update ue ops Frequency slotGain props target).mBandpass ∧
      (st.update ue ops Frequency slotGain props target).mGain =
        (st'.update ue ops Frequency slotGain props target).mGain ∧
      (st.update ue ops Frequency slotGain props target).mOutBuffer =
        (st'.update ue ops Frequency slotGain props target).mOutBuffer ∧
      (st.update ue ops Frequency slotGain props target).mOutChannels =
        (st'.update ue ops Frequency slotGain props target).mOutChannels) ∧
    (st.update ue ops Frequency slotGain props target).update ue ops Frequency slotGain props
        target = st.update ue ops Frequency slotGain props target ∧
    v.history (st.update ue ops Frequency slotGain props target).mLowpass =
      v.history st.mLowpass ∧
    v.history (st.update ue ops Frequency slotGain props target).mBandpass =
      v.history st.mBandpass ∧
    (st.update ue ops Frequency slotGain props target).mBuffer = st.mBuffer ∧
    (st.update ue ops Frequency slotGain props target).mAttenuation = st.mAttenuation := by
  refine ⟨⟨rfl, ?_, ?_, ?_, rfl, rfl⟩, ?_, ?_, ?_, rfl, rfl⟩
  · exact hl.setParams_coeffs _ _ _ _ _ _
  · exact hl.setParams_coeffs _ _ _ _ _ _
  · exact hpan _ _ _ _ _
  · unfold ALdistortionState.update
    simp only [setParams_twice ops v hl]
    congr 1
    exact hpan _ _ _ _ _
  · exact hl.setParams_history _ _ _ _ _
  · exact hl.setParams_history _ _ _ _ _

end UpdateTwice

theorem sampleCoeff_laws : BiquadLaws sampleCoeffBiquad sampleCoeffView :=
  { ext := fun _ _ h1 h2 => Prod.ext h1 h2,
    setParams_history := fun _ _ _ _ _ => rfl,
    setParams_coeffs := fun _ _ _ _ _ _ => rfl }

theorem C24_update_idempotent_witness :
    BiquadLaws sampleCoeffBiquad sampleCoeffView ∧ PanGainsOverwrite sampleCoeffUpdateEnv ∧
    (sampleCoeffState.update sampleCoeffUpdateEnv sampleCoeffBiquad 44100 1
        sampleDistortion.Props ()).update sampleCoeffUpdateEnv sampleCoeffBiquad 44100 1
        sampleDistortion.Props ()
      = sampleCoeffState.update sampleCoeffUpdateEnv sampleCoeffBiquad 44100 1
        sampleDistortion.Props () ∧
    (sampleCoeffState.update sampleCoeffUpdateEnv sampleCoeffBiquad 44100 1
        sampleDistortion.Props ()).mLowpass.2 = 3 := by
  have hp : PanGainsOverwrite sampleCoeffUpdateEnv := fun _ _ _ _ _ => rfl
  have h := C24_update_idempotent sampleCoeffUpdateEnv sampleCoeffBiquad sampleCoeffView
    sampleCoeff_laws hp sampleCoeffState sampleCoeffState 44100 1 sampleDistortion.Props ()
  exact ⟨sampleCoeff_laws, hp, h.2.1, h.2.2.1⟩

/-! ## Reverb presets: the lookup -/

theorem strcasecmp_eq_zero_iff (a b : String) :
    strcasecmp a b = 0 ↔ eqIgnoreCase a b = true := by
  unfold strcasecmp eqIgnoreCase
  rw [String.map_eq, String.map_eq, beq_iff_eq]
  by_cases h : a.data.map Char.toLower = b.data.map Char.toLower
  · simp [h]
  · have hne : (String.mk (a.data.map Char.toLower)) ≠ String.mk (b.data.map Char.toLower) := by
      intro he
      exact h (congrArg String.data he)
    rw [if_neg hne]
    constructor
    · intro h0
      split at h0 <;> simp at h0
    · intro h1
      exact absurd h1 h

theorem eqIgnoreCase_iff (a b : String) :
    eqIgnoreCase a b = true ↔ a.data.map Char.toLower = b.data.map Char.toLower := by
  unfold eqIgnoreCase
  rw [beq_iff_eq]

/-- The names of `reverblist` are pairwise distinct ignoring case. -/
theorem reverbNames_lower_nodup :
    (reverbNames.map (fun x => x.data.map Char.toLower)).Nodup := by
  decide

/-- No name of `reverblist` is NONE ignoring case. -/
theorem reverbNames_not_none :
    ∀ x ∈ reverbNames, x.data.map Char.toLower ≠ "NONE".data.map Char.toLower := by
  decide

theorem mem_reverblist {pe : PresetEnv P F} {p : EffectPreset F} :
    p ∈ reverblist pe ↔ ∃ x ∈ reverbNames, p = ⟨x, pe.EFX_REVERB_PRESET x⟩ := by
  unfold reverblist
  rw [List.mem_map]
  constructor
  · rintro ⟨x, hx, rfl⟩
    exact ⟨x, hx, rfl⟩
  · rintro ⟨x, hx, rfl⟩
    exact ⟨x, hx, rfl⟩

/-- Two rows of `reverblist` whose names are equal ignoring case are the same row. -/
theorem reverblist_unique {pe : PresetEnv P F} {p q : EffectPreset F}
    (hp : p ∈ reverblist pe) (hq : q ∈ reverblist pe)
    (h : eqIgnoreCase p.name q.name = true) : p = q := by
  obtain ⟨x, hx, rfl⟩ := mem_reverblist.mp hp
  obtain ⟨y, hy, rfl⟩ := mem_reverblist.mp hq
  have hxy : x = y :=
    List.inj_on_of_nodup_map reverbNames_lower_nodup hx hy ((eqIgnoreCase_iff _ _).mp h)
  rw [hxy]

theorem eqIgnoreCase_symm {a b : String} (h : eqIgnoreCase a b = true) :
    eqIgnoreCase b a = true :=
  (eqIgnoreCase_iff _ _).mpr ((eqIgnoreCase_iff _ _).mp h).symm

theorem eqIgnoreCase_trans {a b c : String} (h1 : eqIgnoreCase a b = true)
    (h2 : eqIgnoreCase b c = true) : eqIgnoreCase a c = true :=
  (eqIgnoreCase_iff _ _).mpr
    (((eqIgnoreCase_iff _ _).mp h1).trans ((eqIgnoreCase_iff _ _).mp h2))

/-- A name that equals the name of a row ignoring case is not NONE ignoring case. -/
theorem not_none_of_match {pe : PresetEnv P F} {p : EffectPreset F} {name : String}
    (hp : p ∈ reverblist pe) (h : eqIgnoreCase name p.name = true) :
    strcasecmp name "NONE" ≠ 0 := by
  obtain ⟨x, hx, rfl⟩ := mem_reverblist.mp hp
  intro h0
  have h1 := (eqIgnoreCase_iff _ _).mp ((strcasecmp_eq_zero_iff _ _).mp h0)
  have h2 := (eqIgnoreCase_iff _ _).mp h
  exact reverbNames_not_none x hx (h2.symm.trans h1)

/-- What the loop of `LoadReverbPreset` stops at: a row of the table whose name equals the
given name ignoring case. -/
theorem selectedPreset_some {pe : PresetEnv P F} {name : String} {p : EffectPreset F}
    (h : selectedPreset pe name = some p) :
    p ∈ reverblist pe ∧ eqIgnoreCase name p.name = true ∧ strcasecmp name "NONE" ≠ 0 := by
  unfold selectedPreset at h
  by_cases hn : strcasecmp name "NONE" = 0
  · rw [if_pos hn] at h
    exact absurd h (by simp)
  · rw [if_neg hn] at h
    have hmem := List.mem_of_find?_eq_some h
    have hpred := List.find?_some h
    rw [beq_iff_eq] at hpred
    exact ⟨hmem, (strcasecmp_eq_zero_iff _ _).mp hpred, hn⟩

/-- A name selects the row of the table whose name it equals ignoring case. -/
theorem selectedPreset_of_match {pe : PresetEnv P F} {name : String} {p : EffectPreset F}
    (hp : p ∈ reverblist pe) (h : eqIgnoreCase name p.name = true) :
    selectedPreset pe name = some p := by
  have hn := not_none_of_match hp h
  cases hsel : selectedPreset pe name with
  | some q =>
    obtain ⟨hq, hqn, _⟩ := selectedPreset_some hsel
    have := reverblist_unique hq hp (eqIgnoreCase_trans (eqIgnoreCase_symm hqn) h)
    rw [this]
  | none =>
    unfold selectedPreset at hsel
    rw [if_neg hn, List.find?_eq_none] at hsel
    have := hsel p hp
    rw [beq_iff_eq, strcasecmp_eq_zero_iff] at this
    exact absurd h this

theorem selectedPreset_none_iff {pe : PresetEnv P F} {name : String} :
    selectedPreset pe name = none ↔
      ∀ p ∈ reverblist pe, eqIgnoreCase name p.name = false := by
  constructor
  · intro h p hp
    cases hm : eqIgnoreCase name p.name with
    | false => rfl
    | true =>
      rw [selectedPreset_of_match hp hm] at h
      exact absurd h (by simp)
  · intro h
    cases hsel : selectedPreset pe name with
    | none => rfl
    | some q =>
      obtain ⟨hq, hqn, _⟩ := selectedPreset_some hsel
      rw [h q hq] at hqn
      exact absurd hqn (by simp)

theorem InitEffectParams_type (pd : PropsData P) (e : ALeffect P) (t : Int) :
    (InitEffectParams pd e t).type = t := by
  unfold InitEffectParams
  cases getEffectPropsItemByType t <;> rfl

/-- `LoadReverbPreset` through the row it selects. -/
theorem LoadReverbPreset_eq (env : EffectEnv P F) (pe : PresetEnv P F) (name : String)
    (effect : ALeffect P) :
    LoadReverbPreset env pe name effect =
      if strcasecmp name "NONE" = 0 then InitEffectParams env.props effect AL_EFFECT_NULL
      else
        match selectedPreset pe name with
        | none => InitEffectParams env.props effect (presetType env)
        | some reverbitem =>
          { InitEffectParams env.props effect (presetType env) with
            Props := pe.setReverb (InitEffectParams env.props effect (presetType env)).Props
              (presetReverb reverbitem.props) } := by
  unfold LoadReverbPreset
  by_cases hn : strcasecmp name "NONE" = 0
  · rw [if_pos hn, if_pos hn]
  · rw [if_neg hn, if_neg hn]
    have hsel : selectedPreset pe name =
        (reverblist pe).find? (fun reverbitem => strcasecmp name reverbitem.name == 0) := by
      unfold selectedPreset
      rw [if_neg hn]
    have hty : (if !env.DisabledEffects EffectKind.EAXREVERB_EFFECT then
          InitEffectParams env.props effect AL_EFFECT_EAXREVERB
        else if !env.DisabledEffects EffectKind.REVERB_EFFECT then
          InitEffectParams env.props effect AL_EFFECT_REVERB
        else InitEffectParams env.props effect AL_EFFECT_NULL) =
        InitEffectParams env.props effect (presetType env) := by
      unfold presetType
      cases env.DisabledEffects EffectKind.EAXREVERB_EFFECT <;>
        cases env.DisabledEffects EffectKind.REVERB_EFFECT <;> rfl
    rw [hsel]
    simp only [hty]
    cases (reverblist pe).find? (fun reverbitem => strcasecmp name reverbitem.name == 0) <;> rfl

theorem properInitial_not_eq {a b : String} (h : properInitial a b = true) :
    eqIgnoreCase a b = false ∧ eqIgnoreCase b a = false := by
  unfold properInitial at h
  rw [Bool.and_eq_true, decide_eq_true_eq] at h
  have hlen : a.data.length ≠ b.data.length := Nat.ne_of_lt h.1
  constructor
  · cases he : eqIgnoreCase a b with
    | false => rfl
    | true =>
      have := congrArg List.length ((eqIgnoreCase_iff _ _).mp he)
      rw [List.length_map, List.length_map] at this
      exact absurd this hlen
  · cases he : eqIgnoreCase b a with
    | false => rfl
    | true =>
      have := congrArg List.length ((eqIgnoreCase_iff _ _).mp he)
      rw [List.length_map, List.length_map] at this
      exact absurd this.symm hlen

/-- C26: reverb preset lookup is a case-insensitive exact match on the whole name.
`LoadReverbPreset` gives two names that are equal ignoring ASCII case the same object; for
a name other than NONE it leaves the object of the row `selectedPreset` finds, which for a
name equal ignoring case to the name of a row `p` of `reverblist` is the object with the
parameters of `p`, and for a name equal to no row name is the object without preset
parameters.  A name selects the row `p` exactly when it equals the name of `p` ignoring
case: a proper initial part or an extension of the name of `p` does not select `p`, and a
name that equals no name of the table selects nothing (CIT and CITY_ select nothing, city
selects the row CITY).  The names of the table are pairwise distinct ignoring case, so at
most one row matches a name. -/
theorem C26_preset_lookup_exact (env : EffectEnv P F) (pe : PresetEnv P F) :
    (∀ (n1 n2 : String) (effect : ALeffect P), eqIgnoreCase n1 n2 = true →
      LoadReverbPreset env pe n1 effect = LoadReverbPreset env pe n2 effect) ∧
    (∀ (name : String) (effect : ALeffect P),
      LoadReverbPreset env pe name effect =
        if strcasecmp name "NONE" = 0 then InitEffectParams env.props effect AL_EFFECT_NULL
        else
          match selectedPreset pe name with
          | none => InitEffectParams env.props effect (presetType env)
          | some reverbitem =>
            { InitEffectParams env.props effect (presetType env) with
              Props := pe.setReverb (InitEffectParams env.props effect (presetType env)).Props
                (presetReverb reverbitem.props) }) ∧
    (∀ (name : String) (p : EffectPreset F) (effect : ALeffect P), p ∈ reverblist pe →
      eqIgnoreCase name p.name = true →
      LoadReverbPreset env pe name effect =
        { InitEffectParams env.props effect (presetType env) with
          Props := pe.setReverb (InitEffectParams env.props effect (presetType env)).Props
            (presetReverb p.props) }) ∧
    (∀ (name : String) (effect : ALeffect P), eqIgnoreCase name "NONE" = false →
      (∀ p ∈ reverblist pe, eqIgnoreCase name p.name = false) →
      LoadReverbPreset env pe name effect =
        InitEffectParams env.props effect (presetType env)) ∧
    (∀ (name : String) (p : EffectPreset F), p ∈ reverblist pe →
      (selectedPreset pe name = some p ↔ eqIgnoreCase name p.name = true)) ∧
    (∀ (name : String) (p : EffectPreset F), selectedPreset pe name = some p →
      p ∈ reverblist pe ∧ eqIgnoreCase name p.name = true) ∧
    (∀ (name : String) (p : EffectPreset F), p ∈ reverblist pe →
      (properInitial name p.name = true ∨ properInitial p.name name = true) →
      selectedPreset pe name ≠ some p) ∧
    (∀ (name : String), (∀ x ∈ reverbNames, eqIgnoreCase name x = false) →
      selectedPreset pe name = none) ∧
    (properInitial "CIT" "CITY" = true ∧ selectedPreset pe "CIT" = none ∧
      properInitial "CITY" "CITY_" = true ∧ selectedPreset pe "CITY_" = none ∧
      selectedPreset pe "city" = some ⟨"CITY", pe.EFX_REVERB_PRESET "CITY"⟩ ∧
      selectedPreset pe "CITY" = some ⟨"CITY", pe.EFX_REVERB_PRESET "CITY"⟩ ∧
      ∀ effect : ALeffect P,
        LoadReverbPreset env pe "CIT" effect =
          InitEffectParams env.props effect (presetType env) ∧
        LoadReverbPreset env pe "CITY_" effect =
          InitEffectParams env.props effect (presetType env)) ∧
    (∀ p ∈ reverblist pe, ∀ q ∈ reverblist pe, eqIgnoreCase p.name q.name = true → p = q) ∧
    (∀ (name : String), ∀ p ∈ reverblist pe, ∀ q ∈ reverblist pe,
      eqIgnoreCase name p.name = true → eqIgnoreCase name q.name = true → p = q) := by
  have hsel : ∀ (n1 n2 : String), eqIgnoreCase n1 n2 = true →
      selectedPreset pe n1 = selectedPreset pe n2 := by
    intro n1 n2 h
    cases h2 : selectedPreset pe n2 with
    | some q =>
      obtain ⟨hq, hqn, _⟩ := selectedPreset_some h2
      exact selectedPreset_of_match hq (eqIgnoreCase_trans h hqn)
    | none =>
      rw [selectedPreset_none_iff] at h2 ⊢
      intro p hp
      cases hm : eqIgnoreCase n1 p.name with
      | false => rfl
      | true =>
        have := h2 p hp
        rw [eqIgnoreCase_trans (eqIgnoreCase_symm h) hm] at this
        exact absurd this (by simp)
  have hnone : ∀ (n1 n2 : String), eqIgnoreCase n1 n2 = true →
      (strcasecmp n1 "NONE" = 0 ↔ strcasecmp n2 "NONE" = 0) := by
    intro n1 n2 h
    rw [strcasecmp_eq_zero_iff, strcasecmp_eq_zero_iff]
    constructor
    · intro h1
      exact eqIgnoreCase_trans (eqIgnoreCase_symm h) h1
    · intro h1
      exact eqIgnoreCase_trans h h1
  have hnames : ∀ (name : String), (∀ x ∈ reverbNames, eqIgnoreCase name x = false) →
      selectedPreset pe name = none := by
    intro name h
    rw [selectedPreset_none_iff]
    intro p hp
    obtain ⟨x, hx, rfl⟩ := mem_reverblist.mp hp
    exact h x hx
  have hmiss : ∀ (name : String) (effect : ALeffect P), eqIgnoreCase name "NONE" = false →
      selectedPreset pe name = none →
      LoadReverbPreset env pe name effect =
        InitEffectParams env.props effect (presetType env) := by
    intro name effect hn h
    have hn2 : ¬ strcasecmp name "NONE" = 0 := by
      rw [strcasecmp_eq_zero_iff, hn]
      simp
    rw [LoadReverbPreset_eq, if_neg hn2, h]
  have hcity : (⟨"CITY", pe.EFX_REVERB_PRESET "CITY"⟩ : EffectPreset F) ∈ reverblist pe :=
    mem_reverblist.mpr ⟨"CITY", by decide, rfl⟩
  have hcit : selectedPreset pe "CIT" = none := hnames "CIT" (by decide)
  have hcity_ : selectedPreset pe "CITY_" = none := hnames "CITY_" (by decide)
  refine ⟨?_, ?_, ?_, ?_, ?_, ?_, ?_, hnames, ?_, ?_, ?_⟩
  · intro n1 n2 effect h
    rw [LoadReverbPreset_eq, LoadReverbPreset_eq, hsel n1 n2 h]
    by_cases hn : strcasecmp n1 "NONE" = 0
    · rw [if_pos hn, if_pos ((hnone n1 n2 h).mp hn)]
    · rw [if_neg hn, if_neg (fun h2 => hn ((hnone n1 n2 h).mpr h2))]
  · intro name effect
    exact LoadReverbPreset_eq env pe name effect
  · intro name p effect hp h
    rw [LoadReverbPreset_eq, if_neg (not_none_of_match hp h), selectedPreset_of_match hp h]
  · intro name effect hn h
    exact hmiss name effect hn (selectedPreset_none_iff.mpr h)
  · intro name p hp
    exact ⟨fun h => (selectedPreset_some h).2.1, fun h => selectedPreset_of_match hp h⟩
  · intro name p h
    exact ⟨(selectedPreset_some h).1, (selectedPreset_some h).2.1⟩
  · intro name p hp hor h
    have hm := (selectedPreset_some h).2.1
    rcases hor with h1 | h1
    · rw [(properInitial_not_eq h1).1] at hm
      exact absurd hm (by simp)
    · rw [(properInitial_not_eq h1).2] at hm
      exact absurd hm (by simp)
  · refine ⟨by decide, hcit, by decide, hcity_, ?_, ?_, ?_⟩
    · have h : eqIgnoreCase "city" "CITY" = true := by decide
      exact selectedPreset_of_match hcity h
    · have h : eqIgnoreCase "CITY" "CITY" = true := by decide
      exact selectedPreset_of_match hcity h
    · intro effect
      exact ⟨hmiss "CIT" effect (by decide) hcit, hmiss "CITY_" effect (by decide) hcity_⟩
  · intro p hp q hq h
    exact reverblist_unique hp hq h
  · intro name p hp q hq h1 h2
    exact reverblist_unique hp hq (eqIgnoreCase_trans (eqIgnoreCase_symm h1) h2)

/-- C27: for a name that matches a row of `reverblist`, `LoadReverbPreset` leaves each of the
27 reverb parameter fields equal to the field of the preset record of that row, with
`DecayHFLimit` true exactly when `iDecayHFLimit` is non-zero (the `Reverb` member read back
is what was written to it); for a name that matches no row and is not NONE, the object is
as `InitEffectParams` leaves it for the selected type: the default parameters and the
vtable of the `EffectPropsList` row of that type. -/
theorem C27_preset_fields (env : EffectEnv P F) (pe : PresetEnv P F)
    (hgs : ∀ (p : P) (r : ReverbProps F), pe.getReverb (pe.setReverb p r) = r)
    (name : String) (effect : ALeffect P) :
    (∀ item ∈ reverblist pe, eqIgnoreCase name item.name = true →
      item.props = pe.EFX_REVERB_PRESET item.name ∧
      (pe.getReverb (LoadReverbPreset env pe name effect).Props).Density
        = item.props.flDensity ∧
      (pe.getReverb (LoadReverbPreset env pe name effect).Props).Diffusion
        = item.props.flDiffusion ∧
      (pe.getReverb (LoadReverbPreset env pe name effect).Props).Gain = item.props.flGain ∧
      (pe.getReverb (LoadReverbPreset env pe name effect).Props).GainHF
        = item.props.flGainHF ∧
      (pe.getReverb (LoadReverbPreset env pe name effect).Props).GainLF
        = item.props.flGainLF ∧
      (pe.getReverb (LoadReverbPreset env pe name effect).Props).DecayTime
        = item.props.flDecayTime ∧
      (pe.getReverb (LoadReverbPreset env pe name effect).Props).DecayHFRatio
        = item.props.flDecayHFRatio ∧
      (pe.getReverb (LoadReverbPreset env pe name effect).Props).DecayLFRatio
        = item.props.flDecayLFRatio ∧
      (pe.getReverb (LoadReverbPreset env pe name effect).Props).ReflectionsGain
        = item.props.flReflectionsGain ∧
      (pe.getReverb (LoadReverbPreset env pe name effect).Props).ReflectionsDelay
        = item.props.flReflectionsDelay ∧
      (pe.getReverb (LoadReverbPreset env pe name effect).Props).ReflectionsPan.1
        = item.props.flReflectionsPan.1 ∧
      (pe.getReverb (LoadReverbPreset env pe name effect).Props).ReflectionsPan.2.1
        = item.props.flReflectionsPan.2.1 ∧
      (pe.getReverb (LoadReverbPreset env pe name effect).Props).ReflectionsPan.2.2
        = item.props.flReflectionsPan.2.2 ∧
      (pe.getReverb (LoadReverbPreset env pe name effect).Props).LateReverbGain
        = item.props.flLateReverbGain ∧
      (pe.getReverb (LoadReverbPreset env pe name effect).Props).LateReverbDelay
        = item.props.flLateReverbDelay ∧
      (pe.getReverb (LoadReverbPreset env pe name effect).Props).LateReverbPan.1
        = item.props.flLateReverbPan.1 ∧
      (pe.getReverb (LoadReverbPreset env pe name effect).Props).LateReverbPan.2.1
        = item.props.flLateReverbPan.2.1 ∧
      (pe.getReverb (LoadReverbPreset env pe name effect).Props).LateReverbPan.2.2
        = item.props.flLateReverbPan.2.2 ∧
      (pe.getReverb (LoadReverbPreset env pe name effect).Props).EchoTime
        = item.props.flEchoTime ∧
      (pe.getReverb (LoadReverbPreset env pe name effect).Props).EchoDepth
        = item.props.flEchoDepth ∧
      (pe.getReverb (LoadReverbPreset env pe name effect).Props).ModulationTime
        = item.props.flModulationTime ∧
      (pe.getReverb (LoadReverbPreset env pe name effect).Props).ModulationDepth
        = item.props.flModulationDepth ∧
      (pe.getReverb (LoadReverbPreset env pe name effect).Props).AirAbsorptionGainHF
        = item.props.flAirAbsorptionGainHF ∧
      (pe.getReverb (LoadReverbPreset env pe name effect).Props).HFReference
        = item.props.flHFReference ∧
      (pe.getReverb (LoadReverbPreset env pe name effect).Props).LFReference
        = item.props.flLFReference ∧
      (pe.getReverb (LoadReverbPreset env pe name effect).Props).RoomRolloffFactor
        = item.props.flRoomRolloffFactor ∧
      ((pe.getReverb (LoadReverbPreset env pe name effect).Props).DecayHFLimit = true ↔
        item.props.iDecayHFLimit ≠ 0)) ∧
    ((∀ item ∈ reverblist pe, eqIgnoreCase name item.name = false) →
      eqIgnoreCase name "NONE" = false →
      LoadReverbPreset env pe name effect = InitEffectParams env.props effect (presetType env) ∧
      ∃ row ∈ EffectPropsList, row.Type_ = presetType env ∧
        (∀ other ∈ EffectPropsList, other.Type_ = presetType env → other = row) ∧
        (LoadReverbPreset env pe name effect).type = presetType env ∧
        (LoadReverbPreset env pe name effect).Props = env.props.DefaultProps row.DefaultProps ∧
        (LoadReverbPreset env pe name effect).vtab = some row.Vtable ∧
        (LoadReverbPreset env pe name effect).id = effect.id) := by
  constructor
  · intro item hitem hm
    have hn := not_none_of_match hitem hm
    have hr : pe.getReverb (LoadReverbPreset env pe name effect).Props
        = presetReverb item.props := by
      rw [LoadReverbPreset_eq, if_neg hn, selectedPreset_of_match hitem hm]
      exact hgs _ _
    obtain ⟨x, _, hx⟩ := mem_reverblist.mp hitem
    rw [hr]
    refine ⟨by rw [hx], rfl, rfl, rfl, rfl, rfl, rfl, rfl, rfl, rfl, rfl, rfl, rfl, rfl, rfl,
      rfl, rfl, rfl, rfl, rfl, rfl, rfl, rfl, rfl, rfl, rfl, rfl, ?_⟩
    show (item.props.iDecayHFLimit != 0) = true ↔ item.props.iDecayHFLimit ≠ 0
    rw [bne_iff_ne]
  · intro hno hnn
    have hn : strcasecmp name "NONE" ≠ 0 := by
      intro h0
      rw [(strcasecmp_eq_zero_iff _ _).mp h0] at hnn
      exact absurd hnn (by simp)
    have he : LoadReverbPreset env pe name effect
        = InitEffectParams env.props effect (presetType env) := by
      rw [LoadReverbPreset_eq, if_neg hn, selectedPreset_none_iff.mpr hno]
    refine ⟨he, ?_⟩
    have hrow : ∃ row, getEffectPropsItemByType (presetType env) = some row := by
      unfold presetType
      cases env.DisabledEffects EffectKind.EAXREVERB_EFFECT <;>
        cases env.DisabledEffects EffectKind.REVERB_EFFECT <;>
        exact Option.isSome_iff_exists.mp (by decide)
    obtain ⟨row, hrow⟩ := hrow
    obtain ⟨hmem, hty, huniq⟩ := getEffectPropsItemByType_some hrow
    have hinit : InitEffectParams env.props effect (presetType env) =
        { type := presetType env, Props := env.props.DefaultProps row.DefaultProps,
          vtab := some row.Vtable, id := effect.id } := by
      unfold InitEffectParams
      rw [hrow]
    rw [he, hinit]
    exact ⟨row, hmem, hty, huniq, rfl, rfl, rfl, rfl⟩

theorem C27_preset_fields_witness :
    (∀ (p : ReverbProps Nat) (r : ReverbProps Nat),
      sampleReverbPresetEnv.getReverb (sampleReverbPresetEnv.setReverb p r) = r) ∧
    eqIgnoreCase "Cave" "CAVE" = true ∧
    (sampleReverbPresetEnv.getReverb
      (LoadReverbPreset (sampleReverbEnv (fun _ => false)) sampleReverbPresetEnv "Cave"
        sampleReverbEffect).Props).Density = 4 ∧
    ((sampleReverbPresetEnv.getReverb
      (LoadReverbPreset (sampleReverbEnv (fun _ => false)) sampleReverbPresetEnv "Cave"
        sampleReverbEffect).Props).DecayHFLimit = true) := by
  have hgs : ∀ (p : ReverbProps Nat) (r : ReverbProps Nat),
      sampleReverbPresetEnv.getReverb (sampleReverbPresetEnv.setReverb p r) = r :=
    fun _ _ => rfl
  have hmem : (⟨"CAVE", sampleReverbPresetEnv.EFX_REVERB_PRESET "CAVE"⟩ : EffectPreset Nat)
      ∈ reverblist sampleReverbPresetEnv :=
    mem_reverblist.mpr ⟨"CAVE", by decide, rfl⟩
  have hm : eqIgnoreCase "Cave" "CAVE" = true := by decide
  have h := (C27_preset_fields (sampleReverbEnv (fun _ => false)) sampleReverbPresetEnv hgs
    "Cave" sampleReverbEffect).1 _ hmem hm
  refine ⟨hgs, hm, ?_, ?_⟩
  · rw [h.2.1]
    rfl
  · rw [h.2.2.2.2.2.2.2.2.2.2.2.2.2.2.2.2.2.2.2.2.2.2.2.2.2.2.2.2]
    decide

/-- C28 as stated fails when both reverb types are disabled: the name `Cave` matches the row
CAVE, and `LoadReverbPreset` leaves a null-type object, neither `AL_EFFECT_EAXREVERB` nor
`AL_EFFECT_REVERB`, into whose `Reverb` member the record of CAVE was written all the
same. -/
theorem C28_counterexample :
    (⟨"CAVE", sampleReverbPresetEnv.EFX_REVERB_PRESET "CAVE"⟩ : EffectPreset Nat)
      ∈ reverblist sampleReverbPresetEnv ∧
    eqIgnoreCase "Cave" "CAVE" = true ∧
    (LoadReverbPreset (sampleReverbEnv (fun _ => true)) sampleReverbPresetEnv "Cave"
      sampleReverbEffect).type = AL_EFFECT_NULL ∧
    (LoadReverbPreset (sampleReverbEnv (fun _ => true)) sampleReverbPresetEnv "Cave"
      sampleReverbEffect).type ≠ AL_EFFECT_EAXREVERB ∧
    (LoadReverbPreset (sampleReverbEnv (fun _ => true)) sampleReverbPresetEnv "Cave"
      sampleReverbEffect).type ≠ AL_EFFECT_REVERB ∧
    (LoadReverbPreset (sampleReverbEnv (fun _ => true)) sampleReverbPresetEnv "Cave"
      sampleReverbEffect).Props.Density = 4 := by
  have hmem : (⟨"CAVE", sampleReverbPresetEnv.EFX_REVERB_PRESET "CAVE"⟩ : EffectPreset Nat)
      ∈ reverblist sampleReverbPresetEnv :=
    mem_reverblist.mpr ⟨"CAVE", by decide, rfl⟩
  have hm : eqIgnoreCase "Cave" "CAVE" = true := by decide
  have hn := not_none_of_match hmem hm
  have he := LoadReverbPreset_eq (sampleReverbEnv (fun _ => true)) sampleReverbPresetEnv
    "Cave" sampleReverbEffect
  rw [if_neg hn, selectedPreset_of_match hmem hm] at he
  rw [he]
  exact ⟨hmem, hm, by decide, by decide, by decide, rfl⟩

/-- C28, amended: for a name that matches a row of `reverblist`, the object the record is
written into has type `AL_EFFECT_EAXREVERB` when EAX reverb is enabled, otherwise
`AL_EFFECT_REVERB` when standard reverb is enabled, and otherwise, with both disabled,
`AL_EFFECT_NULL`; the name NONE in any letter case yields a null-type object. -/
theorem C28_preset_object_type (env : EffectEnv P F) (pe : PresetEnv P F) (name : String)
    (effect : ALeffect P) :
    (∀ item ∈ reverblist pe, eqIgnoreCase name item.name = true →
      (LoadReverbPreset env pe name effect).Props =
        pe.setReverb (InitEffectParams env.props effect (presetType env)).Props
          (presetReverb item.props) ∧
      (env.DisabledEffects EffectKind.EAXREVERB_EFFECT = false →
        (LoadReverbPreset env pe name effect).type = AL_EFFECT_EAXREVERB) ∧
      (env.DisabledEffects EffectKind.EAXREVERB_EFFECT = true →
        env.DisabledEffects EffectKind.REVERB_EFFECT = false →
        (LoadReverbPreset env pe name effect).type = AL_EFFECT_REVERB) ∧
      (env.DisabledEffects EffectKind.EAXREVERB_EFFECT = true →
        env.DisabledEffects EffectKind.REVERB_EFFECT = true →
        (LoadReverbPreset env pe name effect).type = AL_EFFECT_NULL)) ∧
    (eqIgnoreCase name "NONE" = true →
      LoadReverbPreset env pe name effect = InitEffectParams env.props effect AL_EFFECT_NULL ∧
      (LoadReverbPreset env pe name effect).type = AL_EFFECT_NULL) := by
  constructor
  · intro item hitem hm
    have hn := not_none_of_match hitem hm
    have he := LoadReverbPreset_eq env pe name effect
    rw [if_neg hn, selectedPreset_of_match hitem hm] at he
    have hty : (LoadReverbPreset env pe name effect).type = presetType env := by
      rw [he]
      exact InitEffectParams_type env.props effect (presetType env)
    refine ⟨by rw [he], ?_, ?_, ?_⟩
    · intro h1
      rw [hty]
      unfold presetType
      simp [h1]
    · intro h1 h2
      rw [hty]
      unfold presetType
      simp [h1, h2]
    · intro h1 h2
      rw [hty]
      unfold presetType
      simp [h1, h2]
  · intro hnone
    have hn : strcasecmp name "NONE" = 0 := (strcasecmp_eq_zero_iff _ _).mpr hnone
    have he : LoadReverbPreset env pe name effect
        = InitEffectParams env.props effect AL_EFFECT_NULL := by
      rw [LoadReverbPreset_eq, if_pos hn]
    exact ⟨he, by rw [he]; exact InitEffectParams_type _ _ _⟩

/-! ## Distortion effect: the sub-block loop terminates -/

section BlockList

variable {R B : Type} [LinearOrderedField R]

/-- The loop of `process` runs exactly the iterations that `process.blocks` lists. -/
theorem process_loop_blocks (env : ProcessEnv R B) (samplesToDo : Nat)
    (samplesIn : Nat → Nat → R) (numOutput : Nat) :
    ∀ (d base : Nat) (st : ALdistortionState R B) (out : Nat → Nat → R),
      samplesToDo - base = d →
      ALdistortionState.process.loop env samplesToDo samplesIn numOutput base st out =
        (ALdistortionState.process.blocks env.BUFFERSIZE samplesToDo base).map
          (fun r => r.1.foldl (ALdistortionState.process.step env samplesIn numOutput)
            (st, out)) := by
  intro d
  induction d using Nat.strong_induction_on with
  | _ d ih =>
    intro base st out hd
    rw [ALdistortionState.process.loop, ALdistortionState.process.blocks]
    by_cases hb : base < samplesToDo
    · rw [if_pos hb, if_pos hb]
      by_cases hov : 2 ^ 31 ≤ (samplesToDo - base) * 4
      · rw [if_pos hov, if_pos hov]
        rfl
      · rw [if_neg hov, if_neg hov]
        by_cases hz : (min env.BUFFERSIZE ((samplesToDo - base) * 4)) >>> 2 = 0
        · rw [dif_pos hz, dif_pos hz]
          rfl
        · rw [dif_neg hz, dif_neg hz]
          have hpos : 0 < (min env.BUFFERSIZE ((samplesToDo - base) * 4)) >>> 2 :=
            Nat.pos_of_ne_zero hz
          simp only []
          rw [ih (samplesToDo - (base + (min env.BUFFERSIZE ((samplesToDo - base) * 4)) >>> 2))
            (by omega) _ _ _ rfl]
          cases ALdistortionState.process.blocks env.BUFFERSIZE samplesToDo
            (base + (min env.BUFFERSIZE ((samplesToDo - base) * 4)) >>> 2) <;> rfl
    · rw [if_neg hb, if_neg hb]
      rfl

end BlockList

/-- With `todo` a multiple of 4, the iteration at `b` reads the input samples
`b <= j < b + todo/4`. -/
theorem readsInput_iff (j b todo : Nat) (h4 : todo % 4 = 0) :
    readsInput j (b, todo) = true ↔ b ≤ j ∧ j < b + todo >>> 2 := by
  unfold readsInput
  rw [decide_eq_true_eq, Nat.shiftRight_eq_div_pow todo 2]
  constructor
  · rintro ⟨i, hi, hj⟩
    rw [Nat.shiftRight_eq_div_pow i 2] at hj
    norm_num at hj ⊢
    omega
  · rintro ⟨h1, h2⟩
    refine ⟨4 * (j - b), ?_, ?_⟩
    · norm_num at h2
      omega
    · rw [Nat.shiftRight_eq_div_pow]
      norm_num
      omega

/-- The value of `todo` and of `todo >> 2` in the iteration at `base`. -/
theorem todo_shift (BUFFERSIZE samplesToDo base : Nat) (h4 : BUFFERSIZE % 4 = 0) :
    (min BUFFERSIZE ((samplesToDo - base) * 4)) >>> 2 = min (BUFFERSIZE / 4) (samplesToDo - base) ∧
    (min BUFFERSIZE ((samplesToDo - base) * 4)) % 4 = 0 := by
  rw [Nat.shiftRight_eq_div_pow]
  norm_num
  omega

theorem ceil_div_step (n q : Nat) (hq : 0 < q) (hn : 0 < n) :
    (n + q - 1) / q = (n - min q n + q - 1) / q + 1 := by
  by_cases h : n ≤ q
  · rw [min_eq_right h, Nat.sub_self, Nat.zero_add]
    have h1 : (q - 1) / q = 0 := Nat.div_eq_of_lt (by omega)
    rw [h1]
    apply Nat.div_eq_of_lt_le
    · omega
    · omega
  · have hq2 : q ≤ n := by omega
    rw [min_eq_left hq2]
    have e : n + q - 1 = (n - q + q - 1) + q := by omega
    rw [e, Nat.add_div_right _ hq]

/-- The iterations of the loop from `base <= samplesToDo` on: the loop ends with `base`
equal to `samplesToDo` after `ceil((samplesToDo - base)/(BUFFERSIZE/4))` iterations,
iteration `i` starts at `base + i*(BUFFERSIZE/4)`, and every input sample from `base` on
is read in exactly one of them. -/
theorem blocks_spec (BUFFERSIZE samplesToDo : Nat) (hB : 4 ≤ BUFFERSIZE)
    (h4 : BUFFERSIZE % 4 = 0) (hS : samplesToDo < 2 ^ 29) :
    ∀ (d base : Nat), samplesToDo - base = d → base ≤ samplesToDo →
      ∃ l, ALdistortionState.process.blocks BUFFERSIZE samplesToDo base
          = some (l, samplesToDo) ∧
        l.length = (samplesToDo - base + BUFFERSIZE / 4 - 1) / (BUFFERSIZE / 4) ∧
        (∀ i, i < l.length →
          l[i]? = some (base + i * (BUFFERSIZE / 4),
            min BUFFERSIZE ((samplesToDo - (base + i * (BUFFERSIZE / 4))) * 4))) ∧
        (∀ j, l.countP (readsInput j) = if base ≤ j ∧ j < samplesToDo then 1 else 0) := by
  have hq : 0 < BUFFERSIZE / 4 := by omega
  intro d
  induction d using Nat.strong_induction_on with
  | _ d ih =>
    intro base hd hle
    rw [ALdistortionState.process.blocks]
    by_cases hb : base < samplesToDo
    · obtain ⟨hov, hz, hle2, _⟩ := todo_facts BUFFERSIZE samplesToDo base hB hS hb
      obtain ⟨hsh, hm4⟩ := todo_shift BUFFERSIZE samplesToDo base h4
      have hpos : 0 < (min BUFFERSIZE ((samplesToDo - base) * 4)) >>> 2 :=
        Nat.pos_of_ne_zero hz
      rw [if_pos hb, if_neg hov, dif_neg hz]
      obtain ⟨l, e1, e2, e3, e4⟩ :=
        ih (samplesToDo - (base + (min BUFFERSIZE ((samplesToDo - base) * 4)) >>> 2))
          (by omega) (base + (min BUFFERSIZE ((samplesToDo - base) * 4)) >>> 2) rfl hle2
      rw [e1]
      refine ⟨(base, min BUFFERSIZE ((samplesToDo - base) * 4)) :: l, rfl, ?_, ?_, ?_⟩
      · rw [List.length_cons, e2, hsh]
        have hstep := ceil_div_step (samplesToDo - base) (BUFFERSIZE / 4) hq (by omega)
        rw [hstep]
        have e : samplesToDo - (base + min (BUFFERSIZE / 4) (samplesToDo - base))
            = samplesToDo - base - min (BUFFERSIZE / 4) (samplesToDo - base) := by omega
        rw [e]
      · intro i hi
        cases i with
        | zero => simp
        | succ i =>
          rw [List.length_cons] at hi
          have hi2 : i < l.length := by omega
          rw [List.getElem?_cons_succ, e3 i hi2]
          have hne : 0 < l.length := by omega
          rw [e2] at hne
          have hfull : (min BUFFERSIZE ((samplesToDo - base) * 4)) >>> 2 = BUFFERSIZE / 4 := by
            rw [hsh]
            apply min_eq_left
            by_contra hcon
            have hlt : samplesToDo - base < BUFFERSIZE / 4 := by omega
            rw [hsh, min_eq_right (le_of_lt hlt)] at hne
            have e0 : samplesToDo - (base + (samplesToDo - base)) + BUFFERSIZE / 4 - 1
                = BUFFERSIZE / 4 - 1 := by omega
            rw [e0, Nat.div_eq_of_lt (by omega)] at hne
            exact absurd hne (by omega)
          rw [hfull]
          have e5 : base + BUFFERSIZE / 4 + i * (BUFFERSIZE / 4)
              = base + (i + 1) * (BUFFERSIZE / 4) := by ring
          rw [e5]
      · intro j
        rw [List.countP_cons, e4 j]
        have hr := readsInput_iff j base (min BUFFERSIZE ((samplesToDo - base) * 4)) hm4
        by_cases hj1 : base ≤ j ∧ j < base + (min BUFFERSIZE ((samplesToDo - base) * 4)) >>> 2
        · rw [hr.mpr hj1]
          have c1 : ¬ (base + (min BUFFERSIZE ((samplesToDo - base) * 4)) >>> 2 ≤ j ∧
              j < samplesToDo) := by omega
          have c2 : base ≤ j ∧ j < samplesToDo := by omega
          rw [if_neg c1, if_pos c2]
          simp
        · have hf : readsInput j (base, min BUFFERSIZE ((samplesToDo - base) * 4)) = false := by
            cases hv : readsInput j (base, min BUFFERSIZE ((samplesToDo - base) * 4)) with
            | false => rfl
            | true => exact absurd (hr.mp hv) hj1
          rw [hf]
          by_cases hj2 : base + (min BUFFERSIZE ((samplesToDo - base) * 4)) >>> 2 ≤ j ∧
              j < samplesToDo
          · have c2 : base ≤ j ∧ j < samplesToDo := by omega
            rw [if_pos hj2, if_pos c2]
            simp
          · have c2 : ¬ (base ≤ j ∧ j < samplesToDo) := by omega
            rw [if_neg hj2, if_neg c2]
            simp
    · have he : base = samplesToDo := by omega
      rw [if_neg hb]
      subst he
      refine ⟨[], rfl, ?_, ?_, ?_⟩
      · rw [Nat.sub_self, Nat.zero_add, Nat.div_eq_of_lt (by omega)]
        rfl
      · intro i hi
        exact absurd hi (Nat.not_lt_zero i)
      · intro j
        have c : ¬ (base ≤ j ∧ j < base) := by omega
        rw [if_neg c]
        rfl

theorem ceil_lt_iff (n q i : Nat) (hq : 0 < q) : i < (n + q - 1) / q ↔ i * q < n := by
  rw [Nat.lt_iff_add_one_le, Nat.le_div_iff_mul_le hq, Nat.add_mul, Nat.one_mul]
  omega

section LoopClaim

variable {R B : Type} [LinearOrderedField R]

/-- C30 as stated fails for a large `samplesToDo`: with `BUFFERSIZE = 2048` and
`samplesToDo = 2^29` the product `(samplesToDo-base) * 4` of the first iteration is `2^31`,
which is not an `int`, and the loop has no defined result. -/
theorem C30_counterexample :
    4 ≤ sampleProcessEnv.BUFFERSIZE ∧ sampleProcessEnv.BUFFERSIZE % 4 = 0 ∧
    (2 ^ 29 - 0) * 4 = 2 ^ 31 ∧
    ALdistortionState.process.blocks sampleProcessEnv.BUFFERSIZE (2 ^ 29) 0 = none ∧
    sampleDistortionState.process sampleProcessEnv (2 ^ 29) sampleInput 1 (fun _ _ => 5) 2
      = none := by
  refine ⟨by decide, by decide, by norm_num, ?_, ?_⟩
  · rw [ALdistortionState.process.blocks, if_pos (by norm_num), if_pos (by norm_num)]
  · unfold ALdistortionState.process
    rw [ALdistortionState.process.loop, if_pos (by norm_num), if_pos (by norm_num)]

/-- C30, amended: for `BUFFERSIZE` a multiple of 4 and at least 4 and every `samplesToDo`
below `2^29`, the sub-block loop of `process` ends.  It runs
`ceil(samplesToDo/(BUFFERSIZE/4))` iterations; iteration `i` starts at
`base = i*(BUFFERSIZE/4) < samplesToDo` and advances `base` by
`min(BUFFERSIZE/4, samplesToDo - base) >= 1` to the start of the next iteration, the last
one to `samplesToDo`, with which the loop is left; every input sample below `samplesToDo`
is read in exactly one iteration and no other sample is read; and for `samplesToDo <= 0` the
body does not run. -/
theorem C30_loop_terminates (env : ProcessEnv R B) (st : ALdistortionState R B)
    (samplesToDo : Nat) (samplesIn : Nat → Nat → R) (numInput : Nat)
    (samplesOut : Nat → Nat → R) (numOutput : Nat)
    (hB : 4 ≤ env.BUFFERSIZE) (h4 : env.BUFFERSIZE % 4 = 0) (hS : samplesToDo < 2 ^ 29) :
    (∃ l, ALdistortionState.process.blocks env.BUFFERSIZE samplesToDo 0
        = some (l, samplesToDo) ∧
      st.process env samplesToDo samplesIn numInput samplesOut numOutput =
        some (l.foldl (ALdistortionState.process.step env samplesIn numOutput)
          (st, samplesOut)) ∧
      l.length = (samplesToDo + env.BUFFERSIZE / 4 - 1) / (env.BUFFERSIZE / 4) ∧
      (∀ i, i < l.length →
        l[i]? = some (i * (env.BUFFERSIZE / 4),
          min env.BUFFERSIZE ((samplesToDo - i * (env.BUFFERSIZE / 4)) * 4)) ∧
        i * (env.BUFFERSIZE / 4) < samplesToDo ∧
        (min env.BUFFERSIZE ((samplesToDo - i * (env.BUFFERSIZE / 4)) * 4)) >>> 2
          = min (env.BUFFERSIZE / 4) (samplesToDo - i * (env.BUFFERSIZE / 4)) ∧
        1 ≤ min (env.BUFFERSIZE / 4) (samplesToDo - i * (env.BUFFERSIZE / 4)) ∧
        (i + 1 < l.length →
          i * (env.BUFFERSIZE / 4)
              + min (env.BUFFERSIZE / 4) (samplesToDo - i * (env.BUFFERSIZE / 4))
            = (i + 1) * (env.BUFFERSIZE / 4)) ∧
        (i + 1 = l.length →
          i * (env.BUFFERSIZE / 4)
              + min (env.BUFFERSIZE / 4) (samplesToDo - i * (env.BUFFERSIZE / 4))
            = samplesToDo)) ∧
      (∀ j, j < samplesToDo → l.countP (readsInput j) = 1) ∧
      (∀ j, samplesToDo ≤ j → l.countP (readsInput j) = 0)) ∧
    (∀ n : Int, n ≤ 0 →
      ALdistortionState.process.blocks env.BUFFERSIZE n.toNat 0 = some ([], 0) ∧
      st.process env n.toNat samplesIn numInput samplesOut numOutput
        = some (st, samplesOut)) := by
  have hq : 0 < env.BUFFERSIZE / 4 := by omega
  constructor
  · obtain ⟨l, e1, e2, e3, e4⟩ :=
      blocks_spec env.BUFFERSIZE samplesToDo hB h4 hS samplesToDo 0 rfl (Nat.zero_le _)
    rw [Nat.sub_zero] at e2
    have hproc := process_loop_blocks env samplesToDo samplesIn numOutput samplesToDo 0 st
      samplesOut rfl
    rw [e1] at hproc
    refine ⟨l, e1, hproc, e2, ?_, ?_, ?_⟩
    · intro i hi
      have hi0 := hi
      rw [e2, ceil_lt_iff _ _ _ hq] at hi0
      have h3 := e3 i hi
      rw [Nat.zero_add] at h3
      have hsh := (todo_shift env.BUFFERSIZE samplesToDo (i * (env.BUFFERSIZE / 4)) h4).1
      refine ⟨h3, hi0, hsh, ?_, ?_, ?_⟩
      · exact le_min hq (by omega)
      · intro hnext
        rw [e2, ceil_lt_iff _ _ _ hq, Nat.add_mul, Nat.one_mul] at hnext
        rw [min_eq_left (by omega), Nat.add_mul, Nat.one_mul]
      · intro hlast
        have hno : ¬ (i + 1 < l.length) := by omega
        rw [e2, ceil_lt_iff _ _ _ hq, Nat.add_mul, Nat.one_mul] at hno
        rw [min_eq_right (by omega)]
        omega
    · intro j hj
      rw [e4 j, if_pos ⟨Nat.zero_le j, hj⟩]
    · intro j hj
      have c : ¬ (0 ≤ j ∧ j < samplesToDo) := by omega
      rw [e4 j, if_neg c]
  · intro n hn
    have h0 : n.toNat = 0 := Int.toNat_eq_zero.mpr hn
    rw [h0]
    constructor
    · rw [ALdistortionState.process.blocks, if_neg (Nat.lt_irrefl 0)]
    · unfold ALdistortionState.process
      rw [ALdistortionState.process.loop, if_neg (Nat.lt_irrefl 0)]

end LoopClaim

theorem C30_loop_terminates_witness :
    4 ≤ sampleSmallEnv.BUFFERSIZE ∧ sampleSmallEnv.BUFFERSIZE % 4 = 0 ∧ 5 < 2 ^ 29 ∧
    ∃ l, ALdistortionState.process.blocks sampleSmallEnv.BUFFERSIZE 5 0 = some (l, 5) ∧
      sampleDistortionState.process sampleSmallEnv 5 sampleInput 1 (fun _ _ => 5) 2 =
        some (l.foldl (ALdistortionState.process.step sampleSmallEnv sampleInput 2)
          (sampleDistortionState, fun _ _ => 5)) ∧
      l.length = 3 ∧ l.countP (readsInput 4) = 1 := by
  obtain ⟨⟨l, h1, h2, h3, _, h5, _⟩, _⟩ :=
    C30_loop_terminates sampleSmallEnv sampleDistortionState 5 sampleInput 1
      (fun _ _ => 5) 2 (by decide) (by decide) (by decide)
  exact ⟨by decide, by decide, by decide, l, h1, h2, h3, h5 4 (by decide)⟩

/-! ## Distortion effect: the normalized frequencies `update` configures -/

section NormalizedFrequency

variable {R B T : Type} [LinearOrderedField R]

/-- The two `setParams` calls of `update`. -/
theorem update_filters (ue : UpdateEnv R B T) (ops : BiquadOps R B)
    (st : ALdistortionState R B) (Frequency : Nat) (slotGain : R) (props : ALeffectProps R)
    (target : T) :
    (st.update ue ops Frequency slotGain props target).mLowpass =
      ops.setParams st.mLowpass BiquadType.LowPass 1
        (props.Distortion.LowpassCutoff / (4 * (Frequency : R)))
        (ue.calc_rcpQ_from_bandwidth (props.Distortion.LowpassCutoff / (4 * (Frequency : R)))
          ((props.Distortion.LowpassCutoff / 2) /
            (props.Distortion.LowpassCutoff * (67 / 100)))) ∧
    (st.update ue ops Frequency slotGain props target).mBandpass =
      ops.setParams st.mBandpass BiquadType.BandPass 1
        (props.Distortion.EQCenter / (4 * (Frequency : R)))
        (ue.calc_rcpQ_from_bandwidth (props.Distortion.EQCenter / (4 * (Frequency : R)))
          (props.Distortion.EQBandwidth / (props.Distortion.EQCenter * (67 / 100)))) := by
  constructor
  · show ops.setParams st.mLowpass BiquadType.LowPass 1
        (props.Distortion.LowpassCutoff / ((Frequency : R) * 4))
        (ue.calc_rcpQ_from_bandwidth (props.Distortion.LowpassCutoff / ((Frequency : R) * 4))
          ((props.Distortion.LowpassCutoff / 2) /
            (props.Distortion.LowpassCutoff * (67 / 100)))) = _
    rw [mul_comm (Frequency : R) 4]
  · show ops.setParams st.mBandpass BiquadType.BandPass 1
        (props.Distortion.EQCenter / ((Frequency : R) * 4))
        (ue.calc_rcpQ_from_bandwidth (props.Distortion.EQCenter / ((Frequency : R) * 4))
          (props.Distortion.EQBandwidth / (props.Distortion.EQCenter * (67 / 100)))) = _
    rw [mul_comm (Frequency : R) 4]

/-- The ratio `cutoff/(4*Frequency)` is strictly between 0 and 1/2 exactly when
`0 < cutoff < 2*Frequency`. -/
theorem ratio_in_range_iff (c : R) (Frequency : Nat) :
    (0 < c / (4 * (Frequency : R)) ∧ c / (4 * (Frequency : R)) < 1 / 2) ↔
      (0 < c ∧ c < 2 * (Frequency : R)) := by
  rcases Nat.eq_zero_or_pos Frequency with h0 | hpos
  · subst h0
    simp only [Nat.cast_zero, mul_zero, div_zero]
    constructor
    · intro h
      exact absurd h.1 (lt_irrefl 0)
    · intro h
      exact absurd (lt_trans h.1 h.2) (lt_irrefl 0)
  · have hf : (0 : R) < 4 * (Frequency : R) := by
      have : (0 : R) < (Frequency : R) := Nat.cast_pos.mpr hpos
      linarith
    rw [div_pos_iff_of_pos_right hf, div_lt_iff₀ hf]
    constructor
    · intro h
      exact ⟨h.1, by linarith [h.2]⟩
    · intro h
      exact ⟨h.1, by linarith [h.2]⟩

end NormalizedFrequency

/-- C33 as stated fails at a low device rate: the setter accepts the cutoff 24000 Hz, and
with the device at 8000 Hz `update` configures the low-pass at
`24000/(4*8000) = 3/4`, which is not below 1/2. -/
theorem C33_counterexample :
    (ALdistortion_setParamf sampleLimits sampleDistortion AL_DISTORTION_LOWPASS_CUTOFF 24000).2
      = none ∧
    (ALdistortion_setParamf sampleLimits sampleDistortion AL_DISTORTION_LOWPASS_CUTOFF
      24000).1.Props.Distortion.LowpassCutoff = 24000 ∧
    (sampleCoeffState.update sampleCoeffUpdateEnv sampleCoeffBiquad 8000 1
      (ALdistortion_setParamf sampleLimits sampleDistortion AL_DISTORTION_LOWPASS_CUTOFF
        24000).1.Props ()).mLowpass
      = sampleCoeffBiquad.setParams sampleCoeffState.mLowpass BiquadType.LowPass 1 (3 / 4)
          (sampleCoeffUpdateEnv.calc_rcpQ_from_bandwidth (3 / 4)
            (((24000 : ℚ) / 2) / (24000 * (67 / 100)))) ∧
    ¬ ((3 / 4 : ℚ) < 1 / 2) := by
  have hset : ALdistortion_setParamf sampleLimits sampleDistortion
      AL_DISTORTION_LOWPASS_CUTOFF 24000 =
      ({ sampleDistortion with
          Props := { Distortion := { sampleDistortion.Props.Distortion with
            LowpassCutoff := 24000 } } }, none) := by
    norm_num [ALdistortion_setParamf, sampleLimits, AL_DISTORTION_LOWPASS_CUTOFF,
      AL_DISTORTION_EDGE, AL_DISTORTION_GAIN]
  refine ⟨by rw [hset], by rw [hset], ?_, by norm_num⟩
  rw [hset]
  have h := (update_filters sampleCoeffUpdateEnv sampleCoeffBiquad sampleCoeffState 8000 1
    ({ Distortion := { sampleDistortion.Props.Distortion with LowpassCutoff := 24000 } } :
      ALeffectProps ℚ) ()).1
  rw [h]
  norm_num

section NormalizedFrequencyClaim

variable {R B T : Type} [LinearOrderedField R]

/-- C33, amended: the normalized frequency `cutoff/(4*Frequency)` that `update` passes to a
biquad lies strictly between 0 and 1/2 exactly when `0 < cutoff < 2*Frequency`; hence for
every `LowpassCutoff` and `EQCenter` from 80 to 24000 Hz both filters are configured inside
`(0, 1/2)` at every device rate above 12000 Hz, and at a device rate of 12000 Hz or less
the accepted cutoff 24000 Hz is configured outside it. -/
theorem C33_normalized_frequency (ue : UpdateEnv R B T) (ops : BiquadOps R B)
    (st : ALdistortionState R B) (Frequency : Nat) (slotGain : R) (props : ALeffectProps R)
    (target : T) :
    (∀ c : R, (0 < c / (4 * (Frequency : R)) ∧ c / (4 * (Frequency : R)) < 1 / 2) ↔
      (0 < c ∧ c < 2 * (Frequency : R))) ∧
    (12000 < Frequency →
      80 ≤ props.Distortion.LowpassCutoff → props.Distortion.LowpassCutoff ≤ 24000 →
      80 ≤ props.Distortion.EQCenter → props.Distortion.EQCenter ≤ 24000 →
      ∃ f0 q0 f1 q1,
        (st.update ue ops Frequency slotGain props target).mLowpass =
          ops.setParams st.mLowpass BiquadType.LowPass 1 f0 q0 ∧
        f0 = props.Distortion.LowpassCutoff / (4 * (Frequency : R)) ∧ 0 < f0 ∧ f0 < 1 / 2 ∧
        (st.update ue ops Frequency slotGain props target).mBandpass =
          ops.setParams st.mBandpass BiquadType.BandPass 1 f1 q1 ∧
        f1 = props.Distortion.EQCenter / (4 * (Frequency : R)) ∧ 0 < f1 ∧ f1 < 1 / 2) ∧
    (Frequency ≤ 12000 →
      ¬ (0 < (24000 : R) / (4 * (Frequency : R)) ∧
        (24000 : R) / (4 * (Frequency : R)) < 1 / 2)) := by
  refine ⟨fun c => ratio_in_range_iff c Frequency, ?_, ?_⟩
  · intro hF l0 l1 e0 e1
    obtain ⟨hl, hb⟩ := update_filters ue ops st Frequency slotGain props target
    have hFR : (12000 : R) < (Frequency : R) := by exact_mod_cast hF
    have r0 := (ratio_in_range_iff props.Distortion.LowpassCutoff Frequency).mpr
      ⟨by linarith, by linarith⟩
    have r1 := (ratio_in_range_iff props.Distortion.EQCenter Frequency).mpr
      ⟨by linarith, by linarith⟩
    exact ⟨_, _, _, _, hl, rfl, r0.1, r0.2, hb, rfl, r1.1, r1.2⟩
  · intro hF h
    have h2 := ((ratio_in_range_iff (24000 : R) Frequency).mp h).2
    have hFR : (Frequency : R) ≤ 12000 := by exact_mod_cast hF
    linarith

end NormalizedFrequencyClaim

/-! ## Driver router: the list parser -/

theorem split_first (c : Char) : ∀ (s : List Char), c ∈ s →
    ∃ pre post, s = pre ++ c :: post ∧ c ∉ pre ∧ s.indexOf c = pre.length
  | [], h => absurd h (List.not_mem_nil c)
  | x :: xs, h => by
    by_cases hx : x = c
    · subst hx
      exact ⟨[], xs, rfl, List.not_mem_nil _, List.indexOf_cons_self _ _⟩
    · have hmem : c ∈ xs := by
        rcases List.mem_cons.mp h with h1 | h1
        · exact absurd h1.symm hx
        · exact h1
      obtain ⟨pre, post, e, hn, hi⟩ := split_first c xs hmem
      refine ⟨x :: pre, post, by rw [e]; rfl, ?_, ?_⟩
      · intro hc
        rcases List.mem_cons.mp hc with h1 | h1
        · exact hx h1.symm
        · exact hn h1
      · rw [List.indexOf_cons_ne _ hx, hi]
        rfl

theorem commaFields_nil : commaFields [] = [] := by
  unfold commaFields
  rw [List.splitOn_nil]
  rfl

/-- The fields of a string with a comma: the part before the first comma, when it is not
empty, and then the fields of the part after it. -/
theorem commaFields_first (pre post : List Char) (hn : ',' ∉ pre) :
    commaFields (pre ++ ',' :: post) =
      (if pre.length > 0 then [pre] else []) ++ commaFields post := by
  unfold commaFields
  have h : (pre ++ ',' :: post).splitOn ',' = pre :: post.splitOn ',' := by
    unfold List.splitOn
    apply List.splitOnP_first
    · intro x hx hc
      have : x = ',' := by simpa using hc
      exact hn (this ▸ hx)
    · simp
  rw [h, List.filter_cons]
  cases pre with
  | nil => simp
  | cons x xs => simp

theorem commaFields_single (s : List Char) (hs : s ≠ []) (hn : ',' ∉ s) :
    commaFields s = [s] := by
  unfold commaFields
  have h : s.splitOn ',' = [s] := by
    unfold List.splitOn
    apply List.splitOnP_eq_single
    intro x hx hc
    have : x = ',' := by simpa using hc
    exact hn (this ▸ hx)
  rw [h]
  cases s with
  | nil => exact absurd rfl hs
  | cons x xs => simp

/-- One iteration on a string with a comma. -/
theorem parseStep_comma (npos : Nat) (pre post : List Char) (list : List (List Char))
    (hn : ',' ∉ pre) :
    LoadDriverList.parseStep npos (pre ++ ',' :: post) list =
      (post, if pre.length > 0 then list ++ [pre] else list) := by
  have hmem : ',' ∈ pre ++ ',' :: post := by simp
  obtain ⟨pre1, post1, e, hn1, hi⟩ := split_first ',' _ hmem
  have hpre : pre1 = pre := by
    have h1 : (pre ++ ',' :: post).indexOf ',' = pre.length := by
      rw [List.indexOf_append_of_not_mem hn, List.indexOf_cons_self, Nat.add_zero]
    have hl : pre1.length = pre.length := by rw [← hi, h1]
    have := congrArg (List.take pre.length) e
    rw [List.take_left' rfl, List.take_left' hl] at this
    exact this.symm
  have hidx : (pre ++ ',' :: post).indexOf ',' = pre.length := by rw [hi, hpre]
  have hlt : pre.length < (pre ++ ',' :: post).length := by
    rw [List.length_append, List.length_cons]
    omega
  have hf : wfind npos (pre ++ ',' :: post) ',' = pre.length := by
    unfold wfind
    rw [hidx, if_pos hlt]
  unfold LoadDriverList.parseStep
  simp only [hf, if_pos hlt]
  rw [List.take_left' rfl]
  have hd : List.drop (pre.length + 1) (pre ++ ',' :: post) = post := by
    have : pre ++ ',' :: post = (pre ++ [',']) ++ post := by simp
    rw [this, List.drop_left' (by simp)]
  rw [hd]

/-- One iteration on a non-empty string without a comma. -/
theorem parseStep_last (npos : Nat) (s : List Char) (list : List (List Char))
    (hs : s ≠ []) (hn : ',' ∉ s) (hlen : s.length ≤ npos) :
    LoadDriverList.parseStep npos s list = ([], list ++ [s]) := by
  have hpos : 0 < s.length := List.length_pos.mpr hs
  have hidx : s.indexOf ',' = s.length := List.indexOf_eq_length.mpr hn
  have hf : wfind npos s ',' = npos := by
    unfold wfind
    rw [hidx, if_neg (Nat.lt_irrefl _)]
  unfold LoadDriverList.parseStep
  have h1 : ¬ npos < s.length := by omega
  have h2 : npos > 0 := by omega
  simp only [hf, if_neg h1, if_pos h2]
  rw [List.take_of_length_le hlen, List.drop_length]

/-- Each iteration of the parsing loop leaves a shorter string. -/
theorem parseStep_shorter (npos : Nat) (namelist : List Char) (list : List (List Char))
    (hs : namelist ≠ []) :
    (LoadDriverList.parseStep npos namelist list).1.length < namelist.length := by
  have hpos : 0 < namelist.length := List.length_pos.mpr hs
  unfold LoadDriverList.parseStep
  by_cases h : wfind npos namelist ',' < namelist.length
  · simp only [h, if_true, List.length_drop]
    omega
  · simp only [h, if_false, List.length_drop]
    omega

/-- The parsing loop appends the non-empty comma-separated fields of the string. -/
theorem parse_spec (npos : Nat) :
    ∀ (n : Nat) (s : List Char) (list : List (List Char)), s.length = n → s.length ≤ npos →
      LoadDriverList.parse npos s list = list ++ commaFields s := by
  intro n
  induction n using Nat.strong_induction_on with
  | _ n ih =>
    intro s list hn hlen
    rw [LoadDriverList.parse]
    by_cases hs : s = []
    · rw [dif_pos hs, hs, commaFields_nil, List.append_nil]
    · rw [dif_neg hs]
      by_cases hc : ',' ∈ s
      · obtain ⟨pre, post, e, hnp, _⟩ := split_first ',' s hc
        subst e
        rw [parseStep_comma npos pre post list hnp]
        have hl : post.length < n := by
          rw [← hn, List.length_append, List.length_cons]
          omega
        have hl2 : post.length ≤ npos := by
          rw [List.length_append, List.length_cons] at hlen
          omega
        rw [ih post.length hl post _ rfl hl2, commaFields_first pre post hnp]
        by_cases hp : pre.length > 0
        · rw [if_pos hp, if_pos hp, List.append_assoc]
        · rw [if_neg hp, if_neg hp, List.nil_append]
      · rw [parseStep_last npos s list hs hc hlen, LoadDriverList.parse, dif_pos rfl,
          commaFields_single s hs hc]

/-! ## Driver router: admission of a module -/

theorem any_case_compare (case_compare : List Char → List Char → Int)
    (hcc : ∀ a b, case_compare a b = 0 ↔ eqIgnoreCaseW a b = true)
    (name : List Char) (l : List (List Char)) :
    l.any (fun accept => case_compare name accept == 0) = true ↔
      ∃ f ∈ l, eqIgnoreCaseW name f = true := by
  rw [List.any_eq_true]
  constructor
  · rintro ⟨f, hf, h⟩
    exact ⟨f, hf, (hcc name f).mp (by simpa using h)⟩
  · rintro ⟨f, hf, h⟩
    exact ⟨f, hf, by simpa using (hcc name f).mpr h⟩

/-- `AddModule` appends the module exactly when no driver has its handle or its name, the
accept list is empty or holds the name, the reject list does not hold it, and the entry
points were bound; otherwise it leaves the driver list as it was. -/
theorem AddModule_spec (case_compare : List Char → List Char → Int)
    (hcc : ∀ a b, case_compare a b = 0 ↔ eqIgnoreCaseW a b = true) (loadok : Bool)
    (gAcceptList gRejectList : List (List Char)) (DriverList : List DriverIface)
    (module : Nat) (name : List Char) :
    (AddModule case_compare loadok gAcceptList gRejectList DriverList module name
        = DriverList ++ [DriverIface.mk name module] ∨
      AddModule case_compare loadok gAcceptList gRejectList DriverList module name
        = DriverList) ∧
    (AddModule case_compare loadok gAcceptList gRejectList DriverList module name
        = DriverList ++ [DriverIface.mk name module] ↔
      (∀ drv ∈ DriverList, drv.Module ≠ module ∧ drv.Name ≠ name) ∧
      (gAcceptList = [] ∨ ∃ f ∈ gAcceptList, eqIgnoreCaseW name f = true) ∧
      (∀ f ∈ gRejectList, eqIgnoreCaseW name f = false) ∧
      loadok = true) := by
  have hne : DriverList ≠ DriverList ++ [DriverIface.mk name module] := by
    intro h
    have := congrArg List.length h
    rw [List.length_append, List.length_singleton] at this
    omega
  unfold AddModule
  by_cases h1 : DriverList.any (fun drv => drv.Module == module || drv.Name == name) = true
  · rw [if_pos h1]
    refine ⟨Or.inr rfl, ⟨fun h => absurd h hne, ?_⟩⟩
    rintro ⟨hall, _⟩
    rw [List.any_eq_true] at h1
    obtain ⟨drv, hd, hc⟩ := h1
    rw [Bool.or_eq_true, beq_iff_eq, beq_iff_eq] at hc
    rcases hc with hc | hc
    · exact absurd hc (hall drv hd).1
    · exact absurd hc (hall drv hd).2
  · rw [if_neg h1]
    have hall : ∀ drv ∈ DriverList, drv.Module ≠ module ∧ drv.Name ≠ name := by
      intro drv hd
      constructor
      · intro hc
        exact h1 (List.any_eq_true.mpr ⟨drv, hd, by simp [hc]⟩)
      · intro hc
        exact h1 (List.any_eq_true.mpr ⟨drv, hd, by simp [hc]⟩)
    by_cases h2 : (!gAcceptList.isEmpty &&
        !gAcceptList.any (fun accept => case_compare name accept == 0)) = true
    · rw [if_pos h2]
      refine ⟨Or.inr rfl, ⟨fun h => absurd h hne, ?_⟩⟩
      rintro ⟨_, hacc, _⟩
      rw [Bool.and_eq_true, Bool.not_eq_true', Bool.not_eq_true'] at h2
      rcases hacc with he | hex
      · rw [he] at h2
        exact absurd h2.1 (by simp)
      · have := (any_case_compare case_compare hcc name gAcceptList).mpr hex
        rw [h2.2] at this
        exact absurd this (by simp)
    · rw [if_neg h2]
      have hacc : gAcceptList = [] ∨ ∃ f ∈ gAcceptList, eqIgnoreCaseW name f = true := by
        by_cases he : gAcceptList = []
        · exact Or.inl he
        · right
          apply (any_case_compare case_compare hcc name gAcceptList).mp
          by_contra hno
          apply h2
          rw [Bool.and_eq_true, Bool.not_eq_true', Bool.not_eq_true']
          constructor
          · cases gAcceptList with
            | nil => exact absurd rfl he
            | cons x xs => rfl
          · simpa using hno
      by_cases h3 : (!gRejectList.isEmpty &&
          gRejectList.any (fun accept => case_compare name accept == 0)) = true
      · rw [if_pos h3]
        refine ⟨Or.inr rfl, ⟨fun h => absurd h hne, ?_⟩⟩
        rintro ⟨_, _, hrej, _⟩
        rw [Bool.and_eq_true] at h3
        obtain ⟨f, hf, hm⟩ := (any_case_compare case_compare hcc name gRejectList).mp h3.2
        rw [hrej f hf] at hm
        exact absurd hm (by simp)
      · rw [if_neg h3]
        have hrej : ∀ f ∈ gRejectList, eqIgnoreCaseW name f = false := by
          intro f hf
          cases hm : eqIgnoreCaseW name f with
          | false => rfl
          | true =>
            exfalso
            apply h3
            rw [Bool.and_eq_true]
            constructor
            · cases gRejectList with
              | nil => exact absurd hf (List.not_mem_nil f)
              | cons x xs => rfl
            · exact (any_case_compare case_compare hcc name gRejectList).mpr ⟨f, hf, hm⟩
        cases loadok with
        | false =>
          have e : (if (!false) = true then
                (DriverList ++ [DriverIface.mk name module]).dropLast
              else DriverList ++ [DriverIface.mk name module]) = DriverList := by
            have hb : (!false) = true := rfl
            rw [if_pos hb, List.dropLast_concat]
          rw [e]
          refine ⟨Or.inr rfl, ⟨fun h => absurd h hne, ?_⟩⟩
          rintro ⟨_, _, _, hl⟩
          exact absurd hl (by simp)
        | true =>
          have e : (if (!true) = true then
                (DriverList ++ [DriverIface.mk name module]).dropLast
              else DriverList ++ [DriverIface.mk name module])
              = DriverList ++ [DriverIface.mk name module] := by
            have hb : ¬ ((!true) = true) := by simp
            rw [if_neg hb]
          rw [e]
          exact ⟨Or.inl rfl, ⟨fun _ => ⟨hall, hacc, hrej, rfl⟩, fun _ => rfl⟩⟩

theorem sampleCaseCompare_iff (a b : List Char) :
    sampleCaseCompare a b = 0 ↔ eqIgnoreCaseW a b = true := by
  unfold sampleCaseCompare
  cases eqIgnoreCaseW a b <;> simp

/-- C34: for every value of the `ALROUTER_ACCEPT` or `ALROUTER_REJECT` string the parsing
loop of `LoadDriverList` ends, each iteration leaving a strictly shorter string, and it
appends to the list exactly the non-empty comma-separated fields of the string, in order
and as they are (no trimming); an empty string or an unset variable adds nothing.
`AddModule` then admits a module name only if the accept list is empty or holds the name
ignoring case, and the reject list does not hold it ignoring case. -/
theorem C34_router_lists (npos : Nat) (getenv : String → Option (List Char))
    (case_compare : List Char → List Char → Int)
    (hlen : ∀ name s, getenv name = some s → s.length ≤ npos)
    (hcc : ∀ a b, case_compare a b = 0 ↔ eqIgnoreCaseW a b = true) :
    (∀ (namelist : List Char) (list : List (List Char)), namelist ≠ [] →
      (LoadDriverList.parseStep npos namelist list).1.length < namelist.length) ∧
    (∀ (namelist : List Char) (list : List (List Char)), namelist.length ≤ npos →
      LoadDriverList.parse npos namelist list
        = list ++ (namelist.splitOn ',').filter (fun field => !field.isEmpty)) ∧
    (∀ list : List (List Char), LoadDriverList.parse npos [] list = list) ∧
    LoadDriverList npos getenv [] [] =
      (commaFields ((getenv "ALROUTER_ACCEPT").getD []),
        commaFields ((getenv "ALROUTER_REJECT").getD [])) ∧
    (∀ (loadok : Bool) (DriverList : List DriverIface) (module : Nat) (name : List Char),
      AddModule case_compare loadok (LoadDriverList npos getenv [] []).1
          (LoadDriverList npos getenv [] []).2 DriverList module name
        = DriverList ++ [DriverIface.mk name module] →
      (commaFields ((getenv "ALROUTER_ACCEPT").getD []) = [] ∨
        ∃ f ∈ commaFields ((getenv "ALROUTER_ACCEPT").getD []),
          eqIgnoreCaseW name f = true) ∧
      ∀ f ∈ commaFields ((getenv "ALROUTER_REJECT").getD []),
        eqIgnoreCaseW name f = false) ∧
    (∀ (loadok : Bool) (DriverList : List DriverIface) (module : Nat) (name : List Char),
      AddModule case_compare loadok (LoadDriverList npos getenv [] []).1
          (LoadDriverList npos getenv [] []).2 DriverList module name
        ≠ DriverList ++ [DriverIface.mk name module] →
      AddModule case_compare loadok (LoadDriverList npos getenv [] []).1
          (LoadDriverList npos getenv [] []).2 DriverList module name = DriverList) := by
  have hload : LoadDriverList npos getenv [] [] =
      (commaFields ((getenv "ALROUTER_ACCEPT").getD []),
        commaFields ((getenv "ALROUTER_REJECT").getD [])) := by
    unfold LoadDriverList
    have h1 : (match getenv "ALROUTER_ACCEPT" with
        | some list => LoadDriverList.parse npos list []
        | none => []) = commaFields ((getenv "ALROUTER_ACCEPT").getD []) := by
      cases h : getenv "ALROUTER_ACCEPT" with
      | none => exact commaFields_nil.symm
      | some s =>
        show LoadDriverList.parse npos s [] = commaFields s
        rw [parse_spec npos s.length s [] rfl (hlen _ s h), List.nil_append]
    have h2 : (match getenv "ALROUTER_REJECT" with
        | some list => LoadDriverList.parse npos list []
        | none => []) = commaFields ((getenv "ALROUTER_REJECT").getD []) := by
      cases h : getenv "ALROUTER_REJECT" with
      | none => exact commaFields_nil.symm
      | some s =>
        show LoadDriverList.parse npos s [] = commaFields s
        rw [parse_spec npos s.length s [] rfl (hlen _ s h), List.nil_append]
    simp only [h1, h2]
  refine ⟨?_, ?_, ?_, hload, ?_, ?_⟩
  · intro namelist list hs
    exact parseStep_shorter npos namelist list hs
  · intro namelist list hl
    exact parse_spec npos namelist.length namelist list rfl hl
  · intro list
    rw [LoadDriverList.parse, dif_pos rfl]
  · intro loadok DriverList module name hadm
    rw [hload] at hadm
    have h := ((AddModule_spec case_compare hcc loadok _ _ DriverList module name).2).mp hadm
    exact ⟨h.2.1, h.2.2.1⟩
  · intro loadok DriverList module name hno
    rcases (AddModule_spec case_compare hcc loadok (LoadDriverList npos getenv [] []).1
      (LoadDriverList npos getenv [] []).2 DriverList module name).1 with h | h
    · exact absurd h hno
    · exact h

theorem C34_router_lists_witness :
    (∀ name s, sampleGetenv name = some s → s.length ≤ 2 ^ 64 - 1) ∧
    (∀ a b, sampleCaseCompare a b = 0 ↔ eqIgnoreCaseW a b = true) ∧
    LoadDriverList (2 ^ 64 - 1) sampleGetenv [] [] =
      (["soft_oal.dll".data, "My Oal.dll ".data], ["bad_oal.dll".data]) ∧
    AddModule sampleCaseCompare true (LoadDriverList (2 ^ 64 - 1) sampleGetenv [] []).1
        (LoadDriverList (2 ^ 64 - 1) sampleGetenv [] []).2 [] 1 "Bad_OAL.dll".data = [] := by
  have hlen : ∀ name s, sampleGetenv name = some s → s.length ≤ 2 ^ 64 - 1 := by
    intro name s h
    unfold sampleGetenv at h
    split at h
    · cases h
      decide
    · split at h
      · cases h
        decide
      · cases h
  have h := C34_router_lists (2 ^ 64 - 1) sampleGetenv sampleCaseCompare hlen
    sampleCaseCompare_iff
  have hl : LoadDriverList (2 ^ 64 - 1) sampleGetenv [] [] =
      (["soft_oal.dll".data, "My Oal.dll ".data], ["bad_oal.dll".data]) := by
    rw [h.2.2.2.1]
    decide
  refine ⟨hlen, sampleCaseCompare_iff, hl, ?_⟩
  apply h.2.2.2.2.2 true [] 1 "Bad_OAL.dll".data
  intro hadm
  have hr := (h.2.2.2.2.1 true [] 1 "Bad_OAL.dll".data hadm).2 "bad_oal.dll".data (by decide)
  exact absurd hr (by decide)

/-! ## Distortion effect: sub-blocks against a single pass -/

section SinglePassLemmas

variable {R B : Type} [LinearOrderedField R]

omit [LinearOrderedField R] in
/-- `BiquadFilter::process` in closed form. -/
theorem biquad_process_eq (ops : BiquadOps R B) (b : B) (dst src : Nat → R) (n : Nat) :
    BiquadFilter.process ops b dst src n =
      (fun i => if i < n then biquadOut ops b src i else dst i, biquadRun ops b src n) := by
  induction n with
  | zero =>
    refine Prod.ext ?_ rfl
    funext i
    show dst i = if i < 0 then biquadOut ops b src i else dst i
    rw [if_neg (Nat.not_lt_zero i)]
  | succ n ih =>
    rw [biquad_process_succ, ih]
    refine Prod.ext ?_ rfl
    funext i
    show Function.update (fun i => if i < n then biquadOut ops b src i else dst i) n
        (biquadOut ops b src n) i = if i < n + 1 then biquadOut ops b src i else dst i
    by_cases hi : i = n
    · subst hi
      rw [Function.update_same, if_pos (Nat.lt_succ_self i)]
    · rw [Function.update_noteq hi]
      by_cases h : i < n
      · rw [if_pos h, if_pos (Nat.lt_succ_of_lt h)]
      · rw [if_neg h, if_neg (by omega)]

omit [LinearOrderedField R] in
theorem biquadRun_congr (ops : BiquadOps R B) (b : B) (src src' : Nat → R) (n : Nat)
    (h : ∀ i, i < n → src i = src' i) : biquadRun ops b src n = biquadRun ops b src' n := by
  induction n with
  | zero => rfl
  | succ n ih =>
    show (ops.step (biquadRun ops b src n) (src n)).2
      = (ops.step (biquadRun ops b src' n) (src' n)).2
    rw [ih (fun i hi => h i (Nat.lt_succ_of_lt hi)), h n (Nat.lt_succ_self n)]

omit [LinearOrderedField R] in
theorem biquadOut_congr (ops : BiquadOps R B) (b : B) (src src' : Nat → R) (i : Nat)
    (h : ∀ k, k ≤ i → src k = src' k) : biquadOut ops b src i = biquadOut ops b src' i := by
  unfold biquadOut
  rw [biquadRun_congr ops b src src' i (fun k hk => h k (Nat.le_of_lt hk)), h i (Nat.le_refl i)]

omit [LinearOrderedField R] in
/-- A filter carried over from the first `n` samples continues the stream. -/
theorem biquadRun_add (ops : BiquadOps R B) (b : B) (src : Nat → R) (n m : Nat) :
    biquadRun ops b src (n + m) =
      biquadRun ops (biquadRun ops b src n) (fun i => src (n + i)) m := by
  induction m with
  | zero => rfl
  | succ m ih =>
    show (ops.step (biquadRun ops b src (n + m)) (src (n + m))).2 = _
    rw [ih]
    rfl

omit [LinearOrderedField R] in
theorem biquadOut_add (ops : BiquadOps R B) (b : B) (src : Nat → R) (n i : Nat) :
    biquadOut ops b src (n + i) =
      biquadOut ops (biquadRun ops b src n) (fun k => src (n + k)) i := by
  unfold biquadOut
  rw [biquadRun_add]

end SinglePassLemmas

section SinglePassBlocks

variable {R B : Type} [LinearOrderedField R]

theorem zeroStuff_stream (samplesIn0 : Nat → R) (base todo : Nat) (buffer0 : Nat → R)
    (i : Nat) (hi : i < todo) :
    zeroStuff samplesIn0 base todo buffer0 i = stuffedStream samplesIn0 (4 * base + i) := by
  rw [zeroStuff_apply, if_pos hi]
  unfold stuffedStream
  have h1 : (4 * base + i) % 4 = i % 4 := by omega
  have h2 : (4 * base + i) / 4 = base + i / 4 := by omega
  rw [h1, h2]

/-- A sub-block continues the three oversampled streams of the whole input: when the two
filters of the state are those of the single pass after `4*base` samples, the sub-block
leaves the filters after `4*base + todo` samples and the band-passed samples
`4*base + i` in `buffer[1][i]`. -/
theorem filterBlock_stream (env : ProcessEnv R B) (lowpass bandpass : B)
    (cur : ALdistortionState R B) (samplesIn : Nat → Nat → R) (base todo : Nat)
    (hL : cur.mLowpass = biquadRun env.biquad lowpass (stuffedStream (samplesIn 0)) (4 * base))
    (hP : cur.mBandpass = biquadRun env.biquad bandpass
      (shapedStream env.biquad lowpass cur.mEdgeCoeff (samplesIn 0)) (4 * base)) :
    (cur.filterBlock env samplesIn base todo).mLowpass =
        biquadRun env.biquad lowpass (stuffedStream (samplesIn 0)) (4 * base + todo) ∧
    (cur.filterBlock env samplesIn base todo).mBandpass =
        biquadRun env.biquad bandpass
          (shapedStream env.biquad lowpass cur.mEdgeCoeff (samplesIn 0)) (4 * base + todo) ∧
    (cur.filterBlock env samplesIn base todo).mEdgeCoeff = cur.mEdgeCoeff ∧
    ∀ i, i < todo →
      (cur.filterBlock env samplesIn base todo).mBuffer 1 i =
        bandpassedStream env.biquad lowpass bandpass cur.mEdgeCoeff (samplesIn 0)
          (4 * base + i) := by
  have hz : ∀ i, i < todo →
      zeroStuff (samplesIn 0) base todo (cur.mBuffer 0) i
        = stuffedStream (samplesIn 0) (4 * base + i) :=
    fun i hi => zeroStuff_stream (samplesIn 0) base todo (cur.mBuffer 0) i hi
  have hlpRun : biquadRun env.biquad cur.mLowpass
      (zeroStuff (samplesIn 0) base todo (cur.mBuffer 0)) todo
      = biquadRun env.biquad lowpass (stuffedStream (samplesIn 0)) (4 * base + todo) := by
    rw [biquadRun_add, ← hL]
    exact biquadRun_congr _ _ _ _ _ hz
  have hlpOut : ∀ i, i < todo →
      biquadOut env.biquad cur.mLowpass (zeroStuff (samplesIn 0) base todo (cur.mBuffer 0)) i
        = biquadOut env.biquad lowpass (stuffedStream (samplesIn 0)) (4 * base + i) := by
    intro i hi
    rw [biquadOut_add, ← hL]
    exact biquadOut_congr _ _ _ _ _ (fun k hk => hz k (by omega))
  have hsh : ∀ i, i < todo →
      shapeLoop cur.mEdgeCoeff
          (BiquadFilter.process env.biquad cur.mLowpass (cur.mBuffer 1)
            (zeroStuff (samplesIn 0) base todo (cur.mBuffer 0)) todo).1 todo
          (zeroStuff (samplesIn 0) base todo (cur.mBuffer 0)) i
        = shapedStream env.biquad lowpass cur.mEdgeCoeff (samplesIn 0) (4 * base + i) := by
    intro i hi
    rw [shapeLoop_apply, if_pos hi, biquad_process_eq]
    show waveshape cur.mEdgeCoeff (if i < todo then _ else _) = _
    rw [if_pos hi, hlpOut i hi]
    rfl
  refine ⟨?_, ?_, rfl, ?_⟩
  · show (BiquadFilter.process env.biquad cur.mLowpass _ _ todo).2 = _
    rw [biquad_process_eq]
    exact hlpRun
  · show (BiquadFilter.process env.biquad cur.mBandpass _ _ todo).2 = _
    rw [biquad_process_eq]
    show biquadRun env.biquad cur.mBandpass _ todo = _
    rw [biquadRun_add, ← hP]
    exact biquadRun_congr _ _ _ _ _ hsh
  · intro i hi
    simp only [ALdistortionState.filterBlock, Function.update_same]
    rw [biquad_process_eq]
    show (if i < todo then biquadOut env.biquad cur.mBandpass _ i else _) = _
    rw [if_pos hi]
    unfold bandpassedStream
    rw [biquadOut_add, ← hP]
    exact biquadOut_congr _ _ _ _ _ (fun k hk => hsh k (by omega))

end SinglePassBlocks

section SinglePassLoop

variable {R B : Type} [LinearOrderedField R]

/-- The sub-block loop from `base` on against the streams of the whole input. -/
theorem stream_loop_single_pass (env : ProcessEnv R B) (hB : 4 ≤ env.BUFFERSIZE)
    (h4 : env.BUFFERSIZE % 4 = 0) (samplesToDo : Nat) (hS : samplesToDo < 2 ^ 29)
    (samplesIn : Nat → Nat → R) (lowpass bandpass : B) (fc : R) :
    ∀ (d base : Nat) (cur : ALdistortionState R B) (y : Nat → R),
      samplesToDo - base = d → base ≤ samplesToDo →
      cur.mLowpass = biquadRun env.biquad lowpass (stuffedStream (samplesIn 0)) (4 * base) →
      cur.mBandpass = biquadRun env.biquad bandpass
        (shapedStream env.biquad lowpass fc (samplesIn 0)) (4 * base) →
      cur.mEdgeCoeff = fc →
      ∃ st' y',
        ALdistortionState.stream.loop env samplesToDo samplesIn base cur y = some (st', y') ∧
        st'.mLowpass =
          biquadRun env.biquad lowpass (stuffedStream (samplesIn 0)) (4 * samplesToDo) ∧
        st'.mBandpass = biquadRun env.biquad bandpass
          (shapedStream env.biquad lowpass fc (samplesIn 0)) (4 * samplesToDo) ∧
        ∀ j, base ≤ j → j < samplesToDo →
          y' j = bandpassedStream env.biquad lowpass bandpass fc (samplesIn 0) (4 * j) := by
  intro d
  induction d using Nat.strong_induction_on with
  | _ d ih =>
    intro base cur y hd hle hL hP hE
    by_cases hb : base < samplesToDo
    · obtain ⟨hov, hz, hle2, h4le⟩ := todo_facts env.BUFFERSIZE samplesToDo base hB hS hb
      obtain ⟨hsh, hm4⟩ := todo_shift env.BUFFERSIZE samplesToDo base h4
      have hpos : 0 < (min env.BUFFERSIZE ((samplesToDo - base) * 4)) >>> 2 :=
        Nat.pos_of_ne_zero hz
      have htodo : min env.BUFFERSIZE ((samplesToDo - base) * 4)
          = 4 * ((min env.BUFFERSIZE ((samplesToDo - base) * 4)) >>> 2) := by
        rw [Nat.shiftRight_eq_div_pow]
        norm_num
        omega
      rw [← hE] at hP
      obtain ⟨f1, f2, f3, f4⟩ := filterBlock_stream env lowpass bandpass cur samplesIn base
        (min env.BUFFERSIZE ((samplesToDo - base) * 4)) hL hP
      rw [hE] at f2 f4
      have e4 : 4 * base + min env.BUFFERSIZE ((samplesToDo - base) * 4)
          = 4 * (base + (min env.BUFFERSIZE ((samplesToDo - base) * 4)) >>> 2) := by omega
      rw [e4] at f1 f2
      obtain ⟨st', y', g1, g2, g3, g4⟩ :=
        ih (samplesToDo - (base + (min env.BUFFERSIZE ((samplesToDo - base) * 4)) >>> 2))
          (by omega) (base + (min env.BUFFERSIZE ((samplesToDo - base) * 4)) >>> 2)
          (cur.filterBlock env samplesIn base (min env.BUFFERSIZE ((samplesToDo - base) * 4)))
          (fun j =>
            if base ≤ j ∧ j < base + (min env.BUFFERSIZE ((samplesToDo - base) * 4)) >>> 2
            then (cur.filterBlock env samplesIn base
              (min env.BUFFERSIZE ((samplesToDo - base) * 4))).mBuffer 1 (4 * (j - base))
            else y j) rfl hle2 f1 f2 (f3.trans hE)
      obtain ⟨s1, y1, o1, e1, _, _, fr1, _⟩ := process_loop_spec env hB samplesToDo hS
        samplesIn 0
        (samplesToDo - (base + (min env.BUFFERSIZE ((samplesToDo - base) * 4)) >>> 2))
        (base + (min env.BUFFERSIZE ((samplesToDo - base) * 4)) >>> 2)
        (cur.filterBlock env samplesIn base (min env.BUFFERSIZE ((samplesToDo - base) * 4)))
        (fun _ _ => 0)
        (fun j =>
          if base ≤ j ∧ j < base + (min env.BUFFERSIZE ((samplesToDo - base) * 4)) >>> 2
          then (cur.filterBlock env samplesIn base
            (min env.BUFFERSIZE ((samplesToDo - base) * 4))).mBuffer 1 (4 * (j - base))
          else y j) rfl
      rw [g1] at e1
      have hy : y1 = y' := by
        have := Option.some.inj e1
        exact (congrArg Prod.snd this).symm
      rw [ALdistortionState.stream.loop]
      simp only [if_pos hb, if_neg hov, dif_neg hz]
      refine ⟨st', y', g1, g2, g3, ?_⟩
      intro j hj1 hj2
      by_cases hj : base + (min env.BUFFERSIZE ((samplesToDo - base) * 4)) >>> 2 ≤ j
      · exact g4 j hj hj2
      · have hjb : base ≤ j ∧
            j < base + (min env.BUFFERSIZE ((samplesToDo - base) * 4)) >>> 2 := by omega
        have hfr := fr1 j (by omega)
        rw [hy] at hfr
        rw [hfr]
        simp only [if_pos hjb]
        rw [f4 (4 * (j - base)) (by omega)]
        have e5 : 4 * base + 4 * (j - base) = 4 * j := by omega
        rw [e5]
    · have he : base = samplesToDo := by omega
      subst he
      rw [ALdistortionState.stream.loop]
      simp only [if_neg hb]
      exact ⟨cur, y, rfl, hL, hP, fun j hj1 hj2 => absurd (Nat.lt_of_le_of_lt hj1 hj2) hb⟩

end SinglePassLoop

section SinglePassClaim

variable {R B : Type} [LinearOrderedField R]

/-- The single-pass reference through the streams of the whole input. -/
theorem processReference_stream (env : ProcessEnv R B) (st : ALdistortionState R B)
    (samplesToDo : Nat) (samplesIn : Nat → Nat → R) (samplesOut : Nat → Nat → R)
    (numOutput : Nat) :
    (st.processReference env samplesToDo samplesIn samplesOut numOutput).1 =
      biquadRun env.biquad st.mLowpass (stuffedStream (samplesIn 0)) (4 * samplesToDo) ∧
    (st.processReference env samplesToDo samplesIn samplesOut numOutput).2.1 =
      biquadRun env.biquad st.mBandpass
        (shapedStream env.biquad st.mLowpass st.mEdgeCoeff (samplesIn 0)) (4 * samplesToDo) ∧
    ∀ k j, (st.processReference env samplesToDo samplesIn samplesOut numOutput).2.2 k j =
      if k < numOutput ∧ |st.mGain k| > env.GAIN_SILENCE_THRESHOLD ∧ j < samplesToDo
      then samplesOut k j + st.mGain k *
        bandpassedStream env.biquad st.mLowpass st.mBandpass st.mEdgeCoeff (samplesIn 0) (4 * j)
      else samplesOut k j := by
  have hz : ∀ i, i < 4 * samplesToDo →
      zeroStuff (samplesIn 0) 0 (4 * samplesToDo) (fun _ => 0) i
        = stuffedStream (samplesIn 0) i := by
    intro i hi
    rw [zeroStuff_stream (samplesIn 0) 0 (4 * samplesToDo) _ i hi, Nat.mul_zero, Nat.zero_add]
  have hsh : ∀ i, i < 4 * samplesToDo →
      shapeLoop st.mEdgeCoeff
          (BiquadFilter.process env.biquad st.mLowpass (fun _ => 0)
            (zeroStuff (samplesIn 0) 0 (4 * samplesToDo) (fun _ => 0)) (4 * samplesToDo)).1
          (4 * samplesToDo) (fun _ => 0) i
        = shapedStream env.biquad st.mLowpass st.mEdgeCoeff (samplesIn 0) i := by
    intro i hi
    rw [shapeLoop_apply, if_pos hi, biquad_process_eq]
    show waveshape st.mEdgeCoeff (if i < 4 * samplesToDo then _ else _) = _
    rw [if_pos hi]
    unfold shapedStream
    rw [biquadOut_congr _ _ _ _ _ (fun k hk => hz k (by omega))]
  refine ⟨?_, ?_, ?_⟩
  · show (BiquadFilter.process env.biquad st.mLowpass _ _ (4 * samplesToDo)).2 = _
    rw [biquad_process_eq]
    exact biquadRun_congr _ _ _ _ _ hz
  · show (BiquadFilter.process env.biquad st.mBandpass _ _ (4 * samplesToDo)).2 = _
    rw [biquad_process_eq]
    exact biquadRun_congr _ _ _ _ _ hsh
  · intro k j
    show mixBlock env st.mGain _ 0 samplesToDo numOutput samplesOut k j = _
    rw [mixBlock_apply]
    by_cases h : k < numOutput ∧ |st.mGain k| > env.GAIN_SILENCE_THRESHOLD ∧ j < samplesToDo
    · have h' : k < numOutput ∧ |st.mGain k| > env.GAIN_SILENCE_THRESHOLD ∧ 0 ≤ j ∧
          j < 0 + samplesToDo := ⟨h.1, h.2.1, Nat.zero_le j, by omega⟩
      rw [if_pos h, if_pos h', biquad_process_eq]
      have hj : 4 * (j - 0) < 4 * samplesToDo := by omega
      show _ + _ * (if 4 * (j - 0) < 4 * samplesToDo then _ else _) = _
      rw [if_pos hj, Nat.sub_zero]
      unfold bandpassedStream
      rw [biquadOut_congr _ _ _ _ _ (fun i hi => hsh i (by omega))]
    · have h' : ¬ (k < numOutput ∧ |st.mGain k| > env.GAIN_SILENCE_THRESHOLD ∧ 0 ≤ j ∧
          j < 0 + samplesToDo) := by
        intro hc
        exact h ⟨hc.1, hc.2.1, by omega⟩
      rw [if_neg h, if_neg h']

/-- C31: sub-block boundaries do not change the result.  With `BUFFERSIZE` a multiple of 4
and at least 4 and `samplesToDo` below `2^29`, `process` ends, and its output arrays and
its two filters afterwards are those of the single-pass reference, which zero-stuffs the
whole input to `4*samplesToDo` samples and low-passes, waveshapes, band-passes and
decimates it in one go. -/
theorem C31_single_pass_refinement (env : ProcessEnv R B) (st : ALdistortionState R B)
    (samplesToDo : Nat) (samplesIn : Nat → Nat → R) (numInput : Nat)
    (samplesOut : Nat → Nat → R) (numOutput : Nat)
    (hB : 4 ≤ env.BUFFERSIZE) (h4 : env.BUFFERSIZE % 4 = 0) (hS : samplesToDo < 2 ^ 29) :
    ∃ st' out',
      st.process env samplesToDo samplesIn numInput samplesOut numOutput = some (st', out') ∧
      out' = (st.processReference env samplesToDo samplesIn samplesOut numOutput).2.2 ∧
      st'.mLowpass = (st.processReference env samplesToDo samplesIn samplesOut numOutput).1 ∧
      st'.mBandpass
        = (st.processReference env samplesToDo samplesIn samplesOut numOutput).2.1 := by
  obtain ⟨st', y, out', a1, a2, a3⟩ :=
    process_spec env st samplesToDo samplesIn numInput samplesOut numOutput hB hS
  obtain ⟨st2, y2, b1, b2, b3, b4⟩ := stream_loop_single_pass env hB h4 samplesToDo hS samplesIn
    st.mLowpass st.mBandpass st.mEdgeCoeff samplesToDo 0 st (fun _ => 0) rfl (Nat.zero_le _)
    rfl rfl rfl
  have hs : (st', y) = (st2, y2) := by
    unfold ALdistortionState.stream at a1
    rw [a1] at b1
    exact Option.some.inj b1
  have hst : st' = st2 := congrArg Prod.fst hs
  have hy : y = y2 := congrArg Prod.snd hs
  obtain ⟨r1, r2, r3⟩ := processReference_stream env st samplesToDo samplesIn samplesOut numOutput
  refine ⟨st', out', a2, ?_, ?_, ?_⟩
  · funext k j
    rw [a3 k j, r3 k j]
    by_cases h : k < numOutput ∧ |st.mGain k| > env.GAIN_SILENCE_THRESHOLD ∧ j < samplesToDo
    · rw [if_pos h, if_pos h, hy, b4 j (Nat.zero_le j) h.2.2]
    · rw [if_neg h, if_neg h]
  · rw [hst, b2, r1]
  · rw [hst, b3, r2]

end SinglePassClaim

theorem C31_single_pass_refinement_witness :
    4 ≤ sampleSmallEnv.BUFFERSIZE ∧ sampleSmallEnv.BUFFERSIZE % 4 = 0 ∧ 5 < 2 ^ 29 ∧
    ∃ st' out',
      sampleDistortionState.process sampleSmallEnv 5 sampleInput 1 (fun _ _ => 5) 2
        = some (st', out') ∧
      out' = (sampleDistortionState.processReference sampleSmallEnv 5 sampleInput
        (fun _ _ => 5) 2).2.2 ∧
      st'.mLowpass = (sampleDistortionState.processReference sampleSmallEnv 5 sampleInput
        (fun _ _ => 5) 2).1 ∧
      st'.mBandpass = (sampleDistortionState.processReference sampleSmallEnv 5 sampleInput
        (fun _ _ => 5) 2).2.1 :=
  ⟨by decide, by decide, by decide,
    C31_single_pass_refinement sampleSmallEnv sampleDistortionState 5 sampleInput 1
      (fun _ _ => 5) 2 (by decide) (by decide) (by decide)⟩

/-! ## Distortion effect: every array access of `process` is in bounds -/

theorem forLoopM_eq {σ : Type} (bodyM : Nat → σ → Option σ) (body : Nat → σ → σ) (n : Nat)
    (s : σ) (h : ∀ i, i < n → ∀ t, bodyM i t = some (body i t)) :
    forLoopM bodyM n s = some (forLoop body n s) := by
  induction n with
  | zero => rfl
  | succ n ih =>
    show (forLoopM bodyM n s).bind (bodyM n) = some (body n (forLoop body n s))
    rw [ih (fun i hi => h i (Nat.lt_succ_of_lt hi)), Option.some_bind,
      h n (Nat.lt_succ_self n)]

theorem readAt_lt {α : Type} (limit : Nat) (a : Nat → α) (i : Nat) (h : i < limit) :
    readAt limit a i = some (a i) := by
  unfold readAt
  rw [if_pos h]

theorem writeAt_lt {α : Type} (limit : Nat) (a : Nat → α) (i : Nat) (v : α) (h : i < limit) :
    writeAt limit a i v = some (Function.update a i v) := by
  unfold writeAt
  rw [if_pos h]

section CheckedLemmas

variable {R B : Type} [LinearOrderedField R]

theorem zeroStuffChecked_eq (lim : AccessLimits) (samplesIn : Nat → Nat → R)
    (base todo : Nat) (buffer0 : Nat → R) (hch : 0 < lim.inputChannels)
    (hin : ∀ i, i < todo → (i >>> 2) + base < lim.inputSamples)
    (hs : todo ≤ lim.scratch) :
    zeroStuffChecked lim samplesIn base todo buffer0
      = some (zeroStuff (samplesIn 0) base todo buffer0) := by
  unfold zeroStuffChecked zeroStuff
  apply forLoopM_eq
  intro i hi t
  rw [readAt_lt _ _ _ hch, Option.some_bind, readAt_lt _ _ _ (hin i hi), Option.map_some']
  by_cases h3 : i &&& 3 = 0
  · rw [if_pos h3, if_pos h3, Option.some_bind, writeAt_lt _ _ _ _ (by omega)]
  · rw [if_neg h3, if_neg h3, Option.some_bind, writeAt_lt _ _ _ _ (by omega)]

omit [LinearOrderedField R] in
theorem biquad_processChecked_eq (lim : AccessLimits) (ops : BiquadOps R B) (filter : B)
    (dst src : Nat → R) (numsamples : Nat) (hs : numsamples ≤ lim.scratch) :
    BiquadFilter.processChecked lim ops filter dst src numsamples
      = some (BiquadFilter.process ops filter dst src numsamples) := by
  unfold BiquadFilter.processChecked BiquadFilter.process
  apply forLoopM_eq
  intro i hi t
  rw [readAt_lt _ _ _ (by omega), Option.some_bind, writeAt_lt _ _ _ _ (by omega),
    Option.map_some']

theorem shapeLoopChecked_eq (lim : AccessLimits) (fc : R) (buffer1 : Nat → R) (todo : Nat)
    (buffer0 : Nat → R) (hs : todo ≤ lim.scratch) :
    shapeLoopChecked lim fc buffer1 todo buffer0 = some (shapeLoop fc buffer1 todo buffer0) := by
  unfold shapeLoopChecked shapeLoop
  apply forLoopM_eq
  intro i hi t
  rw [readAt_lt _ _ _ (by omega), Option.some_bind, writeAt_lt _ _ _ _ (by omega)]

theorem mixBlockChecked_eq (lim : AccessLimits) (env : ProcessEnv R B) (mGain : Nat → R)
    (buffer1 : Nat → R) (base todo numOutput : Nat) (samplesOut : Nat → Nat → R)
    (hg : numOutput ≤ lim.gains) (hc : numOutput ≤ lim.outputChannels)
    (hs : ∀ i, i < todo → i * 4 < lim.scratch) (ho : base + todo ≤ lim.outputSamples) :
    mixBlockChecked lim env mGain buffer1 base todo numOutput samplesOut
      = some (mixBlock env mGain buffer1 base todo numOutput samplesOut) := by
  unfold mixBlockChecked mixBlock
  apply forLoopM_eq
  intro k hk out
  rw [readAt_lt _ _ _ (by omega), Option.some_bind]
  by_cases hgain : |mGain k| > env.GAIN_SILENCE_THRESHOLD
  · rw [if_neg (not_not.mpr hgain), if_neg (not_not.mpr hgain)]
    apply forLoopM_eq
    intro i hi out1
    rw [readAt_lt _ _ _ (hs i hi), Option.some_bind, readAt_lt _ _ _ (by omega),
      Option.some_bind, readAt_lt _ _ _ (by omega), Option.some_bind,
      writeAt_lt _ _ _ _ (by omega), Option.map_some']
  · rw [if_pos hgain, if_pos hgain]

theorem filterBlockChecked_eq (lim : AccessLimits) (env : ProcessEnv R B)
    (st : ALdistortionState R B) (samplesIn : Nat → Nat → R) (base todo : Nat)
    (hch : 0 < lim.inputChannels)
    (hin : ∀ i, i < todo → (i >>> 2) + base < lim.inputSamples)
    (hs : todo ≤ lim.scratch) :
    st.filterBlockChecked lim env samplesIn base todo
      = some (st.filterBlock env samplesIn base todo) := by
  unfold ALdistortionState.filterBlockChecked ALdistortionState.filterBlock
  rw [zeroStuffChecked_eq lim samplesIn base todo _ hch hin hs, Option.some_bind,
    biquad_processChecked_eq lim env.biquad _ _ _ todo hs, Option.some_bind,
    shapeLoopChecked_eq lim _ _ todo _ hs, Option.some_bind,
    biquad_processChecked_eq lim env.biquad _ _ _ todo hs, Option.map_some']

/-- With extents that cover `BUFFERSIZE` scratch samples, input channel 0, `samplesToDo`
input and output samples and `numOutput` output channels and gains, no check of the checked
loop fails: it is the loop of `process`. -/
theorem loopChecked_eq (lim : AccessLimits) (env : ProcessEnv R B) (samplesToDo : Nat)
    (samplesIn : Nat → Nat → R) (numOutput : Nat)
    (hs : env.BUFFERSIZE ≤ lim.scratch) (hch : 0 < lim.inputChannels)
    (hin : samplesToDo ≤ lim.inputSamples) (hoc : numOutput ≤ lim.outputChannels)
    (hos : samplesToDo ≤ lim.outputSamples) (hg : numOutput ≤ lim.gains) :
    ∀ (d base : Nat) (st : ALdistortionState R B) (out : Nat → Nat → R),
      samplesToDo - base = d →
      ALdistortionState.process.loopChecked lim env samplesToDo samplesIn numOutput base st out
        = ALdistortionState.process.loop env samplesToDo samplesIn numOutput base st out := by
  intro d
  induction d using Nat.strong_induction_on with
  | _ d ih =>
    intro base st out hd
    rw [ALdistortionState.process.loopChecked, ALdistortionState.process.loop]
    by_cases hb : base < samplesToDo
    · rw [if_pos hb, if_pos hb]
      by_cases hov : 2 ^ 31 ≤ (samplesToDo - base) * 4
      · rw [if_pos hov, if_pos hov]
      · rw [if_neg hov, if_neg hov]
        by_cases hz : (min env.BUFFERSIZE ((samplesToDo - base) * 4)) >>> 2 = 0
        · rw [dif_pos hz, dif_pos hz]
        · rw [dif_neg hz, dif_neg hz]
          have hpos : 0 < (min env.BUFFERSIZE ((samplesToDo - base) * 4)) >>> 2 :=
            Nat.pos_of_ne_zero hz
          have hsh : (min env.BUFFERSIZE ((samplesToDo - base) * 4)) >>> 2
              = (min env.BUFFERSIZE ((samplesToDo - base) * 4)) / 4 :=
            Nat.shiftRight_eq_div_pow _ 2
          have h1 : ∀ i, i < min env.BUFFERSIZE ((samplesToDo - base) * 4) →
              (i >>> 2) + base < lim.inputSamples := by
            intro i hi
            have : i >>> 2 = i / 4 := Nat.shiftRight_eq_div_pow i 2
            rw [this]
            omega
          have h2 : min env.BUFFERSIZE ((samplesToDo - base) * 4) ≤ lim.scratch := by omega
          have h3 : ∀ i, i < (min env.BUFFERSIZE ((samplesToDo - base) * 4)) >>> 2 →
              i * 4 < lim.scratch := by
            intro i hi
            rw [hsh] at hi
            omega
          have h4 : base + (min env.BUFFERSIZE ((samplesToDo - base) * 4)) >>> 2
              ≤ lim.outputSamples := by
            rw [hsh]
            omega
          rw [filterBlockChecked_eq lim env st samplesIn base _ hch h1 h2]
          simp only []
          rw [mixBlockChecked_eq lim env _ _ base _ numOutput out hg hoc h3 h4]
          simp only []
          exact ih _ (by omega) _ _ _ rfl
    · rw [if_neg hb, if_neg hb]

end CheckedLemmas

/-- The checks bite: a sub-block of 12 oversampled samples reads the input sample 2, which
extents with two input samples do not admit. -/
theorem filterBlockChecked_detects :
    (sampleDistortionState.filterBlockChecked (claimedLimits 2048 2 1 2) sampleProcessEnv
      sampleInput 0 12).isNone = true := by
  decide

section BoundsClaim

variable {R B : Type} [LinearOrderedField R]

/-- C32: for `samplesToDo <= BUFFERSIZE`, `numInput >= 1` and
`numOutput <= MAX_OUTPUT_CHANNELS` every array access of `process` is in bounds.  The
checked loops, which fail on a scratch index `i` or `4*i` not below `BUFFERSIZE`, an input
index `(i>>2)+base` or an output index `base+i` not below `samplesToDo`, or a gain or
channel index not below `numOutput`, give the result of `process`, and so do the loops
checked against the declared extents of the arrays; the result exists, and the product
`(samplesToDo-base) * 4` stays below `2^31` at every `base`. -/
theorem C32_accesses_in_bounds (env : ProcessEnv R B) (st : ALdistortionState R B)
    (samplesToDo : Nat) (samplesIn : Nat → Nat → R) (numInput : Nat)
    (samplesOut : Nat → Nat → R) (numOutput MAX_OUTPUT_CHANNELS : Nat)
    (hB : 4 ≤ env.BUFFERSIZE) (hB2 : env.BUFFERSIZE < 2 ^ 29)
    (hS : samplesToDo ≤ env.BUFFERSIZE) (hin : 1 ≤ numInput)
    (hout : numOutput ≤ MAX_OUTPUT_CHANNELS) :
    st.processChecked (claimedLimits env.BUFFERSIZE samplesToDo numInput numOutput) env
        samplesToDo samplesIn numInput samplesOut numOutput
      = st.process env samplesToDo samplesIn numInput samplesOut numOutput ∧
    st.processChecked
        (declaredLimits env.BUFFERSIZE MAX_OUTPUT_CHANNELS numInput numOutput) env
        samplesToDo samplesIn numInput samplesOut numOutput
      = st.process env samplesToDo samplesIn numInput samplesOut numOutput ∧
    (∃ r, st.process env samplesToDo samplesIn numInput samplesOut numOutput = some r) ∧
    (∀ base, (samplesToDo - base) * 4 < 2 ^ 31) := by
  have hS2 : samplesToDo < 2 ^ 29 := Nat.lt_of_le_of_lt hS hB2
  refine ⟨?_, ?_, ?_, ?_⟩
  · exact loopChecked_eq (claimedLimits env.BUFFERSIZE samplesToDo numInput numOutput) env
      samplesToDo samplesIn numOutput (Nat.le_refl _) hin (Nat.le_refl _) (Nat.le_refl _)
      (Nat.le_refl _) (Nat.le_refl _) samplesToDo 0 st samplesOut rfl
  · exact loopChecked_eq
      (declaredLimits env.BUFFERSIZE MAX_OUTPUT_CHANNELS numInput numOutput) env
      samplesToDo samplesIn numOutput (Nat.le_refl _) hin hS (Nat.le_refl _) hS hout
      samplesToDo 0 st samplesOut rfl
  · obtain ⟨st', y, out', _, h2, _⟩ :=
      process_spec env st samplesToDo samplesIn numInput samplesOut numOutput hB hS2
    exact ⟨(st', out'), h2⟩
  · intro base
    norm_num at hS2 ⊢
    omega

end BoundsClaim

theorem C32_accesses_in_bounds_witness :
    4 ≤ sampleProcessEnv.BUFFERSIZE ∧ sampleProcessEnv.BUFFERSIZE < 2 ^ 29 ∧
    3 ≤ sampleProcessEnv.BUFFERSIZE ∧ 1 ≤ 1 ∧ 2 ≤ 16 ∧
    sampleDistortionState.processChecked
        (claimedLimits sampleProcessEnv.BUFFERSIZE 3 1 2) sampleProcessEnv 3 sampleInput 1
        (fun _ _ => 5) 2
      = sampleDistortionState.process sampleProcessEnv 3 sampleInput 1 (fun _ _ => 5) 2 ∧
    ∃ r, sampleDistortionState.process sampleProcessEnv 3 sampleInput 1 (fun _ _ => 5) 2
      = some r := by
  have h := C32_accesses_in_bounds sampleProcessEnv sampleDistortionState 3 sampleInput 1
    (fun _ _ => 5) 2 16 (by decide) (by decide) (by decide) (by decide) (by decide)
  exact ⟨by decide, by decide, by decide, by decide, by decide, h.1, h.2.2.1⟩

/-! ## Distortion effect: what the low-pass filter is fed -/

section ZeroStuffedClaim

variable {R B : Type} [LinearOrderedField R]

/-- One iteration of the loop of `process` on any array that holds the zero-stuffed input
of the sub-block: the low-pass filter is run over that array, the waveshaper over what the
low-pass filter leaves, and the band-pass filter over what the waveshaper leaves. -/
theorem step_zero_stuffed (env : ProcessEnv R B) (samplesIn : Nat → Nat → R)
    (numOutput : Nat) (s : ALdistortionState R B × (Nat → Nat → R)) (bt : Nat × Nat)
    (z dst : Nat → R)
    (hz : ∀ i, i < bt.2 → z i = if i % 4 = 0 then 4 * samplesIn 0 (bt.1 + i / 4) else 0) :
    (ALdistortionState.process.step env samplesIn numOutput s bt).1.mLowpass =
      (BiquadFilter.process env.biquad s.1.mLowpass dst z bt.2).2 ∧
    (∀ i, i < bt.2 →
      (ALdistortionState.process.step env samplesIn numOutput s bt).1.mBuffer 0 i =
        waveshape s.1.mEdgeCoeff
          ((BiquadFilter.process env.biquad s.1.mLowpass dst z bt.2).1 i)) ∧
    ∀ (w dst1 : Nat → R),
      (∀ i, i < bt.2 → w i = waveshape s.1.mEdgeCoeff
        ((BiquadFilter.process env.biquad s.1.mLowpass dst z bt.2).1 i)) →
      (ALdistortionState.process.step env samplesIn numOutput s bt).1.mBandpass =
        (BiquadFilter.process env.biquad s.1.mBandpass dst1 w bt.2).2 ∧
      ∀ i, i < bt.2 →
        (ALdistortionState.process.step env samplesIn numOutput s bt).1.mBuffer 1 i =
          (BiquadFilter.process env.biquad s.1.mBandpass dst1 w bt.2).1 i := by
  have hsrc : ∀ i, i < bt.2 → zeroStuff (samplesIn 0) bt.1 bt.2 (s.1.mBuffer 0) i = z i := by
    intro i hi
    rw [zeroStuff_apply, if_pos hi, hz i hi]
  obtain ⟨l2, l1⟩ := biquad_process_congr env.biquad s.1.mLowpass (s.1.mBuffer 1) dst
    (zeroStuff (samplesIn 0) bt.1 bt.2 (s.1.mBuffer 0)) z bt.2 hsrc
  have h01 : (0 : Nat) ≠ 1 := by decide
  have hshape : ∀ i, i < bt.2 →
      (ALdistortionState.process.step env samplesIn numOutput s bt).1.mBuffer 0 i =
        waveshape s.1.mEdgeCoeff
          ((BiquadFilter.process env.biquad s.1.mLowpass dst z bt.2).1 i) := by
    intro i hi
    simp only [ALdistortionState.process.step, ALdistortionState.filterBlock,
      Function.update_noteq h01, Function.update_same]
    rw [shapeLoop_apply, if_pos hi, l1 i hi]
  refine ⟨l2, hshape, ?_⟩
  intro w dst1 hw
  have hsrc2 : ∀ i, i < bt.2 →
      shapeLoop s.1.mEdgeCoeff
        (BiquadFilter.process env.biquad s.1.mLowpass (s.1.mBuffer 1)
          (zeroStuff (samplesIn 0) bt.1 bt.2 (s.1.mBuffer 0)) bt.2).1 bt.2
        (zeroStuff (samplesIn 0) bt.1 bt.2 (s.1.mBuffer 0)) i = w i := by
    intro i hi
    rw [shapeLoop_apply, if_pos hi, l1 i hi, hw i hi]
  obtain ⟨b2, b1⟩ := biquad_process_congr env.biquad s.1.mBandpass
    (BiquadFilter.process env.biquad s.1.mLowpass (s.1.mBuffer 1)
      (zeroStuff (samplesIn 0) bt.1 bt.2 (s.1.mBuffer 0)) bt.2).1 dst1 _ w bt.2 hsrc2
  refine ⟨b2, ?_⟩
  intro i hi
  simp only [ALdistortionState.process.step, ALdistortionState.filterBlock,
    Function.update_same]
  exact b1 i hi

/-- C19: the oversampled stream fed to the low-pass filter is the zero-stuffed mono input.
A call of `process` is the fold of `process.step` over the sub-blocks `(base, todo)` that
`process.blocks` lists; in a sub-block, for any array `z` whose entry `i < todo` is
`4 * samplesIn[0][base + i/4]` when `i` is a multiple of 4 and 0 otherwise, the low-pass
filter comes out as from a run over `z`, and the waveshaper works on what that run leaves;
with a scratch buffer of a multiple of 4 samples, the low-pass filter after the call is the
initial one run over the first `4*samplesToDo` samples of the zero-stuffed channel 0.
Consequently two calls that agree on the two filters, the gains, the edge coefficient,
`samplesOut` and the first `samplesToDo` samples of input channel 0 end with the same
output arrays (and the same filters), whatever `numInput`, the other input channels, the
later samples of channel 0 and the scratch buffers are. -/
theorem C19_zero_stuffed_mono (env : ProcessEnv R B) (st st' : ALdistortionState R B)
    (samplesToDo : Nat) (samplesIn samplesIn' : Nat → Nat → R) (numInput numInput' : Nat)
    (samplesOut : Nat → Nat → R) (numOutput : Nat)
    (hB : 4 ≤ env.BUFFERSIZE) (hS : samplesToDo < 2 ^ 29)
    (hL : st.mLowpass = st'.mLowpass) (hP : st.mBandpass = st'.mBandpass)
    (hG : st.mGain = st'.mGain) (hE : st.mEdgeCoeff = st'.mEdgeCoeff)
    (hin : ∀ j, j < samplesToDo → samplesIn 0 j = samplesIn' 0 j) :
    (∃ l, ALdistortionState.process.blocks env.BUFFERSIZE samplesToDo 0 = some l ∧
      st.process env samplesToDo samplesIn numInput samplesOut numOutput =
        some (l.1.foldl (ALdistortionState.process.step env samplesIn numOutput)
          (st, samplesOut))) ∧
    (∀ (s : ALdistortionState R B × (Nat → Nat → R)) (bt : Nat × Nat) (z dst : Nat → R),
      (∀ i, i < bt.2 → z i = if i % 4 = 0 then 4 * samplesIn 0 (bt.1 + i / 4) else 0) →
      (ALdistortionState.process.step env samplesIn numOutput s bt).1.mLowpass =
        (BiquadFilter.process env.biquad s.1.mLowpass dst z bt.2).2 ∧
      ∀ i, i < bt.2 →
        (ALdistortionState.process.step env samplesIn numOutput s bt).1.mBuffer 0 i =
          waveshape s.1.mEdgeCoeff
            ((BiquadFilter.process env.biquad s.1.mLowpass dst z bt.2).1 i)) ∧
    (env.BUFFERSIZE % 4 = 0 →
      ∃ r, st.process env samplesToDo samplesIn numInput samplesOut numOutput = some r ∧
        r.1.mLowpass = biquadRun env.biquad st.mLowpass
          (fun i => if i % 4 = 0 then 4 * samplesIn 0 (i / 4) else 0) (4 * samplesToDo)) ∧
    ∃ r r',
      st.process env samplesToDo samplesIn numInput samplesOut numOutput = some r ∧
      st'.process env samplesToDo samplesIn' numInput' samplesOut numOutput = some r' ∧
      r.2 = r'.2 ∧ r.1.mLowpass = r'.1.mLowpass ∧ r.1.mBandpass = r'.1.mBandpass := by
  obtain ⟨s1, y1, o1, a1, a2, a3⟩ :=
    process_spec env st samplesToDo samplesIn numInput samplesOut numOutput hB hS
  refine ⟨?_, ?_, ?_, ?_⟩
  · have hb := process_loop_blocks env samplesToDo samplesIn numOutput samplesToDo 0 st
      samplesOut rfl
    have a2' : ALdistortionState.process.loop env samplesToDo samplesIn numOutput 0 st
        samplesOut = some (s1, o1) := a2
    cases hl : ALdistortionState.process.blocks env.BUFFERSIZE samplesToDo 0 with
    | none =>
      rw [hl, a2'] at hb
      exact absurd hb (by simp)
    | some l =>
      refine ⟨l, rfl, ?_⟩
      show ALdistortionState.process.loop env samplesToDo samplesIn numOutput 0 st
        samplesOut = _
      rw [hb, hl]
      rfl
  · intro s bt z dst hz
    have h := step_zero_stuffed env samplesIn numOutput s bt z dst hz
    exact ⟨h.1, h.2.1⟩
  · intro h4
    obtain ⟨s2, y2, b1, b2, _, _⟩ := stream_loop_single_pass env hB h4 samplesToDo hS samplesIn
      st.mLowpass st.mBandpass st.mEdgeCoeff samplesToDo 0 st (fun _ => 0) rfl
      (Nat.zero_le _) rfl rfl rfl
    have e : (s1, y1) = (s2, y2) := Option.some.inj (a1.symm.trans b1)
    have e1 : s1 = s2 := congrArg Prod.fst e
    refine ⟨(s1, o1), a2, ?_⟩
    show s1.mLowpass = _
    rw [e1, b2]
    rfl
  · obtain ⟨s2, y2, o2, b1, b2, b3⟩ :=
      process_spec env st' samplesToDo samplesIn' numInput' samplesOut numOutput hB hS
    obtain ⟨c1, c2, c3⟩ := stream_loop_congr env hB samplesToDo hS samplesIn samplesIn'
      samplesToDo 0 st st' (fun _ => 0) (fun _ => 0) rfl hL hP hE (fun j _ hj => hin j hj)
      (s1, y1) (s2, y2) a1 b1
    refine ⟨(s1, o1), (s2, o2), a2, b2, ?_, c1, c2⟩
    funext k j
    show o1 k j = o2 k j
    rw [a3 k j, b3 k j, ← hG]
    by_cases h : k < numOutput ∧ |st.mGain k| > env.GAIN_SILENCE_THRESHOLD ∧ j < samplesToDo
    · have hy : y1 j = y2 j := c3 j (Nat.zero_le j) h.2.2
      rw [if_pos h, if_pos h, hy]
    · rw [if_neg h, if_neg h]

end ZeroStuffedClaim

theorem C19_zero_stuffed_mono_witness :
    4 ≤ sampleSmallEnv.BUFFERSIZE ∧ 3 < 2 ^ 29 ∧
    (∀ j, j < 3 → sampleInput 0 j = sampleInput2 0 j) ∧
    (∃ l, ALdistortionState.process.blocks sampleSmallEnv.BUFFERSIZE 3 0 = some l ∧
      sampleDistortionState.process sampleSmallEnv 3 sampleInput 1 (fun _ _ => 5) 2 =
        some (l.1.foldl (ALdistortionState.process.step sampleSmallEnv sampleInput 2)
          (sampleDistortionState, fun _ _ => 5))) ∧
    (ALdistortionState.process.step sampleSmallEnv sampleInput 2
        (sampleDistortionState, fun _ _ => 5) (2, 4)).1.mLowpass =
      (BiquadFilter.process sampleSmallEnv.biquad sampleDistortionState.mLowpass (fun _ => 0)
        (fun i => if i % 4 = 0 then 4 * sampleInput 0 (2 + i / 4) else 0) 4).2 ∧
    (∃ r, sampleDistortionState.process sampleSmallEnv 3 sampleInput 1 (fun _ _ => 5) 2
        = some r ∧
      r.1.mLowpass = biquadRun sampleSmallEnv.biquad sampleDistortionState.mLowpass
        (fun i => if i % 4 = 0 then 4 * sampleInput 0 (i / 4) else 0) (4 * 3)) ∧
    ∃ r r',
      sampleDistortionState.process sampleSmallEnv 3 sampleInput 1 (fun _ _ => 5) 2
        = some r ∧
      sampleDistortionState.process sampleSmallEnv 3 sampleInput2 4 (fun _ _ => 5) 2
        = some r' ∧
      r.2 = r'.2 := by
  have hin : ∀ j, j < 3 → sampleInput 0 j = sampleInput2 0 j := by
    intro j hj
    simp [sampleInput, sampleInput2, hj]
  have h := C19_zero_stuffed_mono sampleSmallEnv sampleDistortionState sampleDistortionState
    3 sampleInput sampleInput2 1 4 (fun _ _ => 5) 2 (by decide) (by decide) rfl rfl rfl rfl hin
  obtain ⟨ha, hb, hc, r, r', h1, h2, h3, _⟩ := h
  exact ⟨by decide, by decide, hin, ha,
    (hb (sampleDistortionState, fun _ _ => 5) (2, 4) _ (fun _ => 0) (fun _ _ => rfl)).1,
    hc (by decide), r, r', h1, h2, h3⟩

end OpenAL
